import Mathlib

/-!
# rocprofiler-systems: event correlation and counter aggregation

A shallow embedding of the rocprofiler-sdk tool layer
(`source/lib/rocprof-sys/library/rocprofiler-sdk.cpp`, `rocprofiler-sdk/counters.cpp`,
`rocprofiler-sdk/fwd.hpp`, `rocprofiler-sdk/fwd.cpp`) and of the buffer-complete decoder
of `library/ompt.cpp`, together with the properties established about them.

Conventions of the embedding:

* file-scope statics and thread-local statics of the C++ code are fields of an explicit
  state record that every operation receives and returns;
* `std::unordered_map` is a key/value list with pairwise distinct keys; the model iterates
  it in order of first insertion (the C++ iteration order is unspecified);
* a call that terminates the process, throws, or dereferences a null pointer yields
  `Except.error` with the matching `Fault`;
* `std::string` is `List Char`;
* `double` counter values are elements of an arbitrary carrier `V` with an addition;
* what the code hands to the trace sink, the statistics store, the log and the backend is
  recorded in the state, in call order; the answers of the backend are parameters.
-/

namespace rocprofsys

/-! ## Section 1: definitions -/

/-- Abnormal terminations of the embedded code. -/
inductive Fault where
  /-- Process abort raised by `ROCPROFSYS_ABORT_F` / `ROCPROFSYS_CONDITIONAL_ABORT(_F)`. -/
  | aborted (msg : String)
  /-- C++ exception (`ROCPROFSYS_THROW`, `std::out_of_range` of `.at()`, `std::stoul`). -/
  | thrown (msg : String)
  /-- Dereference of a null pointer. -/
  | null_dereference
  deriving DecidableEq, Repr

/-- Text of a `std::string`. -/
abbrev Name := List Char

/-- Key/value list standing for a `std::unordered_map`. -/
abbrev umap (K : Type) (A : Type) := List (K × A)

namespace umap

variable {K A : Type} [DecidableEq K]

/-- Lookup, `find(k)`: the mapped value when the key is present. -/
def find : umap K A → K → Option A
  | [], _ => none
  | (k', a) :: rest, k => if k' = k then some a else find rest k

/-- Number of entries under the key, `count(k)`: 0 or 1. -/
def count (m : umap K A) (k : K) : Nat :=
  match find m k with
  | some _ => 1
  | none => 0

/-- Insertion that keeps an existing entry, `emplace(k, a)`: the map and whether the
pair was inserted. -/
def emplace (m : umap K A) (k : K) (a : A) : umap K A × Bool :=
  match find m k with
  | some _ => (m, false)
  | none => (m ++ [(k, a)], true)

/-- Removal of the entry under a key, `erase(k)`. -/
def erase : umap K A → K → umap K A
  | [], _ => []
  | (k', a) :: rest, k => if k' = k then erase rest k else (k', a) :: erase rest k

/-- In-place update of the value under a key (through the reference `at(k)` returns). -/
def modify : umap K A → K → (A → A) → umap K A
  | [], _, _ => []
  | (k', a) :: rest, k, f =>
    if k' = k then (k', f a) :: modify rest k f else (k', a) :: modify rest k f

end umap

/-- ROCPROFSYS_CONDITIONAL_ABORT / ROCPROFSYS_CONDITIONAL_ABORT_F.
Modelled from the spec: the macros are declared in `core/debug.hpp`, which is not part of
the sources at hand; they print the message and abort the process when the condition
holds ("fails (aborts)"). -/
def conditional_abort (cond : Bool) (msg : String) : Except Fault Unit :=
  if cond then .error (.aborted msg) else .ok ()

/-! ### Backend records (`rocprofiler-sdk` C structs, reduced to the fields the tool reads) -/

/-- The struct `rocprofiler_dim3_t`. -/
structure rocprofiler_dim3_t where
  x : Nat := 0
  y : Nat := 0
  z : Nat := 0
  deriving DecidableEq, Repr

/-- The struct `rocprofiler_kernel_dispatch_info_t`. -/
structure rocprofiler_kernel_dispatch_info_t where
  agent_id : Nat := 0
  queue_id : Nat := 0
  kernel_id : Nat := 0
  dispatch_id : Nat := 0
  private_segment_size : Nat := 0
  group_segment_size : Nat := 0
  workgroup_size : rocprofiler_dim3_t := {}
  grid_size : rocprofiler_dim3_t := {}
  deriving DecidableEq, Repr

/-- The struct `rocprofiler_dispatch_counting_service_data_t`. -/
structure rocprofiler_dispatch_counting_service_data_t where
  correlation_id : Nat := 0
  dispatch_info : rocprofiler_kernel_dispatch_info_t := {}
  deriving DecidableEq, Repr

/-- The struct `rocprofiler_record_counter_t`; `id` is the counter *instance* id. -/
structure rocprofiler_record_counter_t (V : Type) where
  id : Nat
  counter_value : V
  dispatch_id : Nat := 0
  deriving DecidableEq, Repr

/-- The enum `rocprofiler_agent_type_t`. -/
inductive rocprofiler_agent_type_t where
  | ROCPROFILER_AGENT_TYPE_NONE
  | ROCPROFILER_AGENT_TYPE_CPU
  | ROCPROFILER_AGENT_TYPE_GPU
  deriving DecidableEq, Repr

/-- The struct `rocprofiler_agent_v0_t`. -/
structure rocprofiler_agent_v0_t where
  id : Nat
  type : rocprofiler_agent_type_t
  node_id : Nat := 0
  logical_node_id : Nat := 0
  name : Name := []
  deriving DecidableEq, Repr

/-- The struct `kernel_symbol_data_t`
(`rocprofiler_callback_tracing_code_object_kernel_symbol_register_data_t`). -/
structure kernel_symbol_data_t where
  kernel_id : Nat
  kernel_name : Name := []
  deriving DecidableEq, Repr

/-! ### Callback and buffer records of the backend -/

/-- The enum `rocprofiler_callback_tracing_kind_t`. -/
inductive rocprofiler_callback_tracing_kind_t where
  | ROCPROFILER_CALLBACK_TRACING_NONE
  | ROCPROFILER_CALLBACK_TRACING_HSA_CORE_API
  | ROCPROFILER_CALLBACK_TRACING_HSA_AMD_EXT_API
  | ROCPROFILER_CALLBACK_TRACING_HSA_IMAGE_EXT_API
  | ROCPROFILER_CALLBACK_TRACING_HSA_FINALIZE_EXT_API
  | ROCPROFILER_CALLBACK_TRACING_HIP_RUNTIME_API
  | ROCPROFILER_CALLBACK_TRACING_HIP_COMPILER_API
  | ROCPROFILER_CALLBACK_TRACING_MARKER_CORE_API
  | ROCPROFILER_CALLBACK_TRACING_MARKER_CONTROL_API
  | ROCPROFILER_CALLBACK_TRACING_MARKER_NAME_API
  | ROCPROFILER_CALLBACK_TRACING_CODE_OBJECT
  | ROCPROFILER_CALLBACK_TRACING_SCRATCH_MEMORY
  | ROCPROFILER_CALLBACK_TRACING_KERNEL_DISPATCH
  | ROCPROFILER_CALLBACK_TRACING_MEMORY_COPY
  | ROCPROFILER_CALLBACK_TRACING_RCCL_API
  | ROCPROFILER_CALLBACK_TRACING_LAST
  deriving DecidableEq, Repr

/-- The enum `rocprofiler_callback_phase_t`. -/
inductive rocprofiler_callback_phase_t where
  | ROCPROFILER_CALLBACK_PHASE_NONE
  | ROCPROFILER_CALLBACK_PHASE_ENTER
  | ROCPROFILER_CALLBACK_PHASE_EXIT
  | ROCPROFILER_CALLBACK_PHASE_LAST
  deriving DecidableEq, Repr

/-- Enumerator of `rocprofiler_marker_core_api_id_t`.
Modelled from the spec: the enumerators of the marker, kernel-dispatch and code-object
operations are declared in headers of the backend (`rocprofiler-sdk/marker/api_id.h`,
`rocprofiler-sdk/fwd.h`), which are not part of the sources at hand; only that they are
pairwise distinct within one enum is used. -/
def ROCPROFILER_MARKER_CORE_API_ID_roctxMarkA : Int := 0

/-- Enumerator of `rocprofiler_marker_core_api_id_t` (see `roctxMarkA`). -/
def ROCPROFILER_MARKER_CORE_API_ID_roctxRangePushA : Int := 1

/-- Enumerator of `rocprofiler_marker_core_api_id_t` (see `roctxMarkA`). -/
def ROCPROFILER_MARKER_CORE_API_ID_roctxRangePop : Int := 2

/-- Enumerator of `rocprofiler_marker_core_api_id_t` (see `roctxMarkA`). -/
def ROCPROFILER_MARKER_CORE_API_ID_roctxRangeStartA : Int := 3

/-- Enumerator of `rocprofiler_marker_core_api_id_t` (see `roctxMarkA`). -/
def ROCPROFILER_MARKER_CORE_API_ID_roctxRangeStop : Int := 4

/-- Enumerator of `rocprofiler_kernel_dispatch_operation_t` (see `roctxMarkA`). -/
def ROCPROFILER_KERNEL_DISPATCH_COMPLETE : Int := 2

/-- The struct `rocprofiler_callback_tracing_kernel_dispatch_data_t`. -/
structure rocprofiler_callback_tracing_kernel_dispatch_data_t where
  start_timestamp : Nat := 0
  end_timestamp : Nat := 0
  dispatch_info : rocprofiler_kernel_dispatch_info_t := {}
  deriving DecidableEq, Repr

/-- What the `payload` pointer of a callback record points to. -/
inductive callback_payload where
  /-- No payload the tool reads. -/
  | empty
  /-- A `rocprofiler_callback_tracing_marker_api_data_t`, reduced to the `message` argument
  of the marker call. -/
  | marker_api (message : Name)
  /-- A `rocprofiler_callback_tracing_kernel_dispatch_data_t`. -/
  | kernel_dispatch (data : rocprofiler_callback_tracing_kernel_dispatch_data_t)
  /-- A `kernel_symbol_data_t`. -/
  | kernel_symbol (data : kernel_symbol_data_t)
  deriving DecidableEq, Repr

/-- The struct `rocprofiler_callback_tracing_record_t`; `correlation_id` is
`correlation_id.internal`. -/
structure rocprofiler_callback_tracing_record_t where
  thread_id : Nat := 0
  correlation_id : Nat := 0
  kind : rocprofiler_callback_tracing_kind_t
  operation : Int
  phase : rocprofiler_callback_phase_t
  payload : callback_payload := .empty
  deriving DecidableEq, Repr

/-- The enum `rocprofiler_buffer_category_t`. -/
inductive rocprofiler_buffer_category_t where
  | ROCPROFILER_BUFFER_CATEGORY_NONE
  | ROCPROFILER_BUFFER_CATEGORY_TRACING
  | ROCPROFILER_BUFFER_CATEGORY_PC_SAMPLING
  | ROCPROFILER_BUFFER_CATEGORY_COUNTERS
  | ROCPROFILER_BUFFER_CATEGORY_LAST
  deriving DecidableEq, Repr

/-- The enum `rocprofiler_buffer_tracing_kind_t`. -/
inductive rocprofiler_buffer_tracing_kind_t where
  | ROCPROFILER_BUFFER_TRACING_NONE
  | ROCPROFILER_BUFFER_TRACING_HSA_CORE_API
  | ROCPROFILER_BUFFER_TRACING_HSA_AMD_EXT_API
  | ROCPROFILER_BUFFER_TRACING_HSA_IMAGE_EXT_API
  | ROCPROFILER_BUFFER_TRACING_HSA_FINALIZE_EXT_API
  | ROCPROFILER_BUFFER_TRACING_HIP_RUNTIME_API
  | ROCPROFILER_BUFFER_TRACING_HIP_COMPILER_API
  | ROCPROFILER_BUFFER_TRACING_MARKER_CORE_API
  | ROCPROFILER_BUFFER_TRACING_MARKER_CONTROL_API
  | ROCPROFILER_BUFFER_TRACING_MARKER_NAME_API
  | ROCPROFILER_BUFFER_TRACING_MEMORY_COPY
  | ROCPROFILER_BUFFER_TRACING_KERNEL_DISPATCH
  | ROCPROFILER_BUFFER_TRACING_PAGE_MIGRATION
  | ROCPROFILER_BUFFER_TRACING_SCRATCH_MEMORY
  | ROCPROFILER_BUFFER_TRACING_CORRELATION_ID_RETIREMENT
  | ROCPROFILER_BUFFER_TRACING_RCCL_API
  | ROCPROFILER_BUFFER_TRACING_LAST
  deriving DecidableEq, Repr

/-- The struct `rocprofiler_buffer_tracing_kernel_dispatch_record_t`. -/
structure rocprofiler_buffer_tracing_kernel_dispatch_record_t where
  thread_id : Nat := 0
  correlation_id : Nat := 0
  start_timestamp : Nat := 0
  end_timestamp : Nat := 0
  dispatch_info : rocprofiler_kernel_dispatch_info_t := {}
  deriving DecidableEq, Repr

/-- The struct `rocprofiler_buffer_tracing_memory_copy_record_t`. -/
structure rocprofiler_buffer_tracing_memory_copy_record_t where
  kind : rocprofiler_buffer_tracing_kind_t :=
    .ROCPROFILER_BUFFER_TRACING_MEMORY_COPY
  operation : Int := 0
  thread_id : Nat := 0
  correlation_id : Nat := 0
  start_timestamp : Nat := 0
  end_timestamp : Nat := 0
  dst_agent_id : Nat := 0
  src_agent_id : Nat := 0
  deriving DecidableEq, Repr

/-- What the `payload` pointer of a buffer record header points to. -/
inductive buffer_payload where
  | empty
  | kernel_dispatch (record : rocprofiler_buffer_tracing_kernel_dispatch_record_t)
  | memory_copy (record : rocprofiler_buffer_tracing_memory_copy_record_t)
  deriving DecidableEq, Repr

/-- The struct `rocprofiler_record_header_t`. -/
structure rocprofiler_record_header_t where
  category : rocprofiler_buffer_category_t
  kind : rocprofiler_buffer_tracing_kind_t
  payload : buffer_payload := .empty
  deriving DecidableEq, Repr

/-- A resolved stack frame, `tim::unwind::processed_entry`, reduced to what the backtrace
annotations read; `lineinfo` is the location and line of `lineinfo.get()` when that
converts to true. -/
structure processed_entry where
  name : Name := []
  location : Name := []
  lineno : Nat := 0
  lineinfo : Option (Name × Nat) := none
  deriving DecidableEq, Repr

/-! ### Tool data (`rocprofiler-sdk/fwd.hpp`) -/

/-- The struct `kernel_symbol_callback_record_t` (the callback record itself is not read
after registration and is left out). -/
structure kernel_symbol_callback_record_t where
  timestamp : Nat := 0
  payload : kernel_symbol_data_t
  deriving DecidableEq, Repr

/-- The struct `rocprofiler_tool_counter_info_t` (derived from
`rocprofiler_counter_info_v0_t`). -/
structure rocprofiler_tool_counter_info_t where
  id : Nat
  name : Name
  is_constant : Bool := false
  is_derived : Bool := false
  description : Name := []
  agent_id : Nat := 0
  deriving DecidableEq, Repr

/-- The struct `tool_agent`; `agent` stands for the pointee of the C++ pointer. -/
structure tool_agent where
  device_id : Nat := 0
  agent : rocprofiler_agent_v0_t
  deriving DecidableEq, Repr

/-- The struct `timing_interval`. -/
structure timing_interval where
  start : Nat := 0
  end_ : Nat := 0
  deriving DecidableEq, Repr

/-- Entry of `client_data::events_info` (`tim::hardware_counters::info`), reduced to the
three texts `get_counter_description` reads. -/
structure hardware_counter_info where
  symbol : Name := []
  short_description : Name := []
  long_description : Name := []
  deriving DecidableEq, Repr

/-- The struct `client_data`. -/
structure client_data where
  primary_ctx : Nat := 0
  counter_ctx : Nat := 0
  kernel_dispatch_buffer : Nat := 0
  memory_copy_buffer : Nat := 0
  counter_collection_buffer : Nat := 0
  agents : List rocprofiler_agent_v0_t := []
  cpu_agents : List tool_agent := []
  gpu_agents : List tool_agent := []
  events_info : List hardware_counter_info := []
  agent_events : umap Nat (List Nat) := []
  agent_counter_info : umap Nat (List rocprofiler_tool_counter_info_t) := []
  agent_counter_profiles : umap Nat (Option Nat) := []
  kernel_symbol_records : List kernel_symbol_callback_record_t := []
  backtrace_operations : umap rocprofiler_callback_tracing_kind_t (List Int) := []
  deriving DecidableEq, Repr

namespace client_data

/-- Method `client_data::get_contexts`. -/
def get_contexts (d : client_data) : List Nat := [d.primary_ctx, d.counter_ctx]

/-- Method `client_data::get_buffers`. -/
def get_buffers (d : client_data) : List Nat :=
  [d.kernel_dispatch_buffer, d.memory_copy_buffer, d.counter_collection_buffer]

/-- Method `client_data::get_agent`: first agent with the id, or null. -/
def get_agent (d : client_data) (_id : Nat) : Option rocprofiler_agent_v0_t :=
  d.agents.find? (fun itr => decide (itr.id = _id))

/-- Method `client_data::get_gpu_tool_agent`: first GPU tool agent whose agent has the id,
or null. -/
def get_gpu_tool_agent (d : client_data) (id : Nat) : Option tool_agent :=
  d.gpu_agents.find? (fun itr => decide (id = itr.agent.id))

/-- Method `client_data::get_kernel_symbol_info`: payload of the first registered record
with the kernel id, or null. -/
def get_kernel_symbol_info (d : client_data) (_kernel_id : Nat) :
    Option kernel_symbol_data_t :=
  (d.kernel_symbol_records.find? (fun itr => decide (_kernel_id = itr.payload.kernel_id))).map
    (fun itr => itr.payload)

/-- Method `client_data::get_tool_counter_info`: `agent_counter_info.at(agent)` throws when
the agent has no entry; otherwise the first counter info with the id, or null. -/
def get_tool_counter_info (d : client_data) (_agent_id _counter_id : Nat) :
    Except Fault (Option rocprofiler_tool_counter_info_t) :=
  match umap.find d.agent_counter_info _agent_id with
  | none => .error (.thrown "unordered_map::at")
  | some infos => .ok (infos.find? (fun itr => decide (itr.id = _counter_id)))

end client_data

/-! ### Configuration and external collaborators -/

/-- Settings read through `get_use_perfetto()`, `get_use_timemory()`,
`config::get_perfetto_annotations()` and their siblings. -/
structure settings where
  use_perfetto : Bool := false
  use_timemory : Bool := false
  perfetto_annotations : Bool := false
  is_continuous_integration : Bool := false
  use_process_sampling : Bool := false
  use_rocm_smi : Bool := false
  deriving DecidableEq, Repr

/-- Functions of libraries outside the repository (rocprofiler-sdk, timemory, libstdc++),
taken as parameters of the embedding. The default values only serve to build small
concrete systems. -/
structure externals where
  /-- Counter id a record instance id resolves to
  (`rocprofiler_query_record_counter_id`). -/
  query_record_counter_id : Nat → Nat := id
  /-- Demangled symbol name (`tim::demangle`). -/
  demangle : Name → Name := id
  /-- Metric name with its array index rewritten, the
  `std::regex_replace(_, "(.*)\\[([0-9]+)\\]", "$1_$2")` of the `counter_storage`
  constructor. -/
  metric_label : Name → Name := id
  /-- Decimal rendering of an unsigned number by `JOIN` / `join`. -/
  render : Nat → Name := fun n => (Nat.repr n).toList
  /-- Decimal rendering of a signed number by `JOIN`. -/
  render_int : Int → Name := fun n => (toString n).toList
  /-- Name of a callback operation, `callback_tracing_info.at(kind, operation)`. -/
  callback_tracing_info : rocprofiler_callback_tracing_kind_t → Int → Name := fun _ _ => []
  /-- Name of a buffered operation, `buffered_tracing_info.at(kind, operation)`. -/
  buffered_tracing_info : rocprofiler_buffer_tracing_kind_t → Int → Name := fun _ _ => []
  /-- Hash under which timemory registers a name, `tim::add_hash_id`. -/
  add_hash_id : Name → Nat := fun _ => 0
  /-- Name registered under a hash, `tim::get_hash_identifier_fast`. -/
  get_hash_identifier_fast : Nat → Name := fun _ => []
  /-- Arguments of a call as name/value texts, as enumerated by
  `rocprofiler_iterate_callback_tracing_kind_operation_args` into `save_args`. -/
  callback_args : rocprofiler_callback_tracing_record_t → List (Name × Name) := fun _ => []
  /-- Symbol resolution of an instruction address, `binary::lookup_ipaddr_entry<false>`;
  empty when the address cannot be resolved. -/
  lookup_ipaddr_entry : Nat → Option processed_entry := fun _ => none
  /-- File name part of a path, `::basename`. -/
  basename : Name → Name := id
  /-- Sequential index of a system thread id,
  `thread_info::get(tid, SystemTID)->index_data->sequent_value`. -/
  thread_sequent_value : Nat → Nat := id
  /-- Whether `rocprofiler_get_timestamp` returns `ROCPROFILER_STATUS_SUCCESS`. -/
  get_timestamp_succeeds : Bool := true

/-! ### Counter tracks (`rocprofiler-sdk/counters.hpp`, `counters.cpp`) -/

/-- One value stored in the running time-series store of a track by the data-tracker
bundle: the bundle label (demangled kernel name), the queue handle it was pushed and
popped on, and the stored value. -/
structure data_sample (V : Type) where
  label : Name
  queue : Nat
  value : V
  deriving DecidableEq, Repr

/-- One sample written by `TRACE_COUNTER` to a perfetto counter track. -/
structure counter_sample (V : Type) where
  track : Name
  timestamp : Nat
  value : V
  deriving DecidableEq, Repr

/-- The struct `counter_dispatch_record`; `dispatch_data` is a pointer and may be null. -/
structure counter_dispatch_record (V : Type) where
  dispatch_data : Option rocprofiler_dispatch_counting_service_data_t := none
  dispatch_id : Nat := 0
  counter_id : Nat := 0
  record_counter : rocprofiler_record_counter_t V
  deriving DecidableEq, Repr

/-- The struct `counter_event`. -/
structure counter_event (V : Type) where
  record : counter_dispatch_record V
  deriving DecidableEq, Repr

/-- The struct `counter_storage`. `storage` is the content of the owned time-series store;
the owned perfetto counter track, which the constructor always allocates, is identified
by `track_name`. The member `tool_data` is the pointer `tool_data` of the tool state and
is read from there. -/
structure counter_storage (V : Type) where
  device_id : Nat := 0
  index : Int := 0
  metric_name : Name := []
  metric_description : Name := []
  storage_name : Name := []
  track_name : Name := []
  storage : List (data_sample V) := []
  deriving DecidableEq, Repr

/-- Function `get_counter_description`: long description of the first event whose symbol
or short description starts with the metric name, else the empty string. -/
def get_counter_description (tool_data : client_data) (_v : Name) : Name :=
  match tool_data.events_info.find?
      (fun itr => _v.isPrefixOf itr.symbol || _v.isPrefixOf itr.short_description) with
  | some itr => itr.long_description
  | none => []

/-- Constructor `counter_storage::counter_storage(tool_data, devid, idx, name)`. -/
def counter_storage.mk_from (V : Type) (ext : externals) (tool_data : client_data)
    (_devid _idx : Nat) (_name : Name) : counter_storage V :=
  let _metric_name := ext.metric_label _name
  let track_name :=
    "GPU ".toList ++ _metric_name ++ " [".toList ++ ext.render _devid ++ "]".toList
  { device_id := _devid
    index := Int.ofNat (_idx % 2 ^ 64) - (if _idx % 2 ^ 64 < 2 ^ 63 then 0 else 2 ^ 64)
    metric_name := _name
    metric_description := get_counter_description tool_data _name
    storage_name := "rocprof-device-".toList ++ ext.render _devid ++ "-".toList ++ _metric_name
    track_name := track_name
    storage := [] }

/-- Call operator `counter_event::operator()(tool_data, track, timing, scope)`: the values
it stores in the current time-series store and the samples it writes to the counter
track. `TRACE_COUNTER` is a perfetto macro; it reaches the trace sink when the sink is
enabled. -/
def counter_event.call {V : Type} [Zero V] (cfg : settings) (ext : externals)
    (tool_data : client_data) (ev : counter_event V) (_track : Option Name)
    (_timing : timing_interval) :
    Except Fault (List (data_sample V) × List (counter_sample V)) :=
  match ev.record.dispatch_data with
  | none => .ok ([], [])
  | some dispatch_data =>
    let _dispatch_info := dispatch_data.dispatch_info
    match tool_data.get_kernel_symbol_info _dispatch_info.kernel_id with
    | none => .error .null_dereference
    | some _kern_sym_data =>
      let stored : List (data_sample V) :=
        [{ label := ext.demangle _kern_sym_data.kernel_name
           queue := _dispatch_info.queue_id
           value := ev.record.record_counter.counter_value }]
      match _track with
      | none => .ok (stored, [])
      | some track =>
        if _timing.start > 0 ∧ _timing.end_ > _timing.start then
          .ok (stored,
            if cfg.use_perfetto then
              [{ track := track, timestamp := _timing.start,
                 value := ev.record.record_counter.counter_value },
               { track := track, timestamp := _timing.end_, value := 0 }]
            else [])
        else .ok (stored, [])

/-- The track after the data-tracker bundle stored further values in its time-series
store; nothing else of the track changes. -/
def counter_storage.store {V : Type} (self : counter_storage V)
    (stored : List (data_sample V)) : counter_storage V :=
  { self with storage := self.storage ++ stored }

/-- Call operator `counter_storage::operator()(event, timing, scope)`: makes the own store
current and runs the event on it with `track.get()`; yields the track with the extended
store and the samples written to the trace sink. -/
def counter_storage.call {V : Type} [Zero V] (cfg : settings) (ext : externals)
    (tool_data : client_data) (self : counter_storage V) (_event : counter_event V)
    (_timing : timing_interval) :
    Except Fault (counter_storage V × List (counter_sample V)) :=
  match counter_event.call cfg ext tool_data _event (some self.track_name) _timing with
  | .error f => .error f
  | .ok (stored, traced) => .ok (self.store stored, traced)

/-- The tuple `std::tie(storage_name, device_id, index)` that `operator<` of
`counter_storage` compares, in the lexicographic order of tuples. -/
def counter_storage.key {V : Type} (s : counter_storage V) : Lex (Name × Lex (Nat × Int)) :=
  toLex (s.storage_name, toLex (s.device_id, s.index))

/-- Comparison `operator<(counter_storage, counter_storage)`: lexicographic on
`std::tie(storage_name, device_id, index)`. -/
def counter_storage.lt {V : Type} (lhs rhs : counter_storage V) : Prop :=
  lhs.key < rhs.key

instance counter_storage.decidable_lt {V : Type} :
    DecidableRel (fun lhs rhs : counter_storage V => counter_storage.lt lhs rhs) :=
  fun lhs rhs => inferInstanceAs (Decidable (lhs.key < rhs.key))

/-! ### Tool state (file-scope statics of `rocprofiler-sdk.cpp`) -/

/-- Per-agent map of counter tracks, `agent_counter_storage_map_t`. -/
abbrev agent_counter_storage_map_t (V : Type) := umap Nat (umap Nat (counter_storage V))

/-- What the tool has asked of the profiling backend and of `rocm_smi`, and the
activation state the backend reports through `rocprofiler_context_is_active`. The calls
are taken to succeed: a started context is active afterwards, a stopped one is not. -/
structure backend_state where
  /-- Contexts the backend reports as active. -/
  active_contexts : List Nat := []
  /-- Buffers passed to `rocprofiler_flush_buffer`, in call order. -/
  flushed_buffers : List Nat := []
  /-- Contexts passed to `rocprofiler_start_context`, in call order. -/
  started_contexts : List Nat := []
  /-- Contexts passed to `rocprofiler_stop_context`, in call order. -/
  stopped_contexts : List Nat := []
  /-- Profile configurations created by `rocprofiler_create_profile_config`:
  agent id and counter ids, in call order. -/
  profile_configs : List (Nat × List Nat) := []
  /-- Number of calls of `rocm_smi::shutdown`. -/
  rocm_smi_shutdowns : Nat := 0
  deriving DecidableEq, Repr

/-- Value of a perfetto debug annotation. -/
inductive annot_value where
  | uint (n : Nat)
  | text (s : Name)
  deriving DecidableEq, Repr

/-- The tracing categories (`category::rocm_*`). -/
inductive category where
  | rocm_hsa_api
  | rocm_hip_api
  | rocm_marker_api
  | rocm_kernel_dispatch
  | rocm_memory_copy
  | rocm_counter_collection
  deriving DecidableEq, Repr

/-- Events handed to the trace sink (perfetto) and to the statistics store (timemory). -/
inductive trace_event where
  /-- Begin of a slice: `tracing::push_perfetto_ts` / `tracing::push_perfetto` with the
  category, name, track (if one is given), timestamp, flow id and annotations. -/
  | perfetto_begin (cat : category) (name : Name) (track : Option Name) (ts : Nat)
      (flow : Option Nat) (annots : List (Name × annot_value))
  /-- End of a slice: `tracing::pop_perfetto_ts` / `tracing::pop_perfetto`. -/
  | perfetto_end (cat : category) (name : Name) (track : Option Name) (ts : Nat)
      (annots : List (Name × annot_value))
  /-- The call `component::category_region<category::rocm_marker_api>::start<quirk::timemory>`. -/
  | timemory_start (name : Name)
  /-- The call `component::category_region<category::rocm_marker_api>::stop<quirk::timemory>`. -/
  | timemory_stop (name : Name)
  /-- A `kernel_dispatch_bundle_t` pushed on a thread index with its wall-clock value set. -/
  | timemory_bundle (name : Name) (tid : Nat) (value : Nat)
  deriving DecidableEq, Repr

/-- State of the tool: the statics behind `tool_data`, `get_counter_storage()` and
`get_kernel_dispatch_timestamps()`, the one-shot flag of `tool_fini`, the thread-local
marker stacks of the calling thread, and what has been handed to the external
collaborators so far. -/
structure tool_state (V : Type) where
  /-- Pointer `tool_data`; null after shutdown. -/
  tool_data : Option client_data := some {}
  /-- Pointer `get_counter_storage()`; null after shutdown. -/
  agent_counter_storage : Option (agent_counter_storage_map_t V) := some []
  /-- Map `get_kernel_dispatch_timestamps()`: pending dispatch-timing intervals. -/
  kernel_dispatch_timestamps : umap Nat timing_interval := []
  /-- Samples written by `TRACE_COUNTER`. -/
  counter_samples : List (counter_sample V) := []
  /-- The flag `static std::atomic_flag _once` of `tool_fini`. -/
  fini_once : Bool := false
  /-- Thread-local `get_marker_pushed_ranges()` of the calling thread; the back of the
  vector is the head of the list. -/
  marker_pushed_ranges : List Nat := []
  /-- Thread-local `get_marker_started_ranges()` of the calling thread; the back of the
  vector is the head of the list. -/
  marker_started_ranges : List Nat := []
  /-- Events emitted so far, oldest first. -/
  events : List trace_event := []
  /-- Counter tracks written through `counter_storage::write`, in call order. -/
  written : List (counter_storage V) := []
  /-- Requests made to the backend. -/
  backend : backend_state := {}
  /-- Messages logged through `ROCPROFSYS_WARNING` (as by a failed `ROCPROFILER_CALL`),
  oldest first. -/
  warnings : List String := []
  deriving DecidableEq, Repr

/-- The aggregation loop of `counter_record_callback` (lines 839-849): a record whose
counter id is new is copied into `_aggregate`, any later record of the same counter id
adds its `counter_value` to the stored one. -/
def aggregate_records {V : Type} [Add V] (ext : externals) :
    List (rocprofiler_record_counter_t V) → umap Nat (rocprofiler_record_counter_t V) →
    umap Nat (rocprofiler_record_counter_t V)
  | [], _aggregate => _aggregate
  | record :: rest, _aggregate =>
    let _counter_id := ext.query_record_counter_id record.id
    let r := umap.emplace _aggregate _counter_id record
    if !r.2 then
      aggregate_records ext rest
        (umap.modify r.1 _counter_id
          (fun a => { a with counter_value := a.counter_value + record.counter_value }))
    else
      aggregate_records ext rest r.1

/-- Body of the loop over `_aggregate` in `counter_record_callback` (lines 862-884) for one
aggregated entry: creates the counter track on first sight, then runs the counter event
on it. -/
def counter_record_entry {V : Type} [Zero V] (cfg : settings) (ext : externals)
    (tool_data : Option client_data)
    (dispatch_data : rocprofiler_dispatch_counting_service_data_t)
    (_dispatch_id _agent_id : Nat) (_interval : timing_interval)
    (acc : agent_counter_storage_map_t V × List (counter_sample V))
    (itr : Nat × rocprofiler_record_counter_t V) :
    Except Fault (agent_counter_storage_map_t V × List (counter_sample V)) :=
  match umap.find acc.1 _agent_id with
  | none => .error (.thrown "unordered_map::at")
  | some tracks =>
    match tool_data with
    | none => .error .null_dereference
    | some td =>
      -- creation of the track when `count(itr.first) == 0`
      let created : Except Fault (umap Nat (counter_storage V)) :=
        if umap.count tracks itr.1 = 0 then
          let _agent := td.get_gpu_tool_agent _agent_id
          match td.get_tool_counter_info _agent_id itr.1 with
          | .error f => .error f
          | .ok _info =>
            match _agent with
            | none => .error (.aborted "unable to find tool agent for agent")
            | some agent =>
              match _info with
              | none => .error (.aborted "unable to find counter info for counter on agent")
              | some info =>
                let _dev_id := agent.device_id % 2 ^ 32
                .ok (umap.emplace tracks itr.1
                  (counter_storage.mk_from V ext td _dev_id 0 info.name)).1
        else .ok tracks
      match created with
      | .error f => .error f
      | .ok tracks1 =>
        let _event : counter_event V :=
          { record := { dispatch_data := some dispatch_data, dispatch_id := _dispatch_id,
                        counter_id := itr.1, record_counter := itr.2 } }
        match umap.find tracks1 itr.1 with
        | none => .error (.thrown "unordered_map::at")
        | some track =>
          match counter_storage.call cfg ext td track _event _interval with
          | .error f => .error f
          | .ok (track1, traced) =>
            .ok (umap.modify acc.1 _agent_id
                  (fun _ => umap.modify tracks1 itr.1 (fun _ => track1)),
                 acc.2 ++ traced)

/-- The loop over `_aggregate` in `counter_record_callback` (lines 860-885). -/
def counter_record_loop {V : Type} [Zero V] (cfg : settings) (ext : externals)
    (tool_data : Option client_data)
    (dispatch_data : rocprofiler_dispatch_counting_service_data_t)
    (_dispatch_id _agent_id : Nat) (_interval : timing_interval) :
    List (Nat × rocprofiler_record_counter_t V) →
    agent_counter_storage_map_t V × List (counter_sample V) →
    Except Fault (agent_counter_storage_map_t V × List (counter_sample V))
  | [], acc => .ok acc
  | itr :: rest, acc =>
    match counter_record_entry cfg ext tool_data dispatch_data _dispatch_id _agent_id
        _interval acc itr with
    | .error f => .error f
    | .ok acc1 =>
      counter_record_loop cfg ext tool_data dispatch_data _dispatch_id _agent_id _interval
        rest acc1

/-- Function `counter_record_callback(dispatch_data, record_data, record_count, ...)`. -/
def counter_record_callback {V : Type} [Add V] [Zero V] (cfg : settings) (ext : externals)
    (st : tool_state V) (dispatch_data : rocprofiler_dispatch_counting_service_data_t)
    (record_data : List (rocprofiler_record_counter_t V)) :
    Except Fault (tool_state V) :=
  match st.agent_counter_storage with
  | none => .ok st
  | some _agent_counter_storage =>
    let _dispatch_id := dispatch_data.dispatch_info.dispatch_id
    let _agent_id := dispatch_data.dispatch_info.agent_id
    let _aggregate := aggregate_records ext record_data []
    let storage1 :=
      if umap.count _agent_counter_storage _agent_id = 0 then
        (umap.emplace _agent_counter_storage _agent_id []).1
      else _agent_counter_storage
    let taken : timing_interval × umap Nat timing_interval :=
      if umap.count st.kernel_dispatch_timestamps _dispatch_id > 0 then
        ((umap.find st.kernel_dispatch_timestamps _dispatch_id).getD {},
          umap.erase st.kernel_dispatch_timestamps _dispatch_id)
      else ({}, st.kernel_dispatch_timestamps)
    match counter_record_loop cfg ext st.tool_data dispatch_data _dispatch_id _agent_id
        taken.1 _aggregate (storage1, st.counter_samples) with
    | .error f => .error f
    | .ok (storage2, samples) =>
      .ok { st with
            agent_counter_storage := some storage2
            kernel_dispatch_timestamps := taken.2
            counter_samples := samples }

/-! ### Reading the counter state -/

/-- Counter track held for an (agent, counter id) pair, if any:
`get_counter_storage()->at(agent).at(counter)`. -/
def track_of {V : Type} (m : agent_counter_storage_map_t V) (_agent_id _counter_id : Nat) :
    Option (counter_storage V) :=
  (umap.find m _agent_id).bind (fun tracks => umap.find tracks _counter_id)

/-- Name of the perfetto counter track of an (agent, counter id) pair; empty when the pair
has no track. -/
def track_name_of {V : Type} (m : agent_counter_storage_map_t V) (_agent_id _counter_id : Nat) :
    Name :=
  ((track_of m _agent_id _counter_id).map (fun t => t.track_name)).getD []

/-- All counter tracks of the per-agent map, in iteration order of the map. -/
def all_tracks {V : Type} (m : agent_counter_storage_map_t V) : List (counter_storage V) :=
  m.flatMap (fun citr => citr.2.map Prod.snd)

/-- The step a counter draws on its track for one dispatch: the value at the start of
the interval and zero at its end. -/
def step_samples {V : Type} [Zero V] (track : Name) (interval : timing_interval) (value : V) :
    List (counter_sample V) :=
  [{ track := track, timestamp := interval.start, value := value },
   { track := track, timestamp := interval.end_, value := 0 }]

/-! ### Profile-config builder: `create_agent_profile` -/

/-- The constant `device_qualifier` of `create_agent_profile`. -/
def device_qualifier : Name := ":device=".toList

/-- Position of the first occurrence of a text, `std::string::find(pattern)`; none stands
for `std::string::npos`. -/
def string_find (pattern : Name) : Name → Option Nat
  | [] => if pattern.isPrefixOf [] then some 0 else none
  | c :: rest =>
    if pattern.isPrefixOf (c :: rest) then some 0
    else (string_find pattern rest).map (fun pos => pos + 1)

/-- Line terminators, which `.` of an ECMAScript `std::regex` does not match. -/
def is_line_terminator (c : Char) : Bool := c = '\n' || c = '\r'

/-- The call `std::regex_replace(name, std::regex{ "^(.*)(\\[)([0-9]+)(\\])$" }, "$1")`:
a name that consists of a text without line terminator followed by `[`, one or more
decimal digits and `]` is replaced by that text; any other name is returned unchanged. -/
def strip_array_index (name : Name) : Name :=
  match name.reverse with
  | ']' :: before =>
    match before.dropWhile Char.isDigit with
    | '[' :: base_reversed =>
      if (before.takeWhile Char.isDigit).isEmpty then name
      else if base_reversed.any is_line_terminator then name
      else base_reversed.reverse
    | _ => name
  | _ => name

/-- Value of a text of decimal digits. -/
def digits_value (s : Name) : Nat :=
  s.foldl (fun acc c => 10 * acc + (c.toNat - '0'.toNat)) 0

/-- The call `std::stoul(s)` on a non-empty text of decimal digits: its value, or the
exception `std::out_of_range` when the value does not fit `unsigned long` (64 bits). -/
def stoul (s : Name) : Except Fault Nat :=
  if digits_value s < 2 ^ 64 then .ok (digits_value s) else .error (.thrown "stoul")

/-- Body of the loop of `create_agent_profile` over the requested names (lines 118-161)
for one name: nothing when the name is skipped because its device qualifier names
another device, else the ids of the counters of the agent whose name equals the
resolved name, in the order of the counter info. A name that the removal of the array
index changes is printed together with `tool_agent_v->device_id` (lines 148-151), which
dereferences `tool_agent_v`: a null dereference when the agent is not a GPU tool agent. -/
def create_agent_profile_request (data : client_data) (agent_id : Nat)
    (tool_agent_v : Option tool_agent) (itr : Name) : Except Fault (Option (List Nat)) :=
  let search (_old_name_v : Name) : Except Fault (Option (List Nat)) :=
    let name_v := strip_array_index _old_name_v
    -- `ROCPROFSYS_PRINT_F(..., tool_agent_v->device_id, ...)` when the name was changed
    let printed : Except Fault Unit :=
      if name_v ≠ _old_name_v then
        match tool_agent_v with
        | none => .error .null_dereference
        | some _ => .ok ()
      else .ok ()
    match printed with
    | .error f => .error f
    | .ok _ =>
      -- search the gpu agent counter info for a counter with a matching name
      match umap.find data.agent_counter_info agent_id with
      | none => .error (.thrown "unordered_map::at")
      | some infos =>
        .ok (some ((infos.filter (fun citr => decide (name_v = citr.name))).map
          (fun citr => citr.id)))
  match string_find device_qualifier itr with
  | some pos =>
    let name_v := itr.take pos
    let dev_id_s := itr.drop (pos + device_qualifier.length)
    if dev_id_s.isEmpty || dev_id_s.any (fun c => !c.isDigit) then
      .error (.aborted "invalid device qualifier format (':device=N) where N is the GPU id")
    else
      match stoul dev_id_s with
      | .error f => .error f
      | .ok dev_id_v =>
        match tool_agent_v with
        | none => .error .null_dereference
        | some agent =>
          -- skip this counter if the counter is for a specific device id
          if dev_id_v ≠ agent.device_id then .ok none
          else search name_v
  | none => search itr

/-- The loop of `create_agent_profile` over the requested names (lines 116-162), on the
triple `(expected_v, found_v, counters_v)`. -/
def create_agent_profile_loop (data : client_data) (agent_id : Nat)
    (tool_agent_v : Option tool_agent) :
    List Name → Nat × List Name × List Nat → Except Fault (Nat × List Name × List Nat)
  | [], acc => .ok acc
  | itr :: rest, (expected_v, found_v, counters_v) =>
    match create_agent_profile_request data agent_id tool_agent_v itr with
    | .error f => .error f
    | .ok none =>
      create_agent_profile_loop data agent_id tool_agent_v rest
        (expected_v - 1, found_v, counters_v)
    | .ok (some ids) =>
      create_agent_profile_loop data agent_id tool_agent_v rest
        (expected_v, found_v ++ ids.map (fun _ => itr), counters_v ++ ids)

/-- Function `create_agent_profile(agent_id, counters, data)`, with `data` the tool data
of the state: the counter ids returned and the state after the call. A profile
configuration created through `rocprofiler_create_profile_config` gets the next handle of
the backend (the number of configurations created so far plus one). -/
def create_agent_profile {V : Type} (agent_id : Nat) (counters : List Name)
    (st : tool_state V) : Except Fault (List Nat × tool_state V) :=
  match st.tool_data with
  | none => .error .null_dereference
  | some data =>
    -- check if already created
    match umap.find data.agent_counter_profiles agent_id with
    | some _ => .ok ([], st)
    | none =>
      let tool_agent_v := data.get_gpu_tool_agent agent_id
      match create_agent_profile_loop data agent_id tool_agent_v counters
          (counters.length, [], []) with
      | .error f => .error f
      | .ok (expected_v, _, counters_v) =>
        if counters_v.length ≠ expected_v then
          -- the message of `ROCPROFSYS_ABORT_F` reads `tool_agent_v->agent->node_id`
          match tool_agent_v with
          | none => .error .null_dereference
          | some _ => .error (.aborted "Unable to find all counters for agent")
        else
          let created : Option Nat × backend_state :=
            if !counters_v.isEmpty then
              (some (st.backend.profile_configs.length + 1),
               { st.backend with
                 profile_configs := st.backend.profile_configs ++ [(agent_id, counters_v)] })
            else (none, st.backend)
          .ok (counters_v,
            { st with
              tool_data := some { data with
                agent_counter_profiles :=
                  (umap.emplace data.agent_counter_profiles agent_id created.1).1 }
              backend := created.2 })

/-- Lines 1054-1061 of `tool_init`: for every GPU agent, in order, the profile is created
and the counter ids it returns are recorded in `agent_events`. -/
def tool_init_agent_profiles {V : Type} (_counter_events : List Name) :
    List tool_agent → tool_state V → Except Fault (tool_state V)
  | [], st => .ok st
  | itr :: rest, st =>
    match create_agent_profile itr.agent.id _counter_events st with
    | .error f => .error f
    | .ok (ids, st1) =>
      match st1.tool_data with
      | none => .error .null_dereference
      | some data =>
        tool_init_agent_profiles _counter_events rest
          { st1 with tool_data := some { data with
              agent_events := (umap.emplace data.agent_events itr.agent.id ids).1 } }

/-- A requested name is filtered out for a device: it carries a device qualifier
`:device=N` with `N` a decimal number (fitting 64 bits) other than the device index. -/
def request_filtered_out (device_id : Nat) (itr : Name) : Prop :=
  ∃ pos, string_find device_qualifier itr = some pos ∧
    itr.drop (pos + device_qualifier.length) ≠ [] ∧
    (∀ c ∈ itr.drop (pos + device_qualifier.length), c.isDigit = true) ∧
    digits_value (itr.drop (pos + device_qualifier.length)) < 2 ^ 64 ∧
    digits_value (itr.drop (pos + device_qualifier.length)) ≠ device_id

/-- The name under which a request is compared with the counter names of an agent: the
text before the device qualifier, if there is one, with a single array index stripped. -/
def request_base_name (itr : Name) : Name :=
  strip_array_index
    (match string_find device_qualifier itr with
     | some pos => itr.take pos
     | none => itr)

/-- A requested name matches a counter name in the counter info of the agent. -/
def request_matched (infos : List rocprofiler_tool_counter_info_t) (itr : Name) : Prop :=
  ∃ citr ∈ infos, citr.name = request_base_name itr

instance request_filtered_out.decidable (device_id : Nat) (itr : Name) :
    Decidable (request_filtered_out device_id itr) :=
  match h : string_find device_qualifier itr with
  | none => isFalse (fun ⟨_, hpos, _⟩ => by rw [h] at hpos; cases hpos)
  | some pos =>
    decidable_of_iff
      (itr.drop (pos + device_qualifier.length) ≠ [] ∧
        (∀ c ∈ itr.drop (pos + device_qualifier.length), c.isDigit = true) ∧
        digits_value (itr.drop (pos + device_qualifier.length)) < 2 ^ 64 ∧
        digits_value (itr.drop (pos + device_qualifier.length)) ≠ device_id)
      ⟨fun hh => ⟨pos, h, hh⟩, fun ⟨pos', hpos, hh⟩ => by
        rw [h] at hpos
        cases hpos
        exact hh⟩

instance request_matched.decidable (infos : List rocprofiler_tool_counter_info_t)
    (itr : Name) : Decidable (request_matched infos itr) :=
  inferInstanceAs (Decidable (∃ citr ∈ infos, citr.name = request_base_name itr))

/-! ### Callback correlator: `tool_tracing_callback_start`, `tool_tracing_callback_stop`,
`tool_tracing_callback` -/

/-- ROCPROFSYS_CI_ABORT.
Modelled from the spec: the macro is declared in `core/debug.hpp`, which is not part of the
sources at hand; it aborts when the condition holds and the tool runs in
continuous-integration mode, and otherwise does nothing. -/
def ci_abort (cfg : settings) (cond : Bool) (msg : String) : Except Fault Unit :=
  conditional_abort (cfg.is_continuous_integration && cond) msg

/-- Lines 230-267 of `tool_tracing_callback_start`: the name `_name` of the region and the
marker stacks after the `switch` on the marker operation. -/
def tool_tracing_callback_start_name {V : Type} (ext : externals) (cat : category)
    (record : rocprofiler_callback_tracing_record_t) (st : tool_state V) :
    Except Fault (Name × tool_state V) :=
  match st.tool_data with
  | none => .error .null_dereference
  | some _ =>
    let _name := ext.callback_tracing_info record.kind record.operation
    if cat = .rocm_marker_api ∧
        record.kind = .ROCPROFILER_CALLBACK_TRACING_MARKER_CORE_API then
      if record.operation = ROCPROFILER_MARKER_CORE_API_ID_roctxRangePushA then
        match record.payload with
        | .marker_api message =>
          let _hash := ext.add_hash_id message
          .ok (message, { st with marker_pushed_ranges := _hash :: st.marker_pushed_ranges })
        | _ => .error .null_dereference
      else if record.operation = ROCPROFILER_MARKER_CORE_API_ID_roctxRangeStartA then
        match record.payload with
        | .marker_api message =>
          let _hash := ext.add_hash_id message
          .ok (message, { st with marker_started_ranges := _hash :: st.marker_started_ranges })
        | _ => .error .null_dereference
      else if record.operation = ROCPROFILER_MARKER_CORE_API_ID_roctxMarkA then
        match record.payload with
        | .marker_api message => .ok (message, st)
        | _ => .error .null_dereference
      else .ok (_name, st)
    else .ok (_name, st)

/-- Function `tool_tracing_callback_start<CategoryT>(CategoryT, record, user_data, ts)`. -/
def tool_tracing_callback_start {V : Type} (cfg : settings) (ext : externals) (cat : category)
    (record : rocprofiler_callback_tracing_record_t) (st : tool_state V) :
    Except Fault (tool_state V) :=
  match tool_tracing_callback_start_name ext cat record st with
  | .error f => .error f
  | .ok (_name, st1) =>
    if cfg.use_timemory then
      .ok { st1 with events := st1.events ++ [.timemory_start _name] }
    else .ok st1

/-- Lines 283-329 of `tool_tracing_callback_stop`: the name `_name` of the region and the
marker stacks after the `switch` on the marker operation. -/
def tool_tracing_callback_stop_name {V : Type} (ext : externals) (cat : category)
    (record : rocprofiler_callback_tracing_record_t) (st : tool_state V) :
    Except Fault (Name × tool_state V) :=
  match st.tool_data with
  | none => .error .null_dereference
  | some _ =>
    let _name := ext.callback_tracing_info record.kind record.operation
    if cat = .rocm_marker_api ∧
        record.kind = .ROCPROFILER_CALLBACK_TRACING_MARKER_CORE_API then
      if record.operation = ROCPROFILER_MARKER_CORE_API_ID_roctxRangePop then
        match st.marker_pushed_ranges with
        | [] =>
          .error (.aborted
            "roctxRangePop does not have corresponding roctxRangePush on this thread")
        | _hash :: rest =>
          .ok (ext.get_hash_identifier_fast _hash, { st with marker_pushed_ranges := rest })
      else if record.operation = ROCPROFILER_MARKER_CORE_API_ID_roctxRangeStop then
        match st.marker_started_ranges with
        | [] =>
          .error (.aborted
            "roctxRangeStop does not have corresponding roctxRangeStart on this thread")
        | _hash :: rest =>
          .ok (ext.get_hash_identifier_fast _hash, { st with marker_started_ranges := rest })
      else if record.operation = ROCPROFILER_MARKER_CORE_API_ID_roctxMarkA then
        match record.payload with
        | .marker_api message => .ok (message, st)
        | _ => .error .null_dereference
      else .ok (_name, st)
    else .ok (_name, st)

/-- The annotations of the resolved backtrace (lines 360-392): one `frame#NN` entry per
element of `_bt_data`. -/
def backtrace_annots (ext : externals) (_bt_data : Option (List processed_entry)) :
    List (Name × annot_value) :=
  match _bt_data with
  | none => []
  | some entries =>
    entries.enum.map (fun (p : Nat × processed_entry) =>
      let _bt_cnt := p.1
      let itr := p.2
      let _unk := "??".toList
      let _func := if itr.name.isEmpty then _unk else itr.name
      let _loc :=
        match itr.lineinfo with
        | some (location, _) =>
          if !location.isEmpty then location
          else if itr.location.isEmpty then _unk else itr.location
        | none => if itr.location.isEmpty then _unk else itr.location
      let _line_default := if itr.lineno = 0 then "?".toList else ext.render itr.lineno
      let _line :=
        match itr.lineinfo with
        | some (_, line) => if line > 0 then ext.render line else _line_default
        | none => _line_default
      let _entry := ext.demangle _func ++ " @ ".toList ++ (ext.basename _loc ++ ":".toList ++ _line)
      let key :=
        if _bt_cnt < 10 then "frame#0".toList ++ ext.render _bt_cnt
        else "frame#".toList ++ ext.render _bt_cnt
      (key, annot_value.text _entry))

/-- Lines 331-400 of `tool_tracing_callback_stop`: the events emitted for the region named
`_name`, the timemory stop when timemory is used and the perfetto start and stop events
when perfetto is used. -/
def tool_tracing_callback_stop_events (cfg : settings) (ext : externals) (cat : category)
    (record : rocprofiler_callback_tracing_record_t) (user_data : Nat) (ts : Nat)
    (_bt_data : Option (List processed_entry)) (_name : Name) : List trace_event :=
  let timemory : List trace_event :=
    if cfg.use_timemory then [.timemory_stop _name] else []
  let perfetto : List trace_event :=
    if cfg.use_perfetto then
      let args := if cfg.perfetto_annotations then ext.callback_args record else []
      let _beg_ts := user_data
      let _end_ts := ts
      [.perfetto_begin cat _name none _beg_ts (some record.correlation_id)
        (if cfg.perfetto_annotations then
          [("begin_ns".toList, annot_value.uint _beg_ts)] ++
            args.map (fun kv => (kv.1, annot_value.text kv.2)) ++
            backtrace_annots ext _bt_data
         else []),
       .perfetto_end cat _name none _end_ts
        (if cfg.perfetto_annotations then [("end_ns".toList, annot_value.uint _end_ts)]
         else [])]
    else []
  timemory ++ perfetto

/-- Function `tool_tracing_callback_stop<CategoryT>(CategoryT, record, user_data, ts,
_bt_data)`; `user_data` is the value of the user-data slot. -/
def tool_tracing_callback_stop {V : Type} (cfg : settings) (ext : externals) (cat : category)
    (record : rocprofiler_callback_tracing_record_t) (user_data : Nat) (ts : Nat)
    (_bt_data : Option (List processed_entry)) (st : tool_state V) :
    Except Fault (tool_state V) :=
  match tool_tracing_callback_stop_name ext cat record st with
  | .error f => .error f
  | .ok (_name, st1) =>
    .ok { st1 with events := st1.events ++
            tool_tracing_callback_stop_events cfg ext cat record user_data ts _bt_data _name }

/-- The `switch(record.kind)` of `tool_tracing_callback`: the category the record is
traced under, none for the kinds the switch rejects. -/
def callback_category : rocprofiler_callback_tracing_kind_t → Option category
  | .ROCPROFILER_CALLBACK_TRACING_HSA_CORE_API => some .rocm_hsa_api
  | .ROCPROFILER_CALLBACK_TRACING_HSA_AMD_EXT_API => some .rocm_hsa_api
  | .ROCPROFILER_CALLBACK_TRACING_HSA_IMAGE_EXT_API => some .rocm_hsa_api
  | .ROCPROFILER_CALLBACK_TRACING_HSA_FINALIZE_EXT_API => some .rocm_hsa_api
  | .ROCPROFILER_CALLBACK_TRACING_HIP_RUNTIME_API => some .rocm_hip_api
  | .ROCPROFILER_CALLBACK_TRACING_HIP_COMPILER_API => some .rocm_hip_api
  | .ROCPROFILER_CALLBACK_TRACING_MARKER_CORE_API => some .rocm_marker_api
  | _ => none

/-- Lines 529-543 of `tool_tracing_callback`: the entries of `_bt_data`, one for every
captured frame that is not null and that the symbol resolver resolves. -/
def resolved_backtrace (ext : externals) (unw_stack : List (Option Nat)) :
    List processed_entry :=
  unw_stack.filterMap (fun itr =>
    match itr with
    | some address => ext.lookup_ipaddr_entry address
    | none => none)

/-- ROCPROFILER_CALL(result) (`fwd.hpp:233-252`) for a call of which the status is known:
a status other than `ROCPROFILER_STATUS_SUCCESS` is logged through `ROCPROFSYS_WARNING`
with the text of the call; the macro does nothing else, whatever the status. -/
def rocprofiler_call_status {V : Type} (succeeded : Bool) (text : String)
    (st : tool_state V) : tool_state V :=
  if succeeded then st
  else { st with warnings := st.warnings ++ ["rocprofiler-sdk call [" ++ text ++ "] failed"] }

/-- The statement `ROCPROFILER_CALL(rocprofiler_get_timestamp(&ts))` that opens
`tool_tracing_callback` (lines 470-471). -/
def rocprofiler_get_timestamp_call {V : Type} (ext : externals) (st : tool_state V) :
    tool_state V :=
  rocprofiler_call_status ext.get_timestamp_succeeds "rocprofiler_get_timestamp(&ts)" st

/-- Lines 473-604 of `tool_tracing_callback`: the branches on the phase of the record,
after the timestamp `ts` was read. `user_data` is the value of the user-data slot of the
call and `unw_stack` the frame addresses `tim::get_unw_stack<16, 3, true>()` captures
(null entries included); the result carries the value of the slot after the call. -/
def tool_tracing_callback_phases {V : Type} (cfg : settings) (ext : externals)
    (record : rocprofiler_callback_tracing_record_t) (user_data : Nat) (ts : Nat)
    (unw_stack : List (Option Nat)) (st : tool_state V) :
    Except Fault (tool_state V × Nat) :=
  match record.phase with
  | .ROCPROFILER_CALLBACK_PHASE_ENTER =>
    match callback_category record.kind with
    | some cat =>
      match tool_tracing_callback_start cfg ext cat record st with
      | .error f => .error f
      | .ok st1 => .ok (st1, ts)
    | none =>
      match ci_abort cfg true "unhandled callback record kind" with
      | .error f => .error f
      | .ok _ => .ok (st, ts)
  | .ROCPROFILER_CALLBACK_PHASE_EXIT =>
    let bt : Except Fault (Option (List processed_entry)) :=
      if cfg.use_perfetto && cfg.perfetto_annotations then
        match st.tool_data with
        | none => .error .null_dereference
        | some td =>
          match umap.find td.backtrace_operations record.kind with
          | none => .error (.thrown "unordered_map::at")
          | some ops =>
            if ops.count record.operation > 0 then
              .ok (some (resolved_backtrace ext unw_stack))
            else .ok none
      else .ok none
    match bt with
    | .error f => .error f
    | .ok _bt_data =>
      match callback_category record.kind with
      | some cat =>
        match tool_tracing_callback_stop cfg ext cat record user_data ts _bt_data st with
        | .error f => .error f
        | .ok st1 => .ok (st1, user_data)
      | none =>
        match ci_abort cfg true "unhandled callback record kind" with
        | .error f => .error f
        | .ok _ => .ok (st, user_data)
  | .ROCPROFILER_CALLBACK_PHASE_NONE =>
    if record.kind = .ROCPROFILER_CALLBACK_TRACING_KERNEL_DISPATCH ∧
        record.operation = ROCPROFILER_KERNEL_DISPATCH_COMPLETE then
      match record.payload with
      | .kernel_dispatch _data =>
        -- save for post-processing
        .ok ({ st with kernel_dispatch_timestamps :=
                (umap.emplace st.kernel_dispatch_timestamps _data.dispatch_info.dispatch_id
                  { start := _data.start_timestamp, end_ := _data.end_timestamp }).1 },
             user_data)
      | _ => .error .null_dereference
    else .ok (st, user_data)
  | .ROCPROFILER_CALLBACK_PHASE_LAST =>
    match ci_abort cfg true "unhandled callback record phase" with
    | .error f => .error f
    | .ok _ => .ok (st, user_data)

/-- Function `tool_tracing_callback(record, user_data, callback_data)`. `user_data` is the
value of the user-data slot of the call, `ts` the value of the local `ts` after
`ROCPROFILER_CALL(rocprofiler_get_timestamp(&ts))` (lines 470-471: the local starts at 0
and holds what the query stored; a status other than success is logged) and `unw_stack` the
frame addresses `tim::get_unw_stack<16, 3, true>()` captures (null entries included); the
result carries the value of the slot after the call. -/
def tool_tracing_callback {V : Type} (cfg : settings) (ext : externals)
    (record : rocprofiler_callback_tracing_record_t) (user_data : Nat) (ts : Nat)
    (unw_stack : List (Option Nat)) (st : tool_state V) :
    Except Fault (tool_state V × Nat) :=
  tool_tracing_callback_phases cfg ext record user_data ts unw_stack
    (rocprofiler_get_timestamp_call ext st)

/-! ### Buffered record decoder: `tool_tracing_buffered` -/

/-- ROCPROFSYS_THROW.
Modelled from the spec: the macro is declared in `core/debug.hpp`, which is not part of the
sources at hand; it formats the message and leaves the function through a fatal error
("must abort the profiling session"), a thrown exception. -/
def rocprofsys_throw {α : Type} (msg : String) : Except Fault α :=
  .error (.thrown msg)

/-- Value of an unsigned number converted to a signed integer type of the given width. -/
def to_signed (bits : Nat) (n : Nat) : Int :=
  if n % 2 ^ bits < 2 ^ (bits - 1) then Int.ofNat (n % 2 ^ bits)
  else Int.ofNat (n % 2 ^ bits) - Int.ofNat (2 ^ bits)

/-- Difference of two 64-bit timestamps, `_end_ns - _beg_ns` in `uint64_t`. -/
def timestamp_sub (_end_ns _beg_ns : Nat) : Nat :=
  (_end_ns % 2 ^ 64 + (2 ^ 64 - _beg_ns % 2 ^ 64)) % 2 ^ 64

/-- Text of a `rocprofiler_dim3_t` annotation, `JOIN("", "(", JOIN(',', x, y, z), ")")`. -/
def dim3_text (ext : externals) (d : rocprofiler_dim3_t) : Name :=
  "(".toList ++ ext.render d.x ++ ",".toList ++ ext.render d.y ++ ",".toList ++
    ext.render d.z ++ ")".toList

/-- The kernel-dispatch branch of `tool_tracing_buffered` (lines 625-710): the events
emitted for one kernel-dispatch record. -/
def tool_tracing_buffered_kernel_dispatch (cfg : settings) (ext : externals)
    (tool_data : Option client_data)
    (record : rocprofiler_buffer_tracing_kernel_dispatch_record_t) :
    Except Fault (List trace_event) :=
  match tool_data with
  | none => .error .null_dereference
  | some td =>
    match td.get_kernel_symbol_info record.dispatch_info.kernel_id with
    | none => .error .null_dereference
    | some _kern_sym_data =>
      let _name := ext.demangle _kern_sym_data.kernel_name
      let _corr_id := record.correlation_id
      let _beg_ns := record.start_timestamp
      let _end_ns := record.end_timestamp
      let _agent_id := record.dispatch_info.agent_id
      let _queue_id := record.dispatch_info.queue_id
      let _agent := td.get_gpu_tool_agent _agent_id
      let timemory : List trace_event :=
        if cfg.use_timemory then
          [.timemory_bundle _name (ext.thread_sequent_value record.thread_id)
            (timestamp_sub _end_ns _beg_ns)]
        else []
      if cfg.use_perfetto then
        match _agent with
        | none => .error .null_dereference
        | some agent =>
          let _track := "GPU Kernel Dispatch [".toList ++
            ext.render_int (to_signed 32 agent.device_id) ++ "] Queue ".toList ++
            ext.render_int (to_signed 64 _queue_id)
          let annots : List (Name × annot_value) :=
            if cfg.perfetto_annotations then
              [("begin_ns".toList, .uint _beg_ns),
               ("end_ns".toList, .uint _end_ns),
               ("corr_id".toList, .uint _corr_id),
               ("node_id".toList, .uint agent.agent.logical_node_id),
               ("queue".toList, .uint _queue_id),
               ("dispatch_id".toList, .uint record.dispatch_info.dispatch_id),
               ("kernel_id".toList, .uint record.dispatch_info.kernel_id),
               ("private_segment_size".toList,
                 .uint record.dispatch_info.private_segment_size),
               ("group_segment_size".toList, .uint record.dispatch_info.group_segment_size),
               ("workgroup_size".toList,
                 .text (dim3_text ext record.dispatch_info.workgroup_size)),
               ("grid_size".toList, .text (dim3_text ext record.dispatch_info.grid_size))]
            else []
          .ok (timemory ++
            [.perfetto_begin .rocm_kernel_dispatch _name (some _track) _beg_ns (some _corr_id)
               annots,
             .perfetto_end .rocm_kernel_dispatch _name (some _track) _end_ns []])
      else .ok timemory

/-- The memory-copy branch of `tool_tracing_buffered` (lines 714-775): the events emitted
for one memory-copy record. -/
def tool_tracing_buffered_memory_copy (cfg : settings) (ext : externals)
    (tool_data : Option client_data)
    (record : rocprofiler_buffer_tracing_memory_copy_record_t) :
    Except Fault (List trace_event) :=
  match tool_data with
  | none => .error .null_dereference
  | some td =>
    let _corr_id := record.correlation_id
    let _beg_ns := record.start_timestamp
    let _end_ns := record.end_timestamp
    let _dst_agent := td.get_agent record.dst_agent_id
    let _src_agent := td.get_agent record.src_agent_id
    let _name := ext.buffered_tracing_info record.kind record.operation
    let timemory : List trace_event :=
      if cfg.use_timemory then
        [.timemory_bundle _name (ext.thread_sequent_value record.thread_id)
          (timestamp_sub _end_ns _beg_ns)]
      else []
    if cfg.use_perfetto then
      match _dst_agent with
      | none => .error .null_dereference
      | some dst =>
        let _track := "GPU Memory Copy to Agent [".toList ++
          ext.render_int (to_signed 32 dst.logical_node_id) ++ "] Thread ".toList ++
          ext.render (ext.thread_sequent_value record.thread_id)
        let annots : Except Fault (List (Name × annot_value)) :=
          if cfg.perfetto_annotations then
            match _src_agent with
            | none => .error .null_dereference
            | some src =>
              .ok [("begin_ns".toList, .uint _beg_ns),
                   ("end_ns".toList, .uint _end_ns),
                   ("corr_id".toList, .uint _corr_id),
                   ("dst_agent".toList, .uint dst.logical_node_id),
                   ("src_agent".toList, .uint src.logical_node_id)]
          else .ok []
        match annots with
        | .error f => .error f
        | .ok a =>
          .ok (timemory ++
            [.perfetto_begin .rocm_memory_copy _name (some _track) _beg_ns (some _corr_id) a,
             .perfetto_end .rocm_memory_copy [] (some _track) _end_ns []])
    else .ok timemory

/-- Body of the loop of `tool_tracing_buffered` for one header (lines 619-790). -/
def tool_tracing_buffered_header {V : Type} (cfg : settings) (ext : externals)
    (st : tool_state V) (header : rocprofiler_record_header_t) :
    Except Fault (tool_state V) :=
  if header.category = .ROCPROFILER_BUFFER_CATEGORY_TRACING then
    if header.kind = .ROCPROFILER_BUFFER_TRACING_KERNEL_DISPATCH then
      match header.payload with
      | .kernel_dispatch record =>
        match tool_tracing_buffered_kernel_dispatch cfg ext st.tool_data record with
        | .error f => .error f
        | .ok evs => .ok { st with events := st.events ++ evs }
      | _ => .error .null_dereference
    else if header.kind = .ROCPROFILER_BUFFER_TRACING_MEMORY_COPY then
      match header.payload with
      | .memory_copy record =>
        match tool_tracing_buffered_memory_copy cfg ext st.tool_data record with
        | .error f => .error f
        | .ok evs => .ok { st with events := st.events ++ evs }
      | _ => .error .null_dereference
    else
      rocprofsys_throw "unexpected rocprofiler_record_header_t buffer tracing category kind"
  else
    rocprofsys_throw "unexpected rocprofiler_record_header_t tracing category kind"

/-- Function `tool_tracing_buffered(context, buffer_id, headers, num_headers, user_data,
drop_count)`; `headers` is the header array (empty for a null pointer or a zero count). -/
def tool_tracing_buffered {V : Type} (cfg : settings) (ext : externals) :
    List rocprofiler_record_header_t → tool_state V → Except Fault (tool_state V)
  | [], st => .ok st
  | header :: rest, st =>
    match tool_tracing_buffered_header cfg ext st header with
    | .error f => .error f
    | .ok st1 => tool_tracing_buffered cfg ext rest st1

/-! ### Marker calls delivered to the correlator -/

/-- The two marker calls of the push/pop pair, as the correlator sees them: the ENTER
callback of `roctxRangePushA(message)` and the EXIT callback of `roctxRangePop()`. -/
inductive marker_call where
  | push (message : Name)
  | pop
  deriving DecidableEq, Repr

/-- The callback record of a marker call. -/
def marker_call.record : marker_call → rocprofiler_callback_tracing_record_t
  | .push message =>
    { kind := .ROCPROFILER_CALLBACK_TRACING_MARKER_CORE_API
      operation := ROCPROFILER_MARKER_CORE_API_ID_roctxRangePushA
      phase := .ROCPROFILER_CALLBACK_PHASE_ENTER
      payload := .marker_api message }
  | .pop =>
    { kind := .ROCPROFILER_CALLBACK_TRACING_MARKER_CORE_API
      operation := ROCPROFILER_MARKER_CORE_API_ID_roctxRangePop
      phase := .ROCPROFILER_CALLBACK_PHASE_EXIT }

/-- One callback delivery of a marker call: the call with the value of its user-data
slot, the clock reading and the captured frame addresses. -/
structure marker_delivery where
  call : marker_call
  user_data : Nat := 0
  ts : Nat := 0
  unw_stack : List (Option Nat) := []
  deriving DecidableEq, Repr

/-- Delivers the callbacks of a sequence of marker calls to `tool_tracing_callback` on one
thread. Yields the state after the last callback and, for every pop in order, the name
`_name` that `tool_tracing_callback_stop` resolved for it. -/
def deliver_marker_calls {V : Type} (cfg : settings) (ext : externals) :
    List marker_delivery → tool_state V → Except Fault (tool_state V × List Name)
  | [], st => .ok (st, [])
  | d :: rest, st =>
    match tool_tracing_callback cfg ext d.call.record d.user_data d.ts d.unw_stack st with
    | .error f => .error f
    | .ok (st1, _) =>
      let resolved : List Name :=
        match d.call with
        | .push _ => []
        | .pop =>
          match tool_tracing_callback_stop_name ext .rocm_marker_api d.call.record st with
          | .ok (_name, _) => [_name]
          | .error _ => []
      match deliver_marker_calls cfg ext rest st1 with
      | .error f => .error f
      | .ok (st2, names) => .ok (st2, resolved ++ names)

/-- The stack (LIFO) reading of a sequence of marker calls, following the words of the
specification: a push puts its message on the stack, a pop takes the message pushed most
recently and not yet popped. Yields the popped messages in order and the messages left
on the stack (most recent first), or nothing when a pop meets the empty stack. -/
def lifo_names : List marker_call → List Name → Option (List Name × List Name)
  | [], stack => some ([], stack)
  | .push message :: rest, stack => lifo_names rest (message :: stack)
  | .pop :: _, [] => none
  | .pop :: rest, message :: stack =>
    match lifo_names rest stack with
    | some (names, left) => some (message :: names, left)
    | none => none

/-! ### Lifecycle: `flush`, `start`, `stop`, `tool_fini` -/

/-- Function `is_initialized(ctx)`. -/
def is_initialized (ctx : Nat) : Bool := decide (ctx > 0)

/-- Function `is_active(ctx)`: the backend call succeeds and reports the context active. -/
def is_active (b : backend_state) (ctx : Nat) : Bool := decide (ctx ∈ b.active_contexts)

/-- Function `flush()`: every buffer with a valid handle is passed to
`rocprofiler_flush_buffer`. -/
def flush {V : Type} (st : tool_state V) : tool_state V :=
  match st.tool_data with
  | none => st
  | some td =>
    { st with backend := { st.backend with
        flushed_buffers := st.backend.flushed_buffers ++
          td.get_buffers.filter (fun itr => decide (itr > 0)) } }

/-- Function `start()`: starts every context that is initialized and not active. -/
def start {V : Type} (st : tool_state V) : tool_state V :=
  match st.tool_data with
  | none => st
  | some td =>
    { st with backend := td.get_contexts.foldl (fun b itr =>
        if is_initialized itr && !is_active b itr then
          { b with active_contexts := b.active_contexts ++ [itr]
                   started_contexts := b.started_contexts ++ [itr] }
        else b) st.backend }

/-- Function `stop()`: stops every context that is initialized and active. -/
def stop {V : Type} (st : tool_state V) : tool_state V :=
  match st.tool_data with
  | none => st
  | some td =>
    { st with backend := td.get_contexts.foldl (fun b itr =>
        if is_initialized itr && is_active b itr then
          { b with active_contexts := b.active_contexts.filter (fun c => decide (c ≠ itr))
                   stopped_contexts := b.stopped_contexts ++ [itr] }
        else b) st.backend }

/-- The call `std::sort(first, last, comp)`. The standard fixes the result up to the order
of equivalent elements: a permutation of the input in which no element is `comp`-less
than an earlier one. The model is insertion sort, which keeps equivalent elements in
input order. -/
def std_sort {α : Type} (comp : α → α → Prop) [DecidableRel comp] (l : List α) : List α :=
  l.insertionSort (fun a b => ¬ comp b a)

/-- Function `tool_fini(callback_data)`. -/
def tool_fini {V : Type} (cfg : settings) (st : tool_state V) : tool_state V :=
  -- `if(_once.test_and_set()) return;`
  if st.fini_once then st
  else
    let st1 := stop (flush { st with fini_once := true })
    let st2 :=
      if cfg.use_process_sampling && cfg.use_rocm_smi then
        { st1 with backend := { st1.backend with
            rocm_smi_shutdowns := st1.backend.rocm_smi_shutdowns + 1 } }
      else st1
    let st3 :=
      match st2.agent_counter_storage with
      | none => st2
      | some storage =>
        let _storages := std_sort counter_storage.lt (all_tracks storage)
        { st2 with written := st2.written ++ _storages, agent_counter_storage := none }
    -- `delete tool_data; tool_data = nullptr;`
    { st3 with tool_data := none }

/-! ### A small concrete system used to exercise the definitions -/

namespace sample

/-- Two GPU agents (devices 0 and 1, agent ids 100 and 101) and one CPU agent. -/
def agents : List rocprofiler_agent_v0_t :=
  [{ id := 1, type := .ROCPROFILER_AGENT_TYPE_CPU, node_id := 0 },
   { id := 100, type := .ROCPROFILER_AGENT_TYPE_GPU, node_id := 1 },
   { id := 101, type := .ROCPROFILER_AGENT_TYPE_GPU, node_id := 2 }]

/-- Tool data of the two-GPU system: both GPUs offer `L2CacheHit` (counter id 7) and
`SQ_WAVES` (counter id 8); kernel 5 is registered. -/
def tool_data : client_data :=
  { agents := agents
    cpu_agents := [{ device_id := 0, agent := { id := 1, type := .ROCPROFILER_AGENT_TYPE_CPU } }]
    gpu_agents :=
      [{ device_id := 0,
         agent := { id := 100, type := .ROCPROFILER_AGENT_TYPE_GPU, node_id := 1 } },
       { device_id := 1,
         agent := { id := 101, type := .ROCPROFILER_AGENT_TYPE_GPU, node_id := 2 } }]
    agent_counter_info :=
      [(100, [{ id := 7, name := "L2CacheHit".toList }, { id := 8, name := "SQ_WAVES".toList }]),
       (101, [{ id := 7, name := "L2CacheHit".toList }, { id := 8, name := "SQ_WAVES".toList }])]
    kernel_symbol_records := [{ payload := { kernel_id := 5, kernel_name := "kern".toList } }] }

/-- Counter state with one pending dispatch interval, (10, 20) for dispatch 42. -/
def state0 : tool_state Nat :=
  { tool_data := some tool_data
    kernel_dispatch_timestamps := [(42, { start := 10, end_ := 20 })] }

/-- Dispatch 42 of kernel 5 on agent 100 (device 0), queue 3. -/
def dispatch42 : rocprofiler_dispatch_counting_service_data_t :=
  { dispatch_info := { agent_id := 100, kernel_id := 5, dispatch_id := 42, queue_id := 3 } }

/-- Dispatch 43 of kernel 5 on agent 100, for which no interval is pending. -/
def dispatch43 : rocprofiler_dispatch_counting_service_data_t :=
  { dispatch_info := { agent_id := 100, kernel_id := 5, dispatch_id := 43, queue_id := 3 } }

/-- A batch with two records of counter 7 (values 3 and 4) around one of counter 8. -/
def batch : List (rocprofiler_record_counter_t Nat) :=
  [{ id := 7, counter_value := 3 }, { id := 8, counter_value := 1 },
   { id := 7, counter_value := 4 }]

/-- Counter tracks of the sample system, held in an order that is not the write order. -/
def tracks : agent_counter_storage_map_t Nat :=
  [(101, [(7, counter_storage.mk_from Nat {} tool_data 1 0 "L2CacheHit".toList)]),
   (100, [(8, counter_storage.mk_from Nat {} tool_data 0 0 "SQ_WAVES".toList),
          (7, counter_storage.mk_from Nat {} tool_data 0 0 "L2CacheHit".toList)])]

/-- State of the sample system before shutdown, holding `tracks`. -/
def state_tracks : tool_state Nat :=
  { tool_data := some tool_data, agent_counter_storage := some tracks }

/-- External functions with a two-entry hash registry: message `A` has hash 1 and message
`B` has hash 2. -/
def ext_markers : externals :=
  { add_hash_id := fun n => if n = "A".toList then 1 else if n = "B".toList then 2 else 0
    get_hash_identifier_fast := fun h =>
      if h = 1 then "A".toList else if h = 2 then "B".toList else [] }

/-- The call sequence push("A"), push("B"), pop, pop. -/
def push_push_pop_pop : List marker_delivery :=
  [{ call := .push "A".toList, ts := 1 }, { call := .push "B".toList, ts := 2 },
   { call := .pop, user_data := 3, ts := 4 }, { call := .pop, user_data := 5, ts := 6 }]

/-- Buffer header of a completed kernel dispatch: dispatch 43 of kernel 5 on agent 100,
running from 100 to 200. -/
def dispatch_header : rocprofiler_record_header_t :=
  { category := .ROCPROFILER_BUFFER_CATEGORY_TRACING
    kind := .ROCPROFILER_BUFFER_TRACING_KERNEL_DISPATCH
    payload := .kernel_dispatch
      { start_timestamp := 100, end_timestamp := 200, correlation_id := 9,
        dispatch_info := { agent_id := 100, kernel_id := 5, dispatch_id := 43, queue_id := 3 } } }

/-- Callback record of the completion of the same dispatch, delivered with phase NONE. -/
def dispatch_complete : rocprofiler_callback_tracing_record_t :=
  { kind := .ROCPROFILER_CALLBACK_TRACING_KERNEL_DISPATCH
    operation := ROCPROFILER_KERNEL_DISPATCH_COMPLETE
    phase := .ROCPROFILER_CALLBACK_PHASE_NONE
    payload := .kernel_dispatch
      { start_timestamp := 100, end_timestamp := 200,
        dispatch_info := { agent_id := 100, kernel_id := 5, dispatch_id := 43, queue_id := 3 } } }

/-- State of the sample system after a profile has been created for agent 100. -/
def state_profiled : tool_state Nat :=
  { tool_data := some { tool_data with agent_counter_profiles := [(100, some 1)] } }

/-- State of a system whose agent 100 lists two counters under the one name `A`. -/
def state_same_names : tool_state Nat :=
  { tool_data := some { tool_data with
      agent_counter_info := [(100, [{ id := 1, name := "A".toList }, { id := 2, name := "A".toList }])] } }

end sample

/-! ### Reading the emitted trace: spans -/

/-- A span of the emitted trace: a begin event together with the end event that closes it.
The category, name, track and flow id are those of the begin event. -/
structure span where
  cat : category
  name : Name
  track : Option Name
  begin_ts : Nat
  end_ts : Nat
  flow : Option Nat := none
  deriving DecidableEq, Repr

/-- Closes, with the given end timestamp, the slice begun most recently and not yet closed
on a track (perfetto pairs an end event with the latest open begin event of its track).
`opened` lists the open slices, latest first, with the end timestamp still unset. -/
def close_slice (track : Option Name) (end_ts : Nat) :
    List span → Option (span × List span)
  | [] => none
  | o :: rest =>
    if o.track = track then some ({ o with end_ts := end_ts }, rest)
    else
      match close_slice track end_ts rest with
      | some (s, rest1) => some (s, o :: rest1)
      | none => none

/-- The spans of a sequence of emitted events, in the order in which they are closed,
given the slices that are open when the sequence starts. -/
def spans_from : List span → List trace_event → List span
  | _, [] => []
  | opened, .perfetto_begin cat name track ts flow _ :: rest =>
    spans_from
      ({ cat := cat, name := name, track := track, begin_ts := ts, end_ts := 0, flow := flow }
        :: opened) rest
  | opened, .perfetto_end _ _ track ts _ :: rest =>
    match close_slice track ts opened with
    | some (s, opened1) => s :: spans_from opened1 rest
    | none => spans_from opened rest
  | opened, _ :: rest => spans_from opened rest

/-- The spans of a sequence of emitted events. -/
def spans (events : List trace_event) : List span :=
  spans_from [] events

/-- A header that `tool_tracing_buffered` decodes when the trace sink is enabled: the
category is tracing, the kind is kernel dispatch or memory copy and the payload is a
record of that kind, and the pointers the branch dereferences are not null (the kernel
symbol is registered and the agent is a known GPU agent; the destination agent is known,
and so is the source agent when annotations are written). -/
def well_formed_header (cfg : settings) (td : client_data)
    (header : rocprofiler_record_header_t) : Bool :=
  if header.category = .ROCPROFILER_BUFFER_CATEGORY_TRACING then
    if header.kind = .ROCPROFILER_BUFFER_TRACING_KERNEL_DISPATCH then
      match header.payload with
      | .kernel_dispatch record =>
        (td.get_kernel_symbol_info record.dispatch_info.kernel_id).isSome &&
          (td.get_gpu_tool_agent record.dispatch_info.agent_id).isSome
      | _ => false
    else if header.kind = .ROCPROFILER_BUFFER_TRACING_MEMORY_COPY then
      match header.payload with
      | .memory_copy record =>
        (td.get_agent record.dst_agent_id).isSome &&
          (!cfg.perfetto_annotations || (td.get_agent record.src_agent_id).isSome)
      | _ => false
    else false
  else false

/-- The `(start_timestamp, end_timestamp)` of the record a header points to. -/
def header_interval (header : rocprofiler_record_header_t) : Nat × Nat :=
  match header.payload with
  | .kernel_dispatch record => (record.start_timestamp, record.end_timestamp)
  | .memory_copy record => (record.start_timestamp, record.end_timestamp)
  | .empty => (0, 0)

/-- The events `tool_tracing_buffered` emits for the record a header points to: those of
the kernel-dispatch branch or of the memory-copy branch, none when the branch faults. -/
def decoded_events (cfg : settings) (ext : externals) (td : client_data)
    (header : rocprofiler_record_header_t) : List trace_event :=
  match header.payload with
  | .kernel_dispatch record =>
    match tool_tracing_buffered_kernel_dispatch cfg ext (some td) record with
    | .ok evs => evs
    | .error _ => []
  | .memory_copy record =>
    match tool_tracing_buffered_memory_copy cfg ext (some td) record with
    | .ok evs => evs
    | .error _ => []
  | .empty => []

/-- Buffer header of a completed memory copy from agent 1 to agent 100 in the sample
system, running from 300 to 350. -/
def sample.copy_header : rocprofiler_record_header_t :=
  { category := .ROCPROFILER_BUFFER_CATEGORY_TRACING
    kind := .ROCPROFILER_BUFFER_TRACING_MEMORY_COPY
    payload := .memory_copy
      { start_timestamp := 300, end_timestamp := 350, correlation_id := 11,
        dst_agent_id := 100, src_agent_id := 1 } }

/-- A header of a record type the tool never requested: its category is not the tracing
category, or its kind is neither kernel dispatch nor memory copy. -/
def unexpected_header (header : rocprofiler_record_header_t) : Prop :=
  header.category ≠ .ROCPROFILER_BUFFER_CATEGORY_TRACING ∨
    (header.kind ≠ .ROCPROFILER_BUFFER_TRACING_KERNEL_DISPATCH ∧
      header.kind ≠ .ROCPROFILER_BUFFER_TRACING_MEMORY_COPY)

instance unexpected_header.decidable (header : rocprofiler_record_header_t) :
    Decidable (unexpected_header header) :=
  inferInstanceAs (Decidable (_ ∨ _))

/-- Buffer header of a tracing record of a kind the tool never requested. -/
def sample.scratch_header : rocprofiler_record_header_t :=
  { category := .ROCPROFILER_BUFFER_CATEGORY_TRACING
    kind := .ROCPROFILER_BUFFER_TRACING_SCRATCH_MEMORY }

/-! ### Callback sequences delivered to the correlator -/

/-- One callback delivered to `tool_tracing_callback` on a thread: the record, the
user-data slot of the call it belongs to (the backend hands the ENTER and the EXIT
callback of one call the same slot), the clock reading and the captured frame addresses. -/
structure callback_delivery where
  record : rocprofiler_callback_tracing_record_t
  slot : Nat := 0
  ts : Nat := 0
  unw_stack : List (Option Nat) := []
  deriving DecidableEq, Repr

/-- Delivers a sequence of callbacks to `tool_tracing_callback` on one thread. `slots`
holds the value of every user-data slot; each callback reads the value of its slot and
leaves the value the function stored in it. -/
def deliver_callbacks {V : Type} (cfg : settings) (ext : externals) :
    List callback_delivery → (Nat → Nat) → tool_state V →
    Except Fault (tool_state V × (Nat → Nat))
  | [], slots, st => .ok (st, slots)
  | d :: rest, slots, st =>
    match tool_tracing_callback cfg ext d.record (slots d.slot) d.ts d.unw_stack st with
    | .error f => .error f
    | .ok (st1, value) =>
      deliver_callbacks cfg ext rest (Function.update slots d.slot value) st1

/-- The pairing of ENTER and EXIT callbacks of a sequence, following the words of the
specification: an ENTER callback opens a call on its slot at its timestamp, the EXIT
callback on the same slot completes the call. Yields, for every EXIT callback in order,
the entry and the exit timestamp of the completed pair, or nothing when an EXIT callback
meets no open call on its slot. `opened` maps the slots of the open calls to their entry
timestamps. -/
def completed_pairs : List callback_delivery → umap Nat Nat → Option (List (Nat × Nat))
  | [], _ => some []
  | d :: rest, opened =>
    if d.record.phase = .ROCPROFILER_CALLBACK_PHASE_ENTER then
      completed_pairs rest ((d.slot, d.ts) :: umap.erase opened d.slot)
    else if d.record.phase = .ROCPROFILER_CALLBACK_PHASE_EXIT then
      match umap.find opened d.slot with
      | none => none
      | some entry_ts =>
        match completed_pairs rest (umap.erase opened d.slot) with
        | some pairs => some ((entry_ts, d.ts) :: pairs)
        | none => none
    else completed_pairs rest opened

/-- Whether the payload of a record is a marker payload, which carries the message
argument the marker operations read. -/
def has_message (record : rocprofiler_callback_tracing_record_t) : Bool :=
  match record.payload with
  | .marker_api _ => true
  | _ => false

/-- The depths of the pushed-range and the started-range stack after the callback of a
record, when they were `depths` before it: `roctxRangePushA` / `roctxRangeStartA` add an
entry on ENTER, `roctxRangePop` / `roctxRangeStop` take one on EXIT. -/
def depths_after (record : rocprofiler_callback_tracing_record_t) (depths : Nat × Nat) :
    Nat × Nat :=
  if record.kind = .ROCPROFILER_CALLBACK_TRACING_MARKER_CORE_API then
    if record.phase = .ROCPROFILER_CALLBACK_PHASE_ENTER then
      if record.operation = ROCPROFILER_MARKER_CORE_API_ID_roctxRangePushA then
        (depths.1 + 1, depths.2)
      else if record.operation = ROCPROFILER_MARKER_CORE_API_ID_roctxRangeStartA then
        (depths.1, depths.2 + 1)
      else depths
    else if record.phase = .ROCPROFILER_CALLBACK_PHASE_EXIT then
      if record.operation = ROCPROFILER_MARKER_CORE_API_ID_roctxRangePop then
        (depths.1 - 1, depths.2)
      else if record.operation = ROCPROFILER_MARKER_CORE_API_ID_roctxRangeStop then
        (depths.1, depths.2 - 1)
      else depths
    else depths
  else depths

/-- What the callback of a record needs in order to return, on a live tool whose marker
stacks have the given depths: the phase is ENTER or EXIT and the kind is one of the
traced API kinds; on EXIT with annotated perfetto output the backtrace operations of the
kind are registered; a marker operation that reads its message has a marker payload; and
`roctxRangePop` / `roctxRangeStop` meet a stack that is not empty. -/
def callback_returns (cfg : settings) (td : client_data)
    (record : rocprofiler_callback_tracing_record_t) (depths : Nat × Nat) : Bool :=
  let marker := decide (record.kind = .ROCPROFILER_CALLBACK_TRACING_MARKER_CORE_API)
  (callback_category record.kind).isSome &&
  if record.phase = .ROCPROFILER_CALLBACK_PHASE_ENTER then
    !(marker &&
        (decide (record.operation = ROCPROFILER_MARKER_CORE_API_ID_roctxRangePushA) ||
         decide (record.operation = ROCPROFILER_MARKER_CORE_API_ID_roctxRangeStartA) ||
         decide (record.operation = ROCPROFILER_MARKER_CORE_API_ID_roctxMarkA))) ||
      has_message record
  else if record.phase = .ROCPROFILER_CALLBACK_PHASE_EXIT then
    (!(cfg.use_perfetto && cfg.perfetto_annotations) ||
      (umap.find td.backtrace_operations record.kind).isSome) &&
    (!marker ||
      if record.operation = ROCPROFILER_MARKER_CORE_API_ID_roctxRangePop then
        decide (0 < depths.1)
      else if record.operation = ROCPROFILER_MARKER_CORE_API_ID_roctxRangeStop then
        decide (0 < depths.2)
      else if record.operation = ROCPROFILER_MARKER_CORE_API_ID_roctxMarkA then
        has_message record
      else true)
  else false

/-- Whether every callback of a sequence meets `callback_returns`, the depths of the
marker stacks being followed along the sequence. -/
def callbacks_return (cfg : settings) (td : client_data) :
    List callback_delivery → Nat × Nat → Bool
  | [], _ => true
  | d :: rest, depths =>
    callback_returns cfg td d.record depths &&
      callbacks_return cfg td rest (depths_after d.record depths)

/-- A HIP runtime call (slot 1) around an HSA core call (slot 2) and a pushed and popped
marker range, as delivered on one thread: ENTER at 10, ENTER at 12, EXIT at 15, the ENTER
and EXIT of `roctxRangePushA` at 16 and 17, those of `roctxRangePop` at 18 and 19, and
the EXIT of the HIP call at 20. -/
def sample.nested_calls : List callback_delivery :=
  [{ record := { kind := .ROCPROFILER_CALLBACK_TRACING_HIP_RUNTIME_API, operation := 7,
                 phase := .ROCPROFILER_CALLBACK_PHASE_ENTER, correlation_id := 1 },
     slot := 1, ts := 10 },
   { record := { kind := .ROCPROFILER_CALLBACK_TRACING_HSA_CORE_API, operation := 3,
                 phase := .ROCPROFILER_CALLBACK_PHASE_ENTER, correlation_id := 2 },
     slot := 2, ts := 12 },
   { record := { kind := .ROCPROFILER_CALLBACK_TRACING_HSA_CORE_API, operation := 3,
                 phase := .ROCPROFILER_CALLBACK_PHASE_EXIT, correlation_id := 2 },
     slot := 2, ts := 15 },
   { record := { kind := .ROCPROFILER_CALLBACK_TRACING_MARKER_CORE_API,
                 operation := ROCPROFILER_MARKER_CORE_API_ID_roctxRangePushA,
                 phase := .ROCPROFILER_CALLBACK_PHASE_ENTER, correlation_id := 3,
                 payload := .marker_api "A".toList },
     slot := 3, ts := 16 },
   { record := { kind := .ROCPROFILER_CALLBACK_TRACING_MARKER_CORE_API,
                 operation := ROCPROFILER_MARKER_CORE_API_ID_roctxRangePushA,
                 phase := .ROCPROFILER_CALLBACK_PHASE_EXIT, correlation_id := 3,
                 payload := .marker_api "A".toList },
     slot := 3, ts := 17 },
   { record := { kind := .ROCPROFILER_CALLBACK_TRACING_MARKER_CORE_API,
                 operation := ROCPROFILER_MARKER_CORE_API_ID_roctxRangePop,
                 phase := .ROCPROFILER_CALLBACK_PHASE_ENTER, correlation_id := 4 },
     slot := 4, ts := 18 },
   { record := { kind := .ROCPROFILER_CALLBACK_TRACING_MARKER_CORE_API,
                 operation := ROCPROFILER_MARKER_CORE_API_ID_roctxRangePop,
                 phase := .ROCPROFILER_CALLBACK_PHASE_EXIT, correlation_id := 4 },
     slot := 4, ts := 19 },
   { record := { kind := .ROCPROFILER_CALLBACK_TRACING_HIP_RUNTIME_API, operation := 7,
                 phase := .ROCPROFILER_CALLBACK_PHASE_EXIT, correlation_id := 1 },
     slot := 1, ts := 20 }]

/-- The flow identifier an emitted event is tagged with, if any. Only the begin of a slice
is passed a `::perfetto::Flow` (`push_perfetto_ts`, `push_perfetto`); the end of a slice
(`pop_perfetto_ts`, `pop_perfetto`) is passed none. -/
def trace_event.flow : trace_event → Option Nat
  | .perfetto_begin _ _ _ _ flow _ => flow
  | _ => none

/-- The timestamp of an emitted perfetto event. -/
def trace_event.timestamp : trace_event → Option Nat
  | .perfetto_begin _ _ _ ts _ _ => some ts
  | .perfetto_end _ _ _ ts _ => some ts
  | _ => none

/-- EXIT callback of a HIP runtime call with correlation id 1. -/
def sample.hip_exit : rocprofiler_callback_tracing_record_t :=
  { kind := .ROCPROFILER_CALLBACK_TRACING_HIP_RUNTIME_API, operation := 7,
    phase := .ROCPROFILER_CALLBACK_PHASE_EXIT, correlation_id := 1 }

/-- Whether a captured frame ends up in `_bt_data`: the frame is not null and the symbol
resolver resolves its address. -/
def frame_resolved (ext : externals) (frame : Option Nat) : Bool :=
  match frame with
  | some address => (ext.lookup_ipaddr_entry address).isSome
  | none => false

/-- State of the sample system after `tool_init` registered the backtrace operations of
the HIP runtime kind (operation 7). -/
def sample.state_backtrace : tool_state Nat :=
  { tool_data := some { sample.tool_data with
      backtrace_operations := [(.ROCPROFILER_CALLBACK_TRACING_HIP_RUNTIME_API, [7])] } }

/-- External functions whose symbol resolver knows address 2 only, as function `f` of
`a.cpp`, line 3. -/
def sample.ext_resolver : externals :=
  { lookup_ipaddr_entry := fun address =>
      if address = 2 then some { name := "f".toList, location := "a.cpp".toList, lineno := 3 }
      else none }

/-! ### OMPT device buffers: the buffer-complete decoder of `library/ompt.cpp` -/

/-- The member of the union `record` of an `ompt_record_ompt_t` that the decoder reads,
reduced to the fields it reads; the record type `type` follows from it. -/
inductive ompt_record_payload where
  /-- A record of type `ompt_callback_target_submit`: `record.target_kernel`. -/
  | target_kernel (host_op_id requested_num_teams granted_num_teams end_time : Nat)
  /-- A record of type `ompt_callback_target_data_op`: `record.target_data_op`. -/
  | target_data_op (host_op_id optype bytes end_time : Nat)
  /-- A record of any other type. -/
  | other
  deriving DecidableEq, Repr

/-- The struct `ompt_record_ompt_t`; `time` is the device time of the record. -/
structure ompt_record_ompt_t where
  time : Nat := 0
  thread_id : Nat := 0
  target_id : Nat := 0
  record : ompt_record_payload := .other
  deriving DecidableEq, Repr

/-- One call of `component::ompt::record(name, id, beg_time, end_time, thread_id,
target_id, context)`. -/
structure ompt_span where
  name : Name
  id : Nat
  beg_time : Nat
  end_time : Nat
  thread_id : Nat
  target_id : Nat
  deriving DecidableEq, Repr

/-- The sum `time + _skew` in `unsigned long`.
Modelled from the spec: `tracing::get_clock_skew` is declared in `library/tracing.hpp`,
which is not part of the sources at hand; the skew it returns is taken as an integer that
is added to a device timestamp in 64-bit unsigned arithmetic ("subtracted/added
consistently across all records"). -/
def add_skew (time : Nat) (_skew : Int) : Nat :=
  ((Int.ofNat time + _skew) % 2 ^ 64).toNat

/-- The inverse of the correction, following the words of the specification ("applying
the computed skew to a device timestamp and then its inverse"): the skew is subtracted
in 64-bit unsigned arithmetic. -/
def remove_skew (time : Nat) (_skew : Int) : Nat :=
  ((Int.ofNat time - _skew) % 2 ^ 64).toNat

/-- Body of the loop of the buffer-complete callback `complete` for one record
(ompt.cpp:408-462): the call of `component::ompt::record` it makes, if any.
`type_label` and `optype_label` stand for `tim::openmp::get_enum_label` on record types
(0 for target submit, 1 for target data op) and on data-op types. -/
def complete_record (type_label optype_label : Nat → Name) (_skew : Int)
    (_record : Option ompt_record_ompt_t) : Option ompt_span :=
  match _record with
  | none => none
  | some r =>
    let beg_time := add_skew r.time _skew
    match r.record with
    | .target_kernel host_op_id _ _ data_end_time =>
      some { name := type_label 0, id := host_op_id, beg_time := beg_time,
             end_time := add_skew data_end_time _skew, thread_id := r.thread_id,
             target_id := r.target_id }
    | .target_data_op host_op_id optype _ data_end_time =>
      some { name := optype_label optype, id := host_op_id, beg_time := beg_time,
             end_time := add_skew data_end_time _skew, thread_id := r.thread_id,
             target_id := r.target_id }
    | .other => none

/-- The buffer-complete callback `complete(device_num, buffer, bytes, begin,
buffer_owned)`: the calls of `component::ompt::record` it makes. `records` are the
records `get_record_ompt` yields at the successive cursor positions, until
`advance_buffer_cursor` sets the cursor to 0 (a null record is `none`). -/
def complete (type_label optype_label : Nat → Name) (_skew : Int)
    (records : List (Option ompt_record_ompt_t)) : List ompt_span :=
  records.filterMap (complete_record type_label optype_label _skew)

/-- The device interval of a record the decoder records: its `time` and the `end_time` of
its target-kernel or target-data-op member. -/
def device_interval (_record : Option ompt_record_ompt_t) : Option (Nat × Nat) :=
  match _record with
  | none => none
  | some r =>
    match r.record with
    | .target_kernel _ _ _ data_end_time => some (r.time, data_end_time)
    | .target_data_op _ _ _ data_end_time => some (r.time, data_end_time)
    | .other => none

/-! ### Agent registry: `client_data::set_agents` (`rocprofiler-sdk/fwd.cpp`) -/

/-- The loop of `client_data::set_agents` over the sorted agents: a CPU agent is appended
to `cpu_agents` and a GPU agent to `gpu_agents`, each with the size of its list as its
device index. -/
def set_agents_lists (agents : List rocprofiler_agent_v0_t)
    (lists : List tool_agent × List tool_agent) : List tool_agent × List tool_agent :=
  agents.foldl (fun acc itr =>
    if itr.type = .ROCPROFILER_AGENT_TYPE_CPU then
      (acc.1 ++ [{ device_id := acc.1.length, agent := itr }], acc.2)
    else if itr.type = .ROCPROFILER_AGENT_TYPE_GPU then
      (acc.1, acc.2 ++ [{ device_id := acc.2.length, agent := itr }])
    else acc) lists

/-- Method `client_data::set_agents(agent_vec_t&& _agents_v)`: stores the agents sorted
by `node_id`, clears both tool-agent lists and fills them from the sorted agents. -/
def client_data.set_agents (d : client_data) (_agents_v : List rocprofiler_agent_v0_t) :
    client_data :=
  let agents :=
    std_sort (fun lhs rhs : rocprofiler_agent_v0_t => lhs.node_id < rhs.node_id) _agents_v
  let lists := set_agents_lists agents ([], [])
  { d with agents := agents, cpu_agents := lists.1, gpu_agents := lists.2 }

/-- The agents of a node with two GPUs and two CPUs, as the backend may enumerate them. -/
def sample.enumerated_agents : List rocprofiler_agent_v0_t :=
  [{ id := 101, type := .ROCPROFILER_AGENT_TYPE_GPU, node_id := 3 },
   { id := 2, type := .ROCPROFILER_AGENT_TYPE_CPU, node_id := 1 },
   { id := 100, type := .ROCPROFILER_AGENT_TYPE_GPU, node_id := 2 },
   { id := 1, type := .ROCPROFILER_AGENT_TYPE_CPU, node_id := 0 }]

/-! ### Version decoding of `rocprofiler_configure` -/

/-- Width of `uint32_t`. -/
def uint32_size : Nat := 2 ^ 32

/-- Lines 1279-1282 of `rocprofiler_configure`: the triple `(major, minor, patch)` computed
from the `uint32_t` argument `version`, each component a `uint32_t`. -/
def rocprofiler_configure_version (version : Nat) : Nat × Nat × Nat :=
  let major := (version / 10000) % uint32_size
  let minor := ((version % 10000) / 100) % uint32_size
  let patch := (version % 100) % uint32_size
  (major, minor, patch)

/-- The ENTER callback record of `roctxRangePushA("A")`. -/
def sample.push_enter : rocprofiler_callback_tracing_record_t :=
  (marker_call.push "A".toList).record

/-- State of the sample system on a thread with one started range (hash 9) and no pushed
range. -/
def sample.state_started : tool_state Nat :=
  { tool_data := some sample.tool_data, marker_started_ranges := [9] }

/-! ### Counter dispatch callback: `dispatch_counting_service_callback` -/

/-- Function `dispatch_counting_service_callback(dispatch_data, config, user_data,
callback_data_arg)`. `callback_data_arg` is the tool data the pointer refers to and
`config` the handle `*config` holds on entry, none standing for a null pointer; the result
is the handle `*config` holds after the call. -/
def dispatch_counting_service_callback
    (dispatch_data : rocprofiler_dispatch_counting_service_data_t) (config : Option Nat)
    (callback_data_arg : Option client_data) : Option Nat :=
  match callback_data_arg, config with
  | some _data, some current =>
    match umap.find _data.agent_counter_profiles dispatch_data.dispatch_info.agent_id with
    | some (some profile) => some profile
    | _ => some current
  | _, _ => config

/-- Tool data of the sample system after the first profile of agent 100 was created. -/
def sample.tool_data_first_profile : client_data :=
  { sample.tool_data with agent_counter_profiles := [(100, some 1)] }

/-- State of the sample system after `create_agent_profile` for agent 100 with the
request `SQ_WAVES`: handle 1 is cached for the agent. -/
def sample.state_first_profile : tool_state Nat :=
  { sample.state0 with
    tool_data := some sample.tool_data_first_profile
    backend := { profile_configs := [(100, [8])] } }

/-! ### Operation filters and tracing domains (`core/rocprofiler-sdk.cpp`) -/

/-- List of pairwise distinct elements standing for a `std::unordered_set`, in its
iteration order. -/
abbrev uset (A : Type) := List A

namespace uset

variable {A : Type} [DecidableEq A]

/-- Insertion that keeps an element already present, `emplace(a)`. -/
def emplace (s : uset A) (a : A) : uset A :=
  if a ∈ s then s else s ++ [a]

/-- Removal of an element, `erase(a)`. -/
def erase (s : uset A) (a : A) : uset A :=
  s.filter (fun x => decide (x ≠ a))

end uset

/-- The call `tim::delimit(line, delimiters)` of the timemory library: the maximal runs
of characters of `line` that are not delimiters, in order (empty tokens are dropped). -/
def delimit (line : Name) (delimiters : Name) : List Name :=
  (line.splitOnP (fun c => decide (c ∈ delimiters))).filter (fun token => !token.isEmpty)

/-- The struct `operation_options`: the names of the three settings of a domain. -/
structure operation_options where
  operations_include : Name := []
  operations_exclude : Name := []
  operations_annotate_backtrace : Name := []
  deriving DecidableEq, Repr

/-- What the functions of `core/rocprofiler-sdk.cpp` read from outside: the operation
table of every callback kind (`get_callback_tracing_names()[kind].items()`, operation id
and name, the name possibly null), the domain names by index
(`get_callback_tracing_names()[idx].name` with the kind `idx` converts to), the string
settings (`get_setting_value<std::string>`), the valid choices of `ROCPROFSYS_ROCM_DOMAINS`,
the regular-expression engine (`std::regex{ pattern, icase }`, none when the pattern does
not compile, followed by `std::regex_search`) and the table
`callback_operation_option_names` that `config_settings` fills; and the same for the buffer
kinds (`get_buffer_tracing_names()`, `buffered_operation_option_names`). -/
structure core_environment where
  callback_tracing_items : rocprofiler_callback_tracing_kind_t → List (Int × Option Name) :=
    fun _ => []
  callback_tracing_names : List (rocprofiler_callback_tracing_kind_t × Name) := []
  get_setting_value : Name → Option Name := fun _ => none
  domain_choices : List Name := []
  regex : Name → Option (Name → Bool) := fun _ => none
  callback_operation_option_names :
    umap rocprofiler_callback_tracing_kind_t operation_options := []
  buffer_tracing_items : rocprofiler_buffer_tracing_kind_t → List (Int × Option Name) :=
    fun _ => []
  buffer_tracing_names : List (rocprofiler_buffer_tracing_kind_t × Name) := []
  buffered_operation_option_names :
    umap rocprofiler_buffer_tracing_kind_t operation_options := []

/-- Function `get_operations_impl(_complete, _include, _exclude)` (lines 196-217). -/
def get_operations_impl (_complete _include _exclude : uset Int) : List Int :=
  let _convert (_dset : uset Int) : List Int := std_sort (fun a b : Int => a < b) _dset
  if _include.isEmpty && _exclude.isEmpty then _convert _complete
  else
    let _ret := if _include.isEmpty then _complete else _include
    _convert (_exclude.foldl uset.erase _ret)

/-- The inner loop of `get_operations_impl(kindv, optname)` (lines 141-150) for one
pattern `itr` of the setting: every operation of the table whose name the pattern matches
is added to `_ret`. -/
def get_operations_impl_matching (env : core_environment) (items : List (Int × Option Name))
    (itr : Name) (_ret : uset Int) : Except Fault (uset Int) :=
  items.foldlM
    (fun _ret iitr =>
      match env.regex itr with
      | none => .error (.thrown "regex_error")
      | some _re =>
        match iitr.2 with
        | some name => if _re name then .ok (uset.emplace _ret iitr.1) else .ok _ret
        | none => .ok _ret) _ret

/-- Function `get_operations_impl(kindv, optname)` for a callback kind (lines 115-154):
every named operation of the kind other than `none` when `optname` is empty, else the
operations whose name one of the patterns of the setting `optname` matches. -/
def get_operations_impl_callback (env : core_environment)
    (kindv : rocprofiler_callback_tracing_kind_t) (optname : Name) :
    Except Fault (uset Int) :=
  if optname.isEmpty then
    .ok ((env.callback_tracing_items kindv).foldl
      (fun _ret iitr =>
        match iitr.2 with
        | some name => if name ≠ "none".toList then uset.emplace _ret iitr.1 else _ret
        | none => _ret) [])
  else
    match env.get_setting_value optname with
    | none => .error (.aborted "no setting")
    | some _val =>
      if _val.isEmpty then .ok []
      else
        (delimit _val " ,;:\n\t".toList).foldlM
          (fun _ret itr =>
            get_operations_impl_matching env (env.callback_tracing_items kindv) itr _ret) []

/-- Function `get_operations(kindv)` for a callback kind (lines 498-512): the operations
registered with the backend for the kind. -/
def get_operations (env : core_environment) (kindv : rocprofiler_callback_tracing_kind_t) :
    Except Fault (List Int) :=
  match umap.find env.callback_operation_option_names kindv with
  | none => .error (.aborted "callback_operation_operation_names does not have value")
  | some options =>
    match get_operations_impl_callback env kindv [] with
    | .error f => .error f
    | .ok _complete =>
      match get_operations_impl_callback env kindv options.operations_include with
      | .error f => .error f
      | .ok _include =>
        match get_operations_impl_callback env kindv options.operations_exclude with
        | .error f => .error f
        | .ok _exclude => .ok (get_operations_impl _complete _include _exclude)

/-- An operation of a callback kind is matched by a filter value: one of the patterns of
the value (its tokens between the delimiters) compiles and matches the name of the
operation. -/
def operation_matched (env : core_environment) (kindv : rocprofiler_callback_tracing_kind_t)
    (_val : Name) (operation : Int) : Prop :=
  ∃ itr ∈ delimit _val " ,;:\n\t".toList, ∃ _re name, env.regex itr = some _re ∧
    (operation, some name) ∈ env.callback_tracing_items kindv ∧ _re name = true

/-- Operation settings of the marker kind in a sample configuration. -/
def sample.marker_options : operation_options :=
  { operations_include := "INCLUDE".toList, operations_exclude := "EXCLUDE".toList,
    operations_annotate_backtrace := "BACKTRACE".toList }

/-- A sample configuration: the marker kind has the operations `roctxMarkA` (0),
`roctxRangePushA` (1), `roctxRangePop` (2) and a `none` entry (5); the inclusive filter
is `Range` and the exclusive filter is `Pop`; a pattern matches the names that contain
it. -/
def sample.core_env : core_environment :=
  { callback_tracing_items := fun kindv =>
      if kindv = .ROCPROFILER_CALLBACK_TRACING_MARKER_CORE_API then
        [(2, some "roctxRangePop".toList), (0, some "roctxMarkA".toList), (5, some "none".toList),
         (1, some "roctxRangePushA".toList)]
      else []
    get_setting_value := fun optname =>
      if optname = "INCLUDE".toList then some "Range".toList
      else if optname = "EXCLUDE".toList then some "Pop".toList
      else if optname = "BACKTRACE".toList then some []
      else none
    regex := fun pattern => some (fun name => (string_find pattern name).isSome)
    callback_operation_option_names :=
      [(.ROCPROFILER_CALLBACK_TRACING_MARKER_CORE_API, sample.marker_options)] }

/-- The sample configuration with the inclusive filter `NoSuch`, a value that is given but
matches the name of no operation. -/
def sample.core_env_unmatched : core_environment :=
  { sample.core_env with
    get_setting_value := fun optname =>
      if optname = "INCLUDE".toList then some "NoSuch".toList
      else if optname = "EXCLUDE".toList then some "Pop".toList
      else if optname = "BACKTRACE".toList then some []
      else none }

/-- Function `to_lower(_val)`: every character through `::tolower`. -/
def to_lower (_val : Name) : Name :=
  _val.map Char.toLower

/-- Function `get_callback_domains()` (lines 349-420): the callback kinds selected by the
setting `ROCPROFSYS_ROCM_DOMAINS`. -/
def get_callback_domains (env : core_environment) :
    Except Fault (uset rocprofiler_callback_tracing_kind_t) :=
  let supported : uset rocprofiler_callback_tracing_kind_t :=
    [.ROCPROFILER_CALLBACK_TRACING_HSA_CORE_API,
     .ROCPROFILER_CALLBACK_TRACING_HSA_AMD_EXT_API,
     .ROCPROFILER_CALLBACK_TRACING_HSA_IMAGE_EXT_API,
     .ROCPROFILER_CALLBACK_TRACING_HSA_FINALIZE_EXT_API,
     .ROCPROFILER_CALLBACK_TRACING_HIP_RUNTIME_API,
     .ROCPROFILER_CALLBACK_TRACING_HIP_COMPILER_API,
     .ROCPROFILER_CALLBACK_TRACING_MARKER_CORE_API,
     .ROCPROFILER_CALLBACK_TRACING_CODE_OBJECT]
  let _domains :=
    delimit ((env.get_setting_value "ROCPROFSYS_ROCM_DOMAINS".toList).getD [])
      " ,;:\t\n".toList
  let valid_choices := env.domain_choices
  let invalid_domain (domainv : Name) : Bool :=
    !valid_choices.any (fun aitr => decide (aitr = domainv))
  _domains.foldlM
    (fun _data itr =>
      if invalid_domain itr then
        rocprofsys_throw "unsupported ROCPROFSYS_ROCM_DOMAINS value"
      else if itr = "hsa_api".toList then
        .ok ([rocprofiler_callback_tracing_kind_t.ROCPROFILER_CALLBACK_TRACING_HSA_CORE_API,
              .ROCPROFILER_CALLBACK_TRACING_HSA_AMD_EXT_API,
              .ROCPROFILER_CALLBACK_TRACING_HSA_IMAGE_EXT_API,
              .ROCPROFILER_CALLBACK_TRACING_HSA_FINALIZE_EXT_API].foldl uset.emplace _data)
      else if itr = "hip_api".toList then
        .ok ([rocprofiler_callback_tracing_kind_t.ROCPROFILER_CALLBACK_TRACING_HIP_COMPILER_API,
              .ROCPROFILER_CALLBACK_TRACING_HIP_COMPILER_API].foldl uset.emplace _data)
      else if itr = "marker_api".toList ∨ itr = "roctx".toList then
        .ok (uset.emplace _data .ROCPROFILER_CALLBACK_TRACING_MARKER_CORE_API)
      else
        -- the first index whose lower-cased name is the token and whose kind is supported
        match env.callback_tracing_names.find?
            (fun ditr => decide (itr = to_lower ditr.2) && decide (ditr.1 ∈ supported)) with
        | some ditr => .ok (uset.emplace _data ditr.1)
        | none => .ok _data) []

/-- A sample configuration of the tracing domains: the callback kinds under their backend
names, every domain name a valid choice, and the setting `ROCPROFSYS_ROCM_DOMAINS` holding
the given value. -/
def sample.domains_env (value : Name) : core_environment :=
  { callback_tracing_names :=
      [(.ROCPROFILER_CALLBACK_TRACING_NONE, "NONE".toList),
       (.ROCPROFILER_CALLBACK_TRACING_HSA_CORE_API, "HSA_CORE_API".toList),
       (.ROCPROFILER_CALLBACK_TRACING_HSA_AMD_EXT_API, "HSA_AMD_EXT_API".toList),
       (.ROCPROFILER_CALLBACK_TRACING_HSA_IMAGE_EXT_API, "HSA_IMAGE_EXT_API".toList),
       (.ROCPROFILER_CALLBACK_TRACING_HSA_FINALIZE_EXT_API, "HSA_FINALIZE_EXT_API".toList),
       (.ROCPROFILER_CALLBACK_TRACING_HIP_RUNTIME_API, "HIP_RUNTIME_API".toList),
       (.ROCPROFILER_CALLBACK_TRACING_HIP_COMPILER_API, "HIP_COMPILER_API".toList),
       (.ROCPROFILER_CALLBACK_TRACING_MARKER_CORE_API, "MARKER_CORE_API".toList),
       (.ROCPROFILER_CALLBACK_TRACING_MARKER_CONTROL_API, "MARKER_CONTROL_API".toList),
       (.ROCPROFILER_CALLBACK_TRACING_MARKER_NAME_API, "MARKER_NAME_API".toList),
       (.ROCPROFILER_CALLBACK_TRACING_CODE_OBJECT, "CODE_OBJECT".toList),
       (.ROCPROFILER_CALLBACK_TRACING_SCRATCH_MEMORY, "SCRATCH_MEMORY".toList),
       (.ROCPROFILER_CALLBACK_TRACING_KERNEL_DISPATCH, "KERNEL_DISPATCH".toList),
       (.ROCPROFILER_CALLBACK_TRACING_MEMORY_COPY, "MEMORY_COPY".toList),
       (.ROCPROFILER_CALLBACK_TRACING_RCCL_API, "RCCL_API".toList)]
    domain_choices :=
      ["hip_api".toList, "hip_compiler_api".toList, "hip_runtime_api".toList,
       "hsa_amd_ext_api".toList, "hsa_api".toList, "hsa_core_api".toList,
       "hsa_finalize_ext_api".toList, "hsa_image_ext_api".toList,
       "kernel_dispatch".toList, "marker_api".toList, "memory_copy".toList,
       "rccl_api".toList, "scratch_memory".toList]
    get_setting_value := fun optname =>
      if optname = "ROCPROFSYS_ROCM_DOMAINS".toList then some value else none }

/-! ### Buffer kinds, backtrace operations and counter events (`core/rocprofiler-sdk.cpp`) -/

/-- Function `get_operations_impl(kindv, optname)` for a buffer kind (lines 155-193):
every named operation of the kind other than `none` when `optname` is empty, else the
operations whose name one of the patterns of the setting `optname` matches. -/
def get_operations_impl_buffered (env : core_environment)
    (kindv : rocprofiler_buffer_tracing_kind_t) (optname : Name) :
    Except Fault (uset Int) :=
  if optname.isEmpty then
    .ok ((env.buffer_tracing_items kindv).foldl
      (fun _ret iitr =>
        match iitr.2 with
        | some name => if name ≠ "none".toList then uset.emplace _ret iitr.1 else _ret
        | none => _ret) [])
  else
    match env.get_setting_value optname with
    | none => .error (.aborted "no setting")
    | some _val =>
      if _val.isEmpty then .ok []
      else
        (delimit _val " ,;:\n\t".toList).foldlM
          (fun _ret itr =>
            get_operations_impl_matching env (env.buffer_tracing_items kindv) itr _ret) []

/-- Function `get_operations(kindv)` for a buffer kind (lines 514-528): the operations
registered with the backend for the kind. -/
def get_operations_buffered (env : core_environment)
    (kindv : rocprofiler_buffer_tracing_kind_t) : Except Fault (List Int) :=
  match umap.find env.buffered_operation_option_names kindv with
  | none => .error (.aborted "buffered_operation_option_names does not have value")
  | some options =>
    match get_operations_impl_buffered env kindv [] with
    | .error f => .error f
    | .ok _complete =>
      match get_operations_impl_buffered env kindv options.operations_include with
      | .error f => .error f
      | .ok _include =>
        match get_operations_impl_buffered env kindv options.operations_exclude with
        | .error f => .error f
        | .ok _exclude => .ok (get_operations_impl _complete _include _exclude)

/-- Function `get_backtrace_operations(kindv)` for a callback kind (lines 530-544): the
operations of the kind that the setting `operations_annotate_backtrace` selects. -/
def get_backtrace_operations (env : core_environment)
    (kindv : rocprofiler_callback_tracing_kind_t) : Except Fault (uset Int) :=
  match umap.find env.callback_operation_option_names kindv with
  | none => .error (.aborted "callback_operation_operation_names does not have value")
  | some options =>
    match get_operations_impl_callback env kindv options.operations_annotate_backtrace with
    | .error f => .error f
    | .ok _data => .ok (_data.foldl uset.emplace [])

/-- Function `get_buffered_domains()` (lines 422-488): the buffer kinds selected by the
setting `ROCPROFSYS_ROCM_DOMAINS`. -/
def get_buffered_domains (env : core_environment) :
    Except Fault (uset rocprofiler_buffer_tracing_kind_t) :=
  let supported : uset rocprofiler_buffer_tracing_kind_t :=
    [.ROCPROFILER_BUFFER_TRACING_KERNEL_DISPATCH,
     .ROCPROFILER_BUFFER_TRACING_MEMORY_COPY,
     .ROCPROFILER_BUFFER_TRACING_PAGE_MIGRATION,
     .ROCPROFILER_BUFFER_TRACING_SCRATCH_MEMORY]
  let _domains :=
    delimit ((env.get_setting_value "ROCPROFSYS_ROCM_DOMAINS".toList).getD [])
      " ,;:\t\n".toList
  let valid_choices := env.domain_choices
  let invalid_domain (domainv : Name) : Bool :=
    !valid_choices.any (fun aitr => decide (aitr = domainv))
  _domains.foldlM
    (fun _data itr =>
      if invalid_domain itr then
        rocprofsys_throw "unsupported ROCPROFSYS_ROCM_DOMAINS value"
      else if itr = "hsa_api".toList then
        .ok ([rocprofiler_buffer_tracing_kind_t.ROCPROFILER_BUFFER_TRACING_HSA_CORE_API,
              .ROCPROFILER_BUFFER_TRACING_HSA_AMD_EXT_API,
              .ROCPROFILER_BUFFER_TRACING_HSA_IMAGE_EXT_API,
              .ROCPROFILER_BUFFER_TRACING_HSA_FINALIZE_EXT_API].foldl uset.emplace _data)
      else if itr = "hip_api".toList then
        .ok ([rocprofiler_buffer_tracing_kind_t.ROCPROFILER_BUFFER_TRACING_HIP_COMPILER_API,
              .ROCPROFILER_BUFFER_TRACING_HIP_COMPILER_API].foldl uset.emplace _data)
      else if itr = "marker_api".toList ∨ itr = "roctx".toList then
        .ok (uset.emplace _data .ROCPROFILER_BUFFER_TRACING_MARKER_CORE_API)
      else
        -- the first index whose lower-cased name is the token and whose kind is supported
        match env.buffer_tracing_names.find?
            (fun ditr => decide (itr = to_lower ditr.2) && decide (ditr.1 ∈ supported)) with
        | some ditr => .ok (uset.emplace _data ditr.1)
        | none => .ok _data) []

/-- Function `get_rocm_events()` (lines 490-496): the counter requests of the setting
`ROCPROFSYS_ROCM_EVENTS`. -/
def get_rocm_events (env : core_environment) : List Name :=
  delimit ((env.get_setting_value "ROCPROFSYS_ROCM_EVENTS".toList).getD []) " ,;\t\n".toList

/-! ### Initialization: `ROCPROFILER_CALL`, `client_data::initialize`, `tool_init` -/

/-- The calls of the backend that `tool_init` (and `client_data::initialize`, which it
runs) wraps in `ROCPROFILER_CALL`. -/
inductive backend_call where
  /-- The call `rocprofiler_query_available_agents` of `client_data::initialize`. -/
  | query_available_agents
  /-- The call `rocprofiler_create_context(&_data->primary_ctx)`. -/
  | create_primary_context
  /-- Callback tracing of `ROCPROFILER_CALLBACK_TRACING_CODE_OBJECT` on the primary
  context. -/
  | configure_code_object_tracing
  /-- Callback tracing of an API kind on the primary context, for the operations
  `_ops`. -/
  | configure_callback_tracing (kind : rocprofiler_callback_tracing_kind_t)
      (_ops : List Int)
  /-- The call `rocprofiler_create_buffer(..., &_data->kernel_dispatch_buffer)`. -/
  | create_kernel_dispatch_buffer
  /-- Buffer tracing of `ROCPROFILER_BUFFER_TRACING_KERNEL_DISPATCH`. -/
  | configure_kernel_dispatch_tracing
  /-- The call `rocprofiler_create_buffer(..., &_data->memory_copy_buffer)`. -/
  | create_memory_copy_buffer
  /-- Buffer tracing of `ROCPROFILER_BUFFER_TRACING_MEMORY_COPY`, for the operations
  `_ops`. -/
  | configure_memory_copy_tracing (_ops : List Int)
  /-- The call `rocprofiler_create_context(&_data->counter_ctx)`. -/
  | create_counter_context
  /-- Callback tracing of `ROCPROFILER_CALLBACK_TRACING_KERNEL_DISPATCH` on the counter
  context. -/
  | configure_kernel_dispatch_callback
  /-- The call `rocprofiler_configure_callback_dispatch_counting_service`. -/
  | configure_dispatch_counting
  /-- The call `rocprofiler_create_callback_thread` made for a buffer. -/
  | create_callback_thread (buffer : Nat)
  /-- The call `rocprofiler_assign_callback_thread` made for a buffer. -/
  | assign_callback_thread (buffer : Nat)
  /-- The call `rocprofiler_create_context(&_local_ctx)` of the throwaway context. -/
  | create_control_context
  /-- Callback tracing of `ROCPROFILER_CALLBACK_TRACING_MARKER_CONTROL_API` on the
  throwaway context. -/
  | configure_control_tracing
  deriving DecidableEq, Repr

/-- What the backend answers while `tool_init` runs. -/
structure backend_replies where
  /-- Whether a call returns `ROCPROFILER_STATUS_SUCCESS`. -/
  succeeds : backend_call → Bool := fun _ => true
  /-- The handle a create call leaves in the context or buffer id it is passed. -/
  handle : backend_call → Nat := fun _ => 0
  /-- Answer of `is_valid(ctx)`: `rocprofiler_context_is_valid` succeeds and reports a
  positive status. -/
  context_is_valid : Nat → Bool := fun ctx => decide (ctx > 0)
  /-- Info version and agents the backend passes to the callback of
  `rocprofiler_query_available_agents`, none when it does not run the callback. -/
  available_agents : Option (Nat × List rocprofiler_agent_v0_t) := some (0, [])

/-- The constant `ROCPROFILER_AGENT_INFO_VERSION_0`.
Modelled from the spec: the enumerator is declared in a header of the backend
(`rocprofiler-sdk/agent.h`), which is not part of the sources at hand; only that the
callback compares the version it is passed with it is used. -/
def ROCPROFILER_AGENT_INFO_VERSION_0 : Nat := 0

/-- ROCPROFILER_CALL(result) (`fwd.hpp:233-252`) for a call the backend answers: a status
other than `ROCPROFILER_STATUS_SUCCESS` is logged through `ROCPROFSYS_WARNING` with the
text of the call; the macro does nothing else, whatever the status. `text` stands for the
text of the call: the name of the backend function and, where `tool_init` makes the call
more than once, the object the call fills. -/
def rocprofiler_call {V : Type} (replies : backend_replies) (call : backend_call)
    (text : String) (st : tool_state V) : tool_state V :=
  rocprofiler_call_status (replies.succeeds call) text st

/-- The tool state after an update of the tool data `*tool_data`. -/
def tool_state.with_data {V : Type} (st : tool_state V) (f : client_data → client_data) :
    tool_state V :=
  { st with tool_data := st.tool_data.map f }

/-- Method `client_data::initialize()` on the tool data of the state: queries the agents
of the backend, whose callback aborts on an unexpected info version and otherwise stores
the agents through `set_agents`. (The two name tables it fetches are part of
`externals`.) -/
def initialize_client_data {V : Type} (replies : backend_replies) (st : tool_state V) :
    Except Fault (tool_state V) :=
  let enumerated : Except Fault (tool_state V) :=
    match replies.available_agents with
    | none => .ok st
    | some (version, _agents_v) =>
      match conditional_abort (decide (version ≠ ROCPROFILER_AGENT_INFO_VERSION_0))
          "rocprofiler agent info version != expected agent info version" with
      | .error f => .error f
      | .ok _ => .ok (st.with_data (fun d => d.set_agents _agents_v))
  match enumerated with
  | .error f => .error f
  | .ok st1 =>
    .ok (rocprofiler_call replies .query_available_agents
      "rocprofiler_query_available_agents" st1)

/-- The API kinds `tool_init` iterates over to configure callback tracing, in order. -/
def traced_api_kinds : List rocprofiler_callback_tracing_kind_t :=
  [.ROCPROFILER_CALLBACK_TRACING_HSA_CORE_API,
   .ROCPROFILER_CALLBACK_TRACING_HSA_AMD_EXT_API,
   .ROCPROFILER_CALLBACK_TRACING_HSA_IMAGE_EXT_API,
   .ROCPROFILER_CALLBACK_TRACING_HSA_FINALIZE_EXT_API,
   .ROCPROFILER_CALLBACK_TRACING_HIP_RUNTIME_API,
   .ROCPROFILER_CALLBACK_TRACING_HIP_COMPILER_API,
   .ROCPROFILER_CALLBACK_TRACING_MARKER_CORE_API]

/-- The body of the loop at lines 994-1011 of `tool_init` for the API kind `itr`: when the
kind is among the callback domains, its operations are computed (`get_operations`), its
backtrace operations are computed and recorded (`get_backtrace_operations`) and callback
tracing is configured on the primary context for the operations. -/
def tool_init_callback_service {V : Type} (env : core_environment)
    (replies : backend_replies)
    (_callback_domains : uset rocprofiler_callback_tracing_kind_t)
    (st : tool_state V) (itr : rocprofiler_callback_tracing_kind_t) :
    Except Fault (tool_state V) :=
  if _callback_domains.count itr > 0 then
    match get_operations env itr with
    | .error f => .error f
    | .ok _ops =>
      match get_backtrace_operations env itr with
      | .error f => .error f
      | .ok _bt =>
        .ok (rocprofiler_call replies (.configure_callback_tracing itr _ops)
          "rocprofiler_configure_callback_tracing_service"
          (st.with_data (fun d => { d with backtrace_operations :=
            (umap.emplace d.backtrace_operations itr _bt).1 })))
  else .ok st

/-- Lines 994-1011 of `tool_init`: the loop over the API kinds. -/
def tool_init_callback_services {V : Type} (env : core_environment)
    (replies : backend_replies)
    (_callback_domains : uset rocprofiler_callback_tracing_kind_t)
    (st : tool_state V) : Except Fault (tool_state V) :=
  traced_api_kinds.foldlM (tool_init_callback_service env replies _callback_domains) st

/-- Lines 1016-1036 of `tool_init`: when kernel dispatches are among the buffered domains,
the kernel-dispatch buffer is created and buffer tracing is configured on it. -/
def tool_init_kernel_dispatch_buffer {V : Type} (replies : backend_replies)
    (_buffered_domain : uset rocprofiler_buffer_tracing_kind_t) (st : tool_state V) :
    tool_state V :=
  if _buffered_domain.count .ROCPROFILER_BUFFER_TRACING_KERNEL_DISPATCH > 0 then
    rocprofiler_call replies .configure_kernel_dispatch_tracing
      "rocprofiler_configure_buffer_tracing_service"
      ((rocprofiler_call replies .create_kernel_dispatch_buffer
        "rocprofiler_create_buffer(&_data->kernel_dispatch_buffer)" st).with_data (fun d =>
          { d with kernel_dispatch_buffer := replies.handle .create_kernel_dispatch_buffer }))
  else st

/-- Lines 1038-1052 of `tool_init`: when memory copies are among the buffered domains, the
memory-copy buffer is created, the operations of the kind are computed (`get_operations`)
and buffer tracing is configured on the buffer for them. -/
def tool_init_memory_copy_buffer {V : Type} (env : core_environment)
    (replies : backend_replies)
    (_buffered_domain : uset rocprofiler_buffer_tracing_kind_t) (st : tool_state V) :
    Except Fault (tool_state V) :=
  if _buffered_domain.count .ROCPROFILER_BUFFER_TRACING_MEMORY_COPY > 0 then
    let st1 := (rocprofiler_call replies .create_memory_copy_buffer
      "rocprofiler_create_buffer(&_data->memory_copy_buffer)" st).with_data (fun d =>
        { d with memory_copy_buffer := replies.handle .create_memory_copy_buffer })
    match get_operations_buffered env .ROCPROFILER_BUFFER_TRACING_MEMORY_COPY with
    | .error f => .error f
    | .ok _ops =>
      .ok (rocprofiler_call replies (.configure_memory_copy_tracing _ops)
        "rocprofiler_configure_buffer_tracing_service" st1)
  else .ok st

/-- Lines 1054-1088 of `tool_init`: when counter events are requested, the profile of
every GPU agent is created, then the counter context is created and its two services are
configured. -/
def tool_init_counter_services {V : Type} (replies : backend_replies)
    (_counter_events : List Name) (st : tool_state V) : Except Fault (tool_state V) :=
  if !_counter_events.isEmpty then
    match st.tool_data with
    | none => .error .null_dereference
    | some _data =>
      match tool_init_agent_profiles _counter_events _data.gpu_agents st with
      | .error f => .error f
      | .ok st1 =>
        .ok (rocprofiler_call replies .configure_dispatch_counting
          "rocprofiler_configure_callback_dispatch_counting_service"
          (rocprofiler_call replies .configure_kernel_dispatch_callback
            "rocprofiler_configure_callback_tracing_service"
            ((rocprofiler_call replies .create_counter_context
              "rocprofiler_create_context(&_data->counter_ctx)" st1).with_data (fun d =>
                { d with counter_ctx := replies.handle .create_counter_context }))))
  else .ok st

/-- Lines 1090-1098 of `tool_init`: every buffer with a valid handle gets a callback
thread. -/
def tool_init_callback_threads {V : Type} (replies : backend_replies) (st : tool_state V) :
    tool_state V :=
  match st.tool_data with
  | none => st
  | some _data =>
    _data.get_buffers.foldl (fun s itr =>
      if itr > 0 then
        rocprofiler_call replies (.assign_callback_thread itr)
          "rocprofiler_assign_callback_thread"
          (rocprofiler_call replies (.create_callback_thread itr)
            "rocprofiler_create_callback_thread" s)
      else s) st

/-- Lines 985-986 of `tool_init`: `_data->initialize()`, then
`_data->initialize_event_info()` when counter events are requested. -/
def tool_init_client_data {V : Type} (replies : backend_replies)
    (_counter_events : List Name)
    (initialize_event_info : client_data → Except Fault client_data)
    (st : tool_state V) : Except Fault (tool_state V) :=
  match initialize_client_data replies st with
  | .error f => .error f
  | .ok st1 =>
    if !_counter_events.isEmpty then
      match st1.tool_data with
      | none => .error .null_dereference
      | some d =>
        match initialize_event_info d with
        | .error f => .error f
        | .ok d1 => .ok { st1 with tool_data := some d1 }
    else .ok st1

/-- Lines 988-992 of `tool_init`: the primary context is created and callback tracing of
the code objects is configured on it. -/
def tool_init_primary_context {V : Type} (replies : backend_replies) (st : tool_state V) :
    tool_state V :=
  rocprofiler_call replies .configure_code_object_tracing
    "rocprofiler_configure_callback_tracing_service"
    ((rocprofiler_call replies .create_primary_context
      "rocprofiler_create_context(&_data->primary_ctx)" st).with_data (fun d =>
        { d with primary_ctx := replies.handle .create_primary_context }))

/-- Lines 988-1052 of `tool_init`: the primary context, then callback tracing of the API
kinds and buffer tracing on it. -/
def tool_init_primary_services {V : Type} (env : core_environment)
    (replies : backend_replies)
    (_callback_domains : uset rocprofiler_callback_tracing_kind_t)
    (_buffered_domain : uset rocprofiler_buffer_tracing_kind_t)
    (st : tool_state V) : Except Fault (tool_state V) :=
  match tool_init_callback_services env replies _callback_domains
      (tool_init_primary_context replies st) with
  | .error f => .error f
  | .ok st1 =>
    tool_init_memory_copy_buffer env replies _buffered_domain
      (tool_init_kernel_dispatch_buffer replies _buffered_domain st1)

/-- Lines 1090-1108 of `tool_init`: the callback threads of the buffers, and the throwaway
context for the profiler control API with its callback tracing. -/
def tool_init_control_services {V : Type} (replies : backend_replies) (st : tool_state V) :
    tool_state V :=
  rocprofiler_call replies .configure_control_tracing
    "rocprofiler_configure_callback_tracing_service"
    (rocprofiler_call replies .create_control_context
      "rocprofiler_create_context(&_local_ctx)"
      (tool_init_callback_threads replies st))

/-- Lines 1110-1128 of `tool_init`: the status returned, -1 when the primary context is not
valid and else 0 after `start()`. -/
def tool_init_status {V : Type} (replies : backend_replies) (st : tool_state V) :
    Except Fault (tool_state V × Int) :=
  match st.tool_data with
  | none => .error .null_dereference
  | some _data =>
    if !replies.context_is_valid _data.primary_ctx then
      -- notify rocprofiler that initialization failed
      .ok (st, -1)
    else
      -- no errors
      .ok (start st, 0)

/-- Function `tool_init(fini_func, user_data)`, with `user_data` the tool data of the
state. The callback domains, the buffered domains and the counter events are read through
`get_callback_domains`, `get_buffered_domains` and `get_rocm_events`, and the operations
of a domain through `get_operations` and `get_backtrace_operations`, so that a throw or an
abort of one of them ends `tool_init`. `initialize_event_info` is the effect of
`client_data::initialize_event_info()` on the tool data. Yields the state after the call
and the status returned. The setting `ROCPROFSYS_ROCM_DOMAINS` that the first statement
looks up is the one `config_settings` registers. (The finalizer `client_fini`, the device
metadata of `gpu::add_device_metadata` and the state of `rocm_smi` are not part of the
state.) -/
def tool_init {V : Type} (env : core_environment) (replies : backend_replies)
    (initialize_event_info : client_data → Except Fault client_data)
    (st : tool_state V) : Except Fault (tool_state V × Int) :=
  match get_callback_domains env with
  | .error f => .error f
  | .ok _callback_domains =>
    match get_buffered_domains env with
    | .error f => .error f
    | .ok _buffered_domain =>
      let _counter_events := get_rocm_events env
      match st.tool_data with
      | none => .error .null_dereference
      | some _ =>
        match tool_init_client_data replies _counter_events initialize_event_info st with
        | .error f => .error f
        | .ok st1 =>
          match tool_init_primary_services env replies _callback_domains _buffered_domain
              st1 with
          | .error f => .error f
          | .ok st2 =>
            match tool_init_counter_services replies _counter_events st2 with
            | .error f => .error f
            | .ok st3 => tool_init_status replies (tool_init_control_services replies st3)

/-- Replies of a backend that creates every context but fails to create the
kernel-dispatch buffer; the primary context gets handle 1 and the throwaway context
handle 2. -/
def sample.replies_buffer_fails : backend_replies :=
  { succeeds := fun call => decide (call ≠ .create_kernel_dispatch_buffer)
    handle := fun call =>
      if call = .create_primary_context then 1
      else if call = .create_control_context then 2
      else 0
    available_agents := some (0, sample.enumerated_agents) }

/-- What every step of `tool_init` after the creation of the primary context keeps: the
handle of the primary context held by the tool data stays as it is, and the log of
warnings is only added to. -/
def keeps_primary_ctx {V : Type} (st0 st1 : tool_state V) : Prop :=
  st1.tool_data.map (fun d => d.primary_ctx) = st0.tool_data.map (fun d => d.primary_ctx) ∧
    st0.warnings <+: st1.warnings

/-- Replies of a backend that creates the primary context (handle 1) but fails to create
the counter context, and does not enumerate agents again. -/
def sample.replies_counter_context_fails : backend_replies :=
  { succeeds := fun call => decide (call ≠ .create_counter_context)
    handle := fun call => if call = .create_primary_context then 1 else 0
    available_agents := none }

/-- Replies of a backend that creates everything, except that it refuses to trace the
marker operations `[1]`; the primary context gets handle 1. -/
def sample.replies_marker_tracing_fails : backend_replies :=
  { succeeds := fun call => decide (call ≠
      .configure_callback_tracing .ROCPROFILER_CALLBACK_TRACING_MARKER_CORE_API [1])
    handle := fun call => if call = .create_primary_context then 1 else 0
    available_agents := none }

/-- The warning `ROCPROFILER_CALL` logs for a failed call of the given text. -/
def rocprofiler_call_warning (text : String) : String :=
  "rocprofiler-sdk call [" ++ text ++ "] failed"

/-- A sample configuration for `tool_init`: the marker operations and filters of
`sample.core_env`, the callback kinds of `sample.domains_env`, the buffer kinds under
their backend names, the memory-copy operations with empty filters, and the settings
`ROCPROFSYS_ROCM_DOMAINS` and `ROCPROFSYS_ROCM_EVENTS` holding the given values. -/
def sample.init_env (domains events : Name) : core_environment :=
  { callback_tracing_items := sample.core_env.callback_tracing_items
    callback_tracing_names := (sample.domains_env domains).callback_tracing_names
    domain_choices := (sample.domains_env domains).domain_choices
    regex := sample.core_env.regex
    callback_operation_option_names := sample.core_env.callback_operation_option_names
    get_setting_value := fun optname =>
      if optname = "ROCPROFSYS_ROCM_DOMAINS".toList then some domains
      else if optname = "ROCPROFSYS_ROCM_EVENTS".toList then some events
      else if optname = "MEMORY_COPY_INCLUDE".toList then some []
      else if optname = "MEMORY_COPY_EXCLUDE".toList then some []
      else sample.core_env.get_setting_value optname
    buffer_tracing_items := fun kindv =>
      if kindv = .ROCPROFILER_BUFFER_TRACING_MEMORY_COPY then
        [(0, some "MEMORY_COPY_NONE".toList), (1, some "MEMORY_COPY_HOST_TO_HOST".toList),
         (2, some "MEMORY_COPY_HOST_TO_DEVICE".toList)]
      else []
    buffer_tracing_names :=
      [(.ROCPROFILER_BUFFER_TRACING_NONE, "NONE".toList),
       (.ROCPROFILER_BUFFER_TRACING_HSA_CORE_API, "HSA_CORE_API".toList),
       (.ROCPROFILER_BUFFER_TRACING_HSA_AMD_EXT_API, "HSA_AMD_EXT_API".toList),
       (.ROCPROFILER_BUFFER_TRACING_HSA_IMAGE_EXT_API, "HSA_IMAGE_EXT_API".toList),
       (.ROCPROFILER_BUFFER_TRACING_HSA_FINALIZE_EXT_API, "HSA_FINALIZE_EXT_API".toList),
       (.ROCPROFILER_BUFFER_TRACING_HIP_RUNTIME_API, "HIP_RUNTIME_API".toList),
       (.ROCPROFILER_BUFFER_TRACING_HIP_COMPILER_API, "HIP_COMPILER_API".toList),
       (.ROCPROFILER_BUFFER_TRACING_MARKER_CORE_API, "MARKER_CORE_API".toList),
       (.ROCPROFILER_BUFFER_TRACING_MARKER_CONTROL_API, "MARKER_CONTROL_API".toList),
       (.ROCPROFILER_BUFFER_TRACING_MARKER_NAME_API, "MARKER_NAME_API".toList),
       (.ROCPROFILER_BUFFER_TRACING_MEMORY_COPY, "MEMORY_COPY".toList),
       (.ROCPROFILER_BUFFER_TRACING_KERNEL_DISPATCH, "KERNEL_DISPATCH".toList),
       (.ROCPROFILER_BUFFER_TRACING_PAGE_MIGRATION, "PAGE_MIGRATION".toList),
       (.ROCPROFILER_BUFFER_TRACING_SCRATCH_MEMORY, "SCRATCH_MEMORY".toList),
       (.ROCPROFILER_BUFFER_TRACING_CORRELATION_ID_RETIREMENT,
         "CORRELATION_ID_RETIREMENT".toList),
       (.ROCPROFILER_BUFFER_TRACING_RCCL_API, "RCCL_API".toList)]
    buffered_operation_option_names :=
      [(.ROCPROFILER_BUFFER_TRACING_MEMORY_COPY,
        { operations_include := "MEMORY_COPY_INCLUDE".toList
          operations_exclude := "MEMORY_COPY_EXCLUDE".toList
          operations_annotate_backtrace := "MEMORY_COPY_BACKTRACE".toList })] }

/-! ### Marker control: `tool_control_callback` -/

/-- The enumerator `ROCPROFILER_CODE_OBJECT_LOAD`.
Modelled from the spec: the enumeration is declared in a backend header that is not part
of the sources at hand; only that the two enumerators differ is used. -/
def ROCPROFILER_CODE_OBJECT_LOAD : Int := 1

/-- The enumerator `ROCPROFILER_CODE_OBJECT_DEVICE_KERNEL_SYMBOL_REGISTER`.
Modelled from the spec: the enumeration is declared in a backend header that is not part
of the sources at hand; only that the two enumerators differ is used. -/
def ROCPROFILER_CODE_OBJECT_DEVICE_KERNEL_SYMBOL_REGISTER : Int := 2

/-- Function `tool_code_object_callback(record, user_data, callback_data)`; `ts` is the
reading of `rocprofiler_get_timestamp`. The code-object load records are read by no
function at hand and are left out of the state, so a load only needs the tool data. -/
def tool_code_object_callback {V : Type} (record : rocprofiler_callback_tracing_record_t)
    (ts : Nat) (st : tool_state V) : Except Fault (tool_state V) :=
  if record.kind = .ROCPROFILER_CALLBACK_TRACING_CODE_OBJECT then
    if record.phase = .ROCPROFILER_CALLBACK_PHASE_ENTER then
      if record.operation = ROCPROFILER_CODE_OBJECT_LOAD then
        match st.tool_data with
        | none => .error .null_dereference
        | some _ => .ok st
      else if record.operation = ROCPROFILER_CODE_OBJECT_DEVICE_KERNEL_SYMBOL_REGISTER then
        match record.payload with
        | .kernel_symbol data_v =>
          match st.tool_data with
          | none => .error .null_dereference
          | some td =>
            .ok { st with tool_data := some { td with
                    kernel_symbol_records := td.kernel_symbol_records ++
                      [{ timestamp := ts, payload := data_v }] } }
        | _ => .error .null_dereference
      else .ok st
    else .ok st
  else .ok st

/-- Delivers a sequence of code-object callbacks, each with its clock reading, in
order. -/
def deliver_code_object_callbacks {V : Type} :
    List (rocprofiler_callback_tracing_record_t × Nat) → tool_state V →
    Except Fault (tool_state V)
  | [], st => .ok st
  | d :: rest, st =>
    match tool_code_object_callback d.1 d.2 st with
    | .error f => .error f
    | .ok st1 => deliver_code_object_callbacks rest st1

/-- The record is an ENTER-phase kernel-symbol-register record for the kernel id. -/
def registers_kernel (record : rocprofiler_callback_tracing_record_t) (_kernel_id : Nat) :
    Prop :=
  record.kind = .ROCPROFILER_CALLBACK_TRACING_CODE_OBJECT ∧
  record.phase = .ROCPROFILER_CALLBACK_PHASE_ENTER ∧
  record.operation = ROCPROFILER_CODE_OBJECT_DEVICE_KERNEL_SYMBOL_REGISTER ∧
  ∃ data_v, record.payload = .kernel_symbol data_v ∧ data_v.kernel_id = _kernel_id

/-- The ENTER-phase kernel-symbol-register record of a kernel. -/
def sample.register_kernel (_kernel_id : Nat) (kernel_name : Name) :
    rocprofiler_callback_tracing_record_t :=
  { kind := .ROCPROFILER_CALLBACK_TRACING_CODE_OBJECT
    operation := ROCPROFILER_CODE_OBJECT_DEVICE_KERNEL_SYMBOL_REGISTER
    phase := .ROCPROFILER_CALLBACK_PHASE_ENTER
    payload := .kernel_symbol { kernel_id := _kernel_id, kernel_name := kernel_name } }

/-- The ENTER-phase record of a code-object load. -/
def sample.code_object_load : rocprofiler_callback_tracing_record_t :=
  { kind := .ROCPROFILER_CALLBACK_TRACING_CODE_OBJECT
    operation := ROCPROFILER_CODE_OBJECT_LOAD
    phase := .ROCPROFILER_CALLBACK_PHASE_ENTER }

/-- Kernel 6 registered as `first` at 1, a code-object load at 2, kernel 6 registered
again as `second` at 3. -/
def sample.registrations : List (rocprofiler_callback_tracing_record_t × Nat) :=
  [(sample.register_kernel 6 "first".toList, 1), (sample.code_object_load, 2),
   (sample.register_kernel 6 "second".toList, 3)]

/-- State of the sample system after the callbacks of `sample.registrations`. -/
def sample.state_registered : tool_state Nat :=
  { sample.state0 with
    tool_data := some { sample.tool_data with
      kernel_symbol_records := sample.tool_data.kernel_symbol_records ++
        [{ timestamp := 1, payload := { kernel_id := 6, kernel_name := "first".toList } },
         { timestamp := 3, payload := { kernel_id := 6, kernel_name := "second".toList } }] } }

/-! ### Frame keys of the backtrace annotations -/

/-- The constant `bt_stack_depth` of `tool_tracing_callback`: the number of frames
`tim::get_unw_stack` captures at most. -/
def bt_stack_depth : Nat := 16

/-- The two-digit key of frame `n`, following the wording of the specification: `frame#`
followed by the tens digit and the units digit of `n`. -/
def two_digit_frame_key (n : Nat) : Name :=
  "frame#".toList ++ [Char.ofNat ('0'.toNat + n / 10), Char.ofNat ('0'.toNat + n % 10)]

/-- The key `tool_tracing_callback_stop` gives the frame with count `_bt_cnt`
(lines 378-389), numbers rendered in decimal. -/
def frame_key (_bt_cnt : Nat) : Name :=
  if _bt_cnt < 10 then "frame#0".toList ++ (Nat.repr _bt_cnt).toList
  else "frame#".toList ++ (Nat.repr _bt_cnt).toList

/-- Sixteen resolved frames. -/
def sample.sixteen_frames : List processed_entry :=
  List.replicate 16 { name := "f".toList }

/-! ### Requests with and without a device qualifier -/

namespace umap

variable {K A : Type} [DecidableEq K]

theorem find_eq_none_iff (m : umap K A) (k : K) :
    find m k = none ↔ k ∉ m.map Prod.fst := by
  induction m with
  | nil => simp [find]
  | cons p rest ih =>
    obtain ⟨k', a⟩ := p
    by_cases h : k' = k
    · simp [find, h]
    · simp [find, h, ih, Ne.symm h]

theorem find_isSome_iff (m : umap K A) (k : K) :
    (find m k).isSome ↔ k ∈ m.map Prod.fst := by
  rw [← not_iff_not, Option.not_isSome_iff_eq_none, find_eq_none_iff]

theorem find_append (m : umap K A) (k k' : K) (a : A) :
    find (m ++ [(k, a)]) k' =
      match find m k' with
      | some x => some x
      | none => if k = k' then some a else none := by
  induction m with
  | nil => simp [find]
  | cons p rest ih =>
    obtain ⟨k0, a0⟩ := p
    by_cases h : k0 = k'
    · simp [find, h]
    · have e : ((k0, a0) :: rest) ++ [(k, a)] = (k0, a0) :: (rest ++ [(k, a)]) := rfl
      rw [e]
      simp only [find, h, if_false]
      exact ih

theorem find_modify (m : umap K A) (k k' : K) (f : A → A) :
    find (modify m k f) k' = if k' = k then (find m k).map f else find m k' := by
  induction m with
  | nil => simp [find, modify]
  | cons p rest ih =>
    obtain ⟨k0, a0⟩ := p
    by_cases h : k0 = k
    · subst h
      by_cases h' : k' = k0
      · subst h'; simp [find, modify]
      · have h2 : ¬ k0 = k' := fun e => h' e.symm
        simp only [modify, if_true, find, h2, if_false, ih, h']
    · by_cases h2 : k0 = k'
      · subst h2
        simp [find, modify, h]
      · simp only [modify, h, if_false, find, h2, ih]

theorem keys_modify (m : umap K A) (k : K) (f : A → A) :
    (modify m k f).map Prod.fst = m.map Prod.fst := by
  induction m with
  | nil => simp [modify]
  | cons p rest ih =>
    obtain ⟨k0, a0⟩ := p
    by_cases h : k0 = k <;> simp [modify, h, ih]

theorem find_erase (m : umap K A) (k k' : K) :
    find (erase m k) k' = if k' = k then none else find m k' := by
  induction m with
  | nil => simp [find, erase]
  | cons p rest ih =>
    obtain ⟨k0, a0⟩ := p
    by_cases h : k0 = k
    · subst h
      by_cases h' : k' = k0
      · subst h'; simpa [erase] using ih
      · have h2 : ¬ k0 = k' := fun e => h' e.symm
        simp only [erase, if_true, find, h2, if_false, ih, h']
    · by_cases h2 : k0 = k'
      · subst h2
        simp [find, erase, h]
      · simp only [erase, h, if_false, find, h2, ih]

end umap

/-! ### Aggregation of a counter batch -/

section aggregation

variable {V : Type} [Add V]

theorem aggregate_records_keys (ext : externals) (recs : List (rocprofiler_record_counter_t V))
    (acc : umap Nat (rocprofiler_record_counter_t V)) (c : Nat) :
    c ∈ (aggregate_records ext recs acc).map Prod.fst ↔
      c ∈ acc.map Prod.fst ∨ c ∈ recs.map (fun r => ext.query_record_counter_id r.id) := by
  induction recs generalizing acc with
  | nil => simp [aggregate_records]
  | cons record rest ih =>
    unfold aggregate_records
    cases hf : umap.find acc (ext.query_record_counter_id record.id) with
    | some a0 =>
      have hmem : ext.query_record_counter_id record.id ∈ acc.map Prod.fst := by
        rw [← umap.find_isSome_iff, hf]; rfl
      simp only [umap.emplace, hf, Bool.not_false, if_true]
      rw [ih, umap.keys_modify]
      constructor
      · rintro (h | h)
        · exact Or.inl h
        · exact Or.inr (List.mem_cons_of_mem _ h)
      · rintro (h | h)
        · exact Or.inl h
        · rcases List.mem_cons.1 h with h | h
          · exact Or.inl (h ▸ hmem)
          · exact Or.inr h
    | none =>
      simp only [umap.emplace, hf, Bool.not_true]
      rw [if_neg (by simp), ih]
      simp only [List.map_append, List.map_cons, List.map_nil, List.mem_append,
        List.mem_singleton, List.mem_cons]
      tauto

theorem aggregate_records_nodup (ext : externals)
    (recs : List (rocprofiler_record_counter_t V))
    (acc : umap Nat (rocprofiler_record_counter_t V)) (h : (acc.map Prod.fst).Nodup) :
    ((aggregate_records ext recs acc).map Prod.fst).Nodup := by
  induction recs generalizing acc with
  | nil => simpa [aggregate_records] using h
  | cons record rest ih =>
    unfold aggregate_records
    cases hf : umap.find acc (ext.query_record_counter_id record.id) with
    | some a0 =>
      simp only [umap.emplace, hf, Bool.not_false, if_true]
      apply ih
      rw [umap.keys_modify]; exact h
    | none =>
      simp only [umap.emplace, hf, Bool.not_true]
      rw [if_neg (by simp)]
      apply ih
      have hn := (umap.find_eq_none_iff acc _).1 hf
      rw [List.map_append, List.nodup_append]
      refine ⟨h, by simp, ?_⟩
      intro a ha hb
      simp only [List.map_cons, List.map_nil, List.mem_singleton] at hb
      exact hn (hb ▸ ha)

theorem aggregate_records_find (ext : externals)
    (recs : List (rocprofiler_record_counter_t V))
    (acc : umap Nat (rocprofiler_record_counter_t V)) (c : Nat) :
    umap.find (aggregate_records ext recs acc) c =
      match umap.find acc c with
      | some a =>
        some { a with counter_value := (
          (recs.filter (fun x => decide (ext.query_record_counter_id x.id = c))).foldl
            (fun s x => s + x.counter_value) a.counter_value) }
      | none =>
        match recs.filter (fun x => decide (ext.query_record_counter_id x.id = c)) with
        | [] => none
        | r :: rs =>
          some { r with counter_value := (
            rs.foldl (fun s x => s + x.counter_value) r.counter_value) } := by
  induction recs generalizing acc with
  | nil =>
    cases h : umap.find acc c <;> simp [aggregate_records, h]
  | cons record rest ih =>
    unfold aggregate_records
    cases hf : umap.find acc (ext.query_record_counter_id record.id) with
    | some a0 =>
      simp only [umap.emplace, hf, Bool.not_false, if_true]
      rw [ih, umap.find_modify]
      by_cases hc : c = ext.query_record_counter_id record.id
      · subst hc
        simp [hf]
      · have hc' : ¬ ext.query_record_counter_id record.id = c := fun e => hc e.symm
        simp [hc, hc']
    | none =>
      simp only [umap.emplace, hf, Bool.not_true]
      rw [if_neg (by simp), ih, umap.find_append]
      by_cases hc : c = ext.query_record_counter_id record.id
      · subst hc
        simp [hf]
      · have hc' : ¬ ext.query_record_counter_id record.id = c := fun e => hc e.symm
        cases hfc : umap.find acc c <;> simp [hc']

end aggregation

/-! ### The loop of `counter_record_callback` over the aggregated entries -/

theorem track_of_nested_modify {V : Type} (m : agent_counter_storage_map_t V) (agent c : Nat)
    (tracks tracks1 : umap Nat (counter_storage V)) (base t1 : counter_storage V)
    (hacc : umap.find m agent = some tracks) (hbase : umap.find tracks1 c = some base) :
    (∃ tr, umap.find (umap.modify m agent
        (fun _ => umap.modify tracks1 c (fun _ => t1))) agent = some tr) ∧
    track_of (umap.modify m agent (fun _ => umap.modify tracks1 c (fun _ => t1))) agent c
      = some t1 ∧
    (∀ c', c' ≠ c →
      track_of (umap.modify m agent (fun _ => umap.modify tracks1 c (fun _ => t1))) agent c'
        = umap.find tracks1 c') ∧
    (∀ a, a ≠ agent →
      umap.find (umap.modify m agent (fun _ => umap.modify tracks1 c (fun _ => t1))) a
        = umap.find m a) := by
  refine ⟨⟨_, by rw [umap.find_modify, if_pos rfl, hacc]; rfl⟩, ?_, ?_, ?_⟩
  · simp [track_of, umap.find_modify, hacc, hbase]
  · intro c' hc'
    simp [track_of, umap.find_modify, hacc, hc']
  · intro a ha
    rw [umap.find_modify, if_neg ha]

section counter_loop

variable {V : Type} [Zero V]

theorem umap.find_append_of_ne {K A : Type} [DecidableEq K] (m : umap K A) (k k' : K) (a : A)
    (h : k' ≠ k) : umap.find (m ++ [(k, a)]) k' = umap.find m k' := by
  rw [umap.find_append]
  cases hf : umap.find m k' with
  | some x => rfl
  | none => simp [Ne.symm h]

theorem umap.find_append_self {K A : Type} [DecidableEq K] (m : umap K A) (k : K) (a : A)
    (h : umap.find m k = none) : umap.find (m ++ [(k, a)]) k = some a := by
  rw [umap.find_append, h]; simp

theorem counter_record_entry_ok (cfg : settings) (ext : externals) (td : client_data)
    (dd : rocprofiler_dispatch_counting_service_data_t) (did agent : Nat)
    (iv : timing_interval) (acc : agent_counter_storage_map_t V × List (counter_sample V))
    (c : Nat) (rec : rocprofiler_record_counter_t V) (ta : tool_agent)
    (info : rocprofiler_tool_counter_info_t) (ks : kernel_symbol_data_t)
    (tracks : umap Nat (counter_storage V))
    (hag : td.get_gpu_tool_agent agent = some ta)
    (hinfo : td.get_tool_counter_info agent c = .ok (some info))
    (hks : td.get_kernel_symbol_info dd.dispatch_info.kernel_id = some ks)
    (hacc : umap.find acc.1 agent = some tracks) :
    ∃ m1 base,
      base = (track_of acc.1 agent c).getD
        (counter_storage.mk_from V ext td (ta.device_id % 2 ^ 32) 0 info.name) ∧
      counter_record_entry cfg ext (some td) dd did agent iv acc (c, rec) =
        .ok (m1, acc.2 ++
          (if iv.start > 0 ∧ iv.end_ > iv.start then
            (if cfg.use_perfetto then step_samples base.track_name iv rec.counter_value
             else [])
           else [])) ∧
      (∃ tracks1, umap.find m1 agent = some tracks1) ∧
      track_of m1 agent c = some (base.store
        [⟨ext.demangle ks.kernel_name, dd.dispatch_info.queue_id, rec.counter_value⟩]) ∧
      (∀ c', c' ≠ c → track_of m1 agent c' = track_of acc.1 agent c') ∧
      (∀ a, a ≠ agent → umap.find m1 a = umap.find acc.1 a) := by
  cases hc : umap.find tracks c with
  | none =>
    have hb := umap.find_append_self tracks c
      (counter_storage.mk_from V ext td (ta.device_id % 2 ^ 32) 0 info.name) hc
    obtain ⟨h1, h2, h3, h4⟩ := track_of_nested_modify acc.1 agent c tracks _ _
      ((counter_storage.mk_from V ext td (ta.device_id % 2 ^ 32) 0 info.name).store
        [⟨ext.demangle ks.kernel_name, dd.dispatch_info.queue_id, rec.counter_value⟩])
      hacc hb
    refine ⟨_, counter_storage.mk_from V ext td (ta.device_id % 2 ^ 32) 0 info.name, ?_, ?_,
      h1, h2, ?_, h4⟩
    · simp [track_of, hacc, hc]
    · simp only [counter_record_entry, hacc, umap.count, hc, if_true, hag, hinfo,
        umap.emplace, hb, counter_storage.call, counter_event.call, hks]
      by_cases hv : iv.start > 0 ∧ iv.end_ > iv.start
      · by_cases hp : cfg.use_perfetto = true
        · simp [hv, hp, step_samples]
        · simp [hv, hp]
      · simp [hv]
    · intro c' hc'
      rw [h3 c' hc', umap.find_append_of_ne _ _ _ _ hc']
      simp [track_of, hacc]
  | some t =>
    obtain ⟨h1, h2, h3, h4⟩ := track_of_nested_modify acc.1 agent c tracks tracks t
      (t.store
        [⟨ext.demangle ks.kernel_name, dd.dispatch_info.queue_id, rec.counter_value⟩])
      hacc hc
    refine ⟨_, t, ?_, ?_, h1, h2, ?_, h4⟩
    · simp [track_of, hacc, hc]
    · simp only [counter_record_entry, hacc, umap.count, hc, counter_storage.call,
        counter_event.call, hks]
      by_cases hv : iv.start > 0 ∧ iv.end_ > iv.start
      · by_cases hp : cfg.use_perfetto = true
        · simp [hv, hp, hc, step_samples]
        · simp [hv, hp, hc]
      · simp [hv, hc]
    · intro c' hc'
      rw [h3 c' hc']
      simp [track_of, hacc]

end counter_loop

section counter_loop_all

variable {V : Type} [Zero V]

theorem counter_record_loop_ok (cfg : settings) (ext : externals) (td : client_data)
    (dd : rocprofiler_dispatch_counting_service_data_t) (did agent : Nat)
    (iv : timing_interval) (ta : tool_agent) (ks : kernel_symbol_data_t)
    (mk : Nat → counter_storage V)
    (hag : td.get_gpu_tool_agent agent = some ta)
    (hks : td.get_kernel_symbol_info dd.dispatch_info.kernel_id = some ks)
    (l : List (Nat × rocprofiler_record_counter_t V)) (hnd : (l.map Prod.fst).Nodup)
    (hinfo : ∀ e ∈ l, ∃ info, td.get_tool_counter_info agent e.1 = .ok (some info) ∧
      mk e.1 = counter_storage.mk_from V ext td (ta.device_id % 2 ^ 32) 0 info.name)
    (acc : agent_counter_storage_map_t V × List (counter_sample V))
    (hacc : ∃ tracks, umap.find acc.1 agent = some tracks) :
    ∃ m1,
      counter_record_loop cfg ext (some td) dd did agent iv l acc =
        .ok (m1, acc.2 ++ l.flatMap (fun e =>
          if iv.start > 0 ∧ iv.end_ > iv.start then
            (if cfg.use_perfetto then
              step_samples ((track_of acc.1 agent e.1).getD (mk e.1)).track_name iv
                e.2.counter_value
             else [])
          else [])) ∧
      (∃ tracks1, umap.find m1 agent = some tracks1) ∧
      (∀ e ∈ l, track_of m1 agent e.1 =
        some (((track_of acc.1 agent e.1).getD (mk e.1)).store
          [⟨ext.demangle ks.kernel_name, dd.dispatch_info.queue_id, e.2.counter_value⟩])) ∧
      (∀ c, c ∉ l.map Prod.fst → track_of m1 agent c = track_of acc.1 agent c) ∧
      (∀ a, a ≠ agent → umap.find m1 a = umap.find acc.1 a) := by
  induction l generalizing acc with
  | nil =>
    exact ⟨acc.1, by simp [counter_record_loop], hacc, by simp, by simp, by simp⟩
  | cons e es ih =>
    obtain ⟨c, rec⟩ := e
    obtain ⟨tracks, htr⟩ := hacc
    obtain ⟨info, hi, hmk⟩ := hinfo (c, rec) (List.mem_cons_self _ _)
    obtain ⟨m1, base, hbase, hrun, hfind, hself, hother, hagents⟩ :=
      counter_record_entry_ok cfg ext td dd did agent iv acc c rec ta info ks tracks hag hi hks
        htr
    have hnd' : (es.map Prod.fst).Nodup := (List.nodup_cons.1 (by simpa using hnd)).2
    have hcnot : c ∉ es.map Prod.fst := (List.nodup_cons.1 (by simpa using hnd)).1
    have hne : ∀ e' ∈ es, e'.1 ≠ c := by
      intro e' he' heq
      exact hcnot (heq ▸ List.mem_map_of_mem Prod.fst he')
    obtain ⟨m2, hrun2, hfind2, hself2, hother2, hagents2⟩ :=
      ih hnd' (fun e' he' => hinfo e' (List.mem_cons_of_mem _ he'))
        (m1, acc.2 ++
          (if iv.start > 0 ∧ iv.end_ > iv.start then
            (if cfg.use_perfetto then step_samples base.track_name iv rec.counter_value
             else [])
           else [])) hfind
    have hbase' : base = (track_of acc.1 agent c).getD (mk c) := by rw [hbase, hmk]
    refine ⟨m2, ?_, hfind2, ?_, ?_, ?_⟩
    · simp only [counter_record_loop, hrun, hrun2, List.flatMap_cons, List.append_assoc]
      rw [← hbase']
      congr 4
      apply List.flatMap_congr
      intro e' he'
      simp only [hother e'.1 (hne e' he')]
    · intro e' he'
      rcases List.mem_cons.1 he' with h | h
      · subst h
        rw [hother2 c hcnot, hself, hbase']
      · rw [hself2 e' h]
        simp only [hother e'.1 (hne e' h)]
    · intro c' hc'
      have h1 : c' ≠ c := fun e => hc' (by simp [e])
      have h2 : c' ∉ es.map Prod.fst := fun e => hc' (by
        simp only [List.map_cons, List.mem_cons]; exact Or.inr e)
      rw [hother2 c' h2]
      exact hother c' h1
    · intro a ha
      rw [hagents2 a ha]
      exact hagents a ha

end counter_loop_all

theorem track_of_agent_slot {V : Type} (cs : agent_counter_storage_map_t V) (agent : Nat) :
    (∃ tracks, umap.find (if umap.count cs agent = 0 then (umap.emplace cs agent []).1 else cs)
      agent = some tracks) ∧
    (∀ c, track_of (if umap.count cs agent = 0 then (umap.emplace cs agent []).1 else cs)
      agent c = track_of cs agent c) ∧
    (∀ a, a ≠ agent →
      umap.find (if umap.count cs agent = 0 then (umap.emplace cs agent []).1 else cs) a =
        umap.find cs a) := by
  cases h : umap.find cs agent with
  | none =>
    have e : (if umap.count cs agent = 0 then (umap.emplace cs agent []).1 else cs) =
        cs ++ [(agent, [])] := by simp [umap.count, umap.emplace, h]
    rw [e]
    refine ⟨⟨[], umap.find_append_self _ _ _ h⟩, ?_, ?_⟩
    · intro c
      simp [track_of, umap.find_append_self _ _ _ h, h, umap.find]
    · intro a ha
      exact umap.find_append_of_ne _ _ _ _ ha
  | some tracks =>
    have e : (if umap.count cs agent = 0 then (umap.emplace cs agent []).1 else cs) = cs := by
      simp [umap.count, h]
    rw [e]
    exact ⟨⟨tracks, h⟩, fun _ => rfl, fun _ _ => rfl⟩

section counter_callback

variable {V : Type} [Add V] [Zero V]

/-- Complete description of a successful `counter_record_callback`: the interval taken
from the pending map, the resulting tracks and the samples written. -/
theorem counter_record_callback_ok (cfg : settings) (ext : externals) (st : tool_state V)
    (dd : rocprofiler_dispatch_counting_service_data_t)
    (recs : List (rocprofiler_record_counter_t V))
    (cs : agent_counter_storage_map_t V) (td : client_data) (ta : tool_agent)
    (ks : kernel_symbol_data_t)
    (hcs : st.agent_counter_storage = some cs) (htd : st.tool_data = some td)
    (hag : td.get_gpu_tool_agent dd.dispatch_info.agent_id = some ta)
    (hks : td.get_kernel_symbol_info dd.dispatch_info.kernel_id = some ks)
    (hinfo : ∀ r ∈ recs, ∃ info, td.get_tool_counter_info dd.dispatch_info.agent_id
      (ext.query_record_counter_id r.id) = .ok (some info))
    (iv : timing_interval) (pending : umap Nat timing_interval)
    (htaken : (iv, pending) =
      if umap.count st.kernel_dispatch_timestamps dd.dispatch_info.dispatch_id > 0 then
        ((umap.find st.kernel_dispatch_timestamps dd.dispatch_info.dispatch_id).getD {},
          umap.erase st.kernel_dispatch_timestamps dd.dispatch_info.dispatch_id)
      else ({}, st.kernel_dispatch_timestamps)) :
    ∃ cs1 : agent_counter_storage_map_t V, ∃ mk : Nat → counter_storage V,
      counter_record_callback cfg ext st dd recs =
        .ok { st with
              agent_counter_storage := some cs1
              kernel_dispatch_timestamps := pending
              counter_samples := st.counter_samples ++
                (aggregate_records ext recs []).flatMap (fun e =>
                  if iv.start > 0 ∧ iv.end_ > iv.start then
                    (if cfg.use_perfetto then
                      step_samples
                        ((track_of cs dd.dispatch_info.agent_id e.1).getD (mk e.1)).track_name
                        iv e.2.counter_value
                     else [])
                  else []) } ∧
      (∀ c, (mk c).storage = []) ∧
      (∀ e ∈ aggregate_records ext recs [], track_of cs1 dd.dispatch_info.agent_id e.1 =
        some (((track_of cs dd.dispatch_info.agent_id e.1).getD (mk e.1)).store
          [⟨ext.demangle ks.kernel_name, dd.dispatch_info.queue_id, e.2.counter_value⟩])) ∧
      (∀ c, c ∉ (aggregate_records ext recs []).map Prod.fst →
        track_of cs1 dd.dispatch_info.agent_id c = track_of cs dd.dispatch_info.agent_id c) ∧
      (∀ a, a ≠ dd.dispatch_info.agent_id → umap.find cs1 a = umap.find cs a) := by
  obtain ⟨hslot, hsame, hothers⟩ := track_of_agent_slot cs dd.dispatch_info.agent_id
  let mk : Nat → counter_storage V := fun c =>
    match td.get_tool_counter_info dd.dispatch_info.agent_id c with
    | .ok (some info) => counter_storage.mk_from V ext td (ta.device_id % 2 ^ 32) 0 info.name
    | _ => counter_storage.mk_from V ext td (ta.device_id % 2 ^ 32) 0 []
  have hmk : ∀ e ∈ aggregate_records ext recs [], ∃ info,
      td.get_tool_counter_info dd.dispatch_info.agent_id e.1 = .ok (some info) ∧
      mk e.1 = counter_storage.mk_from V ext td (ta.device_id % 2 ^ 32) 0 info.name := by
    intro e he
    have hk : e.1 ∈ (aggregate_records ext recs []).map Prod.fst :=
      List.mem_map_of_mem Prod.fst he
    rw [aggregate_records_keys] at hk
    rcases hk with hk | hk
    · simp at hk
    · obtain ⟨r, hr, hre⟩ := List.mem_map.1 hk
      obtain ⟨info, hi⟩ := hinfo r hr
      rw [hre] at hi
      exact ⟨info, hi, by simp only [mk, hi]⟩
  obtain ⟨m1, hrun, _, hself, hother, hagents⟩ :=
    counter_record_loop_ok cfg ext td dd dd.dispatch_info.dispatch_id
      dd.dispatch_info.agent_id iv ta ks mk hag hks (aggregate_records ext recs [])
      (aggregate_records_nodup ext recs [] (by simp)) hmk
      (if umap.count cs dd.dispatch_info.agent_id = 0 then
        (umap.emplace cs dd.dispatch_info.agent_id []).1 else cs, st.counter_samples) hslot
  have hiv := congrArg Prod.fst htaken
  have hpe := congrArg Prod.snd htaken
  simp only at hiv hpe
  refine ⟨m1, mk, ?_, ?_, ?_, ?_, ?_⟩
  · simp only [counter_record_callback, hcs, htd]
    rw [← hiv, ← hpe, hrun]
    simp only [hsame]
  · intro c
    simp only [mk]
    split <;> rfl
  · intro e he
    rw [hself e he]
    simp only [hsame]
  · intro c hc
    rw [hother c hc]
    exact hsame c
  · intro a ha
    rw [hagents a ha]
    exact hothers a ha

end counter_callback

/-! ### Claims on the counter aggregation engine -/

/-- C1. For every counter batch passed to `counter_record_callback` (on a live engine whose
agent, kernel and counters are known, so that the callback returns), `_aggregate` holds
exactly one entry per distinct counter id the records of the batch resolve to, and for
each such counter id the value stored on its track is the sum, in batch order, of the
`counter_value` of all records resolving to it: one value `v1 + v2 + ...` is appended to
the store of the track, not the last `v`. -/
theorem counter_record_callback_sums_batch {V : Type} [Add V] [Zero V] (cfg : settings)
    (ext : externals) (st : tool_state V)
    (dd : rocprofiler_dispatch_counting_service_data_t)
    (recs : List (rocprofiler_record_counter_t V))
    (cs : agent_counter_storage_map_t V) (td : client_data) (ta : tool_agent)
    (ks : kernel_symbol_data_t)
    (hcs : st.agent_counter_storage = some cs) (htd : st.tool_data = some td)
    (hag : td.get_gpu_tool_agent dd.dispatch_info.agent_id = some ta)
    (hks : td.get_kernel_symbol_info dd.dispatch_info.kernel_id = some ks)
    (hinfo : ∀ r ∈ recs, ∃ info, td.get_tool_counter_info dd.dispatch_info.agent_id
      (ext.query_record_counter_id r.id) = .ok (some info)) :
    ((aggregate_records ext recs []).map Prod.fst).Nodup ∧
    (∀ c, c ∈ (aggregate_records ext recs []).map Prod.fst ↔
      c ∈ recs.map (fun r => ext.query_record_counter_id r.id)) ∧
    ∃ st' cs', counter_record_callback cfg ext st dd recs = .ok st' ∧
      st'.agent_counter_storage = some cs' ∧
      ∀ c ∈ recs.map (fun r => ext.query_record_counter_id r.id),
        ∃ r rs track',
          recs.filter (fun x => decide (ext.query_record_counter_id x.id = c)) = r :: rs ∧
          umap.find (aggregate_records ext recs []) c =
            some { r with
              counter_value := (rs.foldl (fun s x => s + x.counter_value) r.counter_value) } ∧
          track_of cs' dd.dispatch_info.agent_id c = some track' ∧
          track'.storage =
            ((track_of cs dd.dispatch_info.agent_id c).map (fun t => t.storage)).getD [] ++
              [{ label := ext.demangle ks.kernel_name, queue := dd.dispatch_info.queue_id,
                 value := rs.foldl (fun s x => s + x.counter_value) r.counter_value }] := by
  refine ⟨aggregate_records_nodup ext recs [] (by simp), ?_, ?_⟩
  · intro c
    rw [aggregate_records_keys]
    simp
  obtain ⟨cs1, mk, hrun, hmk, hself, _, _⟩ :=
    counter_record_callback_ok cfg ext st dd recs cs td ta ks hcs htd hag hks hinfo _ _ rfl
  refine ⟨_, cs1, hrun, rfl, ?_⟩
  intro c hc
  have hfind := aggregate_records_find ext recs [] c
  simp only [umap.find] at hfind
  obtain ⟨r0, hr0, hr0c⟩ := List.mem_map.1 hc
  have hmemf : r0 ∈ recs.filter (fun x => decide (ext.query_record_counter_id x.id = c)) := by
    simp [List.mem_filter, hr0, hr0c]
  cases hfl : recs.filter (fun x => decide (ext.query_record_counter_id x.id = c)) with
  | nil => rw [hfl] at hmemf; simp at hmemf
  | cons r rs =>
    rw [hfl] at hfind
    simp only at hfind
    have hmem : (c, { r with
        counter_value := (rs.foldl (fun s x => s + x.counter_value) r.counter_value) }) ∈
        aggregate_records ext recs [] := by
      have hnd := aggregate_records_nodup ext recs [] (by simp)
      clear hself hrun
      revert hfind
      generalize aggregate_records ext recs [] = agg
      intro hfind
      induction agg with
      | nil => simp [umap.find] at hfind
      | cons p rest ih =>
        obtain ⟨k, a⟩ := p
        by_cases hk : k = c
        · subst hk
          simp only [umap.find, if_true, Option.some.injEq] at hfind
          rw [hfind]; exact List.mem_cons_self _ _
        · simp only [umap.find, hk, if_false] at hfind
          exact List.mem_cons_of_mem _ (ih hfind)
    refine ⟨r, rs, _, rfl, hfind, hself _ hmem, ?_⟩
    cases htr : track_of cs dd.dispatch_info.agent_id c with
    | none => simp [counter_storage.store, hmk]
    | some t => simp [counter_storage.store]

/-- C1, witness: in the two-GPU sample system the batch with values 3 and 4 for counter 7
stores their sum. -/
theorem counter_record_callback_sums_batch_witness :
    ∃ st' cs', counter_record_callback {} {} sample.state0 sample.dispatch42
        sample.batch = .ok st' ∧
      st'.agent_counter_storage = some cs' ∧
      ∃ track', track_of cs' 100 7 = some track' ∧
        track'.storage = [{ label := "kern".toList, queue := 3, value := 7 }] := by
  obtain ⟨_, _, st', cs', hrun, hcs', h⟩ :=
    @counter_record_callback_sums_batch Nat _ _ {} {} sample.state0
      sample.dispatch42 sample.batch [] sample.tool_data
      { device_id := 0, agent := { id := 100, type := .ROCPROFILER_AGENT_TYPE_GPU, node_id := 1 } }
      { kernel_id := 5, kernel_name := "kern".toList } rfl rfl rfl rfl
      (by
        intro r hr
        simp only [sample.batch, List.mem_cons, List.mem_singleton, List.not_mem_nil,
          or_false] at hr
        rcases hr with rfl | rfl | rfl <;> exact ⟨_, rfl⟩)
  obtain ⟨r, rs, track', hf, _, htr, hst⟩ := h 7 (by decide)
  refine ⟨st', cs', hrun, hcs', track', htr, ?_⟩
  have hf' : sample.batch.filter (fun x => decide (id x.id = 7)) =
      [{ id := 7, counter_value := 3 }, { id := 7, counter_value := 4 }] := by decide
  rw [hf'] at hf
  injection hf with h1 h2
  subst h1; subst h2
  simpa [track_of, umap.find] using hst

/-- Outcome of a successful `counter_record_callback` read off the resulting state: the
pending map after the call, the samples written (named by the resulting tracks) and the
value stored per aggregated entry. -/
theorem counter_record_callback_run {V : Type} [Add V] [Zero V] (cfg : settings)
    (ext : externals) (st : tool_state V)
    (dd : rocprofiler_dispatch_counting_service_data_t)
    (recs : List (rocprofiler_record_counter_t V))
    (cs : agent_counter_storage_map_t V) (td : client_data) (ta : tool_agent)
    (ks : kernel_symbol_data_t)
    (hcs : st.agent_counter_storage = some cs) (htd : st.tool_data = some td)
    (hag : td.get_gpu_tool_agent dd.dispatch_info.agent_id = some ta)
    (hks : td.get_kernel_symbol_info dd.dispatch_info.kernel_id = some ks)
    (hinfo : ∀ r ∈ recs, ∃ info, td.get_tool_counter_info dd.dispatch_info.agent_id
      (ext.query_record_counter_id r.id) = .ok (some info)) :
    ∃ st' cs', counter_record_callback cfg ext st dd recs = .ok st' ∧
      st'.agent_counter_storage = some cs' ∧
      st'.tool_data = st.tool_data ∧
      st'.kernel_dispatch_timestamps =
        umap.erase st.kernel_dispatch_timestamps dd.dispatch_info.dispatch_id ∧
      st'.counter_samples = st.counter_samples ++
        (aggregate_records ext recs []).flatMap (fun e =>
          if ((umap.find st.kernel_dispatch_timestamps dd.dispatch_info.dispatch_id).getD
                { start := 0, end_ := 0 }).start > 0 ∧
              ((umap.find st.kernel_dispatch_timestamps dd.dispatch_info.dispatch_id).getD
                { start := 0, end_ := 0 }).end_ >
              ((umap.find st.kernel_dispatch_timestamps dd.dispatch_info.dispatch_id).getD
                { start := 0, end_ := 0 }).start then
            (if cfg.use_perfetto then
              step_samples (track_name_of cs' dd.dispatch_info.agent_id e.1)
                ((umap.find st.kernel_dispatch_timestamps dd.dispatch_info.dispatch_id).getD
                  { start := 0, end_ := 0 })
                e.2.counter_value
             else [])
          else []) ∧
      (∀ e ∈ aggregate_records ext recs [],
        ∃ track', track_of cs' dd.dispatch_info.agent_id e.1 = some track' ∧
          track'.storage =
            ((track_of cs dd.dispatch_info.agent_id e.1).map (fun t => t.storage)).getD [] ++
              [{ label := ext.demangle ks.kernel_name, queue := dd.dispatch_info.queue_id,
                 value := e.2.counter_value }]) := by
  have hpend : ∀ (m : umap Nat timing_interval) (d : Nat),
      umap.find m d = none → umap.erase m d = m := by
    intro m d
    induction m with
    | nil => intro _; rfl
    | cons p rest ih =>
      obtain ⟨k, a⟩ := p
      by_cases hk : k = d
      · simp [umap.find, hk]
      · intro h
        simp only [umap.find, hk, if_false] at h
        simp only [umap.erase, hk, if_false, ih h]
  obtain ⟨cs1, mk, hrun, hmk, hself, _, _⟩ :=
    counter_record_callback_ok cfg ext st dd recs cs td ta ks hcs htd hag hks hinfo
      ((umap.find st.kernel_dispatch_timestamps dd.dispatch_info.dispatch_id).getD
        { start := 0, end_ := 0 })
      (umap.erase st.kernel_dispatch_timestamps dd.dispatch_info.dispatch_id)
      (by
        cases hf : umap.find st.kernel_dispatch_timestamps dd.dispatch_info.dispatch_id with
        | none => simp [umap.count, hf, hpend _ _ hf]
        | some iv => simp [umap.count, hf])
  refine ⟨_, cs1, hrun, rfl, rfl, rfl, ?_, ?_⟩
  · simp only
    congr 1
    apply List.flatMap_congr
    intro e he
    have hn : track_name_of cs1 dd.dispatch_info.agent_id e.1 =
        ((track_of cs dd.dispatch_info.agent_id e.1).getD (mk e.1)).track_name := by
      simp [track_name_of, hself e he, counter_storage.store]
    rw [hn]
  · intro e he
    refine ⟨_, hself e he, ?_⟩
    cases htr : track_of cs dd.dispatch_info.agent_id e.1 with
    | none => simp [counter_storage.store, hmk]
    | some t => simp [counter_storage.store]

theorem aggregate_records_entry {V : Type} [Add V] (ext : externals)
    (recs : List (rocprofiler_record_counter_t V)) (c : Nat)
    (hc : c ∈ recs.map (fun r => ext.query_record_counter_id r.id)) :
    ∃ r rs, recs.filter (fun x => decide (ext.query_record_counter_id x.id = c)) = r :: rs ∧
      (c, { r with
        counter_value := (rs.foldl (fun s x => s + x.counter_value) r.counter_value) }) ∈
        aggregate_records ext recs [] := by
  have hfind := aggregate_records_find ext recs [] c
  simp only [umap.find] at hfind
  obtain ⟨r0, hr0, hr0c⟩ := List.mem_map.1 hc
  have hmemf : r0 ∈ recs.filter (fun x => decide (ext.query_record_counter_id x.id = c)) := by
    simp [List.mem_filter, hr0, hr0c]
  cases hfl : recs.filter (fun x => decide (ext.query_record_counter_id x.id = c)) with
  | nil => rw [hfl] at hmemf; simp at hmemf
  | cons r rs =>
    rw [hfl] at hfind
    simp only at hfind
    refine ⟨r, rs, rfl, ?_⟩
    revert hfind
    generalize aggregate_records ext recs [] = agg
    intro hfind
    induction agg with
    | nil => simp [umap.find] at hfind
    | cons p rest ih =>
      obtain ⟨k, a⟩ := p
      by_cases hk : k = c
      · subst hk
        simp only [umap.find, if_true, Option.some.injEq] at hfind
        rw [hfind]; exact List.mem_cons_self _ _
      · simp only [umap.find, hk, if_false] at hfind
        exact List.mem_cons_of_mem _ (ih hfind)

/-- C7. `counter_record_callback` for dispatch id `d` (on a live engine whose agent, kernel
and counters are known, so that it returns) takes the pending dispatch-timing interval
once, before the loop over the counters: the interval used for every counter of the batch
is the pending `(start, end)` of `d` when the map holds `d` and `(0, 0)` otherwise; after
the call the map has no entry for `d`, every other entry is unchanged, and a map that did
not hold `d` is unchanged. In both cases, for every counter id a record of the batch
resolves to, the sum of the values of the records of the batch for that id is appended
to the store of its track rather than discarded, and with the trace sink enabled and a
valid interval the two samples of that sum at the start and the end of the interval taken
are written. -/
theorem counter_record_callback_takes_interval_once {V : Type} [Add V] [Zero V]
    (cfg : settings) (ext : externals) (st : tool_state V)
    (dd : rocprofiler_dispatch_counting_service_data_t)
    (recs : List (rocprofiler_record_counter_t V))
    (cs : agent_counter_storage_map_t V) (td : client_data) (ta : tool_agent)
    (ks : kernel_symbol_data_t)
    (hcs : st.agent_counter_storage = some cs) (htd : st.tool_data = some td)
    (hag : td.get_gpu_tool_agent dd.dispatch_info.agent_id = some ta)
    (hks : td.get_kernel_symbol_info dd.dispatch_info.kernel_id = some ks)
    (hinfo : ∀ r ∈ recs, ∃ info, td.get_tool_counter_info dd.dispatch_info.agent_id
      (ext.query_record_counter_id r.id) = .ok (some info)) :
    ∃ st' cs', counter_record_callback cfg ext st dd recs = .ok st' ∧
      st'.agent_counter_storage = some cs' ∧
      umap.find st'.kernel_dispatch_timestamps dd.dispatch_info.dispatch_id = none ∧
      (∀ d', d' ≠ dd.dispatch_info.dispatch_id →
        umap.find st'.kernel_dispatch_timestamps d' =
          umap.find st.kernel_dispatch_timestamps d') ∧
      (umap.find st.kernel_dispatch_timestamps dd.dispatch_info.dispatch_id = none →
        st'.kernel_dispatch_timestamps = st.kernel_dispatch_timestamps) ∧
      (∀ iv, iv = (umap.find st.kernel_dispatch_timestamps dd.dispatch_info.dispatch_id).getD
            { start := 0, end_ := 0 } →
        st'.counter_samples = st.counter_samples ++
          (aggregate_records ext recs []).flatMap (fun e =>
            if iv.start > 0 ∧ iv.end_ > iv.start then
              (if cfg.use_perfetto then
                step_samples (track_name_of cs' dd.dispatch_info.agent_id e.1) iv
                  e.2.counter_value
               else [])
            else [])) ∧
      (∀ e ∈ aggregate_records ext recs [],
        ∃ track', track_of cs' dd.dispatch_info.agent_id e.1 = some track' ∧
          track'.storage =
            ((track_of cs dd.dispatch_info.agent_id e.1).map (fun t => t.storage)).getD [] ++
              [{ label := ext.demangle ks.kernel_name, queue := dd.dispatch_info.queue_id,
                 value := e.2.counter_value }]) ∧
      (∀ c ∈ recs.map (fun r => ext.query_record_counter_id r.id),
        ∃ r rs track',
          recs.filter (fun x => decide (ext.query_record_counter_id x.id = c)) = r :: rs ∧
          track_of cs' dd.dispatch_info.agent_id c = some track' ∧
          track'.storage =
            ((track_of cs dd.dispatch_info.agent_id c).map (fun t => t.storage)).getD [] ++
              [{ label := ext.demangle ks.kernel_name, queue := dd.dispatch_info.queue_id,
                 value := rs.foldl (fun s x => s + x.counter_value) r.counter_value }] ∧
          ∀ iv, iv = (umap.find st.kernel_dispatch_timestamps
                dd.dispatch_info.dispatch_id).getD { start := 0, end_ := 0 } →
            iv.start > 0 ∧ iv.end_ > iv.start → cfg.use_perfetto = true →
            ∀ s ∈ step_samples (track_name_of cs' dd.dispatch_info.agent_id c) iv
                (rs.foldl (fun s x => s + x.counter_value) r.counter_value),
              s ∈ st'.counter_samples) := by
  obtain ⟨st', cs', hrun, hcs', _, hpend, hsamples, hstored⟩ :=
    counter_record_callback_run cfg ext st dd recs cs td ta ks hcs htd hag hks hinfo
  refine ⟨st', cs', hrun, hcs', ?_, ?_, ?_, ?_, hstored, ?_⟩
  · rw [hpend, umap.find_erase, if_pos rfl]
  · intro d' hd'
    rw [hpend, umap.find_erase, if_neg hd']
  · intro hnone
    rw [hpend]
    generalize st.kernel_dispatch_timestamps = m at hnone
    induction m with
    | nil => rfl
    | cons p rest ih =>
      obtain ⟨k, a⟩ := p
      by_cases hk : k = dd.dispatch_info.dispatch_id
      · simp [umap.find, hk] at hnone
      · simp only [umap.find, hk, if_false] at hnone
        simp only [umap.erase, hk, if_false, ih hnone]
  · intro iv hiv
    rw [hsamples, hiv]
  · intro c hc
    obtain ⟨r, rs, hfl, hmem⟩ := aggregate_records_entry ext recs c hc
    obtain ⟨track', htrack, hstorage⟩ := hstored _ hmem
    refine ⟨r, rs, track', hfl, htrack, hstorage, ?_⟩
    intro iv hiv hvalid hsink s hs
    rw [hsamples, ← hiv, List.mem_append]
    right
    rw [List.mem_flatMap]
    refine ⟨_, hmem, ?_⟩
    simp only [hvalid, and_self, if_true, hsink]
    exact hs

/-- C7, witness: in the sample system the batch of dispatch 42 (values 3 and 4 for
counter 7, value 1 for counter 8) consumes the pending interval (10, 20): the entry is
erased, the sums 7 and 1 are sampled at 10 with a zero at 20, and the sum 7 is stored on
the track of counter 7. The same batch for dispatch 43, for which no interval is pending,
leaves the map as it is, writes no sample and still stores the sum 7. -/
theorem counter_record_callback_takes_interval_once_witness :
    (∃ st' cs', counter_record_callback { use_perfetto := true } {} sample.state0
        sample.dispatch42 sample.batch = .ok st' ∧
      st'.agent_counter_storage = some cs' ∧
      umap.find st'.kernel_dispatch_timestamps 42 = none ∧
      st'.counter_samples.map (fun s => (s.timestamp, s.value)) =
        [(10, 7), (20, 0), (10, 1), (20, 0)] ∧
      ∃ track', track_of cs' 100 7 = some track' ∧
        track'.storage = [{ label := "kern".toList, queue := 3, value := 7 }]) ∧
    (∃ st' cs', counter_record_callback { use_perfetto := true } {} sample.state0
        sample.dispatch43 sample.batch = .ok st' ∧
      st'.agent_counter_storage = some cs' ∧
      st'.kernel_dispatch_timestamps = sample.state0.kernel_dispatch_timestamps ∧
      st'.counter_samples = [] ∧
      ∃ track', track_of cs' 100 7 = some track' ∧
        track'.storage = [{ label := "kern".toList, queue := 3, value := 7 }]) := by
  have hinfo : ∀ r ∈ sample.batch, ∃ info, sample.tool_data.get_tool_counter_info 100
      (({} : externals).query_record_counter_id r.id) = .ok (some info) := by
    intro r hr
    simp only [sample.batch, List.mem_cons, List.mem_singleton, List.not_mem_nil,
      or_false] at hr
    rcases hr with rfl | rfl | rfl <;> exact ⟨_, rfl⟩
  have hf : sample.batch.filter (fun x => decide (id x.id = 7)) =
      [{ id := 7, counter_value := 3 }, { id := 7, counter_value := 4 }] := by decide
  constructor
  · obtain ⟨st', cs', hrun, hcs', hgone, -, -, -, -, hbatch⟩ :=
      @counter_record_callback_takes_interval_once Nat _ _ { use_perfetto := true } {}
        sample.state0 sample.dispatch42 sample.batch [] sample.tool_data
        { device_id := 0,
          agent := { id := 100, type := .ROCPROFILER_AGENT_TYPE_GPU, node_id := 1 } }
        { kernel_id := 5, kernel_name := "kern".toList } rfl rfl rfl rfl hinfo
    have heval : (counter_record_callback { use_perfetto := true } {} sample.state0
        sample.dispatch42 sample.batch).map
          (fun s => s.counter_samples.map (fun s => (s.timestamp, s.value))) =
        .ok [(10, 7), (20, 0), (10, 1), (20, 0)] := rfl
    rw [hrun] at heval
    simp only [Except.map, Except.ok.injEq] at heval
    obtain ⟨r, rs, track', hfl, htr, hst, -⟩ := hbatch 7 (by decide)
    refine ⟨st', cs', hrun, hcs', hgone, heval, track', htr, ?_⟩
    rw [hf] at hfl
    injection hfl with h1 h2
    subst h1; subst h2
    simpa [track_of, umap.find] using hst
  · obtain ⟨st', cs', hrun, hcs', -, -, hsame, hsamples, -, hbatch⟩ :=
      @counter_record_callback_takes_interval_once Nat _ _ { use_perfetto := true } {}
        sample.state0 sample.dispatch43 sample.batch [] sample.tool_data
        { device_id := 0,
          agent := { id := 100, type := .ROCPROFILER_AGENT_TYPE_GPU, node_id := 1 } }
        { kernel_id := 5, kernel_name := "kern".toList } rfl rfl rfl rfl hinfo
    have heval : (counter_record_callback { use_perfetto := true } {} sample.state0
        sample.dispatch43 sample.batch).map (fun s => s.counter_samples) = .ok [] := rfl
    rw [hrun] at heval
    simp only [Except.map, Except.ok.injEq] at heval
    obtain ⟨r, rs, track', hfl, htr, hst, -⟩ := hbatch 7 (by decide)
    refine ⟨st', cs', hrun, hcs', hsame (by decide), heval, track', htr, ?_⟩
    rw [hf] at hfl
    injection hfl with h1 h2
    subst h1; subst h2
    simpa [track_of, umap.find] using hst

/-- C9, counterexample: with the trace sink enabled, the batch of dispatch 43, for which no
interval is pending, has two aggregated counters and yet writes no sample at all. -/
theorem counter_samples_not_always_two :
    (aggregate_records {} sample.batch []).length = 2 ∧
    ∃ st', counter_record_callback { use_perfetto := true } {} sample.state0
        sample.dispatch43 sample.batch = .ok st' ∧
      st'.counter_samples = [] := by
  refine ⟨by decide, _, rfl, rfl⟩

/-- C9, amended. For every counter batch processed while the trace sink is enabled (by a
callback that returns), the samples written are, for every aggregated counter, exactly
two -- the summed counter value at the interval start and the value 0 at the interval
end -- when the interval taken for the dispatch has `start > 0` and `end > start`, and
none otherwise (in particular none when no interval is pending, the interval then being
`(0, 0)`). -/
theorem counter_samples_two_per_counter_of_valid_interval {V : Type} [Add V] [Zero V]
    (cfg : settings) (ext : externals) (st : tool_state V)
    (dd : rocprofiler_dispatch_counting_service_data_t)
    (recs : List (rocprofiler_record_counter_t V))
    (cs : agent_counter_storage_map_t V) (td : client_data) (ta : tool_agent)
    (ks : kernel_symbol_data_t)
    (hsink : cfg.use_perfetto = true)
    (hcs : st.agent_counter_storage = some cs) (htd : st.tool_data = some td)
    (hag : td.get_gpu_tool_agent dd.dispatch_info.agent_id = some ta)
    (hks : td.get_kernel_symbol_info dd.dispatch_info.kernel_id = some ks)
    (hinfo : ∀ r ∈ recs, ∃ info, td.get_tool_counter_info dd.dispatch_info.agent_id
      (ext.query_record_counter_id r.id) = .ok (some info)) :
    ∃ st' cs', counter_record_callback cfg ext st dd recs = .ok st' ∧
      st'.agent_counter_storage = some cs' ∧
      ∀ iv, iv = (umap.find st.kernel_dispatch_timestamps dd.dispatch_info.dispatch_id).getD
            { start := 0, end_ := 0 } →
        (iv.start > 0 ∧ iv.end_ > iv.start →
          st'.counter_samples = st.counter_samples ++
            (aggregate_records ext recs []).flatMap (fun e =>
              [{ track := track_name_of cs' dd.dispatch_info.agent_id e.1,
                 timestamp := iv.start, value := e.2.counter_value },
               { track := track_name_of cs' dd.dispatch_info.agent_id e.1,
                 timestamp := iv.end_, value := 0 }]) ∧
          st'.counter_samples.length =
            st.counter_samples.length + 2 * (aggregate_records ext recs []).length) ∧
        (¬ (iv.start > 0 ∧ iv.end_ > iv.start) → st'.counter_samples = st.counter_samples) := by
  obtain ⟨st', cs', hrun, hcs', _, _, hsamples, _⟩ :=
    counter_record_callback_run cfg ext st dd recs cs td ta ks hcs htd hag hks hinfo
  refine ⟨st', cs', hrun, hcs', ?_⟩
  intro iv hiv
  rw [← hiv] at hsamples
  constructor
  · intro hvalid
    have h1 : st'.counter_samples = st.counter_samples ++
        (aggregate_records ext recs []).flatMap (fun e =>
          [{ track := track_name_of cs' dd.dispatch_info.agent_id e.1,
             timestamp := iv.start, value := e.2.counter_value },
           { track := track_name_of cs' dd.dispatch_info.agent_id e.1,
             timestamp := iv.end_, value := 0 }]) := by
      rw [hsamples]
      congr 1
      apply List.flatMap_congr
      intro e _
      simp [hvalid, hsink, step_samples]
    refine ⟨h1, ?_⟩
    rw [h1, List.length_append]
    congr 1
    generalize aggregate_records ext recs [] = agg
    induction agg with
    | nil => rfl
    | cons e es ih =>
      simp only [List.flatMap_cons, List.length_append, List.length_cons, List.length_nil, ih]
      omega
  · intro hinvalid
    rw [hsamples]
    have : (aggregate_records ext recs []).flatMap (fun e =>
        if iv.start > 0 ∧ iv.end_ > iv.start then
          (if cfg.use_perfetto then
            step_samples (track_name_of cs' dd.dispatch_info.agent_id e.1) iv e.2.counter_value
           else [])
        else []) = [] := by
      generalize aggregate_records ext recs [] = agg
      induction agg with
      | nil => rfl
      | cons e es ih =>
        rw [List.flatMap_cons, ih, if_neg hinvalid]
        rfl
    rw [this, List.append_nil]

/-- C9 amended, witness: the batch of dispatch 42, whose pending interval is (10, 20),
writes two samples for each of its two counters. -/
theorem counter_samples_two_per_counter_of_valid_interval_witness :
    ∃ st', counter_record_callback { use_perfetto := true } {} sample.state0
        sample.dispatch42 sample.batch = .ok st' ∧
      st'.counter_samples.length = 4 := by
  obtain ⟨st', _, hrun, _, h⟩ :=
    @counter_samples_two_per_counter_of_valid_interval Nat _ _ { use_perfetto := true } {}
      sample.state0 sample.dispatch42 sample.batch [] sample.tool_data
      { device_id := 0, agent := { id := 100, type := .ROCPROFILER_AGENT_TYPE_GPU, node_id := 1 } }
      { kernel_id := 5, kernel_name := "kern".toList } rfl rfl rfl rfl rfl
      (by
        intro r hr
        simp only [sample.batch, List.mem_cons, List.mem_singleton, List.not_mem_nil,
          or_false] at hr
        rcases hr with rfl | rfl | rfl <;> exact ⟨_, rfl⟩)
  have h2 := (h { start := 10, end_ := 20 } rfl).1 (by decide)
  exact ⟨st', hrun, h2.2⟩

/-! ### Shutdown: order of the counter tracks written by `tool_fini` -/

theorem std_sort_perm {α : Type} (comp : α → α → Prop) [DecidableRel comp] (l : List α) :
    (std_sort comp l).Perm l :=
  List.perm_insertionSort _ l

theorem std_sort_counter_storage_sorted {V : Type} (l : List (counter_storage V)) :
    (std_sort counter_storage.lt l).Sorted (fun a b => a.key ≤ b.key) := by
  haveI : IsTotal (counter_storage V) (fun a b => ¬ counter_storage.lt b a) :=
    ⟨fun a b => by
      simp only [counter_storage.lt, not_lt]
      exact le_total a.key b.key⟩
  haveI : IsTrans (counter_storage V) (fun a b => ¬ counter_storage.lt b a) :=
    ⟨fun a b c hab hbc => by
      simp only [counter_storage.lt, not_lt] at hab hbc ⊢
      exact le_trans hab hbc⟩
  have h := List.sorted_insertionSort (fun a b : counter_storage V => ¬ counter_storage.lt b a) l
  refine List.Pairwise.imp ?_ h
  intro a b hab
  simpa only [counter_storage.lt, not_lt] using hab

theorem std_sort_counter_storage_keys {V : Type} (l₁ l₂ : List (counter_storage V))
    (h : l₁.Perm l₂) :
    (std_sort counter_storage.lt l₁).map counter_storage.key =
      (std_sort counter_storage.lt l₂).map counter_storage.key := by
  have hp : ((std_sort counter_storage.lt l₁).map counter_storage.key).Perm
      ((std_sort counter_storage.lt l₂).map counter_storage.key) :=
    (((std_sort_perm _ l₁).trans h).trans (std_sort_perm _ l₂).symm).map _
  have hs : ∀ l : List (counter_storage V),
      ((std_sort counter_storage.lt l).map counter_storage.key).Sorted (· ≤ ·) := by
    intro l
    exact (List.pairwise_map).2 (std_sort_counter_storage_sorted l)
  exact List.eq_of_perm_of_sorted hp (hs l₁) (hs l₂)

theorem eq_of_perm_of_map_eq {α β : Type} (f : α → β) (l₁ l₂ : List α)
    (hp : l₁.Perm l₂) (hnd : (l₁.map f).Nodup) (hm : l₁.map f = l₂.map f) : l₁ = l₂ := by
  induction l₁ generalizing l₂ with
  | nil => exact (List.Perm.nil_eq hp)
  | cons a t ih =>
    cases l₂ with
    | nil => exact absurd hp.length_eq (by simp)
    | cons b u =>
      simp only [List.map_cons, List.cons.injEq] at hm
      have hnd' := List.nodup_cons.1 hnd
      have hb : b ∈ a :: t := hp.symm.subset (List.mem_cons_self _ _)
      have hba : b = a := by
        rcases List.mem_cons.1 hb with h | h
        · exact h
        · exact absurd (hm.1 ▸ List.mem_map_of_mem f h) hnd'.1
      subst hba
      rw [ih u (List.Perm.cons_inv hp) hnd'.2 hm.2]

/-- C10. The first `tool_fini` on a live counter-storage map writes the counter tracks in
non-decreasing lexicographic order of `(storage_name, device_id, index)`; the sequence
written is a permutation of all tracks held in the per-agent counter-storage map; and the
write order does not depend on the iteration order of the map: two maps holding the same
tracks in different iteration orders are written in the same order of
`(storage_name, device_id, index)`, and in the very same sequence of tracks when no two
tracks agree on `(storage_name, device_id, index)`. -/
theorem tool_fini_writes_sorted_permutation {V : Type} (cfg : settings) (st : tool_state V)
    (storage : agent_counter_storage_map_t V)
    (hfirst : st.fini_once = false) (hlive : st.agent_counter_storage = some storage) :
    ∃ w, (tool_fini cfg st).written = st.written ++ w ∧
      w.Sorted (fun a b => a.key ≤ b.key) ∧
      w.Perm (all_tracks storage) ∧
      ∀ (st₂ : tool_state V) (storage₂ : agent_counter_storage_map_t V),
        st₂.fini_once = false → st₂.agent_counter_storage = some storage₂ →
        (all_tracks storage₂).Perm (all_tracks storage) →
        ∃ w₂, (tool_fini cfg st₂).written = st₂.written ++ w₂ ∧
          w₂.map counter_storage.key = w.map counter_storage.key ∧
          (((all_tracks storage).map counter_storage.key).Nodup → w₂ = w) := by
  have hrun : ∀ (s : tool_state V) (m : agent_counter_storage_map_t V),
      s.fini_once = false → s.agent_counter_storage = some m →
      (tool_fini cfg s).written = s.written ++ std_sort counter_storage.lt (all_tracks m) := by
    intro s m hf hm
    have h1 : (stop (flush { s with fini_once := true })).agent_counter_storage = some m := by
      unfold stop flush
      cases s.tool_data <;> simp [hm]
    have h2 : (stop (flush { s with fini_once := true })).written = s.written := by
      unfold stop flush
      cases s.tool_data <;> simp
    unfold tool_fini
    simp only [hf]
    by_cases hc : (cfg.use_process_sampling && cfg.use_rocm_smi) = true
    · simp [hc, h1, h2]
    · simp [hc, h1, h2]
  refine ⟨std_sort counter_storage.lt (all_tracks storage), hrun st storage hfirst hlive,
    std_sort_counter_storage_sorted _, std_sort_perm _ _, ?_⟩
  intro st₂ storage₂ hf₂ hl₂ hperm
  refine ⟨_, hrun st₂ storage₂ hf₂ hl₂, std_sort_counter_storage_keys _ _ hperm, ?_⟩
  intro hnd
  have hp : (std_sort counter_storage.lt (all_tracks storage₂)).Perm
      (std_sort counter_storage.lt (all_tracks storage)) :=
    ((std_sort_perm _ _).trans hperm).trans (std_sort_perm _ _).symm
  have hnd₂ : ((std_sort counter_storage.lt (all_tracks storage₂)).map
      counter_storage.key).Nodup :=
    (List.Perm.nodup_iff ((hp.trans (std_sort_perm _ _)).map _)).2 hnd
  exact eq_of_perm_of_map_eq counter_storage.key _ _ hp hnd₂
    (std_sort_counter_storage_keys _ _ hperm)

/-- C10, witness: shutdown of the sample system writes its three tracks, device 0 before
device 1 and `L2CacheHit` before `SQ_WAVES`. -/
theorem tool_fini_writes_sorted_permutation_witness :
    ∃ w, (tool_fini {} sample.state_tracks).written = sample.state_tracks.written ++ w ∧
      w.Sorted (fun a b => a.key ≤ b.key) ∧
      w.Perm (all_tracks sample.tracks) ∧
      (tool_fini {} sample.state_tracks).written.map (fun t => String.mk t.storage_name) =
        ["rocprof-device-0-L2CacheHit", "rocprof-device-0-SQ_WAVES",
         "rocprof-device-1-L2CacheHit"] := by
  obtain ⟨w, h1, h2, h3, _⟩ :=
    tool_fini_writes_sorted_permutation {} sample.state_tracks sample.tracks rfl rfl
  exact ⟨w, h1, h2, h3, by decide⟩

/-! ### Marker ranges -/

theorem rocprofiler_call_status_frame {V : Type} (succeeded : Bool) (text : String)
    (st : tool_state V) :
    (rocprofiler_call_status succeeded text st).tool_data = st.tool_data ∧
    (rocprofiler_call_status succeeded text st).events = st.events ∧
    (rocprofiler_call_status succeeded text st).marker_pushed_ranges =
      st.marker_pushed_ranges ∧
    (rocprofiler_call_status succeeded text st).marker_started_ranges =
      st.marker_started_ranges ∧
    (rocprofiler_call_status succeeded text st).kernel_dispatch_timestamps =
      st.kernel_dispatch_timestamps ∧
    (rocprofiler_call_status succeeded text st).warnings =
      st.warnings ++
        (if succeeded then [] else ["rocprofiler-sdk call [" ++ text ++ "] failed"]) := by
  unfold rocprofiler_call_status
  cases succeeded <;> simp

@[simp] theorem rocprofiler_get_timestamp_call_tool_data {V : Type} (ext : externals)
    (st : tool_state V) : (rocprofiler_get_timestamp_call ext st).tool_data = st.tool_data :=
  (rocprofiler_call_status_frame _ _ st).1

@[simp] theorem rocprofiler_get_timestamp_call_events {V : Type} (ext : externals)
    (st : tool_state V) : (rocprofiler_get_timestamp_call ext st).events = st.events :=
  (rocprofiler_call_status_frame _ _ st).2.1

@[simp] theorem rocprofiler_get_timestamp_call_pushed {V : Type} (ext : externals)
    (st : tool_state V) :
    (rocprofiler_get_timestamp_call ext st).marker_pushed_ranges = st.marker_pushed_ranges :=
  (rocprofiler_call_status_frame _ _ st).2.2.1

@[simp] theorem rocprofiler_get_timestamp_call_started {V : Type} (ext : externals)
    (st : tool_state V) :
    (rocprofiler_get_timestamp_call ext st).marker_started_ranges =
      st.marker_started_ranges :=
  (rocprofiler_call_status_frame _ _ st).2.2.2.1

@[simp] theorem rocprofiler_get_timestamp_call_pending {V : Type} (ext : externals)
    (st : tool_state V) :
    (rocprofiler_get_timestamp_call ext st).kernel_dispatch_timestamps =
      st.kernel_dispatch_timestamps :=
  (rocprofiler_call_status_frame _ _ st).2.2.2.2.1

theorem tool_tracing_callback_marker_push {V : Type} (cfg : settings) (ext : externals)
    (message : Name) (user_data ts : Nat) (unw : List (Option Nat)) (st : tool_state V)
    (td : client_data) (hlive : st.tool_data = some td) :
    ∃ st1, tool_tracing_callback cfg ext (marker_call.push message).record user_data ts unw st
        = .ok (st1, ts) ∧
      st1.tool_data = st.tool_data ∧
      st1.marker_pushed_ranges = ext.add_hash_id message :: st.marker_pushed_ranges ∧
      st1.marker_started_ranges = st.marker_started_ranges := by
  refine ⟨{ rocprofiler_get_timestamp_call ext st with
      marker_pushed_ranges := ext.add_hash_id message :: st.marker_pushed_ranges
      events := st.events ++
        (if cfg.use_timemory then [trace_event.timemory_start message] else []) },
    ?_, by simp, rfl, by simp⟩
  by_cases ht : cfg.use_timemory = true <;>
    simp [tool_tracing_callback, tool_tracing_callback_phases, marker_call.record,
      callback_category, tool_tracing_callback_start, tool_tracing_callback_start_name,
      hlive, ht]

theorem tool_tracing_callback_stop_of_name {V : Type} (cfg : settings) (ext : externals)
    (cat : category) (record : rocprofiler_callback_tracing_record_t) (user_data ts : Nat)
    (bt : Option (List processed_entry)) (st s1 : tool_state V) (n : Name)
    (h : tool_tracing_callback_stop_name ext cat record st = .ok (n, s1)) :
    ∃ evs, tool_tracing_callback_stop cfg ext cat record user_data ts bt st =
      .ok { s1 with events := s1.events ++ evs } := by
  unfold tool_tracing_callback_stop
  rw [h]
  exact ⟨_, rfl⟩

theorem tool_tracing_callback_stop_of_name_error {V : Type} (cfg : settings)
    (ext : externals) (cat : category) (record : rocprofiler_callback_tracing_record_t)
    (user_data ts : Nat) (bt : Option (List processed_entry)) (st : tool_state V) (f : Fault)
    (h : tool_tracing_callback_stop_name ext cat record st = .error f) :
    tool_tracing_callback_stop cfg ext cat record user_data ts bt st = .error f := by
  unfold tool_tracing_callback_stop
  rw [h]

theorem tool_tracing_callback_phases_exit_backtrace {V : Type} (cfg : settings) (ext : externals)
    (record : rocprofiler_callback_tracing_record_t) (user_data ts : Nat)
    (unw : List (Option Nat)) (st : tool_state V) (td : client_data) (cat : category)
    (hlive : st.tool_data = some td)
    (hphase : record.phase = .ROCPROFILER_CALLBACK_PHASE_EXIT)
    (hcat : callback_category record.kind = some cat)
    (hbt : cfg.use_perfetto = true → cfg.perfetto_annotations = true →
      ∃ ops, umap.find td.backtrace_operations record.kind = some ops) :
    ∃ bt, tool_tracing_callback_phases cfg ext record user_data ts unw st =
      match tool_tracing_callback_stop cfg ext cat record user_data ts bt st with
      | .error f => .error f
      | .ok st1 => .ok (st1, user_data) := by
  unfold tool_tracing_callback_phases
  simp only [hphase, hcat, hlive]
  by_cases hp : (cfg.use_perfetto && cfg.perfetto_annotations) = true
  · simp only [hp, if_true]
    simp only [Bool.and_eq_true] at hp
    obtain ⟨ops, hops⟩ := hbt hp.1 hp.2
    simp only [hops]
    by_cases hc : ops.count record.operation > 0
    · exact ⟨some (resolved_backtrace ext unw), by simp only [hc, if_true]⟩
    · exact ⟨none, by simp only [hc, if_false]⟩
  · exact ⟨none, by simp only [hp]; rfl⟩

theorem tool_tracing_callback_marker_pop {V : Type} (cfg : settings) (ext : externals)
    (user_data ts : Nat) (unw : List (Option Nat)) (st : tool_state V) (td : client_data)
    (_hash : Nat) (rest : List Nat)
    (hlive : st.tool_data = some td)
    (hbt : cfg.use_perfetto = true → cfg.perfetto_annotations = true →
      ∃ ops, umap.find td.backtrace_operations
        .ROCPROFILER_CALLBACK_TRACING_MARKER_CORE_API = some ops)
    (hstack : st.marker_pushed_ranges = _hash :: rest) :
    ∃ st1 s1, tool_tracing_callback cfg ext marker_call.pop.record user_data ts unw st
        = .ok (st1, user_data) ∧
      tool_tracing_callback_stop_name ext .rocm_marker_api marker_call.pop.record st =
        .ok (ext.get_hash_identifier_fast _hash, s1) ∧
      st1.tool_data = st.tool_data ∧
      st1.marker_pushed_ranges = rest ∧
      st1.marker_started_ranges = st.marker_started_ranges := by
  have hname : tool_tracing_callback_stop_name ext .rocm_marker_api marker_call.pop.record st =
      .ok (ext.get_hash_identifier_fast _hash, { st with marker_pushed_ranges := rest }) := by
    simp [tool_tracing_callback_stop_name, marker_call.record, hlive, hstack]
  have hname2 : tool_tracing_callback_stop_name ext .rocm_marker_api marker_call.pop.record
      (rocprofiler_get_timestamp_call ext st) =
      .ok (ext.get_hash_identifier_fast _hash,
        { rocprofiler_get_timestamp_call ext st with marker_pushed_ranges := rest }) := by
    simp [tool_tracing_callback_stop_name, marker_call.record, hlive, hstack]
  obtain ⟨bt, hrun⟩ := tool_tracing_callback_phases_exit_backtrace cfg ext
    marker_call.pop.record user_data ts unw (rocprofiler_get_timestamp_call ext st) td
    .rocm_marker_api (by simpa using hlive) rfl rfl hbt
  obtain ⟨evs, hstop⟩ := tool_tracing_callback_stop_of_name cfg ext .rocm_marker_api
    marker_call.pop.record user_data ts bt (rocprofiler_get_timestamp_call ext st) _ _ hname2
  rw [hstop] at hrun
  exact ⟨_, _, hrun, hname, by simp, rfl, by simp⟩

/-- C2. On one thread, for every sequence of `roctxRangePushA` ENTER callbacks and
`roctxRangePop` EXIT callbacks whose stack reading never pops an empty stack, every
callback returns and each pop resolves its name to the message of the most recent push
that has not yet been popped: the names resolved are exactly those of the stack (LIFO)
reading, and the pushed-range stack left behind holds the hashes of the messages still
open. The tool is live, with the backtrace operations of the marker kind registered as
`tool_init` does when perfetto annotations are on; the hash registry of timemory is taken
to give back, for every message of the sequence, the message registered under its
hash. -/
theorem marker_pops_resolve_lifo {V : Type} (cfg : settings) (ext : externals)
    (calls : List marker_delivery) (st : tool_state V) (td : client_data)
    (stack names left : List Name)
    (hlive : st.tool_data = some td)
    (hbt : cfg.use_perfetto = true → cfg.perfetto_annotations = true →
      ∃ ops, umap.find td.backtrace_operations
        .ROCPROFILER_CALLBACK_TRACING_MARKER_CORE_API = some ops)
    (hround : ∀ m, (m ∈ stack ∨ marker_call.push m ∈ calls.map (fun d => d.call)) →
      ext.get_hash_identifier_fast (ext.add_hash_id m) = m)
    (hstack : st.marker_pushed_ranges = stack.map ext.add_hash_id)
    (hlifo : lifo_names (calls.map (fun d => d.call)) stack = some (names, left)) :
    ∃ st', deliver_marker_calls cfg ext calls st = .ok (st', names) ∧
      st'.marker_pushed_ranges = left.map ext.add_hash_id := by
  induction calls generalizing st stack names with
  | nil =>
    simp only [List.map_nil, lifo_names, Option.some.injEq, Prod.mk.injEq] at hlifo
    obtain ⟨h1, h2⟩ := hlifo
    subst h1; subst h2
    exact ⟨st, rfl, hstack⟩
  | cons d rest ih =>
    obtain ⟨call, ud, ts, unw⟩ := d
    cases call with
    | push message =>
      simp only [List.map_cons, lifo_names] at hlifo
      obtain ⟨st1, hrun, hl1, hp1, _⟩ :=
        tool_tracing_callback_marker_push cfg ext message ud ts unw st td hlive
      obtain ⟨st', hrest, hfinal⟩ := ih st1 (message :: stack) names (hl1.trans hlive)
        (by
          intro m hm
          apply hround
          rcases hm with hm | hm
          · rcases List.mem_cons.1 hm with hm | hm
            · exact Or.inr (by simp [hm])
            · exact Or.inl hm
          · exact Or.inr (by simp only [List.map_cons]; exact List.mem_cons_of_mem _ hm))
        (by rw [hp1, hstack]; rfl) hlifo
      refine ⟨st', ?_, hfinal⟩
      simp only [deliver_marker_calls, hrun, hrest, List.nil_append]
    | pop =>
      cases stack with
      | nil => simp [lifo_names] at hlifo
      | cons message stack' =>
        simp only [List.map_cons, lifo_names] at hlifo
        cases hl : lifo_names (rest.map (fun d => d.call)) stack' with
        | none => simp [hl] at hlifo
        | some p =>
          obtain ⟨names', left'⟩ := p
          simp only [hl, Option.some.injEq, Prod.mk.injEq] at hlifo
          obtain ⟨h1, h2⟩ := hlifo
          subst h1; subst h2
          obtain ⟨st1, s1, hrun, hname, hl1, hp1, _⟩ :=
            tool_tracing_callback_marker_pop cfg ext ud ts unw st td
              (ext.add_hash_id message) (stack'.map ext.add_hash_id) hlive hbt
              (by rw [hstack]; rfl)
          obtain ⟨st', hrest, hfinal⟩ := ih st1 stack' names' (hl1.trans hlive)
            (by
              intro m hm
              apply hround
              rcases hm with hm | hm
              · exact Or.inl (List.mem_cons_of_mem _ hm)
              · exact Or.inr (by simp only [List.map_cons]; exact List.mem_cons_of_mem _ hm))
            hp1 hl
          refine ⟨st', ?_, hfinal⟩
          have hm : ext.get_hash_identifier_fast (ext.add_hash_id message) = message :=
            hround message (Or.inl (List.mem_cons_self _ _))
          simp only [deliver_marker_calls, hrun, hname, hrest, hm, List.singleton_append]

/-- C2, witness: push("A"), push("B"), pop, pop resolves "B" then "A" and leaves the
pushed-range stack empty. -/
theorem marker_pops_resolve_lifo_witness :
    ∃ st', deliver_marker_calls { use_timemory := true } sample.ext_markers
        sample.push_push_pop_pop sample.state0 = .ok (st', ["B".toList, "A".toList]) ∧
      st'.marker_pushed_ranges = [] :=
  marker_pops_resolve_lifo { use_timemory := true } sample.ext_markers
    sample.push_push_pop_pop sample.state0 sample.tool_data [] ["B".toList, "A".toList] []
    rfl (by intro h; cases h)
    (by
      intro m hm
      simp only [List.not_mem_nil, false_or, sample.push_push_pop_pop, List.map_cons,
        List.map_nil, List.mem_cons, marker_call.push.injEq, reduceCtorEq, or_false] at hm
      rcases hm with rfl | rfl <;> decide)
    rfl (by decide)

/-- C3. With the tool live, `tool_tracing_callback_stop` for a marker-core record aborts on
`roctxRangePop` exactly when the pushed-range stack of the calling thread is empty and
returns exactly when it is not, and it aborts on `roctxRangeStop` exactly when the
started-range stack is empty and returns exactly when it is not: an end without a
matching begin is never passed over, and an end on a non-empty stack never aborts. -/
theorem tool_tracing_callback_stop_aborts_iff_unmatched {V : Type} (cfg : settings)
    (ext : externals) (record : rocprofiler_callback_tracing_record_t) (user_data ts : Nat)
    (bt : Option (List processed_entry)) (st : tool_state V) (td : client_data)
    (hlive : st.tool_data = some td)
    (hkind : record.kind = .ROCPROFILER_CALLBACK_TRACING_MARKER_CORE_API) :
    (record.operation = ROCPROFILER_MARKER_CORE_API_ID_roctxRangePop →
      ((∃ msg, tool_tracing_callback_stop cfg ext .rocm_marker_api record user_data ts bt st =
          .error (.aborted msg)) ↔ st.marker_pushed_ranges = []) ∧
      ((∃ st', tool_tracing_callback_stop cfg ext .rocm_marker_api record user_data ts bt st =
          .ok st') ↔ st.marker_pushed_ranges ≠ [])) ∧
    (record.operation = ROCPROFILER_MARKER_CORE_API_ID_roctxRangeStop →
      ((∃ msg, tool_tracing_callback_stop cfg ext .rocm_marker_api record user_data ts bt st =
          .error (.aborted msg)) ↔ st.marker_started_ranges = []) ∧
      ((∃ st', tool_tracing_callback_stop cfg ext .rocm_marker_api record user_data ts bt st =
          .ok st') ↔ st.marker_started_ranges ≠ [])) := by
  constructor
  · intro hop
    cases hs : st.marker_pushed_ranges with
    | nil =>
      have hname : tool_tracing_callback_stop_name ext .rocm_marker_api record st = .error
          (.aborted "roctxRangePop does not have corresponding roctxRangePush on this thread") := by
        simp [tool_tracing_callback_stop_name, hlive, hkind, hop, hs]
      rw [tool_tracing_callback_stop_of_name_error cfg ext _ record user_data ts bt st _ hname]
      simp
    | cons h rest =>
      have hname : tool_tracing_callback_stop_name ext .rocm_marker_api record st =
          .ok (ext.get_hash_identifier_fast h, { st with marker_pushed_ranges := rest }) := by
        simp [tool_tracing_callback_stop_name, hlive, hkind, hop, hs]
      obtain ⟨evs, hstop⟩ := tool_tracing_callback_stop_of_name cfg ext .rocm_marker_api
        record user_data ts bt st _ _ hname
      rw [hstop]
      simp
  · intro hop
    have hne : ¬ record.operation = ROCPROFILER_MARKER_CORE_API_ID_roctxRangePop := by
      rw [hop]; decide
    cases hs : st.marker_started_ranges with
    | nil =>
      have hname : tool_tracing_callback_stop_name ext .rocm_marker_api record st = .error
          (.aborted
            "roctxRangeStop does not have corresponding roctxRangeStart on this thread") := by
        simp only [tool_tracing_callback_stop_name, hlive, hkind, hne, if_false]
        simp [hop, hs]
      rw [tool_tracing_callback_stop_of_name_error cfg ext _ record user_data ts bt st _ hname]
      simp
    | cons h rest =>
      have hname : tool_tracing_callback_stop_name ext .rocm_marker_api record st =
          .ok (ext.get_hash_identifier_fast h, { st with marker_started_ranges := rest }) := by
        simp only [tool_tracing_callback_stop_name, hlive, hkind, hne, if_false]
        simp [hop, hs]
      obtain ⟨evs, hstop⟩ := tool_tracing_callback_stop_of_name cfg ext .rocm_marker_api
        record user_data ts bt st _ _ hname
      rw [hstop]
      simp

/-- C3, witness: a `roctxRangePop` on the empty pushed-range stack of the sample state
aborts. -/
theorem tool_tracing_callback_stop_aborts_iff_unmatched_witness :
    ∃ msg, tool_tracing_callback_stop {} {} .rocm_marker_api marker_call.pop.record 0 0 none
      sample.state0 = .error (.aborted msg) :=
  ((tool_tracing_callback_stop_aborts_iff_unmatched {} {} marker_call.pop.record 0 0 none
    sample.state0 sample.tool_data rfl rfl).1 rfl).1.2 rfl

/-! ### Pending dispatch-timing intervals -/

theorem tool_tracing_buffered_header_frame {V : Type} (cfg : settings) (ext : externals)
    (header : rocprofiler_record_header_t) (st st' : tool_state V)
    (h : tool_tracing_buffered_header cfg ext st header = .ok st') :
    st'.kernel_dispatch_timestamps = st.kernel_dispatch_timestamps ∧
      st'.tool_data = st.tool_data ∧
      st'.agent_counter_storage = st.agent_counter_storage ∧
      ∃ evs, st'.events = st.events ++ evs := by
  unfold tool_tracing_buffered_header at h
  split at h
  · split at h
    · split at h
      · split at h
        · cases h
        · injection h with h; subst h; exact ⟨rfl, rfl, rfl, _, rfl⟩
      · cases h
    · split at h
      · split at h
        · split at h
          · cases h
          · injection h with h; subst h; exact ⟨rfl, rfl, rfl, _, rfl⟩
        · cases h
      · cases h
  · cases h

theorem tool_tracing_buffered_frame {V : Type} (cfg : settings) (ext : externals)
    (headers : List rocprofiler_record_header_t) (st st' : tool_state V)
    (h : tool_tracing_buffered cfg ext headers st = .ok st') :
    st'.kernel_dispatch_timestamps = st.kernel_dispatch_timestamps := by
  induction headers generalizing st with
  | nil =>
    simp only [tool_tracing_buffered, Except.ok.injEq] at h
    rw [h]
  | cons header rest ih =>
    simp only [tool_tracing_buffered] at h
    cases h1 : tool_tracing_buffered_header cfg ext st header with
    | error f => rw [h1] at h; cases h
    | ok st1 =>
      rw [h1] at h
      rw [ih st1 h]
      exact (tool_tracing_buffered_header_frame cfg ext header st st1 h1).1

/-- C8, counterexample: decoding the kernel-dispatch record of dispatch 43 in
`tool_tracing_buffered` returns and leaves the pending map without an entry for
dispatch 43. -/
theorem tool_tracing_buffered_saves_no_interval :
    ∃ st', tool_tracing_buffered { use_perfetto := true } {} [sample.dispatch_header]
        sample.state0 = .ok st' ∧
      umap.find st'.kernel_dispatch_timestamps 43 = none := by
  refine ⟨_, rfl, ?_⟩
  decide

/-- C8, amended. Decoding records in the buffered record decoder (`tool_tracing_buffered`)
leaves the pending dispatch-timing-interval map unchanged. The `(start_timestamp,
end_timestamp)` of a dispatch is put into the map, under its dispatch id, by
`tool_tracing_callback` when it receives the kernel-dispatch completion record (kind
KERNEL_DISPATCH, operation KERNEL_DISPATCH_COMPLETE, phase NONE): the callback returns,
a map without an entry for the dispatch id then holds this interval (so a later counter
batch for the dispatch id finds it), a map that already holds an entry keeps it, and all
other entries are unchanged. -/
theorem dispatch_interval_saved_by_callback_not_decoder {V : Type} (cfg : settings)
    (ext : externals) (record : rocprofiler_callback_tracing_record_t)
    (data : rocprofiler_callback_tracing_kernel_dispatch_data_t) (user_data ts : Nat)
    (unw : List (Option Nat)) (st : tool_state V)
    (hphase : record.phase = .ROCPROFILER_CALLBACK_PHASE_NONE)
    (hkind : record.kind = .ROCPROFILER_CALLBACK_TRACING_KERNEL_DISPATCH)
    (hop : record.operation = ROCPROFILER_KERNEL_DISPATCH_COMPLETE)
    (hpayload : record.payload = .kernel_dispatch data) :
    (∀ (headers : List rocprofiler_record_header_t) (st' : tool_state V),
      tool_tracing_buffered cfg ext headers st = .ok st' →
        st'.kernel_dispatch_timestamps = st.kernel_dispatch_timestamps) ∧
    ∃ st', tool_tracing_callback cfg ext record user_data ts unw st = .ok (st', user_data) ∧
      (umap.find st.kernel_dispatch_timestamps data.dispatch_info.dispatch_id = none →
        umap.find st'.kernel_dispatch_timestamps data.dispatch_info.dispatch_id =
          some { start := data.start_timestamp, end_ := data.end_timestamp }) ∧
      (∀ iv, umap.find st.kernel_dispatch_timestamps data.dispatch_info.dispatch_id = some iv →
        st'.kernel_dispatch_timestamps = st.kernel_dispatch_timestamps) ∧
      (∀ d, d ≠ data.dispatch_info.dispatch_id →
        umap.find st'.kernel_dispatch_timestamps d =
          umap.find st.kernel_dispatch_timestamps d) := by
  refine ⟨fun headers st' h => tool_tracing_buffered_frame cfg ext headers st st' h, ?_⟩
  refine ⟨{ rocprofiler_get_timestamp_call ext st with kernel_dispatch_timestamps :=
      (umap.emplace st.kernel_dispatch_timestamps data.dispatch_info.dispatch_id
        { start := data.start_timestamp, end_ := data.end_timestamp }).1 }, ?_, ?_, ?_, ?_⟩
  · simp [tool_tracing_callback, tool_tracing_callback_phases, hphase, hkind, hop, hpayload]
  · intro hnone
    simp only [umap.emplace, hnone]
    exact umap.find_append_self _ _ _ hnone
  · intro iv hiv
    simp only [umap.emplace, hiv]
  · intro d hd
    cases hf : umap.find st.kernel_dispatch_timestamps data.dispatch_info.dispatch_id with
    | none =>
      simp only [umap.emplace, hf]
      exact umap.find_append_of_ne _ _ _ _ hd
    | some iv => simp only [umap.emplace, hf]

/-- C8 amended, witness: the completion callback of dispatch 43 puts (100, 200) into the
pending map of the sample state. -/
theorem dispatch_interval_saved_by_callback_not_decoder_witness :
    ∃ st', tool_tracing_callback {} {} sample.dispatch_complete 0 0 [] sample.state0 =
        .ok (st', 0) ∧
      umap.find st'.kernel_dispatch_timestamps 43 = some { start := 100, end_ := 200 } := by
  obtain ⟨_, st', hrun, hnew, _, _⟩ :=
    @dispatch_interval_saved_by_callback_not_decoder Nat {} {} sample.dispatch_complete
      { start_timestamp := 100, end_timestamp := 200,
        dispatch_info := { agent_id := 100, kernel_id := 5, dispatch_id := 43, queue_id := 3 } }
      0 0 [] sample.state0 rfl rfl rfl rfl
  exact ⟨st', hrun, hnew (by decide)⟩

/-! ### Profile-config builder -/

theorem create_agent_profile_request_some (data : client_data) (agent_id : Nat)
    (agent : tool_agent) (itr : Name) :
    create_agent_profile_request data agent_id (some agent) itr =
      match string_find device_qualifier itr with
      | some pos =>
        if (itr.drop (pos + device_qualifier.length)).isEmpty ||
            (itr.drop (pos + device_qualifier.length)).any (fun c => !c.isDigit) then
          .error (.aborted "invalid device qualifier format (':device=N) where N is the GPU id")
        else
          match stoul (itr.drop (pos + device_qualifier.length)) with
          | .error f => .error f
          | .ok dev_id_v =>
            if dev_id_v ≠ agent.device_id then .ok none
            else
              match umap.find data.agent_counter_info agent_id with
              | none => .error (.thrown "unordered_map::at")
              | some infos =>
                .ok (some ((infos.filter (fun citr =>
                  decide (strip_array_index (itr.take pos) = citr.name))).map
                    (fun citr => citr.id)))
      | none =>
        match umap.find data.agent_counter_info agent_id with
        | none => .error (.thrown "unordered_map::at")
        | some infos =>
          .ok (some ((infos.filter (fun citr =>
            decide (strip_array_index itr = citr.name))).map (fun citr => citr.id))) := by
  have hprinted : ∀ a b : Name,
      (if a ≠ b then
        (match (some agent : Option tool_agent) with
        | none => (Except.error Fault.null_dereference : Except Fault Unit)
        | some _ => .ok ())
      else .ok ()) = .ok () := by
    intro a b
    split_ifs <;> rfl
  unfold create_agent_profile_request
  simp only [hprinted]

/-- C5, counterexample: in the two-GPU sample system, building the profiles for the single
request `L2CacheHit:device=1` leaves an entry for the agent of device 0 (agent 100) in
the agent-to-profile map, so the map does not hold zero entries for device 0. -/
theorem device_qualified_request_keeps_entry_for_other_device :
    ∃ st' data', tool_init_agent_profiles ["L2CacheHit:device=1".toList]
        sample.tool_data.gpu_agents sample.state0 = .ok st' ∧
      st'.tool_data = some data' ∧
      umap.count data'.agent_counter_profiles 100 = 1 := by
  refine ⟨_, _, rfl, rfl, ?_⟩
  decide

/-- C5, amended. On a system with two GPU agents (device indices 0 and 1) of which the
second offers exactly one counter named `L2CacheHit`, and for which no profile has been
built yet, building the profiles for the single requested name `L2CacheHit:device=1`
creates exactly one profile handle, for the agent of device 1 with that counter, and
the agent-to-profile map then holds one entry per agent: the entry of device 0 holds no
handle (an empty optional), the entry of device 1 holds the handle created. -/
theorem device_qualified_request_creates_one_profile {V : Type} (st : tool_state V)
    (data : client_data) (ag0 ag1 : rocprofiler_agent_v0_t)
    (infos1 : List rocprofiler_tool_counter_info_t) (cid : Nat)
    (hdata : st.tool_data = some data)
    (hgpus : data.gpu_agents = [{ device_id := 0, agent := ag0 }, { device_id := 1, agent := ag1 }])
    (hne : ag0.id ≠ ag1.id)
    (hnew : data.agent_counter_profiles = [])
    (hinfo : umap.find data.agent_counter_info ag1.id = some infos1)
    (hoffer : (infos1.filter (fun citr => decide ("L2CacheHit".toList = citr.name))).map
      (fun citr => citr.id) = [cid]) :
    ∃ st' data', tool_init_agent_profiles ["L2CacheHit:device=1".toList] data.gpu_agents st
        = .ok st' ∧
      st'.tool_data = some data' ∧
      st'.backend.profile_configs = st.backend.profile_configs ++ [(ag1.id, [cid])] ∧
      data'.agent_counter_profiles =
        [(ag0.id, none), (ag1.id, some (st.backend.profile_configs.length + 1))] := by
  have hfind : string_find device_qualifier "L2CacheHit:device=1".toList = some 10 := by decide
  have hstrip : strip_array_index "L2CacheHit".toList = "L2CacheHit".toList := by decide
  have hnum : stoul ("L2CacheHit:device=1".toList.drop (10 + device_qualifier.length)) =
      .ok 1 := by rfl
  have hchk : (("L2CacheHit:device=1".toList.drop (10 + device_qualifier.length)).isEmpty ||
      ("L2CacheHit:device=1".toList.drop (10 + device_qualifier.length)).any
        (fun c => !c.isDigit)) = false := by decide
  have htake : "L2CacheHit:device=1".toList.take 10 = "L2CacheHit".toList := by decide
  have hne' : ¬ ag1.id = ag0.id := fun e => hne e.symm
  have h0 : create_agent_profile_request data ag0.id
      (some { device_id := 0, agent := ag0 }) "L2CacheHit:device=1".toList = .ok none := by
    simp only [create_agent_profile_request, hfind, hchk, hnum]
    simp
  have h1 : ∀ d : client_data, umap.find d.agent_counter_info ag1.id = some infos1 →
      create_agent_profile_request d ag1.id
      (some { device_id := 1, agent := ag1 }) "L2CacheHit:device=1".toList =
        .ok (some [cid]) := by
    intro d hd
    simp only [create_agent_profile_request, hfind, hchk, hnum, htake, hstrip, hd, hoffer]
    simp
  refine ⟨?st', ?data', ?h1, ?h2, ?h3, ?h4⟩
  case h1 =>
    simp only [hgpus, tool_init_agent_profiles, create_agent_profile, hdata, hnew, umap.find,
      client_data.get_gpu_tool_agent, List.find?, decide_True, h0,
      create_agent_profile_loop, List.length_singleton, List.length_nil, ne_eq,
      Nat.sub_self, not_true_eq_false, if_false, List.isEmpty_nil, Bool.not_true,
      Bool.false_eq_true, umap.emplace, List.nil_append, hne', decide_False, hne,
      if_false]
    rw [h1]
    · simp only [create_agent_profile_loop, umap.emplace, umap.find, hne, List.nil_append,
        List.length_singleton, ne_eq, not_true_eq_false, if_false, List.isEmpty_cons,
        Bool.not_false, if_true]
      exact rfl
    · exact hinfo
  case h2 => exact rfl
  case h3 => exact rfl
  case h4 => exact rfl

/-- C5 amended, witness: the two-GPU sample system. -/
theorem device_qualified_request_creates_one_profile_witness :
    ∃ st' data', tool_init_agent_profiles ["L2CacheHit:device=1".toList]
        sample.tool_data.gpu_agents sample.state0 = .ok st' ∧
      st'.tool_data = some data' ∧
      st'.backend.profile_configs = [] ++ [(101, [7])] ∧
      data'.agent_counter_profiles = [(100, none), (101, some 1)] :=
  device_qualified_request_creates_one_profile sample.state0 sample.tool_data
    { id := 100, type := .ROCPROFILER_AGENT_TYPE_GPU, node_id := 1 }
    { id := 101, type := .ROCPROFILER_AGENT_TYPE_GPU, node_id := 2 }
    [{ id := 7, name := "L2CacheHit".toList }, { id := 8, name := "SQ_WAVES".toList }] 7
    rfl rfl (by decide) rfl rfl rfl

theorem takeWhile_append_stop {α : Type} (p : α → Bool) (l r : List α) (x : α)
    (hl : ∀ a ∈ l, p a = true) (hx : p x = false) :
    (l ++ x :: r).takeWhile p = l ∧ (l ++ x :: r).dropWhile p = x :: r := by
  induction l with
  | nil => simp [List.takeWhile, List.dropWhile, hx]
  | cons a l ih =>
    have ha : p a = true := hl a (List.mem_cons_self _ _)
    have ih' := ih (fun b hb => hl b (List.mem_cons_of_mem _ hb))
    simp [List.takeWhile, List.dropWhile, ha, ih'.1, ih'.2]

theorem strip_array_index_single (n k : Name) (hk : k ≠ [])
    (hdig : ∀ c ∈ k, c.isDigit = true) (hline : n.any is_line_terminator = false) :
    strip_array_index (n ++ '[' :: k ++ [']']) = n := by
  have hrev : (n ++ '[' :: k ++ [']']).reverse = ']' :: (k.reverse ++ '[' :: n.reverse) := by
    simp
  have hsplit := takeWhile_append_stop Char.isDigit k.reverse n.reverse '['
    (fun a ha => hdig a (List.mem_reverse.1 ha)) (by decide)
  have hkr : k.reverse.isEmpty = false := by
    cases k with
    | nil => exact absurd rfl hk
    | cons a l => simp
  have hany : n.reverse.any is_line_terminator = false := by
    rw [List.any_reverse]; exact hline
  unfold strip_array_index
  rw [hrev]
  simp only [hsplit.1, hsplit.2, hkr, hany, List.reverse_reverse]
  simp

theorem string_find_none_of_head_absent (c : Char) (pattern s : Name) (h : c ∉ s) :
    string_find (c :: pattern) s = none := by
  induction s with
  | nil => simp [string_find, List.isPrefixOf]
  | cons a rest ih =>
    have hne : ¬ c = a := fun e => h (e ▸ List.mem_cons_self _ _)
    have hrest : c ∉ rest := fun e => h (List.mem_cons_of_mem _ e)
    simp [string_find, List.isPrefixOf, hne, ih hrest]

theorem string_find_first (c : Char) (pattern pre suf : Name) (h : c ∉ pre) :
    string_find (c :: pattern) (pre ++ (c :: pattern) ++ suf) = some pre.length := by
  induction pre with
  | nil =>
    have hp : (c :: pattern).isPrefixOf ((c :: pattern) ++ suf) = true := by
      rw [List.isPrefixOf_iff_prefix]
      exact List.prefix_append _ _
    simp only [List.nil_append, List.length_nil]
    simp only [List.cons_append] at hp ⊢
    simp only [string_find, hp, if_true]
  | cons a rest ih =>
    have hne : ¬ c = a := fun e => h (e ▸ List.mem_cons_self _ _)
    have hrest : c ∉ rest := fun e => h (List.mem_cons_of_mem _ e)
    have := ih hrest
    simp only [List.cons_append, List.append_assoc] at this ⊢
    simp [string_find, List.isPrefixOf, hne, this]

/-- C6, counterexample: on agent 100 of the sample system, which offers the counter
`SQ_WAVES`, the request `SQ_WAVES[0:3]` matches no counter and `create_agent_profile`
aborts. -/
theorem range_suffix_request_is_not_resolved :
    create_agent_profile_request sample.tool_data 100
        (sample.tool_data.get_gpu_tool_agent 100) "SQ_WAVES[0:3]".toList = .ok (some []) ∧
      (create_agent_profile 100 ["SQ_WAVES[0:3]".toList] sample.state0).map (fun r => r.1) =
        .error (.aborted "Unable to find all counters for agent") :=
  ⟨rfl, rfl⟩

/-- C6, amended. A requested counter name carrying a single array index `[k]` (`k` one or
more decimal digits) is resolved by `create_agent_profile` to its base name before it is
compared with the counter names of the agent: for every base name `n` without line break
and without colon, on a GPU tool agent the request `n[k]`, and likewise the request
`n[k]:device=N` when the device index of the agent is `N`, yields exactly the ids of the
counters named `n`. (For an agent that is not a GPU tool agent the print of the changed
name dereferences the null agent.) -/
theorem single_index_request_resolves_to_base_name (data : client_data) (agent_id : Nat)
    (agent : tool_agent) (infos : List rocprofiler_tool_counter_info_t)
    (n k : Name)
    (hinfo : umap.find data.agent_counter_info agent_id = some infos)
    (hk : k ≠ []) (hdig : ∀ c ∈ k, c.isDigit = true)
    (hline : n.any is_line_terminator = false) (hcolon : ':' ∉ n) :
    create_agent_profile_request data agent_id (some agent) (n ++ '[' :: k ++ [']']) =
        .ok (some ((infos.filter (fun citr => decide (n = citr.name))).map
          (fun citr => citr.id))) ∧
    (∀ (dev : Name), dev ≠ [] → (∀ c ∈ dev, c.isDigit = true) →
      digits_value dev = agent.device_id → agent.device_id < 2 ^ 64 →
      create_agent_profile_request data agent_id (some agent)
          ((n ++ '[' :: k ++ [']']) ++ device_qualifier ++ dev) =
        .ok (some ((infos.filter (fun citr => decide (n = citr.name))).map
          (fun citr => citr.id)))) ∧
    create_agent_profile_request data agent_id none (n ++ '[' :: k ++ [']']) =
      .error .null_dereference := by
  have hstrip := strip_array_index_single n k hk hdig hline
  have hnocolon : ':' ∉ n ++ '[' :: k ++ [']'] := by
    simp only [List.mem_append, List.mem_cons, List.mem_singleton, List.not_mem_nil,
      or_false, not_or]
    refine ⟨⟨hcolon, by decide, ?_⟩, by decide⟩
    intro hmem
    have := hdig _ hmem
    revert this
    decide
  have hfind0 : string_find device_qualifier (n ++ '[' :: k ++ [']']) = none :=
    string_find_none_of_head_absent ':' "device=".toList _ hnocolon
  refine ⟨?_, ?_, ?_⟩
  · simp only [create_agent_profile_request_some, hfind0, hstrip, hinfo]
  · intro dev hdev hdevdig hval hfit
    have hfind : string_find device_qualifier ((n ++ '[' :: k ++ [']']) ++ device_qualifier ++ dev)
        = some (n ++ '[' :: k ++ [']']).length :=
      string_find_first ':' "device=".toList _ dev hnocolon
    have htake : ((n ++ '[' :: k ++ [']']) ++ device_qualifier ++ dev).take
        (n ++ '[' :: k ++ [']']).length = n ++ '[' :: k ++ [']'] := by
      generalize n ++ '[' :: k ++ [']'] = a
      simp
    have hdrop : ((n ++ '[' :: k ++ [']']) ++ device_qualifier ++ dev).drop
        ((n ++ '[' :: k ++ [']']).length + device_qualifier.length) = dev := by
      generalize n ++ '[' :: k ++ [']'] = a
      rw [← List.length_append]
      simp
    have hchk : (dev.isEmpty || dev.any (fun c => !c.isDigit)) = false := by
      have h1 : dev.isEmpty = false := by
        cases dev with
        | nil => exact absurd rfl hdev
        | cons a l => rfl
      have h2 : dev.any (fun c => !c.isDigit) = false := by
        rw [List.any_eq_false]
        intro c hc
        simp [hdevdig c hc]
      simp [h1, h2]
    have hnum : stoul dev = .ok agent.device_id := by
      simp only [stoul, hval, if_pos hfit]
    simp only [create_agent_profile_request_some, hfind, htake, hdrop, hchk, hnum, hstrip,
      hinfo]
    simp
  · have hne : n ≠ n ++ '[' :: k ++ [']'] := by
      intro h
      have hlen := congrArg List.length h
      simp at hlen
    simp only [create_agent_profile_request, hfind0, hstrip, ne_eq, hne, not_false_eq_true,
      if_true]

/-- C6 amended, witness: on agent 100 of the sample system (device 0) the request
`SQ_WAVES[3]` yields the id of the counter `SQ_WAVES`, and so does the request
`SQ_WAVES[3]:device=0`. -/
theorem single_index_request_resolves_to_base_name_witness :
    create_agent_profile_request sample.tool_data 100
      (some { device_id := 0,
              agent := { id := 100, type := .ROCPROFILER_AGENT_TYPE_GPU, node_id := 1 } })
      ("SQ_WAVES".toList ++ '[' :: "3".toList ++ [']']) = .ok (some [8]) ∧
    ∃ st1, create_agent_profile 100 ["SQ_WAVES[3]".toList, "SQ_WAVES[3]:device=0".toList]
      sample.state0 = .ok ([8, 8], st1) :=
  ⟨(single_index_request_resolves_to_base_name sample.tool_data 100
    { device_id := 0,
      agent := { id := 100, type := .ROCPROFILER_AGENT_TYPE_GPU, node_id := 1 } }
    [{ id := 7, name := "L2CacheHit".toList }, { id := 8, name := "SQ_WAVES".toList }]
    "SQ_WAVES".toList "3".toList rfl (by decide) (by decide) (by decide) (by decide)).1,
   ⟨_, rfl⟩⟩

theorem filter_name_length_le_one (infos : List rocprofiler_tool_counter_info_t) (x : Name)
    (h : (infos.map (fun citr => citr.name)).Nodup) :
    (infos.filter (fun citr => decide (x = citr.name))).length ≤ 1 := by
  induction infos with
  | nil => simp
  | cons a rest ih =>
    have hnd : a.name ∉ rest.map (fun citr => citr.name) ∧
        (rest.map (fun citr => citr.name)).Nodup := List.nodup_cons.1 h
    by_cases ha : x = a.name
    · have hnone : rest.filter (fun citr => decide (x = citr.name)) = [] := by
        rw [List.filter_eq_nil_iff]
        intro b hb
        simp only [decide_eq_true_eq]
        intro hxb
        apply hnd.1
        rw [← ha, hxb]
        exact List.mem_map_of_mem (fun citr => citr.name) hb
      rw [List.filter_cons_of_pos (by simpa using ha), hnone]
      simp
    · rw [List.filter_cons_of_neg (by simpa using ha)]
      exact ih hnd.2

theorem create_agent_profile_request_cases (data : client_data) (agent_id : Nat)
    (agent : tool_agent) (infos : List rocprofiler_tool_counter_info_t) (itr : Name)
    (hinfo : umap.find data.agent_counter_info agent_id = some infos) :
    (create_agent_profile_request data agent_id (some agent) itr = .ok none ∧
      request_filtered_out agent.device_id itr) ∨
    (create_agent_profile_request data agent_id (some agent) itr =
        .ok (some ((infos.filter (fun citr => decide (request_base_name itr = citr.name))).map
          (fun citr => citr.id))) ∧
      ¬ request_filtered_out agent.device_id itr) ∨
    (∃ msg, create_agent_profile_request data agent_id (some agent) itr =
        .error (.aborted msg)) ∨
    create_agent_profile_request data agent_id (some agent) itr = .error (.thrown "stoul") := by
  cases hf : string_find device_qualifier itr with
  | none =>
    refine Or.inr (Or.inl ⟨?_, ?_⟩)
    · simp only [create_agent_profile_request_some, hf, hinfo, request_base_name]
    · rintro ⟨pos, hpos, _⟩
      rw [hf] at hpos
      cases hpos
  | some pos =>
    by_cases hchk : ((itr.drop (pos + device_qualifier.length)).isEmpty ||
        (itr.drop (pos + device_qualifier.length)).any (fun c => !c.isDigit)) = true
    · refine Or.inr (Or.inr (Or.inl
        ⟨"invalid device qualifier format (':device=N) where N is the GPU id", ?_⟩))
      simp only [create_agent_profile_request_some, hf, hchk, if_true]
    · have hchk' : ((itr.drop (pos + device_qualifier.length)).isEmpty ||
          (itr.drop (pos + device_qualifier.length)).any (fun c => !c.isDigit)) = false := by
        simpa using hchk
      have hne : itr.drop (pos + device_qualifier.length) ≠ [] := by
        intro e
        rw [e] at hchk'
        simp at hchk'
      have hdig : ∀ c ∈ itr.drop (pos + device_qualifier.length), c.isDigit = true := by
        intro c hc
        have h2 := (Bool.or_eq_false_iff.1 hchk').2
        rw [List.any_eq_false] at h2
        simpa using h2 c hc
      by_cases hfit : digits_value (itr.drop (pos + device_qualifier.length)) < 2 ^ 64
      · have hnum : stoul (itr.drop (pos + device_qualifier.length)) =
            .ok (digits_value (itr.drop (pos + device_qualifier.length))) := by
          unfold stoul
          rw [if_pos hfit]
        by_cases hdev : digits_value (itr.drop (pos + device_qualifier.length)) = agent.device_id
        · refine Or.inr (Or.inl ⟨?_, ?_⟩)
          · simp only [create_agent_profile_request_some, hf, hchk', hnum, hinfo,
              request_base_name]
            simp [hdev]
          · rintro ⟨pos', hpos', _, _, _, hneq⟩
            rw [hf] at hpos'
            injection hpos' with hpos'
            subst hpos'
            exact hneq hdev
        · refine Or.inl ⟨?_, pos, hf, hne, hdig, hfit, hdev⟩
          simp only [create_agent_profile_request_some, hf, hchk', hnum]
          simp [hdev]
      · have hnum : stoul (itr.drop (pos + device_qualifier.length)) =
            .error (.thrown "stoul") := by
          unfold stoul
          rw [if_neg hfit]
        refine Or.inr (Or.inr (Or.inr ?_))
        simp only [create_agent_profile_request_some, hf, hchk', hnum]
        simp

theorem create_agent_profile_loop_spec (data : client_data) (agent_id : Nat)
    (agent : tool_agent) (infos : List rocprofiler_tool_counter_info_t)
    (hinfo : umap.find data.agent_counter_info agent_id = some infos)
    (hnames : (infos.map (fun citr => citr.name)).Nodup)
    (counters : List Name) (e : Nat) (f : List Name) (c : List Nat) :
    (∃ e' f' c' s m,
      create_agent_profile_loop data agent_id (some agent) counters (e, f, c) =
        .ok (e', f', c') ∧
      e' = e - s ∧ c'.length = c.length + m ∧ s + m ≤ counters.length ∧
      (s + m = counters.length →
        ∀ itr ∈ counters, request_filtered_out agent.device_id itr ∨
          request_matched infos itr)) ∨
    (∃ msg, create_agent_profile_loop data agent_id (some agent) counters (e, f, c) =
      .error (.aborted msg)) ∨
    create_agent_profile_loop data agent_id (some agent) counters (e, f, c) =
      .error (.thrown "stoul") := by
  induction counters generalizing e f c with
  | nil =>
    exact Or.inl ⟨e, f, c, 0, 0, rfl, rfl, rfl, le_refl _, fun _ itr h => by cases h⟩
  | cons itr rest ih =>
    rcases create_agent_profile_request_cases data agent_id agent infos itr hinfo with
      ⟨hreq, hfil⟩ | ⟨hreq, hnfil⟩ | ⟨msg, hreq⟩ | hreq
    · rcases ih (e - 1) f c with ⟨e', f', c', s, m, hrun, he, hc, hle, hall⟩ | ⟨msg, hrun⟩ | hrun
      · refine Or.inl ⟨e', f', c', s + 1, m, ?_, ?_, hc, ?_, ?_⟩
        · simp only [create_agent_profile_loop, hreq, hrun]
        · rw [he]; omega
        · simp only [List.length_cons]; omega
        · intro heq itr' hitr'
          rcases List.mem_cons.1 hitr' with h | h
          · exact Or.inl (h ▸ hfil)
          · exact hall (by simp only [List.length_cons] at heq; omega) itr' h
      · exact Or.inr (Or.inl ⟨msg, by simp only [create_agent_profile_loop, hreq, hrun]⟩)
      · exact Or.inr (Or.inr (by simp only [create_agent_profile_loop, hreq, hrun]))
    · have hlen := filter_name_length_le_one infos (request_base_name itr) hnames
      rcases ih e (f ++ ((infos.filter (fun citr =>
          decide (request_base_name itr = citr.name))).map (fun citr => citr.id)).map
            (fun _ => itr))
          (c ++ (infos.filter (fun citr =>
            decide (request_base_name itr = citr.name))).map (fun citr => citr.id)) with
        ⟨e', f', c', s, m, hrun, he, hc, hle, hall⟩ | ⟨msg, hrun⟩ | hrun
      · refine Or.inl ⟨e', f', c', s,
          (infos.filter (fun citr => decide (request_base_name itr = citr.name))).length + m,
          ?_, he, ?_, ?_, ?_⟩
        · simp only [create_agent_profile_loop, hreq, hrun]
        · rw [hc, List.length_append, List.length_map]; omega
        · simp only [List.length_cons]; omega
        · intro heq itr' hitr'
          simp only [List.length_cons] at heq
          rcases List.mem_cons.1 hitr' with h | h
          · subst h
            right
            have hpos : 0 < (infos.filter (fun citr =>
                decide (request_base_name itr' = citr.name))).length := by omega
            obtain ⟨citr, hmem⟩ := List.exists_mem_of_length_pos hpos
            rw [List.mem_filter] at hmem
            exact ⟨citr, hmem.1, (of_decide_eq_true hmem.2).symm⟩
          · exact hall (by omega) itr' h
      · exact Or.inr (Or.inl ⟨msg, by simp only [create_agent_profile_loop, hreq, hrun]⟩)
      · exact Or.inr (Or.inr (by simp only [create_agent_profile_loop, hreq, hrun]))
    · exact Or.inr (Or.inl ⟨msg, by simp only [create_agent_profile_loop, hreq]⟩)
    · exact Or.inr (Or.inr (by simp only [create_agent_profile_loop, hreq]))

/-- C4, counterexample: `create_agent_profile` returns normally although a requested name
that carries no device qualifier matches no counter of the agent -- for agent 100 of the
sample system once its profile exists (the call returns the empty list without looking
at the names), and, on a first call, for an agent that lists two counters under the one
name `A` (the two matches of `A` make up for the missing match of `B`). -/
theorem create_agent_profile_returns_with_unmatched_name :
    ((create_agent_profile 100 ["NoSuch".toList] sample.state_profiled).map (fun r => r.1) =
        .ok [] ∧
      ¬ request_filtered_out 0 "NoSuch".toList ∧
      ¬ request_matched
        [{ id := 7, name := "L2CacheHit".toList }, { id := 8, name := "SQ_WAVES".toList }]
        "NoSuch".toList) ∧
    ((create_agent_profile 100 ["A".toList, "B".toList] sample.state_same_names).map
        (fun r => r.1) = .ok [1, 2] ∧
      ¬ request_filtered_out 0 "B".toList ∧
      ¬ request_matched [{ id := 1, name := "A".toList }, { id := 2, name := "A".toList }]
        "B".toList) := by
  refine ⟨⟨rfl, by decide, by decide⟩, ⟨rfl, by decide, by decide⟩⟩

/-- C4, amended. On the first `create_agent_profile` for a GPU agent (no profile entry
exists for it yet) whose counter info holds pairwise distinct counter names: if any
requested name that is not filtered out by a `:device=N` qualifier naming another device
fails to match a counter name of the agent, the call does not return -- it aborts (or,
for a device number beyond 64 bits, leaves through the `std::out_of_range` of
`std::stoul`); and whenever it returns normally, every requested name was filtered out
or matched. No partial match is tolerated. -/
theorem create_agent_profile_requires_every_match {V : Type} (agent_id : Nat)
    (counters : List Name) (st : tool_state V) (data : client_data) (agent : tool_agent)
    (infos : List rocprofiler_tool_counter_info_t)
    (hdata : st.tool_data = some data)
    (hfirst : umap.find data.agent_counter_profiles agent_id = none)
    (hagent : data.get_gpu_tool_agent agent_id = some agent)
    (hinfo : umap.find data.agent_counter_info agent_id = some infos)
    (hnames : (infos.map (fun citr => citr.name)).Nodup) :
    ((∃ itr ∈ counters, ¬ request_filtered_out agent.device_id itr ∧
        ¬ request_matched infos itr) →
      (∃ msg, create_agent_profile agent_id counters st = .error (.aborted msg)) ∨
        create_agent_profile agent_id counters st = .error (.thrown "stoul")) ∧
    (∀ ids st', create_agent_profile agent_id counters st = .ok (ids, st') →
      ∀ itr ∈ counters, request_filtered_out agent.device_id itr ∨
        request_matched infos itr) := by
  have hcases : (∃ ids st', create_agent_profile agent_id counters st = .ok (ids, st') ∧
        ∀ itr ∈ counters, request_filtered_out agent.device_id itr ∨
          request_matched infos itr) ∨
      (∃ msg, create_agent_profile agent_id counters st = .error (.aborted msg)) ∨
        create_agent_profile agent_id counters st = .error (.thrown "stoul") := by
    rcases create_agent_profile_loop_spec data agent_id agent infos hinfo hnames counters
        counters.length [] [] with
      ⟨e', f', c', s, m, hrun, he, hc, hle, hall⟩ | ⟨msg, hrun⟩ | hrun
    · by_cases hchk : c'.length = e'
      · have hex : ∃ st', create_agent_profile agent_id counters st = .ok (c', st') := by
          simp only [create_agent_profile, hdata, hfirst, hagent, hrun, hchk, ne_eq,
            not_true_eq_false, if_false]
          exact ⟨_, rfl⟩
        obtain ⟨st', hst'⟩ := hex
        refine Or.inl ⟨c', st', hst', hall ?_⟩
        simp only [List.length_nil, Nat.zero_add] at hc
        omega
      · refine Or.inr (Or.inl ⟨"Unable to find all counters for agent", ?_⟩)
        simp only [create_agent_profile, hdata, hfirst, hagent, hrun, ne_eq, hchk,
          not_false_eq_true, if_true]
    · exact Or.inr (Or.inl ⟨msg, by
        simp only [create_agent_profile, hdata, hfirst, hagent, hrun]⟩)
    · exact Or.inr (Or.inr (by
        simp only [create_agent_profile, hdata, hfirst, hagent, hrun]))
  constructor
  · rintro ⟨itr, hitr, hnf, hnm⟩
    rcases hcases with ⟨ids, st', _, hall⟩ | h
    · rcases hall itr hitr with h | h
      · exact absurd h hnf
      · exact absurd h hnm
    · exact h
  · intro ids st' hok itr hitr
    rcases hcases with ⟨ids2, st2, _, hall⟩ | ⟨msg, h⟩ | h
    · exact hall itr hitr
    · rw [h] at hok; cases hok
    · rw [h] at hok; cases hok

/-- C4 amended, witness: on agent 100 of the sample system the request list `SQ_WAVES`,
`NoSuch` aborts, the second name matching no counter. -/
theorem create_agent_profile_requires_every_match_witness :
    (∃ msg, create_agent_profile 100 ["SQ_WAVES".toList, "NoSuch".toList] sample.state0 =
        .error (.aborted msg)) ∨
      create_agent_profile 100 ["SQ_WAVES".toList, "NoSuch".toList] sample.state0 =
        .error (.thrown "stoul") :=
  (create_agent_profile_requires_every_match 100 ["SQ_WAVES".toList, "NoSuch".toList]
    sample.state0 sample.tool_data
    { device_id := 0, agent := { id := 100, type := .ROCPROFILER_AGENT_TYPE_GPU, node_id := 1 } }
    [{ id := 7, name := "L2CacheHit".toList }, { id := 8, name := "SQ_WAVES".toList }]
    rfl rfl rfl rfl (by decide)).1
    ⟨"NoSuch".toList, (by simp), (by decide), (by decide)⟩

/-! ### Shutdown invoked twice -/

theorem flush_stop_frame {V : Type} (st : tool_state V) :
    (stop (flush st)).fini_once = st.fini_once ∧
    (stop (flush st)).written = st.written ∧
    (stop (flush st)).agent_counter_storage = st.agent_counter_storage := by
  unfold stop flush
  cases h : st.tool_data <;> simp [h]

theorem tool_fini_first_written {V : Type} (cfg : settings) (st : tool_state V)
    (hfirst : st.fini_once = false) :
    (tool_fini cfg st).written = st.written ++
      std_sort counter_storage.lt ((st.agent_counter_storage.map all_tracks).getD []) := by
  obtain ⟨-, h2, h1⟩ := flush_stop_frame { st with fini_once := true }
  unfold tool_fini
  rw [if_neg (by simp [hfirst])]
  generalize stop (flush { st with fini_once := true }) = s1 at h1 h2 ⊢
  simp only [] at h1 h2
  cases hs : st.agent_counter_storage <;> rw [hs] at h1 <;> split_ifs <;>
    simp [h1, h2, std_sort]

theorem tool_fini_sets_once {V : Type} (cfg : settings) (st : tool_state V) :
    (tool_fini cfg st).fini_once = true := by
  by_cases hfirst : st.fini_once = true
  · unfold tool_fini
    rw [if_pos hfirst]
    exact hfirst
  · have h := (flush_stop_frame { st with fini_once := true }).1
    unfold tool_fini
    rw [if_neg hfirst]
    split_ifs <;> (simp only []; split <;> simp [h])

/-- C11. Invoking `tool_fini` twice writes each counter track exactly once: the first
invocation writes a sequence of tracks that is a permutation of the tracks held in the
per-agent counter-storage map (nothing when the map is null), and the second invocation
returns at the one-shot flag and leaves the whole state as it is, so it writes no track,
flushes no buffer and stops no context. -/
theorem tool_fini_twice_writes_once {V : Type} (cfg : settings) (st : tool_state V)
    (hfirst : st.fini_once = false) :
    (∃ w, (tool_fini cfg st).written = st.written ++ w ∧
      w.Perm ((st.agent_counter_storage.map all_tracks).getD [])) ∧
    tool_fini cfg (tool_fini cfg st) = tool_fini cfg st ∧
    (tool_fini cfg (tool_fini cfg st)).written = (tool_fini cfg st).written ∧
    (tool_fini cfg (tool_fini cfg st)).backend.flushed_buffers =
      (tool_fini cfg st).backend.flushed_buffers ∧
    (tool_fini cfg (tool_fini cfg st)).backend.stopped_contexts =
      (tool_fini cfg st).backend.stopped_contexts := by
  have hsecond : tool_fini cfg (tool_fini cfg st) = tool_fini cfg st := by
    have h := tool_fini_sets_once cfg st
    generalize tool_fini cfg st = st1 at h
    unfold tool_fini
    rw [if_pos h]
  refine ⟨⟨_, tool_fini_first_written cfg st hfirst, std_sort_perm _ _⟩, hsecond, ?_, ?_, ?_⟩ <;>
    rw [hsecond]

theorem tool_fini_twice_writes_once_witness :
    sample.state_tracks.fini_once = false ∧
    (tool_fini {} (tool_fini {} sample.state_tracks)).written =
      (tool_fini {} sample.state_tracks).written ∧
    (tool_fini {} sample.state_tracks).written.length = 3 :=
  ⟨rfl, (tool_fini_twice_writes_once {} sample.state_tracks rfl).2.2.1, by decide⟩

/-! ### Spans emitted by the buffered record decoder -/

theorem spans_from_closed_slice (opened : List span) (pre rest : List trace_event)
    (hpre : ∀ e ∈ pre, (∃ n, e = trace_event.timemory_start n) ∨
      (∃ n, e = trace_event.timemory_stop n) ∨ ∃ n t v, e = trace_event.timemory_bundle n t v)
    (cat cat1 : category) (name name1 : Name) (track : Option Name) (b e : Nat)
    (flow : Option Nat) (a a1 : List (Name × annot_value)) :
    spans_from opened
        (pre ++ [.perfetto_begin cat name track b flow a, .perfetto_end cat1 name1 track e a1]
          ++ rest) =
      { cat := cat, name := name, track := track, begin_ts := b, end_ts := e, flow := flow } ::
        spans_from opened rest := by
  induction pre with
  | nil => simp [spans_from, close_slice]
  | cons x pre ih =>
    have hx := hpre x (List.mem_cons_self _ _)
    have ih1 := ih (fun e he => hpre e (List.mem_cons_of_mem _ he))
    rcases hx with ⟨n, rfl⟩ | ⟨n, rfl⟩ | ⟨n, t, v, rfl⟩ <;>
      simp only [List.cons_append, spans_from] <;> exact ih1

theorem decoded_events_shape (cfg : settings) (ext : externals) (td : client_data)
    (header : rocprofiler_record_header_t) (hsink : cfg.use_perfetto = true)
    (hwf : well_formed_header cfg td header = true) :
    ∃ pre cat cat1 name name1 track flow a a1,
      decoded_events cfg ext td header =
        pre ++ [.perfetto_begin cat name track (header_interval header).1 flow a,
                .perfetto_end cat1 name1 track (header_interval header).2 a1] ∧
      ∀ e ∈ pre, (∃ n, e = trace_event.timemory_start n) ∨
        (∃ n, e = trace_event.timemory_stop n) ∨
        ∃ n t v, e = trace_event.timemory_bundle n t v := by
  unfold well_formed_header at hwf
  split_ifs at hwf with hc hk hm
  · cases hp : header.payload with
    | kernel_dispatch record =>
      rw [hp] at hwf
      simp only [Bool.and_eq_true, Option.isSome_iff_exists] at hwf
      obtain ⟨⟨sym, hsym⟩, ⟨agent, hagent⟩⟩ := hwf
      simp only [decoded_events, hp, header_interval, tool_tracing_buffered_kernel_dispatch,
        hsym, hagent, hsink, if_true]
      exact ⟨_, _, _, _, _, _, _, _, _, rfl, by
        intro e he
        split_ifs at he
        · simp only [List.mem_singleton] at he
          exact Or.inr (Or.inr ⟨_, _, _, he⟩)
        · cases he⟩
    | memory_copy record => rw [hp] at hwf; cases hwf
    | empty => rw [hp] at hwf; cases hwf
  · cases hp : header.payload with
    | memory_copy record =>
      rw [hp] at hwf
      simp only [Bool.and_eq_true, Bool.or_eq_true, Bool.not_eq_true',
        Option.isSome_iff_exists] at hwf
      obtain ⟨⟨dst, hdst⟩, hsrc⟩ := hwf
      simp only [decoded_events, hp, header_interval, tool_tracing_buffered_memory_copy,
        hdst, hsink, if_true]
      have hpre : ∀ e ∈ (if cfg.use_timemory = true then
            [trace_event.timemory_bundle (ext.buffered_tracing_info record.kind record.operation)
              (ext.thread_sequent_value record.thread_id)
              (timestamp_sub record.end_timestamp record.start_timestamp)]
          else []),
          (∃ n, e = trace_event.timemory_start n) ∨ (∃ n, e = trace_event.timemory_stop n) ∨
            ∃ n t v, e = trace_event.timemory_bundle n t v := by
        intro e he
        split_ifs at he
        · simp only [List.mem_singleton] at he
          exact Or.inr (Or.inr ⟨_, _, _, he⟩)
        · cases he
      rcases hsrc with hno | ⟨src, hsrc⟩
      · simp only [hno, Bool.false_eq_true, if_false]
        exact ⟨_, _, _, _, _, _, _, _, _, rfl, hpre⟩
      · by_cases ha : cfg.perfetto_annotations = true
        · simp only [ha, hsrc, if_true]
          exact ⟨_, _, _, _, _, _, _, _, _, rfl, hpre⟩
        · simp only [ha, if_false]
          exact ⟨_, _, _, _, _, _, _, _, _, rfl, hpre⟩
    | kernel_dispatch record => rw [hp] at hwf; cases hwf
    | empty => rw [hp] at hwf; cases hwf

theorem tool_tracing_buffered_header_decodes {V : Type} (cfg : settings) (ext : externals)
    (td : client_data) (st : tool_state V) (header : rocprofiler_record_header_t)
    (hsink : cfg.use_perfetto = true) (hlive : st.tool_data = some td)
    (hwf : well_formed_header cfg td header = true) :
    tool_tracing_buffered_header cfg ext st header =
      .ok { st with events := st.events ++ decoded_events cfg ext td header } := by
  unfold well_formed_header at hwf
  split_ifs at hwf with hc hk hm
  · cases hp : header.payload with
    | kernel_dispatch record =>
      rw [hp] at hwf
      simp only [Bool.and_eq_true, Option.isSome_iff_exists] at hwf
      obtain ⟨⟨sym, hsym⟩, ⟨agent, hagent⟩⟩ := hwf
      simp only [tool_tracing_buffered_header, decoded_events, hc, hk, hp, hlive,
        tool_tracing_buffered_kernel_dispatch, hsym, hagent, hsink, if_true]
    | memory_copy record => rw [hp] at hwf; cases hwf
    | empty => rw [hp] at hwf; cases hwf
  · cases hp : header.payload with
    | memory_copy record =>
      rw [hp] at hwf
      simp only [Bool.and_eq_true, Bool.or_eq_true, Bool.not_eq_true',
        Option.isSome_iff_exists] at hwf
      obtain ⟨⟨dst, hdst⟩, hsrc⟩ := hwf
      rcases hsrc with hno | ⟨src, hsrc⟩
      · simp [tool_tracing_buffered_header, decoded_events, hc, hm, hp, hlive,
          tool_tracing_buffered_memory_copy, hdst, hsink, hno]
      · by_cases ha : cfg.perfetto_annotations = true
        · simp [tool_tracing_buffered_header, decoded_events, hc, hm, hp, hlive,
            tool_tracing_buffered_memory_copy, hdst, hsink, hsrc, ha]
        · simp [tool_tracing_buffered_header, decoded_events, hc, hm, hp, hlive,
            tool_tracing_buffered_memory_copy, hdst, hsink, ha]
    | kernel_dispatch record => rw [hp] at hwf; cases hwf
    | empty => rw [hp] at hwf; cases hwf

theorem tool_tracing_buffered_decodes {V : Type} (cfg : settings) (ext : externals)
    (td : client_data) (headers : List rocprofiler_record_header_t) (st : tool_state V)
    (hsink : cfg.use_perfetto = true) (hlive : st.tool_data = some td)
    (hwf : ∀ header ∈ headers, well_formed_header cfg td header = true) :
    tool_tracing_buffered cfg ext headers st =
      .ok { st with events := st.events ++ headers.flatMap (decoded_events cfg ext td) } := by
  induction headers generalizing st with
  | nil => simp [tool_tracing_buffered]
  | cons header rest ih =>
    have h1 := tool_tracing_buffered_header_decodes cfg ext td st header hsink hlive
      (hwf header (List.mem_cons_self _ _))
    simp only [tool_tracing_buffered, h1]
    refine (ih { st with events := st.events ++ decoded_events cfg ext td header } hlive
      (fun h hh => hwf h (List.mem_cons_of_mem _ hh))).trans ?_
    simp [List.flatMap_cons, List.append_assoc]

theorem spans_decoded_events (cfg : settings) (ext : externals) (td : client_data)
    (header : rocprofiler_record_header_t) (hsink : cfg.use_perfetto = true)
    (hwf : well_formed_header cfg td header = true) :
    (∃ s, spans (decoded_events cfg ext td header) = [s] ∧
      (s.begin_ts, s.end_ts) = header_interval header) ∧
    ∀ opened rest, spans_from opened (decoded_events cfg ext td header ++ rest) =
      spans (decoded_events cfg ext td header) ++ spans_from opened rest := by
  obtain ⟨pre, cat, cat1, name, name1, track, flow, a, a1, hev, hpre⟩ :=
    decoded_events_shape cfg ext td header hsink hwf
  have h0 := spans_from_closed_slice [] pre [] hpre cat cat1 name name1 track
    (header_interval header).1 (header_interval header).2 flow a a1
  rw [List.append_nil, ← hev] at h0
  have h0' : spans (decoded_events cfg ext td header) =
      [{ cat := cat, name := name, track := track, begin_ts := (header_interval header).1,
         end_ts := (header_interval header).2, flow := flow }] := by
    unfold spans
    rw [h0]
    rfl
  refine ⟨⟨_, h0', rfl⟩, ?_⟩
  intro opened rest
  rw [h0', hev, spans_from_closed_slice opened pre rest hpre]
  rfl

theorem spans_from_flatMap_decoded_events (cfg : settings) (ext : externals)
    (td : client_data) (headers : List rocprofiler_record_header_t)
    (hsink : cfg.use_perfetto = true)
    (hwf : ∀ header ∈ headers, well_formed_header cfg td header = true) :
    spans (headers.flatMap (decoded_events cfg ext td)) =
      headers.flatMap (fun header => spans (decoded_events cfg ext td header)) := by
  induction headers with
  | nil => rfl
  | cons header rest ih =>
    have h1 := (spans_decoded_events cfg ext td header hsink
      (hwf header (List.mem_cons_self _ _))).2 [] (rest.flatMap (decoded_events cfg ext td))
    rw [List.flatMap_cons, List.flatMap_cons]
    unfold spans at h1 ih ⊢
    rw [h1, ih (fun h hh => hwf h (List.mem_cons_of_mem _ hh))]

theorem spans_decoded_intervals (cfg : settings) (ext : externals) (td : client_data)
    (headers : List rocprofiler_record_header_t) (hsink : cfg.use_perfetto = true)
    (hwf : ∀ header ∈ headers, well_formed_header cfg td header = true) :
    (headers.flatMap (fun header => spans (decoded_events cfg ext td header))).map
        (fun s => (s.begin_ts, s.end_ts)) = headers.map header_interval := by
  induction headers with
  | nil => rfl
  | cons header rest ih =>
    obtain ⟨s, hs, hi⟩ := (spans_decoded_events cfg ext td header hsink
      (hwf header (List.mem_cons_self _ _))).1
    rw [List.flatMap_cons, List.map_append, ih (fun h hh => hwf h (List.mem_cons_of_mem _ hh)),
      hs, List.map_cons, List.map_nil, List.map_cons, hi]
    rfl

theorem well_formed_header_kinds (cfg : settings) (td : client_data)
    (headers : List rocprofiler_record_header_t)
    (hwf : ∀ header ∈ headers, well_formed_header cfg td header = true) :
    headers.length =
      headers.countP (fun header =>
        decide (header.kind = .ROCPROFILER_BUFFER_TRACING_KERNEL_DISPATCH)) +
      headers.countP (fun header =>
        decide (header.kind = .ROCPROFILER_BUFFER_TRACING_MEMORY_COPY)) := by
  induction headers with
  | nil => rfl
  | cons header rest ih =>
    have h1 := hwf header (List.mem_cons_self _ _)
    have ih1 := ih (fun h hh => hwf h (List.mem_cons_of_mem _ hh))
    unfold well_formed_header at h1
    split_ifs at h1 with hc hk hm
    · simp [List.countP_cons, hk, ih1]
      omega
    · simp [List.countP_cons, hk, hm, ih1]
      omega

/-- C12. With the trace sink enabled and the tool data live, `tool_tracing_buffered`
applied to a header array of well-formed kernel-dispatch and memory-copy records returns
and emits exactly one span per record, in array order, with begin = the record's
`start_timestamp` and end = its `end_timestamp`; the number of spans is K + M for K
kernel-dispatch and M memory-copy records; and this holds for every ordering of the
records within the array, the spans emitted for two orderings being the same up to
their order. -/
theorem tool_tracing_buffered_one_span_per_record {V : Type} (cfg : settings)
    (ext : externals) (td : client_data) (headers : List rocprofiler_record_header_t)
    (st : tool_state V) (hsink : cfg.use_perfetto = true) (hlive : st.tool_data = some td)
    (hwf : ∀ header ∈ headers, well_formed_header cfg td header = true) :
    ∃ st' w, tool_tracing_buffered cfg ext headers st = .ok st' ∧
      st'.events = st.events ++ w ∧
      (spans w).map (fun s => (s.begin_ts, s.end_ts)) = headers.map header_interval ∧
      (spans w).length =
        headers.countP (fun header =>
          decide (header.kind = .ROCPROFILER_BUFFER_TRACING_KERNEL_DISPATCH)) +
        headers.countP (fun header =>
          decide (header.kind = .ROCPROFILER_BUFFER_TRACING_MEMORY_COPY)) ∧
      ∀ headers' : List rocprofiler_record_header_t, headers'.Perm headers →
        ∃ st'' w', tool_tracing_buffered cfg ext headers' st = .ok st'' ∧
          st''.events = st.events ++ w' ∧
          (spans w').map (fun s => (s.begin_ts, s.end_ts)) = headers'.map header_interval ∧
          (spans w').Perm (spans w) := by
  have hint := spans_decoded_intervals cfg ext td headers hsink hwf
  refine ⟨_, _, tool_tracing_buffered_decodes cfg ext td headers st hsink hlive hwf, rfl, ?_,
    ?_, ?_⟩
  · rw [spans_from_flatMap_decoded_events cfg ext td headers hsink hwf]
    exact hint
  · rw [← well_formed_header_kinds cfg td headers hwf,
      spans_from_flatMap_decoded_events cfg ext td headers hsink hwf]
    have := congrArg List.length hint
    simpa using this
  · intro headers' hperm
    have hwf' : ∀ header ∈ headers', well_formed_header cfg td header = true :=
      fun h hh => hwf h (hperm.subset hh)
    refine ⟨_, _, tool_tracing_buffered_decodes cfg ext td headers' st hsink hlive hwf', rfl,
      ?_, ?_⟩
    · rw [spans_from_flatMap_decoded_events cfg ext td headers' hsink hwf']
      exact spans_decoded_intervals cfg ext td headers' hsink hwf'
    · rw [spans_from_flatMap_decoded_events cfg ext td headers' hsink hwf',
        spans_from_flatMap_decoded_events cfg ext td headers hsink hwf]
      exact List.Perm.flatMap_right _ hperm

theorem tool_tracing_buffered_one_span_per_record_witness :
    ∃ st' w, tool_tracing_buffered { use_perfetto := true } {}
        [sample.copy_header, sample.dispatch_header, sample.copy_header] sample.state0 =
          .ok st' ∧
      st'.events = sample.state0.events ++ w ∧
      (spans w).map (fun s => (s.begin_ts, s.end_ts)) = [(300, 350), (100, 200), (300, 350)] ∧
      (spans w).length = 1 + 2 := by
  obtain ⟨st', w, h1, h2, h3, h4, -⟩ :=
    tool_tracing_buffered_one_span_per_record { use_perfetto := true } {} sample.tool_data
      [sample.copy_header, sample.dispatch_header, sample.copy_header] sample.state0 rfl rfl
      (by decide)
  exact ⟨st', w, h1, h2, h3, h4⟩

/-! ### Records of a type the decoder never requested -/

theorem tool_tracing_buffered_append {V : Type} (cfg : settings) (ext : externals)
    (pre post : List rocprofiler_record_header_t) (st : tool_state V) :
    tool_tracing_buffered cfg ext (pre ++ post) st =
      match tool_tracing_buffered cfg ext pre st with
      | .ok st1 => tool_tracing_buffered cfg ext post st1
      | .error f => .error f := by
  induction pre generalizing st with
  | nil => rfl
  | cons header rest ih =>
    simp only [List.cons_append, tool_tracing_buffered]
    cases tool_tracing_buffered_header cfg ext st header with
    | error f => rfl
    | ok st1 => exact ih st1

theorem tool_tracing_buffered_header_unexpected {V : Type} (cfg : settings)
    (ext : externals) (bad : rocprofiler_record_header_t) (st : tool_state V)
    (hbad : unexpected_header bad) :
    ∃ msg, tool_tracing_buffered_header cfg ext st bad = .error (.thrown msg) := by
  unfold tool_tracing_buffered_header rocprofsys_throw
  rcases hbad with hc | ⟨hk, hm⟩
  · rw [if_neg hc]
    exact ⟨_, rfl⟩
  · rw [if_neg hk, if_neg hm]
    split_ifs <;> exact ⟨_, rfl⟩

/-- C13. A header whose category is not the tracing category, or whose kind is neither
kernel dispatch nor memory copy, makes `tool_tracing_buffered` fail: the loop body throws
on it in every state; an array that holds it never decodes to a normal return, whatever
stands before and after it; the outcome does not depend on the records after it (none of
them is decoded); and when the records before it decode, the failure is the exception
thrown for it. -/
theorem tool_tracing_buffered_throws_on_unexpected {V : Type} (cfg : settings)
    (ext : externals) (bad : rocprofiler_record_header_t) (hbad : unexpected_header bad) :
    (∀ st : tool_state V, ∃ msg,
      tool_tracing_buffered_header cfg ext st bad = .error (.thrown msg)) ∧
    (∀ (pre post : List rocprofiler_record_header_t) (st : tool_state V),
      ∃ f, tool_tracing_buffered cfg ext (pre ++ bad :: post) st = .error f ∧
        ∀ post1, tool_tracing_buffered cfg ext (pre ++ bad :: post1) st = .error f) ∧
    (∀ (pre post : List rocprofiler_record_header_t) (st st1 : tool_state V),
      tool_tracing_buffered cfg ext pre st = .ok st1 →
      ∃ msg, tool_tracing_buffered cfg ext (pre ++ bad :: post) st = .error (.thrown msg)) := by
  refine ⟨fun st => tool_tracing_buffered_header_unexpected cfg ext bad st hbad, ?_, ?_⟩
  · intro pre post st
    cases hpre : tool_tracing_buffered cfg ext pre st with
    | error f =>
      refine ⟨f, ?_, fun post1 => ?_⟩ <;> rw [tool_tracing_buffered_append, hpre]
    | ok st1 =>
      obtain ⟨msg, hmsg⟩ := tool_tracing_buffered_header_unexpected cfg ext bad st1 hbad
      refine ⟨.thrown msg, ?_, fun post1 => ?_⟩ <;>
        rw [tool_tracing_buffered_append, hpre] <;>
        simp only [tool_tracing_buffered, hmsg]
  · intro pre post st st1 hpre
    obtain ⟨msg, hmsg⟩ := tool_tracing_buffered_header_unexpected cfg ext bad st1 hbad
    refine ⟨msg, ?_⟩
    rw [tool_tracing_buffered_append, hpre]
    simp only [tool_tracing_buffered, hmsg]

theorem tool_tracing_buffered_throws_on_unexpected_witness :
    unexpected_header sample.scratch_header ∧
    ∃ msg, tool_tracing_buffered { use_perfetto := true } {}
        ([sample.dispatch_header] ++ sample.scratch_header :: [sample.copy_header])
        sample.state0 = .error (.thrown msg) :=
  ⟨by decide,
    (tool_tracing_buffered_throws_on_unexpected { use_perfetto := true } {}
      sample.scratch_header (by decide)).2.2 [sample.dispatch_header] [sample.copy_header]
      sample.state0 _ rfl⟩

/-! ### Spans of paired ENTER / EXIT callbacks -/

theorem callback_category_marker (kind : rocprofiler_callback_tracing_kind_t) (cat : category)
    (hcat : callback_category kind = some cat) :
    (cat = .rocm_marker_api ∧ kind = .ROCPROFILER_CALLBACK_TRACING_MARKER_CORE_API) ↔
      kind = .ROCPROFILER_CALLBACK_TRACING_MARKER_CORE_API := by
  cases kind <;> simp [callback_category] at hcat ⊢
  exact hcat.symm

theorem tool_tracing_callback_start_name_returns {V : Type} (cfg : settings)
    (ext : externals) (td : client_data) (record : rocprofiler_callback_tracing_record_t)
    (cat : category) (st : tool_state V) (hlive : st.tool_data = some td)
    (hphase : record.phase = .ROCPROFILER_CALLBACK_PHASE_ENTER)
    (hcat : callback_category record.kind = some cat)
    (hret : callback_returns cfg td record
      (st.marker_pushed_ranges.length, st.marker_started_ranges.length) = true) :
    ∃ n s1, tool_tracing_callback_start_name ext cat record st = .ok (n, s1) ∧
      s1.tool_data = st.tool_data ∧ s1.events = st.events ∧
      (s1.marker_pushed_ranges.length, s1.marker_started_ranges.length) =
        depths_after record
          (st.marker_pushed_ranges.length, st.marker_started_ranges.length) := by
  have hm := callback_category_marker record.kind cat hcat
  unfold callback_returns at hret
  unfold tool_tracing_callback_start_name depths_after
  simp only [hlive, hphase, hcat, Option.isSome_some, Bool.true_and, if_true] at hret ⊢
  by_cases hk : record.kind = .ROCPROFILER_CALLBACK_TRACING_MARKER_CORE_API
  · rw [if_pos (hm.2 hk), if_pos hk]
    simp only [hk, decide_True, Bool.true_and, Bool.or_eq_true, Bool.not_eq_true',
      decide_eq_true_eq] at hret
    have hmsg : (record.operation = ROCPROFILER_MARKER_CORE_API_ID_roctxRangePushA ∨
        record.operation = ROCPROFILER_MARKER_CORE_API_ID_roctxRangeStartA ∨
        record.operation = ROCPROFILER_MARKER_CORE_API_ID_roctxMarkA) →
        ∃ message, record.payload = .marker_api message := by
      intro hop
      cases hp : record.payload with
      | marker_api message => exact ⟨message, rfl⟩
      | empty =>
        simp [has_message, hp] at hret
        tauto
      | kernel_dispatch d =>
        simp [has_message, hp] at hret
        tauto
      | kernel_symbol d =>
        simp [has_message, hp] at hret
        tauto
    by_cases h1 : record.operation = ROCPROFILER_MARKER_CORE_API_ID_roctxRangePushA
    · rw [if_pos h1, if_pos h1]
      obtain ⟨message, hp⟩ := hmsg (Or.inl h1)
      simp only [hp]
      exact ⟨_, _, rfl, rfl, rfl, rfl⟩
    · rw [if_neg h1, if_neg h1]
      by_cases h2 : record.operation = ROCPROFILER_MARKER_CORE_API_ID_roctxRangeStartA
      · rw [if_pos h2, if_pos h2]
        obtain ⟨message, hp⟩ := hmsg (Or.inr (Or.inl h2))
        simp only [hp]
        exact ⟨_, _, rfl, rfl, rfl, rfl⟩
      · rw [if_neg h2, if_neg h2]
        by_cases h3 : record.operation = ROCPROFILER_MARKER_CORE_API_ID_roctxMarkA
        · rw [if_pos h3]
          obtain ⟨message, hp⟩ := hmsg (Or.inr (Or.inr h3))
          simp only [hp]
          exact ⟨_, _, rfl, hlive, rfl, rfl⟩
        · rw [if_neg h3]
          exact ⟨_, _, rfl, hlive, rfl, rfl⟩
  · rw [if_neg (fun h => hk (hm.1 h)), if_neg hk]
    exact ⟨_, _, rfl, hlive, rfl, rfl⟩

theorem tool_tracing_callback_stop_name_returns {V : Type} (cfg : settings)
    (ext : externals) (td : client_data) (record : rocprofiler_callback_tracing_record_t)
    (cat : category) (st : tool_state V) (hlive : st.tool_data = some td)
    (hphase : record.phase = .ROCPROFILER_CALLBACK_PHASE_EXIT)
    (hcat : callback_category record.kind = some cat)
    (hret : callback_returns cfg td record
      (st.marker_pushed_ranges.length, st.marker_started_ranges.length) = true) :
    ∃ n s1, tool_tracing_callback_stop_name ext cat record st = .ok (n, s1) ∧
      s1.tool_data = st.tool_data ∧ s1.events = st.events ∧
      (s1.marker_pushed_ranges.length, s1.marker_started_ranges.length) =
        depths_after record
          (st.marker_pushed_ranges.length, st.marker_started_ranges.length) := by
  have hm := callback_category_marker record.kind cat hcat
  have hne : ¬ (rocprofiler_callback_phase_t.ROCPROFILER_CALLBACK_PHASE_EXIT =
      rocprofiler_callback_phase_t.ROCPROFILER_CALLBACK_PHASE_ENTER) := by decide
  unfold callback_returns at hret
  unfold tool_tracing_callback_stop_name depths_after
  simp only [hlive, hphase, hcat, Option.isSome_some, Bool.true_and, if_true, if_neg hne,
    Bool.and_eq_true] at hret ⊢
  obtain ⟨-, hret⟩ := hret
  by_cases hk : record.kind = .ROCPROFILER_CALLBACK_TRACING_MARKER_CORE_API
  · rw [if_pos (hm.2 hk), if_pos hk]
    simp only [hk, decide_True, Bool.not_true, Bool.false_or] at hret
    by_cases h1 : record.operation = ROCPROFILER_MARKER_CORE_API_ID_roctxRangePop
    · rw [if_pos h1, if_pos h1]
      rw [if_pos h1] at hret
      cases hs : st.marker_pushed_ranges with
      | nil => simp [hs] at hret
      | cons _hash rest => exact ⟨_, _, rfl, rfl, rfl, by simp⟩
    · rw [if_neg h1, if_neg h1]
      rw [if_neg h1] at hret
      by_cases h2 : record.operation = ROCPROFILER_MARKER_CORE_API_ID_roctxRangeStop
      · rw [if_pos h2, if_pos h2]
        rw [if_pos h2] at hret
        cases hs : st.marker_started_ranges with
        | nil => simp [hs] at hret
        | cons _hash rest => exact ⟨_, _, rfl, rfl, rfl, by simp⟩
      · rw [if_neg h2, if_neg h2]
        rw [if_neg h2] at hret
        by_cases h3 : record.operation = ROCPROFILER_MARKER_CORE_API_ID_roctxMarkA
        · rw [if_pos h3]
          rw [if_pos h3] at hret
          cases hp : record.payload with
          | marker_api message => exact ⟨_, _, rfl, hlive, rfl, rfl⟩
          | empty => simp [has_message, hp] at hret
          | kernel_dispatch d => simp [has_message, hp] at hret
          | kernel_symbol d => simp [has_message, hp] at hret
        · rw [if_neg h3]
          exact ⟨_, _, rfl, hlive, rfl, rfl⟩
  · rw [if_neg (fun h => hk (hm.1 h)), if_neg hk]
    exact ⟨_, _, rfl, hlive, rfl, rfl⟩

theorem tool_tracing_callback_phases_enter_returns {V : Type} (cfg : settings) (ext : externals)
    (td : client_data) (record : rocprofiler_callback_tracing_record_t) (user_data ts : Nat)
    (unw : List (Option Nat)) (st : tool_state V) (hlive : st.tool_data = some td)
    (hphase : record.phase = .ROCPROFILER_CALLBACK_PHASE_ENTER)
    (hret : callback_returns cfg td record
      (st.marker_pushed_ranges.length, st.marker_started_ranges.length) = true) :
    ∃ st1 evs, tool_tracing_callback_phases cfg ext record user_data ts unw st = .ok (st1, ts) ∧
      st1.tool_data = st.tool_data ∧
      (st1.marker_pushed_ranges.length, st1.marker_started_ranges.length) =
        depths_after record
          (st.marker_pushed_ranges.length, st.marker_started_ranges.length) ∧
      st1.events = st.events ++ evs ∧
      ∀ e ∈ evs, (∃ n, e = trace_event.timemory_start n) ∨
        (∃ n, e = trace_event.timemory_stop n) ∨
        ∃ n t v, e = trace_event.timemory_bundle n t v := by
  have hcat : ∃ cat, callback_category record.kind = some cat := by
    unfold callback_returns at hret
    simp only [Bool.and_eq_true, Option.isSome_iff_exists] at hret
    exact hret.1
  obtain ⟨cat, hcat⟩ := hcat
  obtain ⟨n, s1, hname, htd, hev, hdepth⟩ :=
    tool_tracing_callback_start_name_returns cfg ext td record cat st hlive hphase hcat hret
  unfold tool_tracing_callback_phases tool_tracing_callback_start
  simp only [hphase, hcat, hname]
  by_cases ht : cfg.use_timemory = true
  · simp only [ht, if_true]
    exact ⟨_, [.timemory_start n], rfl, htd, hdepth, by simp [hev], by
      intro e he
      simp only [List.mem_singleton] at he
      exact Or.inl ⟨_, he⟩⟩
  · simp only [ht, if_false]
    exact ⟨_, [], rfl, htd, hdepth, by simp [hev], by simp⟩

theorem tool_tracing_callback_enter_returns {V : Type} (cfg : settings) (ext : externals)
    (td : client_data) (record : rocprofiler_callback_tracing_record_t) (user_data ts : Nat)
    (unw : List (Option Nat)) (st : tool_state V) (hlive : st.tool_data = some td)
    (hphase : record.phase = .ROCPROFILER_CALLBACK_PHASE_ENTER)
    (hret : callback_returns cfg td record
      (st.marker_pushed_ranges.length, st.marker_started_ranges.length) = true) :
    ∃ st1 evs, tool_tracing_callback cfg ext record user_data ts unw st = .ok (st1, ts) ∧
      st1.tool_data = st.tool_data ∧
      (st1.marker_pushed_ranges.length, st1.marker_started_ranges.length) =
        depths_after record
          (st.marker_pushed_ranges.length, st.marker_started_ranges.length) ∧
      st1.events = st.events ++ evs ∧
      ∀ e ∈ evs, (∃ n, e = trace_event.timemory_start n) ∨
        (∃ n, e = trace_event.timemory_stop n) ∨
        ∃ n t v, e = trace_event.timemory_bundle n t v := by
  have h := tool_tracing_callback_phases_enter_returns cfg ext td record user_data ts unw
    (rocprofiler_get_timestamp_call ext st) (by simpa using hlive) hphase (by simpa using hret)
  simpa [tool_tracing_callback] using h

theorem tool_tracing_callback_phases_exit_returns {V : Type} (cfg : settings) (ext : externals)
    (td : client_data) (record : rocprofiler_callback_tracing_record_t) (user_data ts : Nat)
    (unw : List (Option Nat)) (st : tool_state V) (hsink : cfg.use_perfetto = true)
    (hlive : st.tool_data = some td)
    (hphase : record.phase = .ROCPROFILER_CALLBACK_PHASE_EXIT)
    (hret : callback_returns cfg td record
      (st.marker_pushed_ranges.length, st.marker_started_ranges.length) = true) :
    ∃ st1 pre cat name a a1,
      tool_tracing_callback_phases cfg ext record user_data ts unw st = .ok (st1, user_data) ∧
      st1.tool_data = st.tool_data ∧
      (st1.marker_pushed_ranges.length, st1.marker_started_ranges.length) =
        depths_after record
          (st.marker_pushed_ranges.length, st.marker_started_ranges.length) ∧
      st1.events = st.events ++
        (pre ++ [.perfetto_begin cat name none user_data (some record.correlation_id) a,
                 .perfetto_end cat name none ts a1]) ∧
      ∀ e ∈ pre, (∃ n, e = trace_event.timemory_start n) ∨
        (∃ n, e = trace_event.timemory_stop n) ∨
        ∃ n t v, e = trace_event.timemory_bundle n t v := by
  have hcat : ∃ cat, callback_category record.kind = some cat := by
    unfold callback_returns at hret
    simp only [Bool.and_eq_true, Option.isSome_iff_exists] at hret
    exact hret.1
  obtain ⟨cat, hcat⟩ := hcat
  have hbt : cfg.use_perfetto = true → cfg.perfetto_annotations = true →
      ∃ ops, umap.find td.backtrace_operations record.kind = some ops := by
    intro h1 h2
    have hne : ¬ (rocprofiler_callback_phase_t.ROCPROFILER_CALLBACK_PHASE_EXIT =
        rocprofiler_callback_phase_t.ROCPROFILER_CALLBACK_PHASE_ENTER) := by decide
    unfold callback_returns at hret
    simp only [hphase, if_neg hne, if_true, Bool.and_eq_true, h1, h2, Bool.not_true,
      Bool.false_or, Option.isSome_iff_exists] at hret
    simpa [Option.isSome_iff_exists] using hret.2.1
  obtain ⟨n, s1, hname, htd, hev, hdepth⟩ :=
    tool_tracing_callback_stop_name_returns cfg ext td record cat st hlive hphase hcat hret
  obtain ⟨bt, hrun⟩ := tool_tracing_callback_phases_exit_backtrace cfg ext record user_data ts unw st
    td cat hlive hphase hcat hbt
  rw [hrun]
  unfold tool_tracing_callback_stop tool_tracing_callback_stop_events
  simp only [hname, hsink, if_true]
  refine ⟨?st1, if cfg.use_timemory = true then [.timemory_stop n] else [], cat, n, ?a, ?a1,
    ?h1, ?h2, ?h3, ?h4, ?h5⟩
  case h1 => exact rfl
  case h2 => exact htd
  case h3 => exact hdepth
  case h4 =>
    simp only []
    rw [hev]
    exact rfl
  case h5 =>
    intro e he
    split_ifs at he
    · simp only [List.mem_singleton] at he
      exact Or.inr (Or.inl ⟨_, he⟩)
    · cases he

theorem tool_tracing_callback_exit_returns {V : Type} (cfg : settings) (ext : externals)
    (td : client_data) (record : rocprofiler_callback_tracing_record_t) (user_data ts : Nat)
    (unw : List (Option Nat)) (st : tool_state V) (hsink : cfg.use_perfetto = true)
    (hlive : st.tool_data = some td)
    (hphase : record.phase = .ROCPROFILER_CALLBACK_PHASE_EXIT)
    (hret : callback_returns cfg td record
      (st.marker_pushed_ranges.length, st.marker_started_ranges.length) = true) :
    ∃ st1 pre cat name a a1,
      tool_tracing_callback cfg ext record user_data ts unw st = .ok (st1, user_data) ∧
      st1.tool_data = st.tool_data ∧
      (st1.marker_pushed_ranges.length, st1.marker_started_ranges.length) =
        depths_after record
          (st.marker_pushed_ranges.length, st.marker_started_ranges.length) ∧
      st1.events = st.events ++
        (pre ++ [.perfetto_begin cat name none user_data (some record.correlation_id) a,
                 .perfetto_end cat name none ts a1]) ∧
      ∀ e ∈ pre, (∃ n, e = trace_event.timemory_start n) ∨
        (∃ n, e = trace_event.timemory_stop n) ∨
        ∃ n t v, e = trace_event.timemory_bundle n t v := by
  obtain ⟨st1, pre, cat, name, a, a1, hrun, h1, h2, h3, h4⟩ :=
    tool_tracing_callback_phases_exit_returns cfg ext td record user_data ts unw
      (rocprofiler_get_timestamp_call ext st) hsink (by simpa using hlive) hphase
      (by simpa using hret)
  exact ⟨st1, pre, cat, name, a, a1, hrun, by simpa using h1, by simpa using h2,
    by simpa using h3, h4⟩

theorem spans_from_skip (opened : List span) (pre rest : List trace_event)
    (hpre : ∀ e ∈ pre, (∃ n, e = trace_event.timemory_start n) ∨
      (∃ n, e = trace_event.timemory_stop n) ∨ ∃ n t v, e = trace_event.timemory_bundle n t v) :
    spans_from opened (pre ++ rest) = spans_from opened rest := by
  induction pre with
  | nil => rfl
  | cons x pre ih =>
    have hx := hpre x (List.mem_cons_self _ _)
    have ih1 := ih (fun e he => hpre e (List.mem_cons_of_mem _ he))
    rcases hx with ⟨n, rfl⟩ | ⟨n, rfl⟩ | ⟨n, t, v, rfl⟩ <;>
      simp only [List.cons_append, spans_from] <;> exact ih1

theorem deliver_callbacks_spans {V : Type} (cfg : settings) (ext : externals)
    (td : client_data) (hsink : cfg.use_perfetto = true)
    (deliveries : List callback_delivery) (slots : Nat → Nat) (st : tool_state V)
    (opened : umap Nat Nat) (pairs : List (Nat × Nat))
    (hlive : st.tool_data = some td)
    (hret : callbacks_return cfg td deliveries
      (st.marker_pushed_ranges.length, st.marker_started_ranges.length) = true)
    (hslots : ∀ k b, umap.find opened k = some b → slots k = b)
    (hpairs : completed_pairs deliveries opened = some pairs) :
    ∃ st' slots' w ss, deliver_callbacks cfg ext deliveries slots st = .ok (st', slots') ∧
      st'.events = st.events ++ w ∧
      ss.map (fun s => (s.begin_ts, s.end_ts)) = pairs ∧
      ∀ opn rest, spans_from opn (w ++ rest) = ss ++ spans_from opn rest := by
  induction deliveries generalizing slots st opened pairs with
  | nil =>
    simp only [completed_pairs, Option.some.injEq] at hpairs
    subst hpairs
    exact ⟨st, slots, [], [], rfl, by simp, rfl, fun _ _ => rfl⟩
  | cons d rest ih =>
    simp only [callbacks_return, Bool.and_eq_true] at hret
    obtain ⟨hd, hrest⟩ := hret
    by_cases hen : d.record.phase = .ROCPROFILER_CALLBACK_PHASE_ENTER
    · obtain ⟨st1, evs, hrun, htd, hdepth, hev, hpre⟩ :=
        tool_tracing_callback_enter_returns cfg ext td d.record (slots d.slot) d.ts
          d.unw_stack st hlive hen hd
      simp only [completed_pairs, if_pos hen] at hpairs
      rw [← hdepth] at hrest
      obtain ⟨st', slots', w, ss, hrun', hev', hss, hsp⟩ :=
        ih (Function.update slots d.slot d.ts) st1 _ pairs (htd.trans hlive) hrest
          (by
            intro k b hk
            by_cases hkd : k = d.slot
            · subst hkd
              simp only [umap.find, if_true, Option.some.injEq] at hk
              simp [hk]
            · have hkd' : ¬ d.slot = k := fun e => hkd e.symm
              simp only [umap.find, if_neg hkd', umap.find_erase, if_neg hkd] at hk
              simp only [Function.update, hkd, dite_false]
              exact hslots k b hk)
          hpairs
      refine ⟨st', slots', evs ++ w, ss, ?_, ?_, hss, ?_⟩
      · simp only [deliver_callbacks, hrun]
        exact hrun'
      · rw [hev', hev, List.append_assoc]
      · intro opn rest1
        rw [List.append_assoc, spans_from_skip opn evs _ hpre]
        exact hsp opn rest1
    · have hex : d.record.phase = .ROCPROFILER_CALLBACK_PHASE_EXIT := by
        unfold callback_returns at hd
        simp only [if_neg hen, Bool.and_eq_true] at hd
        by_contra hne
        simp [hne] at hd
      obtain ⟨st1, pre, cat, name, a, a1, hrun, htd, hdepth, hev, hpre⟩ :=
        tool_tracing_callback_exit_returns cfg ext td d.record (slots d.slot) d.ts
          d.unw_stack st hsink hlive hex hd
      simp only [completed_pairs, if_neg hen, if_pos hex] at hpairs
      cases hfind : umap.find opened d.slot with
      | none => simp [hfind] at hpairs
      | some entry_ts =>
        rw [hfind] at hpairs
        cases hrec : completed_pairs rest (umap.erase opened d.slot) with
        | none => simp [hrec] at hpairs
        | some pairs1 =>
          simp only [hrec, Option.some.injEq] at hpairs
          subst hpairs
          rw [← hdepth] at hrest
          have hslot : slots d.slot = entry_ts := hslots _ _ hfind
          obtain ⟨st', slots', w, ss, hrun', hev', hss, hsp⟩ :=
            ih (Function.update slots d.slot (slots d.slot)) st1 _ pairs1 (htd.trans hlive)
              hrest
              (by
                intro k b hk
                simp only [umap.find_erase] at hk
                by_cases hkd : k = d.slot
                · simp [hkd] at hk
                · simp only [if_neg hkd] at hk
                  simp only [Function.update, hkd, dite_false]
                  exact hslots k b hk)
              hrec
          refine ⟨st', slots', (pre ++ [.perfetto_begin cat name none (slots d.slot)
              (some d.record.correlation_id) a, .perfetto_end cat name none d.ts a1]) ++ w,
            { cat := cat, name := name, track := none, begin_ts := slots d.slot,
              end_ts := d.ts, flow := some d.record.correlation_id } :: ss, ?_, ?_, ?_, ?_⟩
          · simp only [deliver_callbacks, hrun]
            exact hrun'
          · rw [hev', hev, List.append_assoc]
          · simp only [List.map_cons, hss, hslot]
          · intro opn rest1
            rw [List.append_assoc, spans_from_closed_slice opn pre (w ++ rest1) hpre, hsp]
            rfl

theorem completed_pairs_length (deliveries : List callback_delivery) (opened : umap Nat Nat)
    (pairs : List (Nat × Nat)) (hpairs : completed_pairs deliveries opened = some pairs) :
    pairs.length = deliveries.countP (fun d =>
      decide (d.record.phase = .ROCPROFILER_CALLBACK_PHASE_EXIT)) := by
  induction deliveries generalizing opened pairs with
  | nil =>
    simp only [completed_pairs, Option.some.injEq] at hpairs
    subst hpairs
    rfl
  | cons d rest ih =>
    by_cases hen : d.record.phase = .ROCPROFILER_CALLBACK_PHASE_ENTER
    · simp only [completed_pairs, if_pos hen] at hpairs
      rw [ih _ _ hpairs]
      simp [List.countP_cons, hen]
    · by_cases hex : d.record.phase = .ROCPROFILER_CALLBACK_PHASE_EXIT
      · simp only [completed_pairs, if_neg hen, if_pos hex] at hpairs
        cases hfind : umap.find opened d.slot with
        | none => simp [hfind] at hpairs
        | some entry_ts =>
          rw [hfind] at hpairs
          cases hrec : completed_pairs rest (umap.erase opened d.slot) with
          | none => simp [hrec] at hpairs
          | some pairs1 =>
            simp only [hrec, Option.some.injEq] at hpairs
            subst hpairs
            simp [List.countP_cons, hex, ih _ _ hrec]
      · simp only [completed_pairs, if_neg hen, if_neg hex] at hpairs
        rw [ih _ _ hpairs]
        simp [List.countP_cons, hex]

theorem completed_pairs_ordered (deliveries : List callback_delivery) (opened : umap Nat Nat)
    (pairs : List (Nat × Nat))
    (hclock : (deliveries.map (fun d => d.ts)).Sorted (fun a b => a ≤ b))
    (hopened : ∀ k b, umap.find opened k = some b → ∀ d ∈ deliveries, b ≤ d.ts)
    (hpairs : completed_pairs deliveries opened = some pairs) :
    ∀ p ∈ pairs, p.1 ≤ p.2 := by
  induction deliveries generalizing opened pairs with
  | nil =>
    simp only [completed_pairs, Option.some.injEq] at hpairs
    subst hpairs
    intro p hp
    cases hp
  | cons d rest ih =>
    simp only [List.map_cons, List.sorted_cons, List.mem_map, forall_exists_index, and_imp,
      forall_apply_eq_imp_iff₂] at hclock
    obtain ⟨hd, hclock1⟩ := hclock
    have herase : ∀ k b, umap.find (umap.erase opened d.slot) k = some b →
        ∀ d1 ∈ rest, b ≤ d1.ts := by
      intro k b hk d1 hd1
      rw [umap.find_erase] at hk
      split_ifs at hk
      exact hopened k b hk d1 (List.mem_cons_of_mem _ hd1)
    by_cases hen : d.record.phase = .ROCPROFILER_CALLBACK_PHASE_ENTER
    · simp only [completed_pairs, if_pos hen] at hpairs
      refine ih _ _ hclock1 ?_ hpairs
      intro k b hk d1 hd1
      by_cases hkd : d.slot = k
      · simp only [umap.find, if_pos hkd, Option.some.injEq] at hk
        subst hk
        exact hd d1 hd1
      · simp only [umap.find, if_neg hkd] at hk
        exact herase k b hk d1 hd1
    · by_cases hex : d.record.phase = .ROCPROFILER_CALLBACK_PHASE_EXIT
      · simp only [completed_pairs, if_neg hen, if_pos hex] at hpairs
        cases hfind : umap.find opened d.slot with
        | none => simp [hfind] at hpairs
        | some entry_ts =>
          rw [hfind] at hpairs
          cases hrec : completed_pairs rest (umap.erase opened d.slot) with
          | none => simp [hrec] at hpairs
          | some pairs1 =>
            simp only [hrec, Option.some.injEq] at hpairs
            subst hpairs
            intro p hp
            rcases List.mem_cons.1 hp with rfl | hp
            · exact hopened _ _ hfind d (List.mem_cons_self _ _)
            · exact ih _ _ hclock1 herase hrec p hp
      · simp only [completed_pairs, if_neg hen, if_neg hex] at hpairs
        exact ih _ _ hclock1
          (fun k b hk d1 hd1 => hopened k b hk d1 (List.mem_cons_of_mem _ hd1)) hpairs

/-- C14. On a live tool with the trace sink enabled, a sequence of ENTER and EXIT
callbacks of the traced API kinds on one thread in which every EXIT callback completes a
call opened by an ENTER callback on the same user-data slot, and in which every callback
meets what it needs to return (`callbacks_return`), is processed to the end; it emits
exactly one span per completed ENTER/EXIT pair, in the order of the EXIT callbacks, each
starting at the timestamp stored in the slot at ENTER and stopping at the timestamp read
at EXIT; the number of spans is the number of completed pairs, which is the number of
EXIT callbacks; and with a non-decreasing clock every span stops at or after its start. -/
theorem paired_callbacks_emit_one_span_each {V : Type} (cfg : settings) (ext : externals)
    (td : client_data) (deliveries : List callback_delivery) (slots : Nat → Nat)
    (st : tool_state V) (pairs : List (Nat × Nat))
    (hsink : cfg.use_perfetto = true) (hlive : st.tool_data = some td)
    (hret : callbacks_return cfg td deliveries
      (st.marker_pushed_ranges.length, st.marker_started_ranges.length) = true)
    (hpairs : completed_pairs deliveries [] = some pairs) :
    ∃ st' slots' w, deliver_callbacks cfg ext deliveries slots st = .ok (st', slots') ∧
      st'.events = st.events ++ w ∧
      (spans w).map (fun s => (s.begin_ts, s.end_ts)) = pairs ∧
      (spans w).length = pairs.length ∧
      pairs.length = deliveries.countP (fun d =>
        decide (d.record.phase = .ROCPROFILER_CALLBACK_PHASE_EXIT)) ∧
      ((deliveries.map (fun d => d.ts)).Sorted (fun a b => a ≤ b) →
        ∀ s ∈ spans w, s.begin_ts ≤ s.end_ts) := by
  obtain ⟨st', slots', w, ss, hrun, hev, hss, hsp⟩ :=
    deliver_callbacks_spans cfg ext td hsink deliveries slots st [] pairs hlive hret
      (fun k b hk => by simp [umap.find] at hk) hpairs
  have hspans : spans w = ss := by
    have h := hsp [] []
    simp only [List.append_nil, spans_from] at h
    exact h
  refine ⟨st', slots', w, hrun, hev, ?_, ?_, completed_pairs_length _ _ _ hpairs, ?_⟩
  · rw [hspans, hss]
  · rw [hspans, ← hss, List.length_map]
  · intro hclock s hs
    rw [hspans] at hs
    have hp : (s.begin_ts, s.end_ts) ∈ pairs := by
      rw [← hss]
      exact List.mem_map_of_mem _ hs
    exact completed_pairs_ordered deliveries [] pairs hclock
      (fun k b hk => by simp [umap.find] at hk) hpairs _ hp

theorem paired_callbacks_emit_one_span_each_witness :
    ∃ st' slots' w,
      deliver_callbacks { use_perfetto := true } {} sample.nested_calls (fun _ => 0)
        sample.state0 = .ok (st', slots') ∧
      st'.events = sample.state0.events ++ w ∧
      (spans w).map (fun s => (s.begin_ts, s.end_ts)) = [(12, 15), (16, 17), (18, 19), (10, 20)] ∧
      (spans w).length = 4 := by
  obtain ⟨st', slots', w, h1, h2, h3, h4, -, -⟩ :=
    paired_callbacks_emit_one_span_each { use_perfetto := true } {} sample.tool_data
      sample.nested_calls (fun _ => 0) sample.state0 [(12, 15), (16, 17), (18, 19), (10, 20)]
      rfl rfl (by decide) (by decide)
  exact ⟨st', slots', w, h1, h2, h3, h4⟩

/-! ### Flow identifiers of the events of a call -/

theorem tool_tracing_callback_stop_returns {V : Type} (cfg : settings) (ext : externals)
    (td : client_data) (record : rocprofiler_callback_tracing_record_t) (cat : category)
    (user_data ts : Nat) (bt : Option (List processed_entry)) (st : tool_state V)
    (hsink : cfg.use_perfetto = true) (hlive : st.tool_data = some td)
    (hphase : record.phase = .ROCPROFILER_CALLBACK_PHASE_EXIT)
    (hcat : callback_category record.kind = some cat)
    (hret : callback_returns cfg td record
      (st.marker_pushed_ranges.length, st.marker_started_ranges.length) = true) :
    ∃ st1 pre name a a1,
      tool_tracing_callback_stop cfg ext cat record user_data ts bt st = .ok st1 ∧
      st1.events = st.events ++
        (pre ++ [.perfetto_begin cat name none user_data (some record.correlation_id) a,
                 .perfetto_end cat name none ts a1]) ∧
      ∀ e ∈ pre, (∃ n, e = trace_event.timemory_start n) ∨
        (∃ n, e = trace_event.timemory_stop n) ∨
        ∃ n t v, e = trace_event.timemory_bundle n t v := by
  obtain ⟨n, s1, hname, -, hev, -⟩ :=
    tool_tracing_callback_stop_name_returns cfg ext td record cat st hlive hphase hcat hret
  unfold tool_tracing_callback_stop tool_tracing_callback_stop_events
  simp only [hname, hsink, if_true]
  refine ⟨?st1, if cfg.use_timemory = true then [.timemory_stop n] else [], n, ?a, ?a1,
    ?h1, ?h4, ?h5⟩
  case h1 => exact rfl
  case h4 =>
    simp only []
    rw [hev]
    exact rfl
  case h5 =>
    intro e he
    split_ifs at he
    · simp only [List.mem_singleton] at he
      exact Or.inr (Or.inl ⟨_, he⟩)
    · cases he

/-- C15, counterexample: for the EXIT callback of a HIP call with correlation id 1, entered
at 10 and left at 20, `tool_tracing_callback_stop` emits a start event tagged with flow
id 1 and a stop event that carries no flow id, so not both events are tagged. -/
theorem stop_event_carries_no_flow_id :
    ∃ st1 b e, tool_tracing_callback_stop { use_perfetto := true } {} .rocm_hip_api
        sample.hip_exit 10 20 none sample.state0 = .ok st1 ∧
      st1.events = sample.state0.events ++ [b, e] ∧
      b.timestamp = some 10 ∧ b.flow = some 1 ∧
      e.timestamp = some 20 ∧ e.flow = none ∧
      ¬ (∀ x ∈ [b, e], x.flow = some sample.hip_exit.correlation_id) := by
  refine ⟨_, _, _, rfl, rfl, rfl, rfl, rfl, rfl, ?_⟩
  decide

/-- C15, amended. With the trace sink enabled, `tool_tracing_callback_stop` emits for the
EXIT callback of a call (on a live tool, the callback meeting what it needs to return)
exactly two perfetto events, after the timemory stop if timemory is used: a start event
at the entry timestamp held in the user-data slot, tagged with a flow identifier equal to
the correlation id of the record, and a stop event at the exit timestamp, which carries
no flow identifier. -/
theorem tool_tracing_callback_stop_tags_start_event {V : Type} (cfg : settings)
    (ext : externals) (td : client_data) (record : rocprofiler_callback_tracing_record_t)
    (cat : category) (user_data ts : Nat) (bt : Option (List processed_entry))
    (st : tool_state V) (hsink : cfg.use_perfetto = true) (hlive : st.tool_data = some td)
    (hphase : record.phase = .ROCPROFILER_CALLBACK_PHASE_EXIT)
    (hcat : callback_category record.kind = some cat)
    (hret : callback_returns cfg td record
      (st.marker_pushed_ranges.length, st.marker_started_ranges.length) = true) :
    ∃ st1 pre b e,
      tool_tracing_callback_stop cfg ext cat record user_data ts bt st = .ok st1 ∧
      st1.events = st.events ++ (pre ++ [b, e]) ∧
      (∀ x ∈ pre, x.timestamp = none ∧ x.flow = none) ∧
      (∃ name a, b = .perfetto_begin cat name none user_data (some record.correlation_id) a) ∧
      (∃ name a, e = .perfetto_end cat name none ts a) ∧
      b.timestamp = some user_data ∧ b.flow = some record.correlation_id ∧
      e.timestamp = some ts ∧ e.flow = none := by
  obtain ⟨st1, pre, name, a, a1, hrun, hev, hpre⟩ :=
    tool_tracing_callback_stop_returns cfg ext td record cat user_data ts bt st hsink hlive
      hphase hcat hret
  refine ⟨st1, pre, _, _, hrun, hev, ?_, ⟨name, a, rfl⟩, ⟨name, a1, rfl⟩, rfl, rfl, rfl, rfl⟩
  intro x hx
  rcases hpre x hx with ⟨n, rfl⟩ | ⟨n, rfl⟩ | ⟨n, t, v, rfl⟩ <;> exact ⟨rfl, rfl⟩

theorem tool_tracing_callback_stop_tags_start_event_witness :
    ∃ st1 pre b e,
      tool_tracing_callback_stop { use_perfetto := true, use_timemory := true } {}
        .rocm_hip_api sample.hip_exit 10 20 none sample.state0 = .ok st1 ∧
      st1.events = sample.state0.events ++ (pre ++ [b, e]) ∧
      b.timestamp = some 10 ∧ b.flow = some 1 ∧ e.timestamp = some 20 ∧ e.flow = none := by
  obtain ⟨st1, pre, b, e, h1, h2, -, -, -, h3, h4, h5, h6⟩ :=
    tool_tracing_callback_stop_tags_start_event { use_perfetto := true, use_timemory := true }
      {} sample.tool_data sample.hip_exit .rocm_hip_api 10 20 none sample.state0 rfl rfl rfl
      rfl (by decide)
  exact ⟨st1, pre, b, e, h1, h2, h3, h4, h5, h6⟩

/-! ### EXIT callback of a call whose ENTER callback was not delivered -/

theorem tool_tracing_callback_start_name_warnings {V : Type} (ext : externals)
    (cat : category) (record : rocprofiler_callback_tracing_record_t) (st s1 : tool_state V)
    (n : Name) (h : tool_tracing_callback_start_name ext cat record st = .ok (n, s1)) :
    s1.warnings = st.warnings := by
  unfold tool_tracing_callback_start_name at h
  repeat' split at h
  all_goals (cases h <;> rfl)

theorem resolved_backtrace_length (ext : externals) (unw : List (Option Nat)) :
    (resolved_backtrace ext unw).length = (unw.filter (frame_resolved ext)).length := by
  unfold resolved_backtrace
  induction unw with
  | nil => rfl
  | cons frame rest ih =>
    cases frame with
    | none => simpa [List.filterMap_cons, List.filter_cons, frame_resolved] using ih
    | some address =>
      cases h : ext.lookup_ipaddr_entry address with
      | none => simpa [List.filterMap_cons, List.filter_cons, frame_resolved, h] using ih
      | some entry => simpa [List.filterMap_cons, List.filter_cons, frame_resolved, h] using ih

theorem backtrace_annots_length (ext : externals) (entries : List processed_entry) :
    (backtrace_annots ext (some entries)).length = entries.length := by
  simp [backtrace_annots]

/-- C17, counterexample: of two captured frames of which the resolver resolves only the
second, the EXIT callback reports one frame annotation, `frame#00` for the resolved
frame; the unresolved frame is not reported by its address or in any other way. -/
theorem unresolved_frame_is_dropped :
    ∃ st1 name a a1,
      tool_tracing_callback { use_perfetto := true, perfetto_annotations := true }
        sample.ext_resolver sample.hip_exit 10 20 [some 1, some 2] sample.state_backtrace =
        .ok (st1, 10) ∧
      st1.events = [.perfetto_begin .rocm_hip_api name none 10 (some 1) a,
                    .perfetto_end .rocm_hip_api name none 20 a1] ∧
      a = [("begin_ns".toList, .uint 10), ("frame#00".toList, .text "f @ a.cpp:3".toList)] ∧
      (a.filter (fun kv => "frame#".toList.isPrefixOf kv.1)).length ≠
        [some 1, some 2].length := by
  refine ⟨_, _, _, _, rfl, rfl, ?_, ?_⟩ <;> decide

theorem tool_tracing_callback_phases_backtrace {V : Type} (cfg : settings) (ext : externals)
    (td : client_data) (record : rocprofiler_callback_tracing_record_t) (user_data ts : Nat)
    (unw : List (Option Nat)) (ops : List Int) (st : tool_state V)
    (hsink : cfg.use_perfetto = true) (hannot : cfg.perfetto_annotations = true)
    (hlive : st.tool_data = some td)
    (hphase : record.phase = .ROCPROFILER_CALLBACK_PHASE_EXIT)
    (hops : umap.find td.backtrace_operations record.kind = some ops)
    (hop : ops.count record.operation > 0)
    (hret : callback_returns cfg td record
      (st.marker_pushed_ranges.length, st.marker_started_ranges.length) = true) :
    ∃ st1 pre cat name a1,
      tool_tracing_callback_phases cfg ext record user_data ts unw st = .ok (st1, user_data) ∧
      st1.events = st.events ++
        (pre ++ [.perfetto_begin cat name none user_data (some record.correlation_id)
                  ([("begin_ns".toList, annot_value.uint user_data)] ++
                    (ext.callback_args record).map (fun kv => (kv.1, annot_value.text kv.2)) ++
                    backtrace_annots ext (some (resolved_backtrace ext unw))),
                 .perfetto_end cat name none ts a1]) ∧
      (backtrace_annots ext (some (resolved_backtrace ext unw))).length =
        (unw.filter (frame_resolved ext)).length ∧
      (backtrace_annots ext (some (resolved_backtrace ext unw))).length ≤ unw.length := by
  have hcat : ∃ cat, callback_category record.kind = some cat := by
    unfold callback_returns at hret
    simp only [Bool.and_eq_true, Option.isSome_iff_exists] at hret
    exact hret.1
  obtain ⟨cat, hcat⟩ := hcat
  obtain ⟨n, s1, hname, -, hev, -⟩ :=
    tool_tracing_callback_stop_name_returns cfg ext td record cat st hlive hphase hcat hret
  have hlen : (backtrace_annots ext (some (resolved_backtrace ext unw))).length =
      (unw.filter (frame_resolved ext)).length := by
    rw [backtrace_annots_length, resolved_backtrace_length]
  refine ⟨?st1, if cfg.use_timemory = true then [.timemory_stop n] else [], cat, n, ?a1,
    ?h1, ?h2, hlen, ?h3⟩
  case h3 =>
    rw [hlen]
    exact List.length_filter_le _ _
  case h1 =>
    unfold tool_tracing_callback_phases tool_tracing_callback_stop tool_tracing_callback_stop_events
    simp only [hphase, hsink, hannot, hlive, hops, hop, hcat, hname, Bool.and_self, if_true]
    exact rfl
  case h2 =>
    simp only []
    rw [hev]
    exact rfl

/-- C17, amended. A captured backtrace frame that the symbol resolver cannot resolve is
left out of the backtrace annotations of the span. With annotated perfetto output, on a
live tool, for the EXIT callback of an operation whose backtrace is requested (the
callback meeting what it needs to return), `tool_tracing_callback` returns whatever the
resolver answers, so a resolution failure raises no error; the start event carries
`begin_ns`, the arguments and then one frame annotation per entry of `_bt_data`; and the
number of frame annotations is the number of captured frames that are not null and that
the resolver resolves, which is at most the number of captured frames. -/
theorem backtrace_reports_resolved_frames_only {V : Type} (cfg : settings) (ext : externals)
    (td : client_data) (record : rocprofiler_callback_tracing_record_t) (user_data ts : Nat)
    (unw : List (Option Nat)) (ops : List Int) (st : tool_state V)
    (hsink : cfg.use_perfetto = true) (hannot : cfg.perfetto_annotations = true)
    (hlive : st.tool_data = some td)
    (hphase : record.phase = .ROCPROFILER_CALLBACK_PHASE_EXIT)
    (hops : umap.find td.backtrace_operations record.kind = some ops)
    (hop : ops.count record.operation > 0)
    (hret : callback_returns cfg td record
      (st.marker_pushed_ranges.length, st.marker_started_ranges.length) = true) :
    ∃ st1 pre cat name a1,
      tool_tracing_callback cfg ext record user_data ts unw st = .ok (st1, user_data) ∧
      st1.events = st.events ++
        (pre ++ [.perfetto_begin cat name none user_data (some record.correlation_id)
                  ([("begin_ns".toList, annot_value.uint user_data)] ++
                    (ext.callback_args record).map (fun kv => (kv.1, annot_value.text kv.2)) ++
                    backtrace_annots ext (some (resolved_backtrace ext unw))),
                 .perfetto_end cat name none ts a1]) ∧
      (backtrace_annots ext (some (resolved_backtrace ext unw))).length =
        (unw.filter (frame_resolved ext)).length ∧
      (backtrace_annots ext (some (resolved_backtrace ext unw))).length ≤ unw.length := by
  obtain ⟨st1, pre, cat, name, a1, hrun, h1, h2, h3⟩ :=
    tool_tracing_callback_phases_backtrace cfg ext td record user_data ts unw ops
      (rocprofiler_get_timestamp_call ext st) hsink hannot (by simpa using hlive) hphase hops
      hop (by simpa using hret)
  exact ⟨st1, pre, cat, name, a1, hrun, by simpa using h1, h2, h3⟩

theorem backtrace_reports_resolved_frames_only_witness :
    ∃ st1 pre cat name a1,
      tool_tracing_callback { use_perfetto := true, perfetto_annotations := true }
        sample.ext_resolver sample.hip_exit 10 20 [some 1, none, some 2]
        sample.state_backtrace = .ok (st1, 10) ∧
      st1.events = sample.state_backtrace.events ++
        (pre ++ [.perfetto_begin cat name none 10 (some 1)
                  [("begin_ns".toList, .uint 10), ("frame#00".toList, .text "f @ a.cpp:3".toList)],
                 .perfetto_end cat name none 20 a1]) := by
  obtain ⟨st1, pre, cat, name, a1, h1, h2, -, -⟩ :=
    backtrace_reports_resolved_frames_only
      { use_perfetto := true, perfetto_annotations := true } sample.ext_resolver
      { sample.tool_data with
        backtrace_operations := [(.ROCPROFILER_CALLBACK_TRACING_HIP_RUNTIME_API, [7])] }
      sample.hip_exit 10 20 [some 1, none, some 2] [7] sample.state_backtrace rfl rfl rfl rfl
      rfl (by decide) (by decide)
  exact ⟨st1, pre, cat, name, a1, h1, h2⟩

/-! ### Clock-skew correction of the OMPT buffer-complete decoder -/

theorem remove_skew_add_skew (t : Nat) (_skew : Int) :
    remove_skew (add_skew t _skew) _skew = t % 2 ^ 64 := by
  unfold remove_skew add_skew
  simp only [Int.ofNat_eq_coe]
  omega

theorem timestamp_sub_add_skew (b e : Nat) (_skew : Int) :
    timestamp_sub (add_skew e _skew) (add_skew b _skew) = timestamp_sub e b := by
  unfold timestamp_sub add_skew
  simp only [Int.ofNat_eq_coe]
  omega

theorem complete_intervals (type_label optype_label : Nat → Name) (_skew : Int)
    (records : List (Option ompt_record_ompt_t)) :
    (complete type_label optype_label _skew records).map (fun s => (s.beg_time, s.end_time)) =
      (records.filterMap device_interval).map
        (fun p => (add_skew p.1 _skew, add_skew p.2 _skew)) := by
  unfold complete
  induction records with
  | nil => rfl
  | cons r rest ih =>
    cases r with
    | none => simpa [List.filterMap_cons, complete_record, device_interval] using ih
    | some r =>
      cases hr : r.record <;>
        simpa [List.filterMap_cons, complete_record, device_interval, hr] using ih

/-- C18. The clock-skew correction of the buffer-complete decoder is linear and
reversible: for every record it records, the decoder adds the one skew of the call to
the device begin time and to the device end time (64-bit unsigned arithmetic);
subtracting the skew from a corrected timestamp gives back the device timestamp, for
every 64-bit timestamp and every skew; so the decoded spans give back the device
intervals, and the corrected duration `end - begin` of every span equals the device
duration. -/
theorem clock_skew_is_linear_and_reversible (type_label optype_label : Nat → Name)
    (_skew : Int) (records : List (Option ompt_record_ompt_t)) :
    (complete type_label optype_label _skew records).map (fun s => (s.beg_time, s.end_time)) =
      (records.filterMap device_interval).map
        (fun p => (add_skew p.1 _skew, add_skew p.2 _skew)) ∧
    (∀ t : Nat, remove_skew (add_skew (t % 2 ^ 64) _skew) _skew = t % 2 ^ 64) ∧
    (complete type_label optype_label _skew records).map
        (fun s => (remove_skew s.beg_time _skew, remove_skew s.end_time _skew)) =
      (records.filterMap device_interval).map (fun p => (p.1 % 2 ^ 64, p.2 % 2 ^ 64)) ∧
    (complete type_label optype_label _skew records).map
        (fun s => timestamp_sub s.end_time s.beg_time) =
      (records.filterMap device_interval).map (fun p => timestamp_sub p.2 p.1) := by
  have h := complete_intervals type_label optype_label _skew records
  refine ⟨h, ?_, ?_, ?_⟩
  · intro t
    rw [remove_skew_add_skew]
    exact Nat.mod_mod _ _
  · have h1 := congrArg (List.map (fun p : Nat × Nat =>
      (remove_skew p.1 _skew, remove_skew p.2 _skew))) h
    simp only [List.map_map] at h1
    rw [show ((fun p : Nat × Nat => (remove_skew p.1 _skew, remove_skew p.2 _skew)) ∘
        fun s : ompt_span => (s.beg_time, s.end_time)) =
        fun s : ompt_span => (remove_skew s.beg_time _skew, remove_skew s.end_time _skew)
      from rfl] at h1
    rw [h1]
    apply List.map_congr_left
    intro p _
    simp only [Function.comp, remove_skew_add_skew]
  · have h1 := congrArg (List.map (fun p : Nat × Nat => timestamp_sub p.2 p.1)) h
    simp only [List.map_map] at h1
    rw [show ((fun p : Nat × Nat => timestamp_sub p.2 p.1) ∘
        fun s : ompt_span => (s.beg_time, s.end_time)) =
        fun s : ompt_span => timestamp_sub s.end_time s.beg_time from rfl] at h1
    rw [h1]
    apply List.map_congr_left
    intro p _
    simp only [Function.comp, timestamp_sub_add_skew]

theorem clock_skew_is_linear_and_reversible_witness :
    (complete (fun _ => []) (fun _ => []) (-5)
        [some { time := 100, record := .target_kernel 1 0 0 130 }, none,
         some { time := 2, record := .target_data_op 2 0 64 7 }]).map
      (fun s => (remove_skew s.beg_time (-5), remove_skew s.end_time (-5))) =
      [(100, 130), (2, 7)] :=
  (clock_skew_is_linear_and_reversible (fun _ => []) (fun _ => []) (-5)
    [some { time := 100, record := .target_kernel 1 0 0 130 }, none,
     some { time := 2, record := .target_data_op 2 0 64 7 }]).2.2.1

/-! ### Agent registry -/

theorem set_agents_lists_spec (agents : List rocprofiler_agent_v0_t)
    (cpu gpu : List tool_agent) :
    ((set_agents_lists agents (cpu, gpu)).1.map (fun ta => ta.agent) =
        cpu.map (fun ta => ta.agent) ++
          agents.filter (fun a => decide (a.type = .ROCPROFILER_AGENT_TYPE_CPU))) ∧
    ((set_agents_lists agents (cpu, gpu)).2.map (fun ta => ta.agent) =
        gpu.map (fun ta => ta.agent) ++
          agents.filter (fun a => decide (a.type = .ROCPROFILER_AGENT_TYPE_GPU))) ∧
    (cpu.map (fun ta => ta.device_id) = List.range cpu.length →
      (set_agents_lists agents (cpu, gpu)).1.map (fun ta => ta.device_id) =
        List.range (set_agents_lists agents (cpu, gpu)).1.length) ∧
    (gpu.map (fun ta => ta.device_id) = List.range gpu.length →
      (set_agents_lists agents (cpu, gpu)).2.map (fun ta => ta.device_id) =
        List.range (set_agents_lists agents (cpu, gpu)).2.length) := by
  induction agents generalizing cpu gpu with
  | nil => simp [set_agents_lists]
  | cons a rest ih =>
    by_cases hc : a.type = .ROCPROFILER_AGENT_TYPE_CPU
    · have hg : ¬ a.type = .ROCPROFILER_AGENT_TYPE_GPU := by rw [hc]; decide
      have hstep : set_agents_lists (a :: rest) (cpu, gpu) =
          set_agents_lists rest (cpu ++ [{ device_id := cpu.length, agent := a }], gpu) := by
        simp [set_agents_lists, List.foldl_cons, hc]
      obtain ⟨h1, h2, h3, h4⟩ := ih (cpu ++ [{ device_id := cpu.length, agent := a }]) gpu
      rw [hstep]
      refine ⟨?_, ?_, ?_, h4⟩
      · rw [h1]; simp [List.filter_cons, hc]
      · rw [h2]; simp [List.filter_cons, hg]
      · intro hcpu
        apply h3
        simp [List.range_succ, hcpu]
    · by_cases hg : a.type = .ROCPROFILER_AGENT_TYPE_GPU
      · have hstep : set_agents_lists (a :: rest) (cpu, gpu) =
            set_agents_lists rest (cpu, gpu ++ [{ device_id := gpu.length, agent := a }]) := by
          simp [set_agents_lists, List.foldl_cons, hc, hg]
        obtain ⟨h1, h2, h3, h4⟩ := ih cpu (gpu ++ [{ device_id := gpu.length, agent := a }])
        rw [hstep]
        refine ⟨?_, ?_, h3, ?_⟩
        · rw [h1]; simp [List.filter_cons, hc]
        · rw [h2]; simp [List.filter_cons, hg]
        · intro hgpu
          apply h4
          simp [List.range_succ, hgpu]
      · have hstep : set_agents_lists (a :: rest) (cpu, gpu) =
            set_agents_lists rest (cpu, gpu) := by
          simp [set_agents_lists, List.foldl_cons, hc, hg]
        obtain ⟨h1, h2, h3, h4⟩ := ih cpu gpu
        rw [hstep]
        refine ⟨?_, ?_, h3, h4⟩
        · rw [h1]; simp [List.filter_cons, hc]
        · rw [h2]; simp [List.filter_cons, hg]

theorem std_sort_node_id_sorted (l : List rocprofiler_agent_v0_t) :
    (std_sort (fun lhs rhs : rocprofiler_agent_v0_t => lhs.node_id < rhs.node_id) l).Sorted
      (fun a b => a.node_id ≤ b.node_id) := by
  haveI : IsTotal rocprofiler_agent_v0_t (fun a b => ¬ b.node_id < a.node_id) :=
    ⟨fun a b => by
      rcases Nat.lt_or_ge b.node_id a.node_id with h | h
      · exact Or.inr (by omega)
      · exact Or.inl (by omega)⟩
  haveI : IsTrans rocprofiler_agent_v0_t (fun a b => ¬ b.node_id < a.node_id) :=
    ⟨fun a b c h1 h2 => by omega⟩
  have h := List.sorted_insertionSort (fun a b : rocprofiler_agent_v0_t =>
    ¬ b.node_id < a.node_id) l
  unfold std_sort
  exact h.imp (fun {a b} hab => Nat.le_of_not_lt hab)

theorem device_id_of_range (l : List tool_agent)
    (h : l.map (fun ta => ta.device_id) = List.range l.length) (i : Nat) (ta : tool_agent)
    (hi : l[i]? = some ta) : ta.device_id = i := by
  have h1 : (l.map (fun ta => ta.device_id))[i]? = some ta.device_id := by
    rw [List.getElem?_map, hi]
    rfl
  rw [h] at h1
  have hlt : i < l.length := by
    rcases Nat.lt_or_ge i l.length with hlt | hge
    · exact hlt
    · rw [List.getElem?_eq_none (by simpa using hge)] at h1
      cases h1
  rw [List.getElem?_range hlt] at h1
  exact (Option.some.inj h1).symm

/-- C20. After `set_agents` on any agent list, the stored agents are the given agents
ordered by non-decreasing `node_id`; the GPU list holds exactly the GPU agents and the
CPU list exactly the CPU agents, in the order of the stored agents; the element at
position `i` of each list has device index `i`; and a second `set_agents` call leaves
exactly what the same call leaves on the original data: both lists are rebuilt from
scratch, nothing is appended to the lists of the first call. -/
theorem set_agents_orders_and_indexes (d : client_data)
    (first second : List rocprofiler_agent_v0_t) :
    (d.set_agents first).agents.Sorted (fun a b => a.node_id ≤ b.node_id) ∧
    (d.set_agents first).agents.Perm first ∧
    (d.set_agents first).gpu_agents.map (fun ta => ta.agent) =
      (d.set_agents first).agents.filter
        (fun a => decide (a.type = .ROCPROFILER_AGENT_TYPE_GPU)) ∧
    (d.set_agents first).cpu_agents.map (fun ta => ta.agent) =
      (d.set_agents first).agents.filter
        (fun a => decide (a.type = .ROCPROFILER_AGENT_TYPE_CPU)) ∧
    (∀ (i : Nat) (ta : tool_agent),
      (d.set_agents first).gpu_agents[i]? = some ta → ta.device_id = i) ∧
    (∀ (i : Nat) (ta : tool_agent),
      (d.set_agents first).cpu_agents[i]? = some ta → ta.device_id = i) ∧
    (d.set_agents first).set_agents second = d.set_agents second := by
  obtain ⟨h1, h2, h3, h4⟩ := set_agents_lists_spec
    (std_sort (fun lhs rhs : rocprofiler_agent_v0_t => lhs.node_id < rhs.node_id) first) [] []
  refine ⟨std_sort_node_id_sorted first, std_sort_perm _ first, ?_, ?_, ?_, ?_, rfl⟩
  · simpa [client_data.set_agents] using h2
  · simpa [client_data.set_agents] using h1
  · exact device_id_of_range _ (h4 rfl)
  · exact device_id_of_range _ (h3 rfl)

theorem set_agents_orders_and_indexes_witness :
    (({} : client_data).set_agents sample.enumerated_agents).agents.map (fun a => a.id) =
      [1, 2, 100, 101] ∧
    (({} : client_data).set_agents sample.enumerated_agents).gpu_agents.map
      (fun ta => (ta.device_id, ta.agent.id)) = [(0, 100), (1, 101)] ∧
    (({} : client_data).set_agents sample.enumerated_agents).cpu_agents.map
      (fun ta => (ta.device_id, ta.agent.id)) = [(0, 1), (1, 2)] ∧
    (({} : client_data).set_agents sample.agents).set_agents sample.enumerated_agents =
      ({} : client_data).set_agents sample.enumerated_agents :=
  ⟨by decide, by decide, by decide,
    (set_agents_orders_and_indexes {} sample.agents sample.enumerated_agents).2.2.2.2.2.2⟩

/-! ### Initialization failures -/

theorem keeps_primary_ctx_refl {V : Type} (st : tool_state V) : keeps_primary_ctx st st :=
  ⟨rfl, List.prefix_refl _⟩

theorem keeps_primary_ctx_trans {V : Type} {st0 st1 st2 : tool_state V}
    (h1 : keeps_primary_ctx st0 st1) (h2 : keeps_primary_ctx st1 st2) :
    keeps_primary_ctx st0 st2 :=
  ⟨h2.1.trans h1.1, h1.2.trans h2.2⟩

theorem keeps_primary_ctx_logged {V : Type} {st0 st1 : tool_state V}
    (h : keeps_primary_ctx st0 st1) {m : String} (hm : m ∈ st0.warnings) :
    m ∈ st1.warnings :=
  h.2.subset hm

theorem rocprofiler_call_keeps {V : Type} (replies : backend_replies) (call : backend_call)
    (text : String) (st : tool_state V) :
    keeps_primary_ctx st (rocprofiler_call replies call text st) := by
  unfold rocprofiler_call rocprofiler_call_status
  split_ifs
  · exact keeps_primary_ctx_refl st
  · exact ⟨rfl, List.prefix_append _ _⟩

theorem rocprofiler_call_logs {V : Type} (replies : backend_replies) (call : backend_call)
    (text : String) (st : tool_state V) (hfail : replies.succeeds call = false) :
    rocprofiler_call_warning text ∈ (rocprofiler_call replies call text st).warnings := by
  unfold rocprofiler_call rocprofiler_call_status rocprofiler_call_warning
  simp [hfail]

theorem rocprofiler_call_silent {V : Type} (replies : backend_replies) (call : backend_call)
    (text : String) (st : tool_state V) (hok : replies.succeeds call = true) :
    rocprofiler_call replies call text st = st := by
  unfold rocprofiler_call rocprofiler_call_status
  simp [hok]

theorem rocprofiler_call_tool_data {V : Type} (replies : backend_replies)
    (call : backend_call) (text : String) (st : tool_state V) :
    (rocprofiler_call replies call text st).tool_data = st.tool_data :=
  (rocprofiler_call_status_frame _ _ st).1

theorem with_data_keeps {V : Type} (st : tool_state V) (f : client_data → client_data)
    (hf : ∀ d, (f d).primary_ctx = d.primary_ctx) :
    keeps_primary_ctx st (st.with_data f) := by
  refine ⟨?_, List.prefix_refl _⟩
  unfold tool_state.with_data
  cases st.tool_data with
  | none => rfl
  | some d => simp [hf d]

theorem foldl_keeps {V : Type} {α : Type} (step : tool_state V → α → tool_state V)
    (hstep : ∀ s a, keeps_primary_ctx s (step s a)) (l : List α) (st : tool_state V) :
    keeps_primary_ctx st (l.foldl step st) := by
  induction l generalizing st with
  | nil => exact keeps_primary_ctx_refl st
  | cons a rest ih => exact keeps_primary_ctx_trans (hstep st a) (ih (step st a))

theorem tool_init_callback_service_inv {V : Type} (env : core_environment)
    (replies : backend_replies) (cd : uset rocprofiler_callback_tracing_kind_t)
    (st s : tool_state V) (itr : rocprofiler_callback_tracing_kind_t)
    (h : tool_init_callback_service env replies cd st itr = .ok s) :
    keeps_primary_ctx st s ∧
    (itr ∈ cd → ∃ ops bt, get_operations env itr = .ok ops ∧
      get_backtrace_operations env itr = .ok bt) := by
  unfold tool_init_callback_service at h
  by_cases hin : cd.count itr > 0
  · rw [if_pos hin] at h
    cases hops : get_operations env itr with
    | error f => simp [hops] at h
    | ok ops =>
      cases hbt : get_backtrace_operations env itr with
      | error f => simp [hops, hbt] at h
      | ok bt =>
        simp only [hops, hbt, Except.ok.injEq] at h
        subst h
        refine ⟨keeps_primary_ctx_trans (with_data_keeps st _ ?_)
          (rocprofiler_call_keeps _ _ _ _), fun _ => ⟨ops, bt, rfl, rfl⟩⟩
        exact fun d => rfl
  · rw [if_neg hin] at h
    simp only [Except.ok.injEq] at h
    subst h
    refine ⟨keeps_primary_ctx_refl st, fun hmem => ?_⟩
    exact absurd (List.count_pos_iff.2 hmem) hin

theorem tool_init_callback_services_inv {V : Type} (env : core_environment)
    (replies : backend_replies) (cd : uset rocprofiler_callback_tracing_kind_t)
    (l : List rocprofiler_callback_tracing_kind_t) (st s : tool_state V)
    (h : l.foldlM (tool_init_callback_service env replies cd) st = .ok s) :
    keeps_primary_ctx st s ∧
    ∀ itr ∈ l, itr ∈ cd → ∃ ops bt, get_operations env itr = .ok ops ∧
      get_backtrace_operations env itr = .ok bt := by
  induction l generalizing st with
  | nil =>
    simp only [List.foldlM_nil, pure, Except.pure, Except.ok.injEq] at h
    subst h
    exact ⟨keeps_primary_ctx_refl st, fun itr hitr => by cases hitr⟩
  | cons a rest ih =>
    rw [List.foldlM_cons] at h
    cases hfa : tool_init_callback_service env replies cd st a with
    | error e =>
      rw [hfa] at h
      cases h
    | ok s1 =>
      rw [hfa] at h
      obtain ⟨hk1, hr1⟩ := tool_init_callback_service_inv env replies cd st s1 a hfa
      obtain ⟨hk2, hr2⟩ := ih s1 h
      refine ⟨keeps_primary_ctx_trans hk1 hk2, fun itr hitr hmem => ?_⟩
      rcases List.mem_cons.1 hitr with heq | hrest
      · subst heq
        exact hr1 hmem
      · exact hr2 itr hrest hmem

theorem tool_init_callback_services_returns {V : Type} (env : core_environment)
    (replies : backend_replies) (cd : uset rocprofiler_callback_tracing_kind_t)
    (l : List rocprofiler_callback_tracing_kind_t) (st : tool_state V)
    (hops : ∀ itr ∈ l, itr ∈ cd → ∃ ops bt, get_operations env itr = .ok ops ∧
      get_backtrace_operations env itr = .ok bt) :
    ∃ s, l.foldlM (tool_init_callback_service env replies cd) st = .ok s := by
  induction l generalizing st with
  | nil => exact ⟨st, rfl⟩
  | cons a rest ih =>
    have hstep : ∃ s1, tool_init_callback_service env replies cd st a = .ok s1 := by
      unfold tool_init_callback_service
      by_cases hin : cd.count a > 0
      · obtain ⟨ops, bt, h1, h2⟩ := hops a (List.mem_cons_self _ _) (List.count_pos_iff.1 hin)
        rw [if_pos hin]
        simp only [h1, h2]
        exact ⟨_, rfl⟩
      · rw [if_neg hin]
        exact ⟨_, rfl⟩
    obtain ⟨s1, hs1⟩ := hstep
    obtain ⟨s, hs⟩ := ih s1 (fun itr hitr => hops itr (List.mem_cons_of_mem _ hitr))
    refine ⟨s, ?_⟩
    rw [List.foldlM_cons, hs1]
    exact hs

theorem tool_init_kernel_dispatch_buffer_keeps {V : Type} (replies : backend_replies)
    (bd : uset rocprofiler_buffer_tracing_kind_t) (st : tool_state V) :
    keeps_primary_ctx st (tool_init_kernel_dispatch_buffer replies bd st) ∧
    (.ROCPROFILER_BUFFER_TRACING_KERNEL_DISPATCH ∈ bd →
      replies.succeeds .create_kernel_dispatch_buffer = false →
      rocprofiler_call_warning "rocprofiler_create_buffer(&_data->kernel_dispatch_buffer)" ∈
        (tool_init_kernel_dispatch_buffer replies bd st).warnings) := by
  unfold tool_init_kernel_dispatch_buffer
  by_cases hin : bd.count .ROCPROFILER_BUFFER_TRACING_KERNEL_DISPATCH > 0
  · rw [if_pos hin]
    have h2 : keeps_primary_ctx
        (rocprofiler_call replies .create_kernel_dispatch_buffer
          "rocprofiler_create_buffer(&_data->kernel_dispatch_buffer)" st)
        (rocprofiler_call replies .configure_kernel_dispatch_tracing
          "rocprofiler_configure_buffer_tracing_service"
          ((rocprofiler_call replies .create_kernel_dispatch_buffer
            "rocprofiler_create_buffer(&_data->kernel_dispatch_buffer)" st).with_data (fun d =>
              { d with kernel_dispatch_buffer :=
                  replies.handle .create_kernel_dispatch_buffer }))) :=
      by
        refine keeps_primary_ctx_trans (with_data_keeps _ _ ?_) (rocprofiler_call_keeps _ _ _ _)
        exact fun d => rfl
    exact ⟨keeps_primary_ctx_trans (rocprofiler_call_keeps _ _ _ _) h2,
      fun _ hfail => keeps_primary_ctx_logged h2 (rocprofiler_call_logs _ _ _ _ hfail)⟩
  · rw [if_neg hin]
    exact ⟨keeps_primary_ctx_refl st, fun hmem => absurd (List.count_pos_iff.2 hmem) hin⟩

theorem tool_init_memory_copy_buffer_inv {V : Type} (env : core_environment)
    (replies : backend_replies) (bd : uset rocprofiler_buffer_tracing_kind_t)
    (st s : tool_state V) (h : tool_init_memory_copy_buffer env replies bd st = .ok s) :
    keeps_primary_ctx st s ∧
    (.ROCPROFILER_BUFFER_TRACING_MEMORY_COPY ∈ bd →
      (∃ ops, get_operations_buffered env .ROCPROFILER_BUFFER_TRACING_MEMORY_COPY = .ok ops) ∧
      (replies.succeeds .create_memory_copy_buffer = false →
        rocprofiler_call_warning "rocprofiler_create_buffer(&_data->memory_copy_buffer)" ∈
          s.warnings)) := by
  unfold tool_init_memory_copy_buffer at h
  by_cases hin : bd.count .ROCPROFILER_BUFFER_TRACING_MEMORY_COPY > 0
  · rw [if_pos hin] at h
    cases hops : get_operations_buffered env .ROCPROFILER_BUFFER_TRACING_MEMORY_COPY with
    | error f => simp [hops] at h
    | ok ops =>
      simp only [hops, Except.ok.injEq] at h
      subst h
      have h2 : keeps_primary_ctx
          (rocprofiler_call replies .create_memory_copy_buffer
            "rocprofiler_create_buffer(&_data->memory_copy_buffer)" st)
          (rocprofiler_call replies (.configure_memory_copy_tracing ops)
            "rocprofiler_configure_buffer_tracing_service"
            ((rocprofiler_call replies .create_memory_copy_buffer
              "rocprofiler_create_buffer(&_data->memory_copy_buffer)" st).with_data (fun d =>
                { d with memory_copy_buffer :=
                    replies.handle .create_memory_copy_buffer }))) :=
        by
          refine keeps_primary_ctx_trans (with_data_keeps _ _ ?_)
            (rocprofiler_call_keeps _ _ _ _)
          exact fun d => rfl
      exact ⟨keeps_primary_ctx_trans (rocprofiler_call_keeps _ _ _ _) h2,
        fun _ => ⟨⟨ops, rfl⟩,
          fun hfail => keeps_primary_ctx_logged h2 (rocprofiler_call_logs _ _ _ _ hfail)⟩⟩
  · rw [if_neg hin] at h
    simp only [Except.ok.injEq] at h
    subst h
    exact ⟨keeps_primary_ctx_refl st, fun hmem => absurd (List.count_pos_iff.2 hmem) hin⟩

theorem tool_init_memory_copy_buffer_returns {V : Type} (env : core_environment)
    (replies : backend_replies) (bd : uset rocprofiler_buffer_tracing_kind_t)
    (st : tool_state V)
    (hops : .ROCPROFILER_BUFFER_TRACING_MEMORY_COPY ∈ bd →
      ∃ ops, get_operations_buffered env .ROCPROFILER_BUFFER_TRACING_MEMORY_COPY = .ok ops) :
    ∃ s, tool_init_memory_copy_buffer env replies bd st = .ok s := by
  unfold tool_init_memory_copy_buffer
  by_cases hin : bd.count .ROCPROFILER_BUFFER_TRACING_MEMORY_COPY > 0
  · obtain ⟨ops, h1⟩ := hops (List.count_pos_iff.1 hin)
    rw [if_pos hin]
    simp only [h1]
    exact ⟨_, rfl⟩
  · rw [if_neg hin]
    exact ⟨_, rfl⟩

theorem tool_init_callback_threads_keeps {V : Type} (replies : backend_replies)
    (st : tool_state V) :
    keeps_primary_ctx st (tool_init_callback_threads replies st) := by
  unfold tool_init_callback_threads
  cases st.tool_data with
  | none => exact keeps_primary_ctx_refl st
  | some d =>
    apply foldl_keeps
    intro s itr
    split_ifs
    · exact keeps_primary_ctx_trans (rocprofiler_call_keeps _ _ _ _)
        (rocprofiler_call_keeps _ _ _ _)
    · exact keeps_primary_ctx_refl s

theorem start_keeps {V : Type} (st : tool_state V) : keeps_primary_ctx st (start st) := by
  unfold start
  cases h : st.tool_data with
  | none => exact keeps_primary_ctx_refl st
  | some d => exact ⟨by simp [h], List.prefix_refl _⟩

theorem create_agent_profile_keeps {V : Type} (agent_id : Nat) (counters : List Name)
    (st st1 : tool_state V) (ids : List Nat)
    (h : create_agent_profile agent_id counters st = .ok (ids, st1)) :
    keeps_primary_ctx st st1 := by
  unfold create_agent_profile at h
  cases hd : st.tool_data with
  | none => simp [hd] at h
  | some data =>
    simp only [hd] at h
    cases hf : umap.find data.agent_counter_profiles agent_id with
    | some p =>
      simp only [hf] at h
      injection h with h
      injection h with h1 h2
      subst h2
      exact keeps_primary_ctx_refl st
    | none =>
      simp only [hf] at h
      cases hl : create_agent_profile_loop data agent_id (data.get_gpu_tool_agent agent_id)
          counters (counters.length, [], []) with
      | error f => simp [hl] at h
      | ok r =>
        obtain ⟨expected_v, found_v, counters_v⟩ := r
        simp only [hl] at h
        by_cases hchk : counters_v.length ≠ expected_v
        · rw [if_pos hchk] at h
          split at h <;> cases h
        · rw [if_neg hchk] at h
          split_ifs at h <;>
            (injection h with h
             injection h with h1 h2
             subst h2
             exact ⟨by simp [hd], List.prefix_refl _⟩)

theorem tool_init_agent_profiles_keeps {V : Type} (_counter_events : List Name)
    (agents : List tool_agent) (st st1 : tool_state V)
    (h : tool_init_agent_profiles _counter_events agents st = .ok st1) :
    keeps_primary_ctx st st1 := by
  induction agents generalizing st with
  | nil =>
    simp only [tool_init_agent_profiles, Except.ok.injEq] at h
    subst h
    exact keeps_primary_ctx_refl st
  | cons itr rest ih =>
    simp only [tool_init_agent_profiles] at h
    cases hc : create_agent_profile itr.agent.id _counter_events st with
    | error f => simp [hc] at h
    | ok r =>
      obtain ⟨ids, s1⟩ := r
      have hk := create_agent_profile_keeps _ _ _ _ _ hc
      simp only [hc] at h
      cases hd : s1.tool_data with
      | none => simp [hd] at h
      | some data =>
        simp only [hd] at h
        refine keeps_primary_ctx_trans hk (keeps_primary_ctx_trans ?_ (ih _ h))
        exact ⟨by simp [hd], List.prefix_refl _⟩

theorem tool_init_counter_services_keeps {V : Type} (replies : backend_replies)
    (_counter_events : List Name) (st st1 : tool_state V)
    (h : tool_init_counter_services replies _counter_events st = .ok st1) :
    keeps_primary_ctx st st1 ∧
    (_counter_events ≠ [] → replies.succeeds .create_counter_context = false →
      rocprofiler_call_warning "rocprofiler_create_context(&_data->counter_ctx)" ∈
        st1.warnings) := by
  unfold tool_init_counter_services at h
  by_cases hce : (!_counter_events.isEmpty) = true
  · rw [if_pos hce] at h
    cases hd : st.tool_data with
    | none => simp [hd] at h
    | some data =>
      simp only [hd] at h
      cases hp : tool_init_agent_profiles _counter_events data.gpu_agents st with
      | error f => simp [hp] at h
      | ok s1 =>
        simp only [hp, Except.ok.injEq] at h
        subst h
        have h2 : keeps_primary_ctx
            (rocprofiler_call replies .create_counter_context
              "rocprofiler_create_context(&_data->counter_ctx)" s1)
            (rocprofiler_call replies .configure_dispatch_counting
              "rocprofiler_configure_callback_dispatch_counting_service"
              (rocprofiler_call replies .configure_kernel_dispatch_callback
                "rocprofiler_configure_callback_tracing_service"
                ((rocprofiler_call replies .create_counter_context
                  "rocprofiler_create_context(&_data->counter_ctx)" s1).with_data (fun d =>
                    { d with counter_ctx := replies.handle .create_counter_context })))) :=
          by
            refine keeps_primary_ctx_trans (with_data_keeps _ _ ?_)
              (keeps_primary_ctx_trans (rocprofiler_call_keeps _ _ _ _)
                (rocprofiler_call_keeps _ _ _ _))
            exact fun d => rfl
        exact ⟨keeps_primary_ctx_trans (tool_init_agent_profiles_keeps _ _ _ _ hp)
            (keeps_primary_ctx_trans (rocprofiler_call_keeps _ _ _ _) h2),
          fun _ hfail => keeps_primary_ctx_logged h2 (rocprofiler_call_logs _ _ _ _ hfail)⟩
  · rw [if_neg hce] at h
    simp only [Except.ok.injEq] at h
    subst h
    refine ⟨keeps_primary_ctx_refl st, fun hne => ?_⟩
    cases _counter_events with
    | nil => exact absurd rfl hne
    | cons a rest => simp at hce

theorem initialize_client_data_frame {V : Type} (replies : backend_replies)
    (st st1 : tool_state V) (h : initialize_client_data replies st = .ok st1) :
    st.warnings <+: st1.warnings ∧ (st.tool_data.isSome → st1.tool_data.isSome) := by
  unfold initialize_client_data at h
  cases ha : replies.available_agents with
  | none =>
    simp only [ha, Except.ok.injEq] at h
    subst h
    exact ⟨(rocprofiler_call_keeps _ _ _ _).2, fun hs => by
      rw [rocprofiler_call_tool_data]
      exact hs⟩
  | some p =>
    obtain ⟨version, agents⟩ := p
    simp only [ha, conditional_abort] at h
    split_ifs at h
    simp only [Except.ok.injEq] at h
    subst h
    have hk : keeps_primary_ctx st (rocprofiler_call replies .query_available_agents
        "rocprofiler_query_available_agents"
        (st.with_data fun d => d.set_agents agents)) := by
      refine keeps_primary_ctx_trans (with_data_keeps st _ ?_) (rocprofiler_call_keeps _ _ _ _)
      exact fun d => rfl
    refine ⟨hk.2, fun hs => ?_⟩
    rw [rocprofiler_call_tool_data]
    unfold tool_state.with_data
    simpa using hs

theorem initialize_client_data_returns {V : Type} (replies : backend_replies)
    (st : tool_state V)
    (hversion : ∀ version agents, replies.available_agents = some (version, agents) →
      version = ROCPROFILER_AGENT_INFO_VERSION_0) :
    ∃ st1, initialize_client_data replies st = .ok st1 := by
  unfold initialize_client_data
  cases ha : replies.available_agents with
  | none => exact ⟨_, rfl⟩
  | some p =>
    obtain ⟨version, agents⟩ := p
    have hv := hversion version agents ha
    simp only [conditional_abort, hv, ne_eq, not_true_eq_false, decide_False,
      Bool.false_eq_true, if_false]
    exact ⟨_, rfl⟩

theorem tool_init_client_data_frame {V : Type} (replies : backend_replies)
    (_counter_events : List Name)
    (initialize_event_info : client_data → Except Fault client_data)
    (st st1 : tool_state V)
    (h : tool_init_client_data replies _counter_events initialize_event_info st = .ok st1) :
    st.warnings <+: st1.warnings ∧ (st.tool_data.isSome → st1.tool_data.isSome) := by
  unfold tool_init_client_data at h
  cases hi : initialize_client_data replies st with
  | error f => simp [hi] at h
  | ok s1 =>
    obtain ⟨hw, hs⟩ := initialize_client_data_frame replies st s1 hi
    simp only [hi] at h
    by_cases hce : (!_counter_events.isEmpty) = true
    · rw [if_pos hce] at h
      cases hd : s1.tool_data with
      | none => simp [hd] at h
      | some d =>
        simp only [hd] at h
        cases he : initialize_event_info d with
        | error f => simp [he] at h
        | ok d1 =>
          simp only [he, Except.ok.injEq] at h
          subst h
          exact ⟨hw, fun _ => rfl⟩
    · rw [if_neg hce] at h
      simp only [Except.ok.injEq] at h
      subst h
      exact ⟨hw, hs⟩

theorem tool_init_client_data_returns {V : Type} (replies : backend_replies)
    (initialize_event_info : client_data → Except Fault client_data)
    (st : tool_state V)
    (hversion : ∀ version agents, replies.available_agents = some (version, agents) →
      version = ROCPROFILER_AGENT_INFO_VERSION_0) :
    ∃ st1, tool_init_client_data replies [] initialize_event_info st = .ok st1 := by
  obtain ⟨s1, hi⟩ := initialize_client_data_returns replies st hversion
  refine ⟨s1, ?_⟩
  unfold tool_init_client_data
  simp [hi]

theorem tool_init_primary_context_frame {V : Type} (replies : backend_replies)
    (st : tool_state V) (hsome : st.tool_data.isSome = true) :
    (tool_init_primary_context replies st).tool_data.map (fun d => d.primary_ctx) =
      some (replies.handle .create_primary_context) ∧
    st.warnings <+: (tool_init_primary_context replies st).warnings ∧
    (replies.succeeds .create_primary_context = false →
      rocprofiler_call_warning "rocprofiler_create_context(&_data->primary_ctx)" ∈
        (tool_init_primary_context replies st).warnings) := by
  unfold tool_init_primary_context
  have h2 : keeps_primary_ctx
      ((rocprofiler_call replies .create_primary_context
        "rocprofiler_create_context(&_data->primary_ctx)" st).with_data (fun d =>
          { d with primary_ctx := replies.handle .create_primary_context }))
      (rocprofiler_call replies .configure_code_object_tracing
        "rocprofiler_configure_callback_tracing_service"
        ((rocprofiler_call replies .create_primary_context
          "rocprofiler_create_context(&_data->primary_ctx)" st).with_data (fun d =>
            { d with primary_ctx := replies.handle .create_primary_context }))) :=
    rocprofiler_call_keeps _ _ _ _
  obtain ⟨d0, hd0⟩ := Option.isSome_iff_exists.1 hsome
  refine ⟨?_, (rocprofiler_call_keeps _ _ _ st).2.trans h2.2, fun hfail => ?_⟩
  · rw [h2.1]
    unfold tool_state.with_data
    simp [rocprofiler_call_tool_data, hd0]
  · exact keeps_primary_ctx_logged h2 (rocprofiler_call_logs _ _ _ st hfail)

theorem tool_init_primary_services_inv {V : Type} (env : core_environment)
    (replies : backend_replies) (cd : uset rocprofiler_callback_tracing_kind_t)
    (bd : uset rocprofiler_buffer_tracing_kind_t) (st s : tool_state V)
    (hsome : st.tool_data.isSome = true)
    (h : tool_init_primary_services env replies cd bd st = .ok s) :
    s.tool_data.map (fun d => d.primary_ctx) =
      some (replies.handle .create_primary_context) ∧
    st.warnings <+: s.warnings ∧
    (replies.succeeds .create_primary_context = false →
      rocprofiler_call_warning "rocprofiler_create_context(&_data->primary_ctx)" ∈
        s.warnings) ∧
    (.ROCPROFILER_BUFFER_TRACING_KERNEL_DISPATCH ∈ bd →
      replies.succeeds .create_kernel_dispatch_buffer = false →
      rocprofiler_call_warning "rocprofiler_create_buffer(&_data->kernel_dispatch_buffer)" ∈
        s.warnings) ∧
    (.ROCPROFILER_BUFFER_TRACING_MEMORY_COPY ∈ bd →
      replies.succeeds .create_memory_copy_buffer = false →
      rocprofiler_call_warning "rocprofiler_create_buffer(&_data->memory_copy_buffer)" ∈
        s.warnings) ∧
    (∀ itr ∈ traced_api_kinds, itr ∈ cd → ∃ ops bt, get_operations env itr = .ok ops ∧
      get_backtrace_operations env itr = .ok bt) ∧
    (.ROCPROFILER_BUFFER_TRACING_MEMORY_COPY ∈ bd →
      ∃ ops, get_operations_buffered env .ROCPROFILER_BUFFER_TRACING_MEMORY_COPY =
        .ok ops) := by
  unfold tool_init_primary_services at h
  obtain ⟨hp, hw, hlog⟩ := tool_init_primary_context_frame replies st hsome
  cases hc : tool_init_callback_services env replies cd (tool_init_primary_context replies st)
    with
  | error f => simp [hc] at h
  | ok s1 =>
    simp only [hc] at h
    obtain ⟨hk1, hops1⟩ := tool_init_callback_services_inv env replies cd traced_api_kinds
      _ s1 hc
    obtain ⟨hk2, hlog2⟩ := tool_init_kernel_dispatch_buffer_keeps replies bd s1
    obtain ⟨hk3, hmc⟩ := tool_init_memory_copy_buffer_inv env replies bd _ s h
    have hk13 := keeps_primary_ctx_trans hk1 (keeps_primary_ctx_trans hk2 hk3)
    exact ⟨hk13.1.trans hp, hw.trans hk13.2,
      fun hfail => keeps_primary_ctx_logged hk13 (hlog hfail),
      fun hmem hfail => keeps_primary_ctx_logged hk3 (hlog2 hmem hfail),
      fun hmem hfail => (hmc hmem).2 hfail,
      hops1, fun hmem => (hmc hmem).1⟩

theorem tool_init_primary_services_returns {V : Type} (env : core_environment)
    (replies : backend_replies) (cd : uset rocprofiler_callback_tracing_kind_t)
    (bd : uset rocprofiler_buffer_tracing_kind_t) (st : tool_state V)
    (hops : ∀ itr ∈ traced_api_kinds, itr ∈ cd → ∃ ops bt, get_operations env itr = .ok ops ∧
      get_backtrace_operations env itr = .ok bt)
    (hmc : .ROCPROFILER_BUFFER_TRACING_MEMORY_COPY ∈ bd →
      ∃ ops, get_operations_buffered env .ROCPROFILER_BUFFER_TRACING_MEMORY_COPY = .ok ops) :
    ∃ s, tool_init_primary_services env replies cd bd st = .ok s := by
  obtain ⟨s1, hs1⟩ := tool_init_callback_services_returns env replies cd traced_api_kinds
    (tool_init_primary_context replies st) hops
  obtain ⟨s, hs⟩ := tool_init_memory_copy_buffer_returns env replies bd
    (tool_init_kernel_dispatch_buffer replies bd s1) hmc
  refine ⟨s, ?_⟩
  unfold tool_init_primary_services tool_init_callback_services
  rw [hs1]
  exact hs

theorem tool_init_control_services_keeps {V : Type} (replies : backend_replies)
    (st : tool_state V) :
    keeps_primary_ctx st (tool_init_control_services replies st) ∧
    (replies.succeeds .create_control_context = false →
      rocprofiler_call_warning "rocprofiler_create_context(&_local_ctx)" ∈
        (tool_init_control_services replies st).warnings) := by
  unfold tool_init_control_services
  exact ⟨keeps_primary_ctx_trans (tool_init_callback_threads_keeps _ _)
      (keeps_primary_ctx_trans (rocprofiler_call_keeps _ _ _ _)
        (rocprofiler_call_keeps _ _ _ _)),
    fun hfail => keeps_primary_ctx_logged (rocprofiler_call_keeps _ _ _ _)
      (rocprofiler_call_logs _ _ _ _ hfail)⟩

theorem tool_init_status_outcome {V : Type} (replies : backend_replies) (st : tool_state V)
    (hp : st.tool_data.map (fun d => d.primary_ctx) =
      some (replies.handle .create_primary_context)) :
    ∃ st', tool_init_status replies st =
        .ok (st', if replies.context_is_valid (replies.handle .create_primary_context) then 0
          else -1) ∧
      keeps_primary_ctx st st' := by
  unfold tool_init_status
  cases hd : st.tool_data with
  | none => simp [hd] at hp
  | some d =>
    simp only [hd, Option.map_some', Option.some.injEq] at hp
    simp only [hp]
    by_cases hv : replies.context_is_valid (replies.handle .create_primary_context) = true
    · simp only [hv, Bool.not_true, Bool.false_eq_true, if_false, if_true]
      exact ⟨_, rfl, start_keeps _⟩
    · simp only [Bool.not_eq_true] at hv
      simp only [hv, Bool.not_false, if_true, Bool.false_eq_true, if_false]
      exact ⟨_, rfl, keeps_primary_ctx_refl _⟩

theorem tool_init_stages {V : Type} (env : core_environment) (replies : backend_replies)
    (initialize_event_info : client_data → Except Fault client_data)
    (st : tool_state V) (td : client_data) (hlive : st.tool_data = some td)
    (cd : uset rocprofiler_callback_tracing_kind_t)
    (bd : uset rocprofiler_buffer_tracing_kind_t)
    (hcd : get_callback_domains env = .ok cd) (hbd : get_buffered_domains env = .ok bd)
    (st1 st2 st3 : tool_state V)
    (h1 : tool_init_client_data replies (get_rocm_events env) initialize_event_info st =
      .ok st1)
    (h2 : tool_init_primary_services env replies cd bd st1 = .ok st2)
    (h3 : tool_init_counter_services replies (get_rocm_events env) st2 = .ok st3) :
    ∃ st', tool_init env replies initialize_event_info st =
        .ok (st', if replies.context_is_valid (replies.handle .create_primary_context) then 0
          else -1) ∧
      st.warnings <+: st'.warnings ∧
      (replies.succeeds .create_primary_context = false →
        rocprofiler_call_warning "rocprofiler_create_context(&_data->primary_ctx)" ∈
          st'.warnings) ∧
      (replies.succeeds .create_control_context = false →
        rocprofiler_call_warning "rocprofiler_create_context(&_local_ctx)" ∈
          st'.warnings) ∧
      (get_rocm_events env ≠ [] → replies.succeeds .create_counter_context = false →
        rocprofiler_call_warning "rocprofiler_create_context(&_data->counter_ctx)" ∈
          st'.warnings) ∧
      (.ROCPROFILER_BUFFER_TRACING_KERNEL_DISPATCH ∈ bd →
        replies.succeeds .create_kernel_dispatch_buffer = false →
        rocprofiler_call_warning
          "rocprofiler_create_buffer(&_data->kernel_dispatch_buffer)" ∈ st'.warnings) ∧
      (.ROCPROFILER_BUFFER_TRACING_MEMORY_COPY ∈ bd →
        replies.succeeds .create_memory_copy_buffer = false →
        rocprofiler_call_warning
          "rocprofiler_create_buffer(&_data->memory_copy_buffer)" ∈ st'.warnings) := by
  have hsome : st.tool_data.isSome = true := by simp [hlive]
  obtain ⟨hw1, hs1⟩ := tool_init_client_data_frame replies _ initialize_event_info st st1 h1
  obtain ⟨hp2, hw2, hl2, hkd2, hmc2, -, -⟩ :=
    tool_init_primary_services_inv env replies cd bd st1 st2 (hs1 hsome) h2
  obtain ⟨hk3, hl3⟩ := tool_init_counter_services_keeps replies _ st2 st3 h3
  obtain ⟨hk4, hl4⟩ := tool_init_control_services_keeps replies st3
  obtain ⟨st', hrun, hk5⟩ := tool_init_status_outcome replies
    (tool_init_control_services replies st3) ((hk4.1.trans hk3.1).trans hp2)
  have hk35 := keeps_primary_ctx_trans hk3 (keeps_primary_ctx_trans hk4 hk5)
  have hk45 := keeps_primary_ctx_trans hk4 hk5
  refine ⟨st', ?_, hw1.trans (hw2.trans hk35.2),
    fun hfail => keeps_primary_ctx_logged hk35 (hl2 hfail),
    fun hfail => keeps_primary_ctx_logged hk5 (hl4 hfail),
    fun hne hfail => keeps_primary_ctx_logged hk45 (hl3 hne hfail),
    fun hmem hfail => keeps_primary_ctx_logged hk35 (hkd2 hmem hfail),
    fun hmem hfail => keeps_primary_ctx_logged hk35 (hmc2 hmem hfail)⟩
  unfold tool_init
  simp only [hcd, hbd, hlive, h1, h2, h3]
  exact hrun

theorem tool_init_inv {V : Type} (env : core_environment) (replies : backend_replies)
    (initialize_event_info : client_data → Except Fault client_data)
    (st : tool_state V) (r : tool_state V × Int)
    (h : tool_init env replies initialize_event_info st = .ok r) :
    ∃ cd bd st1 st2 st3, get_callback_domains env = .ok cd ∧
      get_buffered_domains env = .ok bd ∧
      tool_init_client_data replies (get_rocm_events env) initialize_event_info st =
        .ok st1 ∧
      tool_init_primary_services env replies cd bd st1 = .ok st2 ∧
      tool_init_counter_services replies (get_rocm_events env) st2 = .ok st3 := by
  unfold tool_init at h
  cases hcd : get_callback_domains env with
  | error f => simp [hcd] at h
  | ok cd =>
    cases hbd : get_buffered_domains env with
    | error f => simp [hcd, hbd] at h
    | ok bd =>
      simp only [hcd, hbd] at h
      cases hd : st.tool_data with
      | none => simp [hd] at h
      | some d =>
        simp only [hd] at h
        cases h1 : tool_init_client_data replies (get_rocm_events env) initialize_event_info
          st with
        | error f => simp [h1] at h
        | ok st1 =>
          simp only [h1] at h
          cases h2 : tool_init_primary_services env replies cd bd st1 with
          | error f => simp [h2] at h
          | ok st2 =>
            simp only [h2] at h
            cases h3 : tool_init_counter_services replies (get_rocm_events env) st2 with
            | error f => simp [h3] at h
            | ok st3 => exact ⟨cd, bd, st1, st2, st3, rfl, rfl, rfl, h2, h3⟩

/-- C19, counterexample: with kernel-dispatch tracing requested and the backend failing
to create the kernel-dispatch buffer, `tool_init` logs the failure as a warning and
returns 0, the primary context being valid; and with a counter requested and the backend
failing to create the counter context, `tool_init` again logs a warning and returns 0. -/
theorem tool_init_returns_zero_when_buffer_creation_fails :
    (∃ st', tool_init (sample.init_env "kernel_dispatch".toList []) sample.replies_buffer_fails
        (fun d => .ok d) ({} : tool_state Nat) = .ok (st', 0) ∧
      get_buffered_domains (sample.init_env "kernel_dispatch".toList []) =
        .ok [.ROCPROFILER_BUFFER_TRACING_KERNEL_DISPATCH] ∧
      sample.replies_buffer_fails.succeeds .create_kernel_dispatch_buffer = false ∧
      st'.warnings = [rocprofiler_call_warning
        "rocprofiler_create_buffer(&_data->kernel_dispatch_buffer)"] ∧
      st'.tool_data.map (fun d => d.kernel_dispatch_buffer) = some 0) ∧
    (∃ st', tool_init (sample.init_env [] "SQ_WAVES".toList)
        sample.replies_counter_context_fails (fun d => .ok d) sample.state0 = .ok (st', 0) ∧
      get_rocm_events (sample.init_env [] "SQ_WAVES".toList) = ["SQ_WAVES".toList] ∧
      sample.replies_counter_context_fails.succeeds .create_counter_context = false ∧
      st'.warnings = [rocprofiler_call_warning
        "rocprofiler_create_context(&_data->counter_ctx)"] ∧
      st'.tool_data.map (fun d => d.counter_ctx) = some 0) := by
  refine ⟨⟨_, rfl, rfl, rfl, ?_, ?_⟩, ⟨_, rfl, rfl, rfl, ?_, ?_⟩⟩ <;> decide

/-- C19, amended. `tool_init` reports failure to its caller exactly when the backend does
not report the primary context as valid after all contexts, services and buffers have
been requested: whenever `tool_init` returns, the status is -1 if
`rocprofiler_context_is_valid` fails or denies the handle left by the creation of the
primary context, and 0 otherwise, whatever the status of any backend call. A failed
creation is logged by `ROCPROFILER_CALL` and nothing more: the log of warnings only grows,
and after the call it holds the warning of the creation of the primary context, of the
throwaway control context, of the counter context (when counter events are requested), of
the kernel-dispatch buffer and of the memory-copy buffer (when the domain is among the
buffered domains), whenever the backend fails that call. `tool_init` returns only if
`get_callback_domains` and `get_buffered_domains` return and `get_operations` and
`get_backtrace_operations` return for every requested API kind (`get_operations` also
for the memory copies, when requested), since a throw or an abort of one of them ends
`tool_init`; and when they do, no counter events are requested and the backend enumerates
its agents in the expected info version, `tool_init` does return on a live tool. -/
theorem tool_init_fails_iff_primary_context_invalid {V : Type} (env : core_environment)
    (replies : backend_replies)
    (initialize_event_info : client_data → Except Fault client_data)
    (st : tool_state V) (td : client_data) (hlive : st.tool_data = some td) :
    (∀ (st' : tool_state V) (status : Int),
      tool_init env replies initialize_event_info st = .ok (st', status) →
      (status = -1 ↔
        replies.context_is_valid (replies.handle .create_primary_context) = false) ∧
      (status = 0 ↔
        replies.context_is_valid (replies.handle .create_primary_context) = true) ∧
      st.warnings <+: st'.warnings ∧
      (replies.succeeds .create_primary_context = false →
        rocprofiler_call_warning "rocprofiler_create_context(&_data->primary_ctx)" ∈
          st'.warnings) ∧
      (replies.succeeds .create_control_context = false →
        rocprofiler_call_warning "rocprofiler_create_context(&_local_ctx)" ∈
          st'.warnings) ∧
      (get_rocm_events env ≠ [] → replies.succeeds .create_counter_context = false →
        rocprofiler_call_warning "rocprofiler_create_context(&_data->counter_ctx)" ∈
          st'.warnings) ∧
      (∀ bd, get_buffered_domains env = .ok bd →
        .ROCPROFILER_BUFFER_TRACING_KERNEL_DISPATCH ∈ bd →
        replies.succeeds .create_kernel_dispatch_buffer = false →
        rocprofiler_call_warning
          "rocprofiler_create_buffer(&_data->kernel_dispatch_buffer)" ∈ st'.warnings) ∧
      (∀ bd, get_buffered_domains env = .ok bd →
        .ROCPROFILER_BUFFER_TRACING_MEMORY_COPY ∈ bd →
        replies.succeeds .create_memory_copy_buffer = false →
        rocprofiler_call_warning
          "rocprofiler_create_buffer(&_data->memory_copy_buffer)" ∈ st'.warnings) ∧
      ∃ cd bd, get_callback_domains env = .ok cd ∧ get_buffered_domains env = .ok bd ∧
        (∀ itr ∈ traced_api_kinds, itr ∈ cd → ∃ ops bt, get_operations env itr = .ok ops ∧
          get_backtrace_operations env itr = .ok bt) ∧
        (.ROCPROFILER_BUFFER_TRACING_MEMORY_COPY ∈ bd →
          ∃ ops, get_operations_buffered env .ROCPROFILER_BUFFER_TRACING_MEMORY_COPY =
            .ok ops)) ∧
    (∀ cd bd, get_callback_domains env = .ok cd → get_buffered_domains env = .ok bd →
      (∀ itr ∈ traced_api_kinds, itr ∈ cd → ∃ ops bt, get_operations env itr = .ok ops ∧
        get_backtrace_operations env itr = .ok bt) →
      (.ROCPROFILER_BUFFER_TRACING_MEMORY_COPY ∈ bd →
        ∃ ops, get_operations_buffered env .ROCPROFILER_BUFFER_TRACING_MEMORY_COPY =
          .ok ops) →
      get_rocm_events env = [] →
      (∀ version agents, replies.available_agents = some (version, agents) →
        version = ROCPROFILER_AGENT_INFO_VERSION_0) →
      ∃ st', tool_init env replies initialize_event_info st =
        .ok (st', if replies.context_is_valid (replies.handle .create_primary_context) then 0
          else -1)) := by
  have hsome : st.tool_data.isSome = true := by simp [hlive]
  refine ⟨?_, ?_⟩
  · intro st' status h
    obtain ⟨cd, bd, st1, st2, st3, hcd, hbd, h1, h2, h3⟩ :=
      tool_init_inv env replies initialize_event_info st _ h
    obtain ⟨s, hrun, hw, hl1, hl2, hl3, hl4, hl5⟩ := tool_init_stages env replies
      initialize_event_info st td hlive cd bd hcd hbd st1 st2 st3 h1 h2 h3
    obtain ⟨-, hs1⟩ := tool_init_client_data_frame replies _ initialize_event_info st st1 h1
    obtain ⟨-, -, -, -, -, hops, hmc⟩ :=
      tool_init_primary_services_inv env replies cd bd st1 st2 (hs1 hsome) h2
    rw [hrun] at h
    simp only [Except.ok.injEq, Prod.mk.injEq] at h
    obtain ⟨e1, e2⟩ := h
    subst e1
    subst e2
    refine ⟨?_, ?_, hw, hl1, hl2, hl3, ?_, ?_, cd, bd, hcd, hbd, hops, hmc⟩
    · cases replies.context_is_valid (replies.handle .create_primary_context) <;> simp
    · cases replies.context_is_valid (replies.handle .create_primary_context) <;> simp
    · intro bd2 hbd2 hmem
      rw [hbd2] at hbd
      cases hbd
      exact hl4 hmem
    · intro bd2 hbd2 hmem
      rw [hbd2] at hbd
      cases hbd
      exact hl5 hmem
  · intro cd bd hcd hbd hops hmc hce hversion
    have h1 := tool_init_client_data_returns replies initialize_event_info st hversion
    rw [← hce] at h1
    obtain ⟨st1, h1⟩ := h1
    obtain ⟨st2, h2⟩ := tool_init_primary_services_returns env replies cd bd st1 hops hmc
    have h3 : tool_init_counter_services replies (get_rocm_events env) st2 = .ok st2 := by
      rw [hce]
      simp [tool_init_counter_services]
    obtain ⟨s, hrun, -⟩ := tool_init_stages env replies initialize_event_info st td hlive
      cd bd hcd hbd st1 st2 st2 h1 h2 h3
    exact ⟨s, hrun⟩

theorem tool_init_fails_iff_primary_context_invalid_witness :
    (∃ st', tool_init (sample.init_env "marker_api,memory_copy,kernel_dispatch".toList [])
        sample.replies_buffer_fails (fun d => .ok d) ({} : tool_state Nat) = .ok (st', 0)) ∧
    ∃ st', tool_init (sample.init_env "marker_api,memory_copy,kernel_dispatch".toList [])
        sample.replies_buffer_fails (fun d => .ok d) ({} : tool_state Nat) = .ok (st', 0) ∧
      rocprofiler_call_warning "rocprofiler_create_buffer(&_data->kernel_dispatch_buffer)" ∈
        st'.warnings :=
  ⟨(tool_init_fails_iff_primary_context_invalid
      (sample.init_env "marker_api,memory_copy,kernel_dispatch".toList [])
      sample.replies_buffer_fails (fun d => .ok d) ({} : tool_state Nat) {} rfl).2
      [.ROCPROFILER_CALLBACK_TRACING_MARKER_CORE_API]
      [.ROCPROFILER_BUFFER_TRACING_MARKER_CORE_API, .ROCPROFILER_BUFFER_TRACING_MEMORY_COPY,
       .ROCPROFILER_BUFFER_TRACING_KERNEL_DISPATCH]
      rfl rfl
      (by
        intro itr _ hmem
        simp only [List.mem_singleton] at hmem
        subst hmem
        exact ⟨[1], [], rfl, rfl⟩)
      (fun _ => ⟨[0, 1, 2], rfl⟩) rfl
      (by
        intro version agents h
        simp only [sample.replies_buffer_fails, Option.some.injEq, Prod.mk.injEq] at h
        exact h.1.symm),
   ⟨_, rfl, ((tool_init_fails_iff_primary_context_invalid
      (sample.init_env "marker_api,memory_copy,kernel_dispatch".toList [])
      sample.replies_buffer_fails (fun d => .ok d) ({} : tool_state Nat) {} rfl).1 _ 0
      rfl).2.2.2.2.2.2.1
      [.ROCPROFILER_BUFFER_TRACING_MARKER_CORE_API, .ROCPROFILER_BUFFER_TRACING_MEMORY_COPY,
       .ROCPROFILER_BUFFER_TRACING_KERNEL_DISPATCH]
      rfl (by decide) rfl⟩⟩

/-- With the marker domain requested, `tool_init` registers the operations that
`get_operations` computes for the marker kind (here `[1]`, the inclusive filter `Range`
less the exclusive filter `Pop`) and records the backtrace operations of the kind: a
backend that refuses exactly the call for these operations has its refusal logged. -/
theorem tool_init_registers_filtered_operations :
    get_operations (sample.init_env "marker_api".toList [])
      .ROCPROFILER_CALLBACK_TRACING_MARKER_CORE_API = .ok [1] ∧
    ∃ st', tool_init (sample.init_env "marker_api".toList [])
        sample.replies_marker_tracing_fails (fun d => .ok d) sample.state0 = .ok (st', 0) ∧
      st'.warnings =
        [rocprofiler_call_warning "rocprofiler_configure_callback_tracing_service"] ∧
      st'.tool_data.map (fun d => d.backtrace_operations) =
        some [(.ROCPROFILER_CALLBACK_TRACING_MARKER_CORE_API, [])] := by
  refine ⟨rfl, _, rfl, ?_, ?_⟩ <;> decide

/-- A throw or an abort of the functions that read the domains and the operations ends
`tool_init`: an unsupported value of `ROCPROFSYS_ROCM_DOMAINS` makes `get_callback_domains`
throw, and a requested API kind without registered operation settings makes
`get_operations` abort. -/
theorem tool_init_stops_on_domain_errors :
    tool_init (sample.init_env "bogus".toList []) {} (fun d => .ok d)
        ({} : tool_state Nat) =
      .error (.thrown "unsupported ROCPROFSYS_ROCM_DOMAINS value") ∧
    tool_init (sample.init_env "hip_runtime_api".toList []) {} (fun d => .ok d)
        ({} : tool_state Nat) =
      .error (.aborted "callback_operation_operation_names does not have value") := by
  exact ⟨rfl, rfl⟩

/-! ### Version decoding -/

/-- C30. The version decoding of `rocprofiler_configure` is lossless: for every 32-bit
unsigned `version` the decoded triple satisfies
`major * 10000 + minor * 100 + patch = version` with `minor < 100` and `patch < 100`
(and `major` is the quotient by `10000`, `minor` the hundreds of the remainder, `patch`
the remainder by `100`), so two versions with the same triple are equal. -/
theorem rocprofiler_configure_version_lossless (version : Nat)
    (hversion : version < uint32_size) :
    (rocprofiler_configure_version version).1 = version / 10000 ∧
    (rocprofiler_configure_version version).2.1 = (version % 10000) / 100 ∧
    (rocprofiler_configure_version version).2.2 = version % 100 ∧
    (rocprofiler_configure_version version).1 * 10000 +
      (rocprofiler_configure_version version).2.1 * 100 +
      (rocprofiler_configure_version version).2.2 = version ∧
    (rocprofiler_configure_version version).2.1 < 100 ∧
    (rocprofiler_configure_version version).2.2 < 100 ∧
    ∀ other, other < uint32_size →
      rocprofiler_configure_version other = rocprofiler_configure_version version →
      other = version := by
  have hsize : uint32_size = 4294967296 := by norm_num [uint32_size]
  have hdec : ∀ v, v < uint32_size →
      rocprofiler_configure_version v = (v / 10000, (v % 10000) / 100, v % 100) := by
    intro v hv
    rw [hsize] at hv
    simp only [rocprofiler_configure_version, hsize]
    refine Prod.ext ?_ (Prod.ext ?_ ?_) <;> simp only [] <;> omega
  rw [hdec version hversion]
  refine ⟨rfl, rfl, rfl, ?_, ?_, ?_, ?_⟩
  · simp only []; omega
  · simp only []; omega
  · simp only []; omega
  · intro other hother heq
    rw [hdec other hother] at heq
    simp only [Prod.mk.injEq] at heq
    omega

/-- C30, witness: version `700103` decodes to `70.1.3`. -/
theorem rocprofiler_configure_version_lossless_witness :
    (700103 < uint32_size) ∧
    (rocprofiler_configure_version 700103).1 * 10000 +
      (rocprofiler_configure_version 700103).2.1 * 100 +
      (rocprofiler_configure_version 700103).2.2 = 700103 :=
  ⟨by decide, (rocprofiler_configure_version_lossless 700103 (by decide)).2.2.2.1⟩

/-! ### Independence of the two marker stacks -/

theorem tool_tracing_callback_start_name_stacks {V : Type} (ext : externals)
    (record : rocprofiler_callback_tracing_record_t) (st s1 : tool_state V) (n : Name)
    (hkind : record.kind = .ROCPROFILER_CALLBACK_TRACING_MARKER_CORE_API)
    (h : tool_tracing_callback_start_name ext .rocm_marker_api record st = .ok (n, s1)) :
    (record.operation = ROCPROFILER_MARKER_CORE_API_ID_roctxRangePushA →
      record.payload = .marker_api n ∧
      s1.marker_pushed_ranges = ext.add_hash_id n :: st.marker_pushed_ranges ∧
      s1.marker_started_ranges = st.marker_started_ranges) ∧
    (record.operation = ROCPROFILER_MARKER_CORE_API_ID_roctxRangeStartA →
      record.payload = .marker_api n ∧
      s1.marker_started_ranges = ext.add_hash_id n :: st.marker_started_ranges ∧
      s1.marker_pushed_ranges = st.marker_pushed_ranges) ∧
    (record.operation ≠ ROCPROFILER_MARKER_CORE_API_ID_roctxRangePushA →
      record.operation ≠ ROCPROFILER_MARKER_CORE_API_ID_roctxRangeStartA →
      s1.marker_pushed_ranges = st.marker_pushed_ranges ∧
      s1.marker_started_ranges = st.marker_started_ranges) := by
  unfold tool_tracing_callback_start_name at h
  cases htd : st.tool_data with
  | none => simp [htd] at h
  | some td =>
    simp only [htd, hkind, and_self, if_true] at h
    by_cases h1 : record.operation = ROCPROFILER_MARKER_CORE_API_ID_roctxRangePushA
    · simp only [h1, if_true] at h
      cases hp : record.payload <;> simp only [hp] at h <;> cases h
      refine ⟨fun _ => ⟨rfl, rfl, rfl⟩, fun h3 => ?_, fun h3 => absurd h1 h3⟩
      rw [h1] at h3
      exact absurd h3 (by decide)
    · simp only [h1, if_false] at h
      by_cases h2 : record.operation = ROCPROFILER_MARKER_CORE_API_ID_roctxRangeStartA
      · simp only [h2, if_true] at h
        cases hp : record.payload <;> simp only [hp] at h <;> cases h
        exact ⟨fun h3 => absurd h3 h1, fun _ => ⟨rfl, rfl, rfl⟩, fun _ h3 => absurd h2 h3⟩
      · simp only [h2, if_false] at h
        refine ⟨fun h3 => absurd h3 h1, fun h3 => absurd h3 h2, fun _ _ => ?_⟩
        by_cases h3 : record.operation = ROCPROFILER_MARKER_CORE_API_ID_roctxMarkA
        · simp only [h3, if_true] at h
          cases hp : record.payload <;> simp only [hp] at h <;> cases h
          exact ⟨rfl, rfl⟩
        · simp only [h3, if_false] at h
          cases h
          exact ⟨rfl, rfl⟩

theorem tool_tracing_callback_stop_name_stacks {V : Type} (ext : externals)
    (record : rocprofiler_callback_tracing_record_t) (st s1 : tool_state V) (n : Name)
    (hkind : record.kind = .ROCPROFILER_CALLBACK_TRACING_MARKER_CORE_API)
    (h : tool_tracing_callback_stop_name ext .rocm_marker_api record st = .ok (n, s1)) :
    (record.operation = ROCPROFILER_MARKER_CORE_API_ID_roctxRangePop →
      (∃ _hash, st.marker_pushed_ranges = _hash :: s1.marker_pushed_ranges) ∧
      s1.marker_started_ranges = st.marker_started_ranges) ∧
    (record.operation = ROCPROFILER_MARKER_CORE_API_ID_roctxRangeStop →
      (∃ _hash, st.marker_started_ranges = _hash :: s1.marker_started_ranges) ∧
      s1.marker_pushed_ranges = st.marker_pushed_ranges) ∧
    (record.operation ≠ ROCPROFILER_MARKER_CORE_API_ID_roctxRangePop →
      record.operation ≠ ROCPROFILER_MARKER_CORE_API_ID_roctxRangeStop →
      s1.marker_pushed_ranges = st.marker_pushed_ranges ∧
      s1.marker_started_ranges = st.marker_started_ranges) := by
  unfold tool_tracing_callback_stop_name at h
  cases htd : st.tool_data with
  | none => simp [htd] at h
  | some td =>
    simp only [htd, hkind, and_self, if_true] at h
    by_cases h1 : record.operation = ROCPROFILER_MARKER_CORE_API_ID_roctxRangePop
    · simp only [h1, if_true] at h
      cases hp : st.marker_pushed_ranges <;> simp only [hp] at h <;> cases h
      refine ⟨fun _ => ⟨⟨_, rfl⟩, rfl⟩, fun h3 => ?_, fun h3 => absurd h1 h3⟩
      rw [h1] at h3
      exact absurd h3 (by decide)
    · simp only [h1, if_false] at h
      by_cases h2 : record.operation = ROCPROFILER_MARKER_CORE_API_ID_roctxRangeStop
      · simp only [h2, if_true] at h
        cases hp : st.marker_started_ranges <;> simp only [hp] at h <;> cases h
        exact ⟨fun h3 => absurd h3 h1, fun _ => ⟨⟨_, rfl⟩, rfl⟩, fun _ h3 => absurd h2 h3⟩
      · simp only [h2, if_false] at h
        refine ⟨fun h3 => absurd h3 h1, fun h3 => absurd h3 h2, fun _ _ => ?_⟩
        by_cases h3 : record.operation = ROCPROFILER_MARKER_CORE_API_ID_roctxMarkA
        · simp only [h3, if_true] at h
          cases hp : record.payload <;> simp only [hp] at h <;> cases h
          exact ⟨rfl, rfl⟩
        · simp only [h3, if_false] at h
          cases h
          exact ⟨rfl, rfl⟩

theorem tool_tracing_callback_phases_enter_inv {V : Type} (cfg : settings) (ext : externals)
    (record : rocprofiler_callback_tracing_record_t) (user_data ts : Nat)
    (unw : List (Option Nat)) (st st1 : tool_state V) (v : Nat) (cat : category)
    (hphase : record.phase = .ROCPROFILER_CALLBACK_PHASE_ENTER)
    (hcat : callback_category record.kind = some cat)
    (h : tool_tracing_callback_phases cfg ext record user_data ts unw st = .ok (st1, v)) :
    ∃ n s1, tool_tracing_callback_start_name ext cat record st = .ok (n, s1) ∧
      st1.marker_pushed_ranges = s1.marker_pushed_ranges ∧
      st1.marker_started_ranges = s1.marker_started_ranges := by
  unfold tool_tracing_callback_phases at h
  simp only [hphase, hcat] at h
  unfold tool_tracing_callback_start at h
  cases hs : tool_tracing_callback_start_name ext cat record st with
  | error f => simp [hs] at h
  | ok p =>
    obtain ⟨n, s1⟩ := p
    refine ⟨n, s1, rfl, ?_⟩
    simp only [hs] at h
    by_cases ht : cfg.use_timemory = true
    · simp only [ht, if_true] at h
      cases h
      exact ⟨rfl, rfl⟩
    · simp only [ht] at h
      cases h
      exact ⟨rfl, rfl⟩

theorem tool_tracing_callback_phases_exit_cases {V : Type} (cfg : settings) (ext : externals)
    (record : rocprofiler_callback_tracing_record_t) (user_data ts : Nat)
    (unw : List (Option Nat)) (st : tool_state V) (cat : category)
    (hphase : record.phase = .ROCPROFILER_CALLBACK_PHASE_EXIT)
    (hcat : callback_category record.kind = some cat) :
    (∃ f, tool_tracing_callback_phases cfg ext record user_data ts unw st = .error f) ∨
    ∃ bt, tool_tracing_callback_phases cfg ext record user_data ts unw st =
      match tool_tracing_callback_stop cfg ext cat record user_data ts bt st with
      | .error f => .error f
      | .ok st1 => .ok (st1, user_data) := by
  unfold tool_tracing_callback_phases
  simp only [hphase, hcat]
  by_cases hp : (cfg.use_perfetto && cfg.perfetto_annotations) = true
  · simp only [hp, if_true]
    cases htd : st.tool_data with
    | none => exact Or.inl ⟨_, rfl⟩
    | some td =>
      simp only []
      cases hops : umap.find td.backtrace_operations record.kind with
      | none => exact Or.inl ⟨_, rfl⟩
      | some ops =>
        simp only []
        by_cases hc : ops.count record.operation > 0
        · exact Or.inr ⟨some (resolved_backtrace ext unw), by simp only [hc, if_true]⟩
        · exact Or.inr ⟨none, by simp only [hc, if_false]⟩
  · exact Or.inr ⟨none, by simp only [hp]; rfl⟩

theorem tool_tracing_callback_phases_exit_inv {V : Type} (cfg : settings) (ext : externals)
    (record : rocprofiler_callback_tracing_record_t) (user_data ts : Nat)
    (unw : List (Option Nat)) (st st1 : tool_state V) (v : Nat) (cat : category)
    (hphase : record.phase = .ROCPROFILER_CALLBACK_PHASE_EXIT)
    (hcat : callback_category record.kind = some cat)
    (h : tool_tracing_callback_phases cfg ext record user_data ts unw st = .ok (st1, v)) :
    ∃ n s1, tool_tracing_callback_stop_name ext cat record st = .ok (n, s1) ∧
      st1.marker_pushed_ranges = s1.marker_pushed_ranges ∧
      st1.marker_started_ranges = s1.marker_started_ranges := by
  rcases tool_tracing_callback_phases_exit_cases cfg ext record user_data ts unw st cat hphase hcat
    with ⟨f, hf⟩ | ⟨bt, hbt⟩
  · rw [hf] at h
    cases h
  · rw [hbt] at h
    unfold tool_tracing_callback_stop at h
    cases hs : tool_tracing_callback_stop_name ext cat record st with
    | error f => simp [hs] at h
    | ok p =>
      obtain ⟨n, s1⟩ := p
      refine ⟨n, s1, rfl, ?_⟩
      simp only [hs] at h
      cases h
      exact ⟨rfl, rfl⟩


theorem tool_tracing_callback_phases_returns_of_callback_returns {V : Type} (cfg : settings)
    (ext : externals) (td : client_data) (record : rocprofiler_callback_tracing_record_t)
    (user_data ts : Nat) (unw : List (Option Nat)) (st : tool_state V)
    (hlive : st.tool_data = some td)
    (hret : callback_returns cfg td record
      (st.marker_pushed_ranges.length, st.marker_started_ranges.length) = true) :
    ∃ st1 v, tool_tracing_callback_phases cfg ext record user_data ts unw st = .ok (st1, v) := by
  by_cases hen : record.phase = .ROCPROFILER_CALLBACK_PHASE_ENTER
  · obtain ⟨st1, -, hrun, -⟩ := tool_tracing_callback_phases_enter_returns cfg ext td record
      user_data ts unw st hlive hen hret
    exact ⟨st1, ts, hrun⟩
  · by_cases hex : record.phase = .ROCPROFILER_CALLBACK_PHASE_EXIT
    · cases hcat : callback_category record.kind with
      | none => simp [callback_returns, hcat] at hret
      | some cat =>
        have hbt : cfg.use_perfetto = true → cfg.perfetto_annotations = true →
            ∃ ops, umap.find td.backtrace_operations record.kind = some ops := by
          intro h1 h2
          cases hops : umap.find td.backtrace_operations record.kind with
          | none => simp [callback_returns, hcat, hex, h1, h2, hops] at hret
          | some ops => exact ⟨ops, rfl⟩
        obtain ⟨bt, hrun⟩ := tool_tracing_callback_phases_exit_backtrace cfg ext record user_data
          ts unw st td cat hlive hex hcat hbt
        obtain ⟨n, s1, hname, -⟩ := tool_tracing_callback_stop_name_returns cfg ext td record
          cat st hlive hex hcat hret
        obtain ⟨evs, hstop⟩ := tool_tracing_callback_stop_of_name cfg ext cat record
          user_data ts bt st s1 n hname
        rw [hstop] at hrun
        exact ⟨_, _, hrun⟩
    · simp [callback_returns, hen, hex] at hret

theorem tool_tracing_callback_phases_marker_stacks {V : Type} (cfg : settings) (ext : externals)
    (record : rocprofiler_callback_tracing_record_t) (user_data ts : Nat)
    (unw : List (Option Nat)) (st : tool_state V)
    (hkind : record.kind = .ROCPROFILER_CALLBACK_TRACING_MARKER_CORE_API) :
    (∀ st1 v, tool_tracing_callback_phases cfg ext record user_data ts unw st = .ok (st1, v) →
      (record.operation = ROCPROFILER_MARKER_CORE_API_ID_roctxRangePushA →
        record.phase = .ROCPROFILER_CALLBACK_PHASE_ENTER →
        st1.marker_started_ranges = st.marker_started_ranges ∧
        ∃ message, record.payload = .marker_api message ∧
          st1.marker_pushed_ranges = ext.add_hash_id message :: st.marker_pushed_ranges) ∧
      (record.operation = ROCPROFILER_MARKER_CORE_API_ID_roctxRangePop →
        record.phase = .ROCPROFILER_CALLBACK_PHASE_EXIT →
        st1.marker_started_ranges = st.marker_started_ranges ∧
        ∃ _hash, st.marker_pushed_ranges = _hash :: st1.marker_pushed_ranges) ∧
      (record.operation = ROCPROFILER_MARKER_CORE_API_ID_roctxRangeStartA →
        record.phase = .ROCPROFILER_CALLBACK_PHASE_ENTER →
        st1.marker_pushed_ranges = st.marker_pushed_ranges ∧
        ∃ message, record.payload = .marker_api message ∧
          st1.marker_started_ranges = ext.add_hash_id message :: st.marker_started_ranges) ∧
      (record.operation = ROCPROFILER_MARKER_CORE_API_ID_roctxRangeStop →
        record.phase = .ROCPROFILER_CALLBACK_PHASE_EXIT →
        st1.marker_pushed_ranges = st.marker_pushed_ranges ∧
        ∃ _hash, st.marker_started_ranges = _hash :: st1.marker_started_ranges) ∧
      (record.operation = ROCPROFILER_MARKER_CORE_API_ID_roctxMarkA →
        st1.marker_pushed_ranges = st.marker_pushed_ranges ∧
        st1.marker_started_ranges = st.marker_started_ranges)) ∧
    (∀ td, st.tool_data = some td →
      callback_returns cfg td record
        (st.marker_pushed_ranges.length, st.marker_started_ranges.length) = true →
      ∃ st1 v, tool_tracing_callback_phases cfg ext record user_data ts unw st = .ok (st1, v)) := by
  have hcat : callback_category record.kind = some .rocm_marker_api := by
    rw [hkind]
    rfl
  refine ⟨fun st1 v hrun => ⟨?_, ?_, ?_, ?_, ?_⟩, fun td hlive hret =>
    tool_tracing_callback_phases_returns_of_callback_returns cfg ext td record user_data ts unw st
      hlive hret⟩
  · intro hop hphase
    obtain ⟨n, s1, hname, hp, hs⟩ := tool_tracing_callback_phases_enter_inv cfg ext record user_data
      ts unw st st1 v _ hphase hcat hrun
    obtain ⟨hpay, h1, h2⟩ :=
      (tool_tracing_callback_start_name_stacks ext record st s1 n hkind hname).1 hop
    exact ⟨hs.trans h2, n, hpay, hp.trans h1⟩
  · intro hop hphase
    obtain ⟨n, s1, hname, hp, hs⟩ := tool_tracing_callback_phases_exit_inv cfg ext record user_data
      ts unw st st1 v _ hphase hcat hrun
    obtain ⟨⟨x, h1⟩, h2⟩ :=
      (tool_tracing_callback_stop_name_stacks ext record st s1 n hkind hname).1 hop
    exact ⟨hs.trans h2, x, by rw [hp]; exact h1⟩
  · intro hop hphase
    obtain ⟨n, s1, hname, hp, hs⟩ := tool_tracing_callback_phases_enter_inv cfg ext record user_data
      ts unw st st1 v _ hphase hcat hrun
    obtain ⟨hpay, h1, h2⟩ :=
      (tool_tracing_callback_start_name_stacks ext record st s1 n hkind hname).2.1 hop
    exact ⟨hp.trans h2, n, hpay, hs.trans h1⟩
  · intro hop hphase
    obtain ⟨n, s1, hname, hp, hs⟩ := tool_tracing_callback_phases_exit_inv cfg ext record user_data
      ts unw st st1 v _ hphase hcat hrun
    obtain ⟨⟨x, h1⟩, h2⟩ :=
      (tool_tracing_callback_stop_name_stacks ext record st s1 n hkind hname).2.1 hop
    exact ⟨hp.trans h2, x, by rw [hs]; exact h1⟩
  · intro hop
    have hne1 : record.operation ≠ ROCPROFILER_MARKER_CORE_API_ID_roctxRangePushA := by
      rw [hop]; decide
    have hne2 : record.operation ≠ ROCPROFILER_MARKER_CORE_API_ID_roctxRangeStartA := by
      rw [hop]; decide
    have hne3 : record.operation ≠ ROCPROFILER_MARKER_CORE_API_ID_roctxRangePop := by
      rw [hop]; decide
    have hne4 : record.operation ≠ ROCPROFILER_MARKER_CORE_API_ID_roctxRangeStop := by
      rw [hop]; decide
    cases hphase : record.phase with
    | ROCPROFILER_CALLBACK_PHASE_ENTER =>
      obtain ⟨n, s1, hname, hp, hs⟩ := tool_tracing_callback_phases_enter_inv cfg ext record
        user_data ts unw st st1 v _ hphase hcat hrun
      obtain ⟨h1, h2⟩ :=
        (tool_tracing_callback_start_name_stacks ext record st s1 n hkind hname).2.2 hne1 hne2
      exact ⟨hp.trans h1, hs.trans h2⟩
    | ROCPROFILER_CALLBACK_PHASE_EXIT =>
      obtain ⟨n, s1, hname, hp, hs⟩ := tool_tracing_callback_phases_exit_inv cfg ext record
        user_data ts unw st st1 v _ hphase hcat hrun
      obtain ⟨h1, h2⟩ :=
        (tool_tracing_callback_stop_name_stacks ext record st s1 n hkind hname).2.2 hne3 hne4
      exact ⟨hp.trans h1, hs.trans h2⟩
    | ROCPROFILER_CALLBACK_PHASE_NONE =>
      unfold tool_tracing_callback_phases at hrun
      simp only [hphase, hkind, reduceCtorEq, false_and, if_false] at hrun
      cases hrun
      exact ⟨rfl, rfl⟩
    | ROCPROFILER_CALLBACK_PHASE_LAST =>
      unfold tool_tracing_callback_phases at hrun
      simp only [hphase] at hrun
      cases hc : ci_abort cfg true "unhandled callback record phase" with
      | error f => simp [hc] at hrun
      | ok u =>
        simp only [hc] at hrun
        cases hrun
        exact ⟨rfl, rfl⟩

/-- C22. The two marker stacks are independent. For a marker-core record on which
`tool_tracing_callback` returns: the ENTER of `roctxRangePushA` pushes the hash of the
message onto the pushed-range stack and the EXIT of `roctxRangePop` removes the top of
that stack, both leaving the started-range stack as it was; the ENTER of
`roctxRangeStartA` pushes the hash of the message onto the started-range stack and the
EXIT of `roctxRangeStop` removes the top of that stack, both leaving the pushed-range
stack as it was; `roctxMarkA` changes neither stack, in any phase. The callback does
return on a live tool whenever the record meets `callback_returns`. -/
theorem marker_stacks_are_independent {V : Type} (cfg : settings) (ext : externals)
    (record : rocprofiler_callback_tracing_record_t) (user_data ts : Nat)
    (unw : List (Option Nat)) (st : tool_state V)
    (hkind : record.kind = .ROCPROFILER_CALLBACK_TRACING_MARKER_CORE_API) :
    (∀ st1 v, tool_tracing_callback cfg ext record user_data ts unw st = .ok (st1, v) →
      (record.operation = ROCPROFILER_MARKER_CORE_API_ID_roctxRangePushA →
        record.phase = .ROCPROFILER_CALLBACK_PHASE_ENTER →
        st1.marker_started_ranges = st.marker_started_ranges ∧
        ∃ message, record.payload = .marker_api message ∧
          st1.marker_pushed_ranges = ext.add_hash_id message :: st.marker_pushed_ranges) ∧
      (record.operation = ROCPROFILER_MARKER_CORE_API_ID_roctxRangePop →
        record.phase = .ROCPROFILER_CALLBACK_PHASE_EXIT →
        st1.marker_started_ranges = st.marker_started_ranges ∧
        ∃ _hash, st.marker_pushed_ranges = _hash :: st1.marker_pushed_ranges) ∧
      (record.operation = ROCPROFILER_MARKER_CORE_API_ID_roctxRangeStartA →
        record.phase = .ROCPROFILER_CALLBACK_PHASE_ENTER →
        st1.marker_pushed_ranges = st.marker_pushed_ranges ∧
        ∃ message, record.payload = .marker_api message ∧
          st1.marker_started_ranges = ext.add_hash_id message :: st.marker_started_ranges) ∧
      (record.operation = ROCPROFILER_MARKER_CORE_API_ID_roctxRangeStop →
        record.phase = .ROCPROFILER_CALLBACK_PHASE_EXIT →
        st1.marker_pushed_ranges = st.marker_pushed_ranges ∧
        ∃ _hash, st.marker_started_ranges = _hash :: st1.marker_started_ranges) ∧
      (record.operation = ROCPROFILER_MARKER_CORE_API_ID_roctxMarkA →
        st1.marker_pushed_ranges = st.marker_pushed_ranges ∧
        st1.marker_started_ranges = st.marker_started_ranges)) ∧
    (∀ td, st.tool_data = some td →
      callback_returns cfg td record
        (st.marker_pushed_ranges.length, st.marker_started_ranges.length) = true →
      ∃ st1 v, tool_tracing_callback cfg ext record user_data ts unw st = .ok (st1, v)) := by
  have h := tool_tracing_callback_phases_marker_stacks cfg ext record user_data ts unw
    (rocprofiler_get_timestamp_call ext st) hkind
  simpa [tool_tracing_callback] using h

/-- C22, witness: on the sample system with an empty pushed-range stack and the
started-range stack `[9]`, the ENTER of `roctxRangePushA` with message `A` returns, and
whenever it returns the started-range stack is still `[9]` and the pushed-range stack
holds the hash of `A` alone. -/
theorem marker_stacks_are_independent_witness :
    sample.push_enter.kind = .ROCPROFILER_CALLBACK_TRACING_MARKER_CORE_API ∧
    (∃ st1 v, tool_tracing_callback {} sample.ext_markers sample.push_enter 0 5 []
      sample.state_started = .ok (st1, v)) ∧
    ∀ st1 v, tool_tracing_callback {} sample.ext_markers sample.push_enter 0 5 []
      sample.state_started = .ok (st1, v) →
      st1.marker_started_ranges = [9] ∧ st1.marker_pushed_ranges = [1] := by
  refine ⟨rfl, (marker_stacks_are_independent {} sample.ext_markers sample.push_enter 0 5 []
    sample.state_started rfl).2 sample.tool_data rfl (by decide), fun st1 v hrun => ?_⟩
  obtain ⟨hstarted, message, hpayload, hpushed⟩ :=
    ((marker_stacks_are_independent {} sample.ext_markers sample.push_enter 0 5 []
      sample.state_started rfl).1 st1 v hrun).1 rfl rfl
  refine ⟨hstarted, ?_⟩
  have hmessage : message = "A".toList := by
    have h : sample.push_enter.payload = .marker_api "A".toList := rfl
    rw [h] at hpayload
    injection hpayload with hpayload
    exact hpayload.symm
  rw [hpushed, hmessage]
  rfl

/-! ### The profile handle of an agent -/

theorem create_agent_profile_profiles {V : Type} (agent_id : Nat) (counters : List Name)
    (st st1 : tool_state V) (ids : List Nat) (td : client_data)
    (hlive : st.tool_data = some td)
    (h : create_agent_profile agent_id counters st = .ok (ids, st1)) :
    (∃ profile, umap.find td.agent_counter_profiles agent_id = some profile ∧
      st1 = st ∧ ids = []) ∨
    (umap.find td.agent_counter_profiles agent_id = none ∧
      ∃ created td1, st1.tool_data = some td1 ∧
        td1.agent_counter_profiles = td.agent_counter_profiles ++ [(agent_id, created)]) := by
  unfold create_agent_profile at h
  simp only [hlive] at h
  cases hf : umap.find td.agent_counter_profiles agent_id with
  | some p =>
    simp only [hf] at h
    injection h with h
    injection h with h1 h2
    exact Or.inl ⟨p, rfl, h2.symm, h1.symm⟩
  | none =>
    simp only [hf] at h
    cases hl : create_agent_profile_loop td agent_id (td.get_gpu_tool_agent agent_id)
        counters (counters.length, [], []) with
    | error f => simp [hl] at h
    | ok r =>
      obtain ⟨expected_v, found_v, counters_v⟩ := r
      simp only [hl] at h
      by_cases hchk : counters_v.length ≠ expected_v
      · rw [if_pos hchk] at h
        split at h <;> cases h
      · rw [if_neg hchk] at h
        split_ifs at h <;>
          (injection h with h
           injection h with h1 h2
           subst h2
           exact Or.inr ⟨rfl, _, _, rfl, by
             simp only [umap.emplace, hf, if_true, if_false, *]; rfl⟩)

/-- C21. The profile handle of an agent is immutable once created. After a
`create_agent_profile` for an agent has returned, the agent-to-profile map holds an entry
for the agent, and from every later state that holds this entry: a `create_agent_profile`
call for that agent, with any counter list, returns an empty counter list and leaves the
whole state (the map included) unchanged; a `create_agent_profile` call for any agent
that returns leaves the entry of the agent as it is; and
`dispatch_counting_service_callback` for a dispatch on the agent writes the cached handle
to the configuration, whatever handle it held (when the entry holds no handle, for an
agent without counters, the configuration is left as it was). -/
theorem profile_handle_is_immutable {V : Type} (agent_id : Nat) (counters : List Name)
    (st st1 : tool_state V) (ids : List Nat)
    (hfirst : create_agent_profile agent_id counters st = .ok (ids, st1)) :
    ∃ td1 profile, st1.tool_data = some td1 ∧
      umap.find td1.agent_counter_profiles agent_id = some profile ∧
      ∀ (later : tool_state V) (td : client_data), later.tool_data = some td →
        umap.find td.agent_counter_profiles agent_id = some profile →
        (∀ counters', create_agent_profile agent_id counters' later = .ok ([], later)) ∧
        (∀ agent' counters' ids' later',
          create_agent_profile agent' counters' later = .ok (ids', later') →
          ∃ td', later'.tool_data = some td' ∧
            umap.find td'.agent_counter_profiles agent_id = some profile) ∧
        (∀ dispatch_data config, dispatch_data.dispatch_info.agent_id = agent_id →
          dispatch_counting_service_callback dispatch_data (some config) later.tool_data =
            some (profile.getD config)) := by
  have hinv : ∀ (profile : Option Nat) (later : tool_state V) (td : client_data),
      later.tool_data = some td →
      umap.find td.agent_counter_profiles agent_id = some profile →
      (∀ counters', create_agent_profile agent_id counters' later = .ok ([], later)) ∧
      (∀ agent' counters' ids' later',
        create_agent_profile agent' counters' later = .ok (ids', later') →
        ∃ td', later'.tool_data = some td' ∧
          umap.find td'.agent_counter_profiles agent_id = some profile) ∧
      (∀ dispatch_data config, dispatch_data.dispatch_info.agent_id = agent_id →
        dispatch_counting_service_callback dispatch_data (some config) later.tool_data =
          some (profile.getD config)) := by
    intro profile later td hlive hentry
    refine ⟨fun counters' => ?_, fun agent' counters' ids' later' hrun => ?_,
      fun dispatch_data config hagent => ?_⟩
    · simp only [create_agent_profile, hlive, hentry]
    · rcases create_agent_profile_profiles agent' counters' later later' ids' td hlive hrun
        with ⟨p, -, hsame, -⟩ | ⟨-, created, td', hlive', hmap⟩
      · subst hsame
        exact ⟨td, hlive, hentry⟩
      · refine ⟨td', hlive', ?_⟩
        rw [hmap, umap.find_append, hentry]
    · simp only [dispatch_counting_service_callback, hlive, hagent, hentry]
      cases profile <;> rfl
  cases hlive : st.tool_data with
  | none => simp [create_agent_profile, hlive] at hfirst
  | some td =>
    rcases create_agent_profile_profiles agent_id counters st st1 ids td hlive hfirst
      with ⟨p, hentry, hsame, -⟩ | ⟨hnone, created, td1, hlive1, hmap⟩
    · subst hsame
      exact ⟨td, p, hlive, hentry, hinv p⟩
    · refine ⟨td1, created, hlive1, ?_, hinv created⟩
      rw [hmap]
      exact umap.find_append_self _ _ _ hnone

/-- C21, witness: on the sample system the first `create_agent_profile` for agent 100 with
the request `SQ_WAVES` returns counter id 8 and caches handle 1; a later call with the
request `L2CacheHit` returns no counter and changes nothing, and a dispatch on agent 100
gets handle 1. -/
theorem profile_handle_is_immutable_witness :
    ∃ st1 : tool_state Nat,
      create_agent_profile 100 ["SQ_WAVES".toList] sample.state0 = .ok ([8], st1) ∧
      create_agent_profile 100 ["L2CacheHit".toList] st1 = .ok ([], st1) ∧
      dispatch_counting_service_callback sample.dispatch42 (some 0) st1.tool_data =
        some 1 := by
  have hfirst : create_agent_profile 100 ["SQ_WAVES".toList] sample.state0 =
      .ok ([8], sample.state_first_profile) := rfl
  obtain ⟨td1, profile, hlive, hentry, hlater⟩ :=
    profile_handle_is_immutable 100 ["SQ_WAVES".toList] sample.state0
      sample.state_first_profile [8] hfirst
  have hp : profile = some 1 := by
    have h1 : sample.state_first_profile.tool_data = some sample.tool_data_first_profile := rfl
    rw [h1] at hlive
    cases hlive
    have h2 : umap.find sample.tool_data_first_profile.agent_counter_profiles 100 =
        some (some 1) := by decide
    rw [h2] at hentry
    cases hentry
    rfl
  obtain ⟨h1, -, h3⟩ := hlater sample.state_first_profile td1 hlive hentry
  refine ⟨sample.state_first_profile, hfirst, h1 _, ?_⟩
  rw [h3 sample.dispatch42 0 rfl, hp]
  rfl

/-! ### Operation filters -/

theorem uset.mem_emplace {A : Type} [DecidableEq A] (s : uset A) (a x : A) :
    x ∈ uset.emplace s a ↔ x ∈ s ∨ x = a := by
  unfold uset.emplace
  by_cases h : a ∈ s
  · simp only [h, if_true]
    constructor
    · exact Or.inl
    · rintro (h1 | h1)
      · exact h1
      · exact h1 ▸ h
  · simp [h]

theorem uset.nodup_emplace {A : Type} [DecidableEq A] (s : uset A) (a : A) (h : s.Nodup) :
    (uset.emplace s a).Nodup := by
  unfold uset.emplace
  by_cases ha : a ∈ s
  · simpa [ha] using h
  · simp only [ha, if_false]
    rw [List.nodup_append]
    refine ⟨h, List.nodup_singleton a, ?_⟩
    intro x hx hx'
    rw [List.mem_singleton] at hx'
    exact ha (hx' ▸ hx)

theorem uset.mem_erase {A : Type} [DecidableEq A] (s : uset A) (a x : A) :
    x ∈ uset.erase s a ↔ x ∈ s ∧ x ≠ a := by
  simp [uset.erase, List.mem_filter]

theorem uset.nodup_erase {A : Type} [DecidableEq A] (s : uset A) (a : A) (h : s.Nodup) :
    (uset.erase s a).Nodup :=
  h.filter _

theorem uset.mem_foldl_erase {A : Type} [DecidableEq A] (excl : List A) (s : uset A) (x : A) :
    x ∈ excl.foldl uset.erase s ↔ x ∈ s ∧ x ∉ excl := by
  induction excl generalizing s with
  | nil => simp
  | cons a rest ih =>
    rw [List.foldl_cons, ih, uset.mem_erase, List.mem_cons, not_or]
    tauto

theorem uset.nodup_foldl_erase {A : Type} [DecidableEq A] (excl : List A) (s : uset A)
    (h : s.Nodup) : (excl.foldl uset.erase s).Nodup := by
  induction excl generalizing s with
  | nil => exact h
  | cons a rest ih => exact ih _ (uset.nodup_erase s a h)

theorem std_sort_int_sorted (l : List Int) (h : l.Nodup) :
    (std_sort (fun a b : Int => a < b) l).Sorted (fun a b => a < b) := by
  haveI : IsTotal Int (fun a b => ¬ b < a) :=
    ⟨fun a b => by
      rcases Int.lt_or_le b a with h | h
      · exact Or.inr (by omega)
      · exact Or.inl (by omega)⟩
  haveI : IsTrans Int (fun a b => ¬ b < a) :=
    ⟨fun a b c hab hbc => by omega⟩
  have hs : (std_sort (fun a b : Int => a < b) l).Sorted (fun a b => ¬ b < a) :=
    List.sorted_insertionSort _ l
  have hn : (std_sort (fun a b : Int => a < b) l).Nodup :=
    (std_sort_perm _ l).nodup_iff.2 h
  unfold List.Sorted at hs ⊢
  have hne : (std_sort (fun a b : Int => a < b) l).Pairwise (fun a b => a ≠ b) := hn
  exact (hs.and hne).imp (fun hab => by omega)

theorem get_operations_impl_spec (_complete _include _exclude : uset Int)
    (hc : _complete.Nodup) (hi : _include.Nodup) :
    (get_operations_impl _complete _include _exclude).Sorted (fun a b => a < b) ∧
    ∀ x, x ∈ get_operations_impl _complete _include _exclude ↔
      x ∈ (if _include = [] then _complete else _include) ∧ x ∉ _exclude := by
  unfold get_operations_impl
  by_cases h1 : _include = []
  · subst h1
    by_cases h2 : _exclude = []
    · subst h2
      simp only [List.isEmpty_nil, Bool.and_self, if_true]
      refine ⟨std_sort_int_sorted _ hc, fun x => ?_⟩
      rw [(std_sort_perm _ _).mem_iff]
      simp
    · have h3 : _exclude.isEmpty = false := by
        cases _exclude with
        | nil => exact absurd rfl h2
        | cons a rest => rfl
      simp only [List.isEmpty_nil, h3, Bool.and_false, if_true, if_false, Bool.false_eq_true]
      refine ⟨std_sort_int_sorted _ (uset.nodup_foldl_erase _ _ hc), fun x => ?_⟩
      rw [(std_sort_perm _ _).mem_iff, uset.mem_foldl_erase]
  · have h3 : _include.isEmpty = false := by
      cases _include with
      | nil => exact absurd rfl h1
      | cons a rest => rfl
    simp only [h3, Bool.false_and, if_false, h1, Bool.false_eq_true]
    refine ⟨std_sort_int_sorted _ (uset.nodup_foldl_erase _ _ hi), fun x => ?_⟩
    rw [(std_sort_perm _ _).mem_iff, uset.mem_foldl_erase]

theorem foldlM_except_invariant {α β : Type} (P : β → Prop) (f : β → α → Except Fault β)
    (hf : ∀ b a b', P b → f b a = .ok b' → P b') (l : List α) (b b' : β) (hb : P b)
    (h : l.foldlM f b = .ok b') : P b' := by
  induction l generalizing b with
  | nil =>
    simp only [List.foldlM_nil, pure, Except.pure] at h
    cases h
    exact hb
  | cons a rest ih =>
    rw [List.foldlM_cons] at h
    cases hfa : f b a with
    | error e =>
      rw [hfa] at h
      cases h
    | ok b1 =>
      rw [hfa] at h
      exact ih b1 (hf b a b1 hb hfa) h

theorem get_operations_impl_callback_complete (env : core_environment)
    (kindv : rocprofiler_callback_tracing_kind_t) :
    ∃ s, get_operations_impl_callback env kindv [] = .ok s ∧ s.Nodup ∧
      ∀ x, x ∈ s ↔ ∃ name, (x, some name) ∈ env.callback_tracing_items kindv ∧
        name ≠ "none".toList := by
  refine ⟨_, rfl, ?_, ?_⟩
  · generalize env.callback_tracing_items kindv = items
    have hgen : ∀ acc : uset Int, acc.Nodup → (items.foldl
        (fun _ret (iitr : Int × Option Name) =>
          match iitr.2 with
          | some name => if name ≠ "none".toList then uset.emplace _ret iitr.1 else _ret
          | none => _ret) acc).Nodup := by
      induction items with
      | nil => exact fun acc h => h
      | cons p rest ih =>
        intro acc h
        rw [List.foldl_cons]
        apply ih
        obtain ⟨k, n⟩ := p
        cases n with
        | none => exact h
        | some name =>
          simp only []
          split_ifs
          · exact uset.nodup_emplace _ _ h
          · exact h
    exact hgen [] List.nodup_nil
  · generalize env.callback_tracing_items kindv = items
    have hgen : ∀ (acc : uset Int) (x : Int), x ∈ (items.foldl
        (fun _ret (iitr : Int × Option Name) =>
          match iitr.2 with
          | some name => if name ≠ "none".toList then uset.emplace _ret iitr.1 else _ret
          | none => _ret) acc) ↔
        x ∈ acc ∨ ∃ name, (x, some name) ∈ items ∧ name ≠ "none".toList := by
      induction items with
      | nil => intro acc x; simp
      | cons p rest ih =>
        intro acc x
        rw [List.foldl_cons, ih]
        obtain ⟨k, n⟩ := p
        cases n with
        | none => simp
        | some name =>
          simp only []
          split_ifs with hn
          · rw [uset.mem_emplace]
            constructor
            · rintro ((h | h) | ⟨nm, h1, h2⟩)
              · exact Or.inl h
              · exact Or.inr ⟨name, by rw [h]; exact List.mem_cons_self _ _, hn⟩
              · exact Or.inr ⟨nm, List.mem_cons_of_mem _ h1, h2⟩
            · rintro (h | ⟨nm, h1, h2⟩)
              · exact Or.inl (Or.inl h)
              · rcases List.mem_cons.1 h1 with h3 | h3
                · simp only [Prod.mk.injEq, Option.some.injEq] at h3
                  exact Or.inl (Or.inr h3.1)
                · exact Or.inr ⟨nm, h3, h2⟩
          · constructor
            · rintro (h | ⟨nm, h1, h2⟩)
              · exact Or.inl h
              · exact Or.inr ⟨nm, List.mem_cons_of_mem _ h1, h2⟩
            · rintro (h | ⟨nm, h1, h2⟩)
              · exact Or.inl h
              · rcases List.mem_cons.1 h1 with h3 | h3
                · simp only [Prod.mk.injEq, Option.some.injEq] at h3
                  exact absurd (h3.2 ▸ h2) hn
                · exact Or.inr ⟨nm, h3, h2⟩
    intro x
    have := hgen [] x
    simpa using this

theorem get_operations_impl_matching_spec (env : core_environment)
    (items : List (Int × Option Name)) (itr : Name) (acc r : uset Int)
    (h : get_operations_impl_matching env items itr acc = .ok r) :
    (acc.Nodup → r.Nodup) ∧
    ∀ x, x ∈ r ↔ x ∈ acc ∨ ∃ _re name, env.regex itr = some _re ∧
      (x, some name) ∈ items ∧ _re name = true := by
  unfold get_operations_impl_matching at h
  cases hre : env.regex itr with
  | none =>
    simp only [hre] at h
    cases items with
    | nil =>
      simp only [List.foldlM_nil, pure, Except.pure] at h
      cases h
      exact ⟨id, fun x => by simp⟩
    | cons p rest =>
      rw [List.foldlM_cons] at h
      cases h
  | some _re =>
    simp only [hre] at h
    induction items generalizing acc with
    | nil =>
      simp only [List.foldlM_nil, pure, Except.pure] at h
      cases h
      exact ⟨id, fun x => by simp⟩
    | cons p rest ih =>
      rw [List.foldlM_cons] at h
      obtain ⟨k, n⟩ := p
      cases n with
      | none =>
        obtain ⟨h1, h2⟩ := ih acc h
        refine ⟨h1, fun x => ?_⟩
        rw [h2 x]
        constructor
        · rintro (hx | ⟨re, name, hr, hm, ht⟩)
          · exact Or.inl hx
          · exact Or.inr ⟨re, name, hr, List.mem_cons_of_mem _ hm, ht⟩
        · rintro (hx | ⟨re, name, hr, hm, ht⟩)
          · exact Or.inl hx
          · rcases List.mem_cons.1 hm with h3 | h3
            · simp at h3
            · exact Or.inr ⟨re, name, hr, h3, ht⟩
      | some name =>
        by_cases hm : _re name = true
        · simp only [hm, if_true] at h
          obtain ⟨h1, h2⟩ := ih (uset.emplace acc k) h
          refine ⟨fun hn => h1 (uset.nodup_emplace _ _ hn), fun x => ?_⟩
          rw [h2 x, uset.mem_emplace]
          constructor
          · rintro ((hx | hx) | ⟨re, nm, hr, hm', ht⟩)
            · exact Or.inl hx
            · exact Or.inr ⟨_re, name, rfl, by rw [hx]; exact List.mem_cons_self _ _, hm⟩
            · exact Or.inr ⟨re, nm, hr, List.mem_cons_of_mem _ hm', ht⟩
          · rintro (hx | ⟨re, nm, hr, hm', ht⟩)
            · exact Or.inl (Or.inl hx)
            · rcases List.mem_cons.1 hm' with h3 | h3
              · simp only [Prod.mk.injEq, Option.some.injEq] at h3
                exact Or.inl (Or.inr h3.1)
              · exact Or.inr ⟨re, nm, hr, h3, ht⟩
        · simp only [hm] at h
          obtain ⟨h1, h2⟩ := ih acc h
          refine ⟨h1, fun x => ?_⟩
          rw [h2 x]
          constructor
          · rintro (hx | ⟨re, nm, hr, hm', ht⟩)
            · exact Or.inl hx
            · exact Or.inr ⟨re, nm, hr, List.mem_cons_of_mem _ hm', ht⟩
          · rintro (hx | ⟨re, nm, hr, hm', ht⟩)
            · exact Or.inl hx
            · rcases List.mem_cons.1 hm' with h3 | h3
              · simp only [Prod.mk.injEq, Option.some.injEq] at h3
                cases hr
                exact absurd (h3.2 ▸ ht) hm
              · exact Or.inr ⟨re, nm, hr, h3, ht⟩

theorem get_operations_impl_matching_returns (env : core_environment)
    (items : List (Int × Option Name)) (itr : Name) (acc : uset Int)
    (hre : (env.regex itr).isSome = true) :
    ∃ r, get_operations_impl_matching env items itr acc = .ok r := by
  unfold get_operations_impl_matching
  obtain ⟨_re, hre⟩ := Option.isSome_iff_exists.1 hre
  simp only [hre]
  induction items generalizing acc with
  | nil => exact ⟨acc, rfl⟩
  | cons p rest ih =>
    rw [List.foldlM_cons]
    obtain ⟨k, n⟩ := p
    cases n with
    | none => exact ih acc
    | some name =>
      by_cases hm : _re name = true
      · simp only [hm, if_true]
        exact ih _
      · simp only [hm]
        exact ih acc

theorem get_operations_impl_patterns_spec (env : core_environment)
    (items : List (Int × Option Name)) (tokens : List Name) (acc r : uset Int)
    (h : tokens.foldlM (fun _ret itr => get_operations_impl_matching env items itr _ret) acc =
      .ok r) :
    (acc.Nodup → r.Nodup) ∧
    ∀ x, x ∈ r ↔ x ∈ acc ∨ ∃ itr ∈ tokens, ∃ _re name, env.regex itr = some _re ∧
      (x, some name) ∈ items ∧ _re name = true := by
  induction tokens generalizing acc with
  | nil =>
    simp only [List.foldlM_nil, pure, Except.pure] at h
    cases h
    exact ⟨id, fun x => by simp⟩
  | cons itr rest ih =>
    rw [List.foldlM_cons] at h
    cases hm : get_operations_impl_matching env items itr acc with
    | error f =>
      rw [hm] at h
      cases h
    | ok r1 =>
      rw [hm] at h
      obtain ⟨h1, h2⟩ := get_operations_impl_matching_spec env items itr acc r1 hm
      obtain ⟨h3, h4⟩ := ih r1 h
      refine ⟨fun hn => h3 (h1 hn), fun x => ?_⟩
      rw [h4 x, h2 x]
      constructor
      · rintro ((hx | ⟨re, nm, hr, hmem, ht⟩) | ⟨t, ht, re, nm, hr, hmem, hmt⟩)
        · exact Or.inl hx
        · exact Or.inr ⟨itr, List.mem_cons_self _ _, re, nm, hr, hmem, ht⟩
        · exact Or.inr ⟨t, List.mem_cons_of_mem _ ht, re, nm, hr, hmem, hmt⟩
      · rintro (hx | ⟨t, ht, re, nm, hr, hmem, hmt⟩)
        · exact Or.inl (Or.inl hx)
        · rcases List.mem_cons.1 ht with h5 | h5
          · subst h5
            exact Or.inl (Or.inr ⟨re, nm, hr, hmem, hmt⟩)
          · exact Or.inr ⟨t, h5, re, nm, hr, hmem, hmt⟩

theorem get_operations_impl_patterns_returns (env : core_environment)
    (items : List (Int × Option Name)) (tokens : List Name) (acc : uset Int)
    (hre : ∀ itr ∈ tokens, (env.regex itr).isSome = true) :
    ∃ r, tokens.foldlM (fun _ret itr => get_operations_impl_matching env items itr _ret) acc =
      .ok r := by
  induction tokens generalizing acc with
  | nil => exact ⟨acc, rfl⟩
  | cons itr rest ih =>
    rw [List.foldlM_cons]
    obtain ⟨r1, hr1⟩ := get_operations_impl_matching_returns env items itr acc
      (hre itr (List.mem_cons_self _ _))
    rw [hr1]
    exact ih r1 (fun t ht => hre t (List.mem_cons_of_mem _ ht))

theorem get_operations_impl_callback_named (env : core_environment)
    (kindv : rocprofiler_callback_tracing_kind_t) (optname : Name) (s : uset Int)
    (hne : optname ≠ []) (h : get_operations_impl_callback env kindv optname = .ok s) :
    s.Nodup ∧ ∃ _val, env.get_setting_value optname = some _val ∧
      ∀ x, x ∈ s ↔ operation_matched env kindv _val x := by
  unfold get_operations_impl_callback at h
  have he : optname.isEmpty = false := by
    cases optname with
    | nil => exact absurd rfl hne
    | cons a rest => rfl
  simp only [he, Bool.false_eq_true, if_false] at h
  cases hv : env.get_setting_value optname with
  | none =>
    simp only [hv] at h
    cases h
  | some _val =>
    simp only [hv] at h
    by_cases hve : _val.isEmpty = true
    · simp only [hve, if_true] at h
      cases h
      refine ⟨List.nodup_nil, _val, rfl, fun x => ?_⟩
      have hnil : _val = [] := List.isEmpty_iff.1 hve
      subst hnil
      constructor
      · intro hx
        cases hx
      · rintro ⟨itr, hitr, -⟩
        simp [delimit, List.splitOnP_nil] at hitr
    · simp only [hve, if_false] at h
      obtain ⟨h1, h2⟩ := get_operations_impl_patterns_spec env _ _ [] s h
      refine ⟨h1 List.nodup_nil, _val, rfl, fun x => ?_⟩
      rw [h2 x]
      simp only [List.not_mem_nil, false_or]
      rfl

theorem get_operations_impl_callback_returns (env : core_environment)
    (kindv : rocprofiler_callback_tracing_kind_t) (optname : Name)
    (hset : (env.get_setting_value optname).isSome = true)
    (hre : ∀ itr, (env.regex itr).isSome = true) :
    ∃ s, get_operations_impl_callback env kindv optname = .ok s := by
  unfold get_operations_impl_callback
  by_cases he : optname.isEmpty = true
  · simp only [he, if_true]
    exact ⟨_, rfl⟩
  · simp only [he, if_false]
    obtain ⟨_val, hv⟩ := Option.isSome_iff_exists.1 hset
    simp only [hv]
    by_cases hve : _val.isEmpty = true
    · simp only [hve, if_true]
      exact ⟨_, rfl⟩
    · simp only [hve, if_false]
      exact get_operations_impl_patterns_returns env _ _ [] (fun itr _ => hre itr)

/-- C23, counterexample: in the sample configuration with the inclusive filter `NoSuch`
(a filter is given, and it matches the name of no operation) and the exclusive filter
`Pop`, `get_operations` registers `roctxMarkA` (0) and `roctxRangePushA` (1) for the
marker kind: operations outside the inclusive filter are in the list registered with
the backend. -/
theorem unmatched_inclusive_filter_registers_all :
    sample.core_env_unmatched.get_setting_value
      sample.marker_options.operations_include = some "NoSuch".toList ∧
    (∀ x, ¬ operation_matched sample.core_env_unmatched
      .ROCPROFILER_CALLBACK_TRACING_MARKER_CORE_API "NoSuch".toList x) ∧
    get_operations sample.core_env_unmatched .ROCPROFILER_CALLBACK_TRACING_MARKER_CORE_API =
      .ok [0, 1] ∧
    (0 : Int) ∈ [(0 : Int), 1] := by
  refine ⟨rfl, ?_, rfl, by decide⟩
  rintro x ⟨itr, hitr, _re, name, hre, hmem, hm⟩
  have hd : delimit "NoSuch".toList " ,;:\n\t".toList = ["NoSuch".toList] := by decide
  rw [hd, List.mem_singleton] at hitr
  subst hitr
  simp only [sample.core_env_unmatched, sample.core_env, Option.some.injEq] at hre
  subst hre
  simp only [sample.core_env_unmatched, sample.core_env, if_true, List.mem_cons,
    Prod.mk.injEq, Option.some.injEq, List.not_mem_nil, or_false] at hmem
  rcases hmem with ⟨-, rfl⟩ | ⟨-, rfl⟩ | ⟨-, rfl⟩ | ⟨-, rfl⟩ <;> exact absurd hm (by decide)

/-- C23, amended. For sets `complete` and `include` (lists of distinct operations),
`get_operations_impl(complete, include, exclude)` returns, sorted strictly ascending and
so without duplicates, exactly the operations of `include` if `include` is non-empty,
otherwise of `complete`, that are not in `exclude`: no excluded operation is returned, and
with a non-empty `include` every returned operation is in it. `get_operations(kind)`, the
list registered with the backend, is this function applied to the named operations of the
kind other than `none`, the operations the inclusive filter matches and the operations
the exclusive filter matches: no operation matched by the exclusive filter is registered;
when the inclusive filter matches at least one operation, no operation outside it is
registered; and when the inclusive filter matches no operation (no filter, or a filter
naming nothing), exactly the named operations other than `none` that the exclusive filter
does not match are registered. `get_operations` returns whenever the option names of the
kind are registered, both settings exist and every pattern compiles. -/
theorem get_operations_impl_is_filtered_set (_complete _include _exclude : uset Int)
    (hcomplete : _complete.Nodup) (hinclude : _include.Nodup) :
    (get_operations_impl _complete _include _exclude).Sorted (fun a b => a < b) ∧
    (get_operations_impl _complete _include _exclude).Nodup ∧
    (∀ x, x ∈ get_operations_impl _complete _include _exclude ↔
      x ∈ (if _include = [] then _complete else _include) ∧ x ∉ _exclude) ∧
    (∀ x ∈ _exclude, x ∉ get_operations_impl _complete _include _exclude) ∧
    (_include ≠ [] →
      ∀ x ∈ get_operations_impl _complete _include _exclude, x ∈ _include) ∧
    (∀ (env : core_environment) (kindv : rocprofiler_callback_tracing_kind_t)
      (options : operation_options),
      umap.find env.callback_operation_option_names kindv = some options →
      options.operations_include ≠ [] → options.operations_exclude ≠ [] →
      (∀ ops, get_operations env kindv = .ok ops →
        ∃ included excluded,
          env.get_setting_value options.operations_include = some included ∧
          env.get_setting_value options.operations_exclude = some excluded ∧
          ops.Sorted (fun a b => a < b) ∧
          (∀ x ∈ ops, ∃ name, (x, some name) ∈ env.callback_tracing_items kindv) ∧
          (∀ x, operation_matched env kindv excluded x → x ∉ ops) ∧
          ((∃ x, operation_matched env kindv included x) →
            ∀ x ∈ ops, operation_matched env kindv included x) ∧
          ((¬ ∃ x, operation_matched env kindv included x) →
            ∀ x, x ∈ ops ↔
              (∃ name, (x, some name) ∈ env.callback_tracing_items kindv ∧
                name ≠ "none".toList) ∧
              ¬ operation_matched env kindv excluded x)) ∧
      ((env.get_setting_value options.operations_include).isSome = true →
        (env.get_setting_value options.operations_exclude).isSome = true →
        (∀ itr, (env.regex itr).isSome = true) →
        ∃ ops, get_operations env kindv = .ok ops)) := by
  obtain ⟨hsorted, hmem⟩ := get_operations_impl_spec _complete _include _exclude hcomplete
    hinclude
  refine ⟨hsorted, ?_, hmem, fun x hx hx' => ((hmem x).1 hx').2 hx, fun hne x hx => ?_,
    fun env kindv options hopt hni hne => ⟨fun ops hrun => ?_, fun hs1 hs2 hre => ?_⟩⟩
  · exact hsorted.imp (fun hab => ne_of_lt hab)
  · have := ((hmem x).1 hx).1
    simpa [hne] using this
  · unfold get_operations at hrun
    simp only [hopt] at hrun
    obtain ⟨c, hc, hcn, hcm⟩ := get_operations_impl_callback_complete env kindv
    simp only [hc] at hrun
    cases hi : get_operations_impl_callback env kindv options.operations_include with
    | error f =>
      simp only [hi] at hrun
      cases hrun
    | ok i =>
      simp only [hi] at hrun
      cases he : get_operations_impl_callback env kindv options.operations_exclude with
      | error f =>
        simp only [he] at hrun
        cases hrun
      | ok e =>
        simp only [he] at hrun
        injection hrun with hrun
        subst hrun
        obtain ⟨hin, included, hiv, him⟩ :=
          get_operations_impl_callback_named env kindv _ i hni hi
        obtain ⟨-, excluded, hev, hem⟩ :=
          get_operations_impl_callback_named env kindv _ e hne he
        obtain ⟨hs, hm⟩ := get_operations_impl_spec c i e hcn hin
        refine ⟨included, excluded, hiv, hev, hs, fun x hx => ?_, fun x hx hx' => ?_,
          fun ⟨y, hy⟩ x hx => ?_, fun hnone x => ?_⟩
        · have h1 := ((hm x).1 hx).1
          by_cases hie : i = []
          · simp only [hie, if_true] at h1
            obtain ⟨name, hname, -⟩ := (hcm x).1 h1
            exact ⟨name, hname⟩
          · simp only [hie, if_false] at h1
            obtain ⟨itr, -, re, name, -, hmem', -⟩ := (him x).1 h1
            exact ⟨name, hmem'⟩
        · exact ((hm x).1 hx').2 ((hem x).2 hx)
        · have hie : i ≠ [] := by
            intro hnil
            have := (him y).2 hy
            rw [hnil] at this
            cases this
          have h1 := ((hm x).1 hx).1
          simp only [hie, if_false] at h1
          exact (him x).1 h1
        · have hie : i = [] := by
            rw [List.eq_nil_iff_forall_not_mem]
            intro y hy
            exact hnone ⟨y, (him y).1 hy⟩
          rw [hm x, hie, if_pos rfl, hcm x, hem x]
  · unfold get_operations
    simp only [hopt]
    obtain ⟨c, hc, -⟩ := get_operations_impl_callback_complete env kindv
    obtain ⟨i, hi⟩ := get_operations_impl_callback_returns env kindv _ hs1 hre
    obtain ⟨e, he⟩ := get_operations_impl_callback_returns env kindv _ hs2 hre
    simp only [hc, hi, he]
    exact ⟨_, rfl⟩

/-- C23, witness: of the operations 2, 0 and 1, with the inclusive filter selecting 1 and
2 and the exclusive filter selecting 2, only operation 1 is returned; with no inclusive
filter and operation 0 excluded the result is 1, 2; and in the sample configuration
(inclusive filter `Range`, exclusive filter `Pop`) only `roctxRangePushA` is registered
for the marker kind. -/
theorem get_operations_impl_is_filtered_set_witness :
    get_operations_impl [2, 0, 1] [1, 2] [2] = [1] ∧
    get_operations_impl [2, 0, 1] [] [0] = [1, 2] ∧
    (get_operations_impl [2, 0, 1] [] [0]).Sorted (fun a b => a < b) ∧
    get_operations sample.core_env .ROCPROFILER_CALLBACK_TRACING_MARKER_CORE_API =
      .ok [1] :=
  ⟨by decide, by decide,
    (get_operations_impl_is_filtered_set [2, 0, 1] [] [0] (by decide) (by decide)).1, rfl⟩

/-! ### Callback domains of `hip_api` -/

/-- C27, evaluation of the code. With `ROCPROFSYS_ROCM_DOMAINS` set to `hip_api`,
`get_callback_domains` returns the HIP compiler kind alone: the HIP runtime kind is not
in the set. The value `hsa_api` yields all four HSA kinds, and the HIP runtime kind is
selected by its own name `hip_runtime_api` only. -/
theorem get_callback_domains_hip_api_omits_runtime :
    get_callback_domains (sample.domains_env "hip_api".toList) =
      .ok [.ROCPROFILER_CALLBACK_TRACING_HIP_COMPILER_API] ∧
    rocprofiler_callback_tracing_kind_t.ROCPROFILER_CALLBACK_TRACING_HIP_RUNTIME_API ∉
      [rocprofiler_callback_tracing_kind_t.ROCPROFILER_CALLBACK_TRACING_HIP_COMPILER_API] ∧
    get_callback_domains (sample.domains_env "hsa_api".toList) =
      .ok [.ROCPROFILER_CALLBACK_TRACING_HSA_CORE_API,
           .ROCPROFILER_CALLBACK_TRACING_HSA_AMD_EXT_API,
           .ROCPROFILER_CALLBACK_TRACING_HSA_IMAGE_EXT_API,
           .ROCPROFILER_CALLBACK_TRACING_HSA_FINALIZE_EXT_API] ∧
    get_callback_domains (sample.domains_env "hip_api,marker_api".toList) =
      .ok [.ROCPROFILER_CALLBACK_TRACING_HIP_COMPILER_API,
           .ROCPROFILER_CALLBACK_TRACING_MARKER_CORE_API] ∧
    get_callback_domains (sample.domains_env "hip_runtime_api".toList) =
      .ok [.ROCPROFILER_CALLBACK_TRACING_HIP_RUNTIME_API] :=
  ⟨rfl, by decide, rfl, rfl, rfl⟩

/-! ### Pause and resume through the marker-control callback -/

theorem get_kernel_symbol_info_kernel_id (td : client_data) (k : Nat)
    (e : kernel_symbol_data_t) (h : td.get_kernel_symbol_info k = some e) :
    e.kernel_id = k := by
  unfold client_data.get_kernel_symbol_info at h
  cases hf : td.kernel_symbol_records.find?
      (fun itr => decide (k = itr.payload.kernel_id)) with
  | none => simp [hf] at h
  | some r =>
    simp only [hf, Option.map_some', Option.some.injEq] at h
    have := List.find?_some hf
    simp only [decide_eq_true_eq] at this
    rw [← h]
    exact this.symm

theorem get_kernel_symbol_info_append (td : client_data) (r : kernel_symbol_callback_record_t)
    (k : Nat) :
    client_data.get_kernel_symbol_info
        { td with kernel_symbol_records := td.kernel_symbol_records ++ [r] } k =
      match td.get_kernel_symbol_info k with
      | some e => some e
      | none => if k = r.payload.kernel_id then some r.payload else none := by
  unfold client_data.get_kernel_symbol_info
  simp only [List.find?_append]
  cases hf : td.kernel_symbol_records.find?
      (fun itr => decide (k = itr.payload.kernel_id)) with
  | some x => simp
  | none =>
    by_cases hk : k = r.payload.kernel_id
    · simp [List.find?, hk]
    · simp [List.find?, hk]

theorem get_kernel_symbol_info_none_iff (td : client_data) (k : Nat) :
    td.get_kernel_symbol_info k = none ↔
      ∀ r ∈ td.kernel_symbol_records, r.payload.kernel_id ≠ k := by
  unfold client_data.get_kernel_symbol_info
  rw [Option.map_eq_none', List.find?_eq_none]
  constructor
  · intro h r hr heq
    exact h r hr (by simp [heq])
  · intro h r hr
    simp only [decide_eq_true_eq]
    exact fun heq => h r hr heq.symm

theorem tool_code_object_callback_step {V : Type}
    (record : rocprofiler_callback_tracing_record_t) (ts : Nat) (st st1 : tool_state V)
    (td : client_data) (hlive : st.tool_data = some td)
    (h : tool_code_object_callback record ts st = .ok st1) :
    ∃ td1, st1.tool_data = some td1 ∧
      (∀ k e, td.get_kernel_symbol_info k = some e → td1.get_kernel_symbol_info k = some e) ∧
      ∀ k, td.get_kernel_symbol_info k = none →
        (registers_kernel record k →
          ∃ data_v, record.payload = .kernel_symbol data_v ∧
            td1.get_kernel_symbol_info k = some data_v) ∧
        (¬ registers_kernel record k → td1.get_kernel_symbol_info k = none) := by
  have hsame : st1 = st → ¬ (record.kind = .ROCPROFILER_CALLBACK_TRACING_CODE_OBJECT ∧
        record.phase = .ROCPROFILER_CALLBACK_PHASE_ENTER ∧
        record.operation = ROCPROFILER_CODE_OBJECT_DEVICE_KERNEL_SYMBOL_REGISTER) →
      ∃ td1, st1.tool_data = some td1 ∧
      (∀ k e, td.get_kernel_symbol_info k = some e → td1.get_kernel_symbol_info k = some e) ∧
      ∀ k, td.get_kernel_symbol_info k = none →
        (registers_kernel record k →
          ∃ data_v, record.payload = .kernel_symbol data_v ∧
            td1.get_kernel_symbol_info k = some data_v) ∧
        (¬ registers_kernel record k → td1.get_kernel_symbol_info k = none) := by
    intro he hnot
    subst he
    exact ⟨td, hlive, fun k e hk => hk, fun k hk =>
      ⟨fun hreg => absurd ⟨hreg.1, hreg.2.1, hreg.2.2.1⟩ hnot, fun _ => hk⟩⟩
  unfold tool_code_object_callback at h
  by_cases hk : record.kind = .ROCPROFILER_CALLBACK_TRACING_CODE_OBJECT
  · by_cases hp : record.phase = .ROCPROFILER_CALLBACK_PHASE_ENTER
    · by_cases hl : record.operation = ROCPROFILER_CODE_OBJECT_LOAD
      · simp only [hk, hp, hl, if_true, hlive] at h
        injection h with h
        refine hsame h.symm (fun hc => ?_)
        rw [hl] at hc
        exact absurd hc.2.2 (by decide)
      · by_cases hr : record.operation = ROCPROFILER_CODE_OBJECT_DEVICE_KERNEL_SYMBOL_REGISTER
        · have hne : ROCPROFILER_CODE_OBJECT_DEVICE_KERNEL_SYMBOL_REGISTER ≠
              ROCPROFILER_CODE_OBJECT_LOAD := by decide
          simp only [hk, hp, hr, hne, if_true, if_false, hlive] at h
          cases hpay : record.payload with
          | kernel_symbol data_v =>
            simp only [hpay] at h
            injection h with h
            subst h
            refine ⟨_, rfl, fun k e hke => ?_, fun k hkn => ⟨fun hreg => ?_, fun hnreg => ?_⟩⟩
            · rw [get_kernel_symbol_info_append, hke]
            · obtain ⟨-, -, -, d, hd, hdk⟩ := hreg
              rw [hpay] at hd
              cases hd
              refine ⟨data_v, rfl, ?_⟩
              rw [get_kernel_symbol_info_append, hkn]
              simp [hdk]
            · rw [get_kernel_symbol_info_append, hkn]
              have : k ≠ data_v.kernel_id := by
                intro heq
                exact hnreg ⟨hk, hp, hr, data_v, hpay, heq.symm⟩
              simp [this]
          | empty => simp [hpay] at h
          | marker_api m => simp [hpay] at h
          | kernel_dispatch d => simp [hpay] at h
        · simp only [hk, hp, hl, hr, if_true, if_false] at h
          injection h with h
          exact hsame h.symm (fun hc => hr hc.2.2)
    · simp only [hk, hp, if_true, if_false] at h
      injection h with h
      exact hsame h.symm (fun hc => hp hc.2.1)
  · simp only [hk, if_false] at h
    injection h with h
    exact hsame h.symm (fun hc => hk hc.1)

theorem deliver_code_object_callbacks_spec {V : Type}
    (records : List (rocprofiler_callback_tracing_record_t × Nat)) (st st1 : tool_state V)
    (td : client_data) (hlive : st.tool_data = some td)
    (hrun : deliver_code_object_callbacks records st = .ok st1) :
    ∃ td1, st1.tool_data = some td1 ∧
      (∀ k e, td.get_kernel_symbol_info k = some e → td1.get_kernel_symbol_info k = some e) ∧
      (∀ k, td.get_kernel_symbol_info k = none →
        (∀ d ∈ records, ¬ registers_kernel d.1 k) → td1.get_kernel_symbol_info k = none) ∧
      (∀ k pre d post, records = pre ++ d :: post → td.get_kernel_symbol_info k = none →
        (∀ x ∈ pre, ¬ registers_kernel x.1 k) → registers_kernel d.1 k →
        ∃ data_v, d.1.payload = .kernel_symbol data_v ∧
          td1.get_kernel_symbol_info k = some data_v) ∧
      (∀ k, (∃ d ∈ records, registers_kernel d.1 k) →
        ∃ e, td1.get_kernel_symbol_info k = some e) := by
  induction records generalizing st td with
  | nil =>
    simp only [deliver_code_object_callbacks] at hrun
    injection hrun with hrun
    subst hrun
    refine ⟨td, hlive, fun k e h => h, fun k h _ => h, ?_, ?_⟩
    · intro k pre d post hsplit
      cases pre <;> cases hsplit
    · rintro k ⟨d, hd, -⟩
      cases hd
  | cons d rest ih =>
    simp only [deliver_code_object_callbacks] at hrun
    cases hstep : tool_code_object_callback d.1 d.2 st with
    | error f =>
      rw [hstep] at hrun
      cases hrun
    | ok s =>
      rw [hstep] at hrun
      obtain ⟨tdm, hlivem, hmono, hnew⟩ :=
        tool_code_object_callback_step d.1 d.2 st s td hlive hstep
      obtain ⟨td1, hlive1, hmono1, hnone1, hfirst1, hex1⟩ := ih s tdm hlivem hrun
      refine ⟨td1, hlive1, fun k e h => hmono1 k e (hmono k e h), fun k hk hall => ?_,
        fun k pre x post hsplit hk hpre hreg => ?_, fun k hex => ?_⟩
      · exact hnone1 k ((hnew k hk).2 (hall d (List.mem_cons_self _ _)))
          (fun x hx => hall x (List.mem_cons_of_mem _ hx))
      · cases pre with
        | nil =>
          simp only [List.nil_append, List.cons.injEq] at hsplit
          obtain ⟨rfl, -⟩ := hsplit
          obtain ⟨data_v, hpay, hget⟩ := (hnew k hk).1 hreg
          exact ⟨data_v, hpay, hmono1 k _ hget⟩
        | cons p pre' =>
          simp only [List.cons_append, List.cons.injEq] at hsplit
          obtain ⟨rfl, hrest⟩ := hsplit
          exact hfirst1 k pre' x post hrest
            ((hnew k hk).2 (hpre d (List.mem_cons_self _ _)))
            (fun y hy => hpre y (List.mem_cons_of_mem _ hy)) hreg
      · obtain ⟨x, hx, hreg⟩ := hex
        cases hk : td.get_kernel_symbol_info k with
        | some e => exact ⟨e, hmono1 k e (hmono k e hk)⟩
        | none =>
          rcases List.mem_cons.1 hx with rfl | hx'
          · obtain ⟨data_v, -, hget⟩ := (hnew k hk).1 hreg
            exact ⟨data_v, hmono1 k _ hget⟩
          · cases hkm : tdm.get_kernel_symbol_info k with
            | some e => exact ⟨e, hmono1 k e hkm⟩
            | none => exact hex1 k ⟨x, hx', hreg⟩

/-- C29. On a live tool `tool_code_object_callback` returns for every ENTER-phase
kernel-symbol-register record. After a sequence of code-object callbacks has been
delivered, `get_kernel_symbol_info(k)` returns, for every kernel id `k` that a record of
the sequence registered, an entry whose kernel id is `k`: the entry that was registered
before the sequence if there was one, else the payload of the earliest registering
record of the sequence. So the symbol lookup of the kernel-dispatch decoder is not null
for a kernel registered earlier, while for a kernel id that was never registered the
lookup is null (and the decoder dereferences null). -/
theorem registered_kernel_symbol_is_found {V : Type}
    (records : List (rocprofiler_callback_tracing_record_t × Nat)) (st st1 : tool_state V)
    (td : client_data) (hlive : st.tool_data = some td)
    (hrun : deliver_code_object_callbacks records st = .ok st1) :
    (∀ record ts k, registers_kernel record k →
      ∃ st', tool_code_object_callback record ts st = .ok st') ∧
    ∃ td1, st1.tool_data = some td1 ∧
      (∀ k, (∃ d ∈ records, registers_kernel d.1 k) →
        ∃ e, td1.get_kernel_symbol_info k = some e ∧ e.kernel_id = k) ∧
      (∀ k e, td.get_kernel_symbol_info k = some e → td1.get_kernel_symbol_info k = some e) ∧
      (∀ k pre d post, records = pre ++ d :: post → td.get_kernel_symbol_info k = none →
        (∀ x ∈ pre, ¬ registers_kernel x.1 k) → registers_kernel d.1 k →
        ∃ data_v, d.1.payload = .kernel_symbol data_v ∧
          td1.get_kernel_symbol_info k = some data_v) ∧
      (∀ k, td.get_kernel_symbol_info k = none →
        (∀ d ∈ records, ¬ registers_kernel d.1 k) →
        td1.get_kernel_symbol_info k = none ∧
        ∀ cfg ext (record : rocprofiler_buffer_tracing_kernel_dispatch_record_t),
          record.dispatch_info.kernel_id = k →
          tool_tracing_buffered_kernel_dispatch cfg ext (some td1) record =
            .error .null_dereference) := by
  refine ⟨fun record ts k hreg => ?_, ?_⟩
  · obtain ⟨hk, hp, ho, data_v, hpay, -⟩ := hreg
    have hne : ROCPROFILER_CODE_OBJECT_DEVICE_KERNEL_SYMBOL_REGISTER ≠
        ROCPROFILER_CODE_OBJECT_LOAD := by decide
    simp only [tool_code_object_callback, hk, hp, ho, hpay, hlive, hne, if_true, if_false]
    exact ⟨_, rfl⟩
  · obtain ⟨td1, hlive1, hmono, hnone, hfirst, hex⟩ :=
      deliver_code_object_callbacks_spec records st st1 td hlive hrun
    refine ⟨td1, hlive1, fun k hk => ?_, hmono, hfirst, fun k hk hall => ?_⟩
    · obtain ⟨e, he⟩ := hex k hk
      exact ⟨e, he, get_kernel_symbol_info_kernel_id td1 k e he⟩
    · have hn := hnone k hk hall
      refine ⟨hn, fun cfg ext record hrec => ?_⟩
      simp only [tool_tracing_buffered_kernel_dispatch, hrec, hn]

/-- C29, witness: on the sample system, where kernel 5 is registered, kernel 6 is
registered twice (as `first`, then as `second`) around a code-object load; afterwards
the lookup of kernel 6 yields the entry `first`, the lookup of kernel 5 still yields
`kern`, and the lookup of kernel 7, never registered, yields null. -/
theorem registered_kernel_symbol_is_found_witness :
    ∃ td1, sample.state_registered.tool_data = some td1 ∧
      td1.get_kernel_symbol_info 6 =
        some { kernel_id := 6, kernel_name := "first".toList } ∧
      td1.get_kernel_symbol_info 5 =
        some { kernel_id := 5, kernel_name := "kern".toList } ∧
      td1.get_kernel_symbol_info 7 = none := by
  obtain ⟨-, td1, hlive1, -, hmono, hfirst, hnone⟩ :=
    registered_kernel_symbol_is_found sample.registrations sample.state0
      sample.state_registered sample.tool_data rfl rfl
  refine ⟨td1, hlive1, ?_, hmono 5 _ rfl, ?_⟩
  · obtain ⟨data_v, hpay, hget⟩ := hfirst 6 []
      (sample.register_kernel 6 "first".toList, 1)
      [(sample.code_object_load, 2), (sample.register_kernel 6 "second".toList, 3)]
      rfl rfl (fun x hx => by cases hx)
      ⟨rfl, rfl, rfl, _, rfl, rfl⟩
    rw [hget]
    simp only [sample.register_kernel, callback_payload.kernel_symbol.injEq] at hpay
    rw [hpay]
  · refine (hnone 7 rfl (fun d hd => ?_)).1
    simp only [sample.registrations, List.mem_cons, List.mem_singleton, List.not_mem_nil,
      or_false] at hd
    rcases hd with rfl | rfl | rfl
    · rintro ⟨-, -, -, data_v, hpay, hid⟩
      simp only [sample.register_kernel, callback_payload.kernel_symbol.injEq] at hpay
      rw [← hpay] at hid
      cases hid
    · rintro ⟨-, -, ho, -⟩
      cases ho
    · rintro ⟨-, -, -, data_v, hpay, hid⟩
      simp only [sample.register_kernel, callback_payload.kernel_symbol.injEq] at hpay
      rw [← hpay] at hid
      cases hid

/-! ### Frame keys -/

theorem backtrace_annots_keys (ext : externals) (entries : List processed_entry)
    (hrender : ∀ n, ext.render n = (Nat.repr n).toList) :
    (backtrace_annots ext (some entries)).map Prod.fst =
      (List.range entries.length).map frame_key := by
  unfold backtrace_annots
  simp only [List.map_map]
  rw [← List.enum_map_fst entries, List.map_map]
  apply List.map_congr_left
  intro p _
  simp only [Function.comp, frame_key, hrender]

theorem frame_keys_two_digits :
    (List.range bt_stack_depth).map frame_key =
      (List.range bt_stack_depth).map two_digit_frame_key := by
  decide

theorem frame_keys_sorted :
    ((List.range bt_stack_depth).map frame_key).Sorted
      (List.Lex (fun a b : Char => a < b)) := by
  decide

theorem range_map_prefix {α : Type} (f g : Nat → α) (m n : Nat) (hn : n ≤ m)
    (h : (List.range m).map f = (List.range m).map g) :
    (List.range n).map f = (List.range n).map g := by
  have hr : List.range n = (List.range m).take n := by
    rw [List.take_range, Nat.min_eq_left hn]
  rw [hr, List.map_take, List.map_take, h]

/-- C28. For every backtrace of at most 16 resolved frames (numbers rendered in decimal),
the annotation keys `tool_tracing_callback_stop` produces are, in frame order, `frame#00`,
`frame#01`, ...: `frame#` followed by exactly two decimal digits, eight characters each.
The keys are pairwise distinct and strictly increasing in lexicographic order, so the
lexicographic order of two keys is the order of their frames. A backtrace resolved from
at most 16 captured frames has at most 16 frames. -/
theorem frame_keys_are_two_digits_in_order (ext : externals) (entries : List processed_entry)
    (hrender : ∀ n, ext.render n = (Nat.repr n).toList)
    (hdepth : entries.length ≤ bt_stack_depth) :
    (backtrace_annots ext (some entries)).map Prod.fst =
      (List.range entries.length).map two_digit_frame_key ∧
    (∀ key ∈ (backtrace_annots ext (some entries)).map Prod.fst, key.length = 8) ∧
    ((backtrace_annots ext (some entries)).map Prod.fst).Nodup ∧
    ((backtrace_annots ext (some entries)).map Prod.fst).Sorted
      (List.Lex (fun a b : Char => a < b)) ∧
    (∀ i j (hi : i < ((backtrace_annots ext (some entries)).map Prod.fst).length)
      (hj : j < ((backtrace_annots ext (some entries)).map Prod.fst).length),
      i < j ↔ List.Lex (fun a b : Char => a < b)
        (((backtrace_annots ext (some entries)).map Prod.fst).get ⟨i, hi⟩)
        (((backtrace_annots ext (some entries)).map Prod.fst).get ⟨j, hj⟩)) ∧
    (∀ unw : List (Option Nat), unw.length ≤ bt_stack_depth →
      (resolved_backtrace ext unw).length ≤ bt_stack_depth) := by
  have hkeys := backtrace_annots_keys ext entries hrender
  have htwo : (List.range entries.length).map frame_key =
      (List.range entries.length).map two_digit_frame_key :=
    range_map_prefix _ _ bt_stack_depth _ hdepth frame_keys_two_digits
  have hsorted : ((List.range entries.length).map frame_key).Sorted
      (List.Lex (fun a b : Char => a < b)) := by
    have hr : List.range entries.length = (List.range bt_stack_depth).take entries.length := by
      rw [List.take_range, Nat.min_eq_left hdepth]
    rw [hr, List.map_take]
    exact List.Pairwise.sublist (List.take_sublist _ _) frame_keys_sorted
  have hirr : ∀ key : Name, ¬ List.Lex (fun a b : Char => a < b) key key := by
    intro key hk
    induction key with
    | nil => cases hk
    | cons c rest ih =>
      cases hk with
      | cons h => exact ih h
      | rel h => exact absurd h (lt_irrefl c)
  have htrans : ∀ a b c : Name, List.Lex (fun a b : Char => a < b) a b →
      List.Lex (fun a b : Char => a < b) b c → List.Lex (fun a b : Char => a < b) a c := by
    intro a b c hab hbc
    exact IsTrans.trans a b c hab hbc
  rw [hkeys]
  refine ⟨htwo, ?_, ?_, hsorted, ?_, ?_⟩
  · intro key hkey
    rw [htwo, List.mem_map] at hkey
    obtain ⟨n, -, rfl⟩ := hkey
    rfl
  · exact hsorted.imp (by intro a b hab heq; subst heq; exact hirr _ hab)
  · intro i j hi hj
    constructor
    · intro hij
      exact List.pairwise_iff_get.1 hsorted ⟨i, hi⟩ ⟨j, hj⟩ hij
    · intro hlex
      by_contra hnot
      rcases Nat.lt_or_ge j i with hji | hji
      · have := List.pairwise_iff_get.1 hsorted ⟨j, hj⟩ ⟨i, hi⟩ hji
        exact hirr _ (htrans _ _ _ hlex this)
      · have heq : i = j := by omega
        subst heq
        exact hirr _ hlex
  · intro unw hunw
    unfold resolved_backtrace
    exact (List.length_filterMap_le _ _).trans hunw

/-- C28, witness: the sixteen keys of a backtrace of sixteen frames. -/
theorem frame_keys_are_two_digits_in_order_witness :
    (backtrace_annots {} (some sample.sixteen_frames)).map Prod.fst =
      ["frame#00".toList, "frame#01".toList, "frame#02".toList, "frame#03".toList,
       "frame#04".toList, "frame#05".toList, "frame#06".toList, "frame#07".toList,
       "frame#08".toList, "frame#09".toList, "frame#10".toList, "frame#11".toList,
       "frame#12".toList, "frame#13".toList, "frame#14".toList, "frame#15".toList] :=
  (frame_keys_are_two_digits_in_order {} sample.sixteen_frames (fun _ => rfl)
    (by decide)).1

/-! ### Requests with and without a device qualifier -/

end rocprofsys
